import Mathlib

/-! # xnes: a shallow embedding of the emulator core

The C++ sources under `src/nes` are embedded as pure functions on explicit
state records.

Conventions of the embedding

* Machine integers are natural numbers; every store into a `uintN_t` object
  reduces modulo `2^N` (`u8`, `u16`, `u32`).  The two `int16_t` PPU counters
  are integers.
* `std::array` / `std::vector` objects are functions from the index to the
  element, together with the length where the source asks for `size()`.
* A C++ reference parameter becomes an argument and a component of the
  result.  A local that the source leaves uninitialised takes its value from
  an `uninit` field of the owning record (an indeterminate value).
* The strings naming mnemonics and addressing modes are enumerations, and a
  `std::function` taken from `instrCallbacks` / `addrModeCallbacks` is named
  by the key it is stored under.
* Host side output (log streams, the framebuffer of `renderer.hpp`, the
  floating point audio samples) is written but never read back by the
  emulated machine and is left out of the state.
-/

namespace XNes

/-! ## Fixed width helpers -/

/-- Conversion to `uint8_t`. -/
def u8 (x : Nat) : Nat := x % 256

/-- Conversion to `uint16_t`. -/
def u16 (x : Nat) : Nat := x % 65536

/-- Conversion to `uint32_t`. -/
def u32 (x : Nat) : Nat := x % 4294967296

/-- Conversion of an `int` to `uint8_t`. -/
def i8 (x : Int) : Nat := (x % 256).toNat

/-- Conversion of an `int` to `uint16_t`. -/
def i16 (x : Int) : Nat := (x % 65536).toNat

/-- Conversion of an `int` to `uint32_t`. -/
def i32 (x : Int) : Nat := (x % 4294967296).toNat

/-- Conversion of an integer to `bool`. -/
def toBool (x : Nat) : Bool := x != 0

/-- Conversion of a `bool` to an integer. -/
def ofBool (b : Bool) : Nat := if b then 1 else 0

/-- Read of a bit-field of `width` bits at bit offset `off`. -/
def bitfield (v off width : Nat) : Nat := (v >>> off) % 2 ^ width

/-- Store `x` into the bit-field of `width` bits at bit offset `off`. -/
def setBitfield (v off width x : Nat) : Nat :=
  ((v >>> (off + width)) <<< (off + width)) + ((x % 2 ^ width) <<< off) + v % 2 ^ off

/-- Array store `a[i] = x`. -/
def store (a : Nat → Nat) (i x : Nat) : Nat → Nat := fun j => if j = i then x else a j

/-- The constant array, `memset(a, x, n)` over the whole object. -/
def filled (x : Nat) : Nat → Nat := fun _ => x

/-! ## Mappers (`mappers.hpp`, `mappers.cpp`) -/

/-- Values of `enum Mapper::MirrorMode`. -/
def MIRROR_VERTICAL : Nat := 0

/-- Value 1 of `enum Mapper::MirrorMode`. -/
def MIRROR_HORIZONTAL : Nat := 1

/-- Value 2 of `enum Mapper::MirrorMode`. -/
def MIRROR_ONESCREEN_LO : Nat := 2

/-- Value 3 of `enum Mapper::MirrorMode`. -/
def MIRROR_ONESCREEN_HI : Nat := 3

/-- Value 4 of `enum Mapper::MirrorMode`. -/
def MIRROR_HARDWARE : Nat := 4

/-- The sentinel offset with which a mapper reports that it served the access itself. -/
def MAPPER_SERVED : Nat := 0xFFFFFFFF

/-- `Mapper001::BankSelect`. -/
structure BankSelect where
  lo : Nat
  hi : Nat
  full : Nat

/-- The members `Mapper001` adds to `Mapper`. -/
structure Mapper001 where
  load : Nat
  loadCount : Nat
  control : Nat
  chrBankSelect : BankSelect
  prgBankSelect : BankSelect
  mirrorMode : Nat
  staticRam : Nat → Nat

/-- The members `Mapper002` adds to `Mapper`. -/
structure Mapper002 where
  prgBankSelectLo : Nat
  prgBankSelectHi : Nat

/-- `Mapper004::IrqInfo`. -/
structure IrqInfo where
  counter : Nat
  reload : Nat
  active : Bool
  enable : Bool
  update : Bool

/-- The members `Mapper004` adds to `Mapper`. -/
structure Mapper004 where
  registers : Nat → Nat
  chrBank : Nat → Nat
  prgBank : Nat → Nat
  staticRam : Nat → Nat
  irq : IrqInfo
  targetRegister : Nat
  prgBankMode : Bool
  chrInversion : Bool
  mirrorMode : Nat

/-- The dynamic type of the object behind `std::shared_ptr<Mapper>`. -/
inductive MapperKind where
  | m000 : MapperKind
  | m001 : Mapper001 → MapperKind
  | m002 : Mapper002 → MapperKind
  | m004 : Mapper004 → MapperKind

/-- A mapper object: the base class members and the derived part. -/
structure Mapper where
  prgBankCount : Nat
  chrBankCount : Nat
  kind : MapperKind

/-- `Mapper001::STATIC_RAM_SIZE`. -/
def STATIC_RAM_SIZE : Nat := 32 * 1024

/-- `Mapper000::cpuMapRead`: the result and the reference parameter `mapped_addr`. -/
def Mapper000.cpuMapRead (prgBankCount addr mapped_addr : Nat) : Bool × Nat :=
  if addr ≥ 0x8000 ∧ addr ≤ 0xFFFF then
    (true, addr &&& (if prgBankCount > 1 then 0x7FFF else 0x3FFF))
  else (false, mapped_addr)

/-- `Mapper000::cpuMapWrite`. -/
def Mapper000.cpuMapWrite (prgBankCount addr mapped_addr : Nat) : Bool × Nat :=
  if addr ≥ 0x8000 ∧ addr ≤ 0xFFFF then
    (true, addr &&& (if prgBankCount > 1 then 0x7FFF else 0x3FFF))
  else (false, mapped_addr)

/-- `Mapper000::ppuMapRead`. -/
def Mapper000.ppuMapRead (addr mapped_addr : Nat) : Bool × Nat :=
  if addr ≤ 0x1FFF then (true, addr) else (false, mapped_addr)

/-- `Mapper000::ppuMapWrite`. -/
def Mapper000.ppuMapWrite (chrBankCount addr mapped_addr : Nat) : Bool × Nat :=
  if addr ≤ 0x1FFF then
    if chrBankCount = 0 then (true, addr) else (false, mapped_addr)
  else (false, mapped_addr)

/-- `Mapper001::reset`. -/
def Mapper001.reset (prgBankCount : Nat) (m : Mapper001) : Mapper001 :=
  { m with
    control := 0x1C
    load := 0
    loadCount := 0
    chrBankSelect := { lo := 0, hi := 0, full := 0 }
    prgBankSelect := { lo := 0, full := 0, hi := i8 ((prgBankCount : Int) - 1) } }

/-- `Mapper001::cpuMapRead`.  The parameter `data` is passed by value, so the
store into it is not seen by the caller. -/
def Mapper001.cpuMapRead (m : Mapper001) (addr mapped_addr : Nat) : Bool × Nat :=
  if addr ≥ 0x6000 ∧ addr ≤ 0x7FFF then (true, MAPPER_SERVED)
  else if addr ≥ 0x8000 then
    if m.control &&& 0b01000 ≠ 0 then
      if addr ≥ 0x8000 ∧ addr ≤ 0xBFFF then
        (true, u32 (m.prgBankSelect.lo * 0x4000 + (addr &&& 0x3FFF)))
      else if addr ≥ 0xC000 ∧ addr ≤ 0xFFFF then
        (true, u32 (m.prgBankSelect.hi * 0x4000 + (addr &&& 0x3FFF)))
      else (false, mapped_addr)
    else (true, u32 (m.prgBankSelect.full * 0x8000 + (addr &&& 0x7FFF)))
  else (false, mapped_addr)

/-- The body of `if (registers.loadCount == 5)` in `Mapper001::cpuMapWrite`. -/
def Mapper001.commit (prgBankCount : Nat) (m : Mapper001) (addr : Nat) : Mapper001 :=
  let targetRegister := (addr >>> 13) &&& 0x03
  let m :=
    if targetRegister = 0 then
      let control := m.load &&& 0x1F
      let sel := control &&& 0x03
      { m with
        control := control
        mirrorMode :=
          if sel = 0 then MIRROR_ONESCREEN_LO
          else if sel = 1 then MIRROR_ONESCREEN_HI
          else if sel = 2 then MIRROR_VERTICAL
          else MIRROR_HORIZONTAL }
    else if targetRegister = 1 then
      if m.control &&& 0b10000 ≠ 0 then
        { m with chrBankSelect := { m.chrBankSelect with lo := m.load &&& 0x1F } }
      else
        { m with chrBankSelect := { m.chrBankSelect with full := m.load &&& 0x1E } }
    else if targetRegister = 2 then
      if m.control &&& 0b10000 ≠ 0 then
        { m with chrBankSelect := { m.chrBankSelect with hi := m.load &&& 0x1F } }
      else m
    else
      let prg_mode := (m.control >>> 2) &&& 0x03
      if prg_mode = 0 ∨ prg_mode = 1 then
        { m with prgBankSelect := { m.prgBankSelect with full := (m.load &&& 0x0E) >>> 1 } }
      else if prg_mode = 2 then
        { m with prgBankSelect := { m.prgBankSelect with lo := 0, hi := m.load &&& 0x0F } }
      else
        { m with prgBankSelect :=
            { m.prgBankSelect with lo := m.load &&& 0x0F, hi := i8 ((prgBankCount : Int) - 1) } }
  { m with loadCount := 0, load := 0 }

/-- `Mapper001::cpuMapWrite`. -/
def Mapper001.cpuMapWrite (prgBankCount : Nat) (m : Mapper001) (addr mapped_addr data : Nat) :
    Bool × Nat × Mapper001 :=
  if addr ≥ 0x6000 ∧ addr ≤ 0x7FFF then
    (true, MAPPER_SERVED, { m with staticRam := store m.staticRam (addr &&& 0x1FFF) data })
  else if addr ≥ 0x8000 then
    if data &&& 0x80 ≠ 0 then
      (false, mapped_addr, { m with load := 0, loadCount := 0, control := u8 (m.control ||| 0x0C) })
    else
      let m := { m with load := m.load >>> 1 }
      let m := { m with load := u8 (m.load ||| ((data &&& 0x01) <<< 4)) }
      let m := { m with loadCount := u8 (m.loadCount + 1) }
      if m.loadCount = 5 then (false, mapped_addr, Mapper001.commit prgBankCount m addr)
      else (false, mapped_addr, m)
  else (false, mapped_addr, m)

/-- `Mapper001::ppuMapRead`. -/
def Mapper001.ppuMapRead (chrBankCount : Nat) (m : Mapper001) (addr mapped_addr : Nat) :
    Bool × Nat :=
  if addr ≤ 0x1FFF then
    if chrBankCount = 0 then (true, addr)
    else if m.control &&& 0b10000 ≠ 0 then
      if addr ≤ 0x0FFF then (true, u32 (m.chrBankSelect.lo * 0x1000 + (addr &&& 0x0FFF)))
      else (true, u32 (m.chrBankSelect.hi * 0x1000 + (addr &&& 0x0FFF)))
    else (true, u32 (m.chrBankSelect.full * 0x2000 + (addr &&& 0x1FFF)))
  else (false, mapped_addr)

/-- `Mapper001::ppuMapWrite`: with CHR ROM present the access is reported as
handled while `mapped_addr` keeps the value it came in with. -/
def Mapper001.ppuMapWrite (chrBankCount addr mapped_addr : Nat) : Bool × Nat :=
  if addr ≤ 0x1FFF then
    if chrBankCount = 0 then (true, addr) else (true, mapped_addr)
  else (false, mapped_addr)

/-- `Mapper002::reset`. -/
def Mapper002.reset (prgBankCount : Nat) (_m : Mapper002) : Mapper002 :=
  { prgBankSelectLo := 0, prgBankSelectHi := i8 ((prgBankCount : Int) - 1) }

/-- `Mapper002::cpuMapRead`. -/
def Mapper002.cpuMapRead (m : Mapper002) (addr mapped_addr : Nat) : Bool × Nat :=
  if addr ≥ 0x8000 ∧ addr ≤ 0xBFFF then
    (true, u32 (m.prgBankSelectLo * 0x4000 + (addr &&& 0x3FFF)))
  else if addr ≥ 0xC000 ∧ addr ≤ 0xFFFF then
    (true, u32 (m.prgBankSelectHi * 0x4000 + (addr &&& 0x3FFF)))
  else (false, mapped_addr)

/-- `Mapper002::cpuMapWrite`. -/
def Mapper002.cpuMapWrite (m : Mapper002) (addr mapped_addr data : Nat) :
    Bool × Nat × Mapper002 :=
  if addr ≥ 0x8000 ∧ addr ≤ 0xFFFF then
    (false, mapped_addr, { m with prgBankSelectLo := data &&& 0x0F })
  else (false, mapped_addr, m)

/-- `Mapper002::ppuMapRead`. -/
def Mapper002.ppuMapRead (addr mapped_addr : Nat) : Bool × Nat :=
  if addr ≤ 0x1FFF then (true, addr) else (false, mapped_addr)

/-- `Mapper002::ppuMapWrite`. -/
def Mapper002.ppuMapWrite (chrBankCount addr mapped_addr : Nat) : Bool × Nat :=
  if addr ≤ 0x1FFF then
    if chrBankCount = 0 then (true, addr) else (false, mapped_addr)
  else (false, mapped_addr)

/-- `Mapper004::cpuMapRead`.  As in `Mapper001`, `data` is a by-value parameter. -/
def Mapper004.cpuMapRead (m : Mapper004) (addr mapped_addr : Nat) : Bool × Nat :=
  if addr ≥ 0x6000 ∧ addr ≤ 0x7FFF then (true, MAPPER_SERVED)
  else if addr ≥ 0x8000 ∧ addr ≤ 0xFFFF then
    let index := u16 ((addr - 0x8000) / (1 <<< 13))
    (true, u32 (m.prgBank index + (addr &&& 0x1FFF)))
  else (false, mapped_addr)

/-- The lambda `writeChr` of `Mapper004::cpuMapWrite`. -/
def Mapper004.writeChr (registers : Nat → Nat) (chrBank : Nat → Nat) (base_idx : Nat)
    (invert : Bool) : Nat → Nat :=
  (List.range 4).foldl
    (fun cb i =>
      if invert then
        if i % 2 ≠ 0 then store cb (i + base_idx) (u32 (registers (i / 2) * 0x0400 + 0x0400))
        else store cb (i + base_idx) (u32 ((registers (i / 2) &&& 0xFE) * 0x0400))
      else store cb (i + base_idx) (u32 (registers (i + 2) * 0x0400)))
    chrBank

/-- The register write of `Mapper004::cpuMapWrite` (odd address in `$8000-$9FFF`). -/
def Mapper004.writeRegister (prgBankCount : Nat) (m : Mapper004) (data : Nat) : Mapper004 :=
  let registers := store m.registers m.targetRegister data
  let chrBank :=
    if m.chrInversion then
      Mapper004.writeChr registers (Mapper004.writeChr registers m.chrBank 0 false) 4 true
    else
      Mapper004.writeChr registers (Mapper004.writeChr registers m.chrBank 0 true) 4 false
  let prgBank := store m.prgBank 0 (u32 ((registers 6 &&& 0x3F) * 0x2000))
  let prgBank := store prgBank 2 (i32 (((prgBankCount : Int) * 2 - 2) * 0x2000))
  let prgBank :=
    if m.prgBankMode then store (store prgBank 0 (prgBank 2)) 2 (prgBank 0) else prgBank
  let prgBank := store prgBank 1 (u32 ((registers 7 &&& 0x3F) * 0x2000))
  let prgBank := store prgBank 3 (i32 (((prgBankCount : Int) * 2 - 1) * 0x2000))
  { m with registers := registers, chrBank := chrBank, prgBank := prgBank }

/-- `Mapper004::cpuMapWrite`. -/
def Mapper004.cpuMapWrite (prgBankCount : Nat) (m : Mapper004) (addr mapped_addr data : Nat) :
    Bool × Nat × Mapper004 :=
  if addr ≥ 0x6000 ∧ addr ≤ 0x7FFF then
    (true, MAPPER_SERVED, { m with staticRam := store m.staticRam (addr &&& 0x1FFF) data })
  else if addr ≥ 0x8000 ∧ addr ≤ 0x9FFF then
    if addr &&& 1 = 0 then
      (false, mapped_addr,
        { m with
          targetRegister := data &&& 0x07
          prgBankMode := toBool (data &&& 0x40)
          chrInversion := toBool (data &&& 0x80) })
    else (false, mapped_addr, Mapper004.writeRegister prgBankCount m data)
  else if addr ≥ 0xA000 ∧ addr ≤ 0xBFFF then
    if addr &&& 1 = 0 then
      (false, mapped_addr,
        { m with mirrorMode := if data &&& 0x01 ≠ 0 then MIRROR_HORIZONTAL else MIRROR_VERTICAL })
    else (false, mapped_addr, m)
  else if addr ≥ 0xC000 ∧ addr ≤ 0xDFFF then
    if addr &&& 1 = 0 then (false, mapped_addr, { m with irq := { m.irq with reload := data } })
    else (false, mapped_addr, { m with irq := { m.irq with counter := 0 } })
  else if addr ≥ 0xE000 ∧ addr ≤ 0xFFFF then
    if addr &&& 1 = 0 then
      (false, mapped_addr, { m with irq := { m.irq with enable := true, active := false } })
    else (false, mapped_addr, { m with irq := { m.irq with enable := true } })
  else (false, mapped_addr, m)

/-- `Mapper004::ppuMapRead`. -/
def Mapper004.ppuMapRead (m : Mapper004) (addr mapped_addr : Nat) : Bool × Nat :=
  if addr ≤ 0x1FFF then (true, u32 (m.chrBank (addr / 0x0400) + (addr &&& 0x03FF)))
  else (false, mapped_addr)

/-- `Mapper004::ppuMapWrite`. -/
def Mapper004.ppuMapWrite (_addr mapped_addr : Nat) : Bool × Nat := (false, mapped_addr)

/-- `Mapper004::reset`. -/
def Mapper004.reset (prgBankCount : Nat) (m : Mapper004) : Mapper004 :=
  let prgBank : Nat → Nat := filled 0
  let prgBank := store prgBank 1 0x2000
  let prgBank := store prgBank 2 (i32 (((prgBankCount : Int) * 2 - 2) * 0x2000))
  let prgBank := store prgBank 3 (i32 (((prgBankCount : Int) * 2 - 1) * 0x2000))
  { m with
    targetRegister := 0
    prgBankMode := false
    chrInversion := false
    mirrorMode := MIRROR_HORIZONTAL
    irq := { counter := 0, reload := 0, active := false, enable := false, update := false }
    prgBank := prgBank
    chrBank := filled 0 }

/-- `Mapper004::scanline`. -/
def Mapper004.scanline (m : Mapper004) : Mapper004 :=
  let irq :=
    if m.irq.counter = 0 then { m.irq with counter := m.irq.reload }
    else { m.irq with counter := u16 (m.irq.counter + 65535) }
  let irq := if irq.counter = 0 ∧ irq.enable then { irq with active := true } else irq
  { m with irq := irq }

/-- Virtual dispatch of `Mapper::reset`. -/
def Mapper.reset (m : Mapper) : Mapper :=
  match m.kind with
  | .m000 => m
  | .m001 s => { m with kind := .m001 (Mapper001.reset m.prgBankCount s) }
  | .m002 s => { m with kind := .m002 (Mapper002.reset m.prgBankCount s) }
  | .m004 s => { m with kind := .m004 (Mapper004.reset m.prgBankCount s) }

/-- Virtual dispatch of `Mapper::getMirror`. -/
def Mapper.getMirror (m : Mapper) : Nat :=
  match m.kind with
  | .m000 => MIRROR_HARDWARE
  | .m001 s => s.mirrorMode
  | .m002 _ => MIRROR_HARDWARE
  | .m004 s => s.mirrorMode

/-- Virtual dispatch of `Mapper::cpuMapRead`. -/
def Mapper.cpuMapRead (m : Mapper) (addr mapped_addr : Nat) : Bool × Nat :=
  match m.kind with
  | .m000 => Mapper000.cpuMapRead m.prgBankCount addr mapped_addr
  | .m001 s => Mapper001.cpuMapRead s addr mapped_addr
  | .m002 s => Mapper002.cpuMapRead s addr mapped_addr
  | .m004 s => Mapper004.cpuMapRead s addr mapped_addr

/-- Virtual dispatch of `Mapper::cpuMapWrite`. -/
def Mapper.cpuMapWrite (m : Mapper) (addr mapped_addr data : Nat) : Bool × Nat × Mapper :=
  match m.kind with
  | .m000 =>
    let r := Mapper000.cpuMapWrite m.prgBankCount addr mapped_addr
    (r.1, r.2, m)
  | .m001 s =>
    let r := Mapper001.cpuMapWrite m.prgBankCount s addr mapped_addr data
    (r.1, r.2.1, { m with kind := .m001 r.2.2 })
  | .m002 s =>
    let r := Mapper002.cpuMapWrite s addr mapped_addr data
    (r.1, r.2.1, { m with kind := .m002 r.2.2 })
  | .m004 s =>
    let r := Mapper004.cpuMapWrite m.prgBankCount s addr mapped_addr data
    (r.1, r.2.1, { m with kind := .m004 r.2.2 })

/-- Virtual dispatch of `Mapper::ppuMapRead`. -/
def Mapper.ppuMapRead (m : Mapper) (addr mapped_addr : Nat) : Bool × Nat :=
  match m.kind with
  | .m000 => Mapper000.ppuMapRead addr mapped_addr
  | .m001 s => Mapper001.ppuMapRead m.chrBankCount s addr mapped_addr
  | .m002 _ => Mapper002.ppuMapRead addr mapped_addr
  | .m004 s => Mapper004.ppuMapRead s addr mapped_addr

/-- Virtual dispatch of `Mapper::ppuMapWrite`. -/
def Mapper.ppuMapWrite (m : Mapper) (addr mapped_addr : Nat) : Bool × Nat :=
  match m.kind with
  | .m000 => Mapper000.ppuMapWrite m.chrBankCount addr mapped_addr
  | .m001 _ => Mapper001.ppuMapWrite m.chrBankCount addr mapped_addr
  | .m002 _ => Mapper002.ppuMapWrite m.chrBankCount addr mapped_addr
  | .m004 _ => Mapper004.ppuMapWrite addr mapped_addr

/-- Virtual dispatch of `Mapper::irqState`. -/
def Mapper.irqState (m : Mapper) : Bool :=
  match m.kind with
  | .m004 s => s.irq.active
  | _ => false

/-- Virtual dispatch of `Mapper::irqClear`. -/
def Mapper.irqClear (m : Mapper) : Mapper :=
  match m.kind with
  | .m004 s => { m with kind := .m004 { s with irq := { s.irq with active := false } } }
  | _ => m

/-- Virtual dispatch of `Mapper::scanline`. -/
def Mapper.scanline (m : Mapper) : Mapper :=
  match m.kind with
  | .m004 s => { m with kind := .m004 (Mapper004.scanline s) }
  | _ => m

/-! ## Cartridge (`rom.hpp`) -/

/-- `NesRom::Header`. -/
structure Header where
  nes : Nat → Nat
  prgSize : Nat
  chrSize : Nat
  flags6 : Nat
  flags7 : Nat
  flags8 : Nat
  flags9 : Nat
  flags10 : Nat
  padding : Nat → Nat

/-- `Header::isValid`. -/
def Header.isValid (h : Header) : Bool :=
  h.nes 0 = 0x4e ∧ h.nes 1 = 0x45 ∧ h.nes 2 = 0x53 ∧ h.nes 3 = 0x1a

/-- `Header::hasTrainer`: bit 2 of `std::bitset<8>{flags6}`. -/
def Header.hasTrainer (h : Header) : Bool := bitfield (u8 h.flags6) 2 1 = 1

/-- `Header::getMirrorMode`. -/
def Header.getMirrorMode (h : Header) : Nat := ofBool (!(decide (bitfield (u8 h.flags6) 0 1 = 1)))

/-- `Header::getMapperNumber`; the shifts are those of `std::bitset<8>`. -/
def Header.getMapperNumber (h : Header) : Nat :=
  u8 (u8 h.flags6 >>> 4) + u8 ((u8 (u8 h.flags7 >>> 4)) <<< 4)

/-- `NesRom`.  `uninit` is the indeterminate initial value of the local
`mapped_addr` of the four access functions. -/
structure NesRom where
  header : Header
  mapper : Mapper
  prg : Nat → Nat
  prgLen : Nat
  chr : Nat → Nat
  chrLen : Nat
  uninit : Nat

/-- `NesRom::cpuRead`: the result and the reference parameter `data`. -/
def NesRom.cpuRead (r : NesRom) (addr data : Nat) : Bool × Nat :=
  let m := r.mapper.cpuMapRead addr r.uninit
  if m.1 then
    if m.2 = MAPPER_SERVED then (true, data) else (true, r.prg m.2)
  else (false, data)

/-- `NesRom::cpuWrite`. -/
def NesRom.cpuWrite (r : NesRom) (addr data : Nat) : Bool × NesRom :=
  let m := r.mapper.cpuMapWrite addr r.uninit data
  let r := { r with mapper := m.2.2 }
  if m.1 then
    if m.2.1 = MAPPER_SERVED then (true, r) else (true, { r with prg := store r.prg m.2.1 data })
  else (false, r)

/-- `NesRom::ppuRead`: the result and the reference parameter `data`. -/
def NesRom.ppuRead (r : NesRom) (addr data : Nat) : Bool × Nat :=
  let m := r.mapper.ppuMapRead addr r.uninit
  if m.1 then
    if m.2 < r.chrLen then (true, r.chr m.2) else (true, data)
  else (false, data)

/-- `NesRom::ppuWrite`. -/
def NesRom.ppuWrite (r : NesRom) (addr data : Nat) : Bool × NesRom :=
  let m := r.mapper.ppuMapWrite addr r.uninit
  if m.1 then (true, { r with chr := store r.chr m.2 data }) else (false, r)

/-- `NesRom::reset`. -/
def NesRom.reset (r : NesRom) : NesRom := { r with mapper := r.mapper.reset }

/-- `NesRom::getMirrorMode`. -/
def NesRom.getMirrorMode (r : NesRom) : Nat :=
  let m := r.mapper.getMirror
  if m = MIRROR_HARDWARE then r.header.getMirrorMode else m

/-! ## PPU (`ppu.hpp`, `ppu.cpp`) -/

/-- `Ppu2C02::Registers`: each register is the `val` member of its union. -/
structure PpuRegisters where
  STATUS : Nat
  MASK : Nat
  CTRL : Nat
  v : Nat
  t : Nat
  fineX : Nat

/-- `Ppu2C02::BackgroundData`. -/
structure BackgroundData where
  NextTileId : Nat
  NextTileAttrib : Nat
  NextTileLsb : Nat
  NextTileMsb : Nat
  ShiftPatternLo : Nat
  ShiftPatternHi : Nat
  ShiftAttribLo : Nat
  ShiftAttribHi : Nat

/-- `Ppu2C02::ObjectAttributeMemory`: `data` is the byte view of the union;
entry `i` occupies the bytes `4 i` (y), `4 i + 1` (id), `4 i + 2`
(attributes) and `4 i + 3` (x). -/
structure ObjectAttributeMemory where
  data : Nat → Nat
  address : Nat

/-- `Ppu2C02::SpriteInfo`; `scanlineSprites` is kept as its 32 bytes, laid out
like the OAM entries. -/
structure SpriteInfo where
  scanlineSprites : Nat → Nat
  count : Nat
  shiftPatternLo : Nat → Nat
  shiftPatternHi : Nat → Nat
  zeroHitPossible : Bool
  zeroDrawing : Bool

/-- `Ppu2C02`.  `uninit` is the indeterminate value of the local `data` of
`cpuRead`. -/
structure Ppu2C02 where
  registers : PpuRegisters
  bg : BackgroundData
  OAM : ObjectAttributeMemory
  sprites : SpriteInfo
  nameTable : Nat → Nat → Nat
  patternTable : Nat → Nat → Nat
  paletteTable : Nat → Nat
  addressLatch : Nat
  dataBuffer : Nat
  scanline : Int
  cycle : Int
  frameComplete : Bool
  nmi : Bool
  nmiIgnore : Bool
  framecount : Nat
  odd : Bool
  uninit : Nat

/-- Register numbers of `enum RegisterAddress`. -/
def PPU_CTRL : Nat := 0

/-- Register number 1. -/
def PPU_MASK : Nat := 1

/-- Register number 2. -/
def PPU_STATUS : Nat := 2

/-- Register number 3. -/
def OAM_ADDR : Nat := 3

/-- Register number 4. -/
def OAM_DATA : Nat := 4

/-- Register number 5. -/
def PPU_SCROLL : Nat := 5

/-- Register number 6. -/
def PPU_ADDR : Nat := 6

/-- Register number 7. -/
def PPU_DATA : Nat := 7

/-- Bit-field `STATUS.spriteOverflow`. -/
def PpuRegisters.spriteOverflow (r : PpuRegisters) : Nat := bitfield r.STATUS 5 1

/-- Bit-field `STATUS.spriteZeroHit`. -/
def PpuRegisters.spriteZeroHit (r : PpuRegisters) : Nat := bitfield r.STATUS 6 1

/-- Bit-field `STATUS.vblank`. -/
def PpuRegisters.vblank (r : PpuRegisters) : Nat := bitfield r.STATUS 7 1

/-- Bit-field `MASK.grayscale`. -/
def PpuRegisters.grayscale (r : PpuRegisters) : Nat := bitfield r.MASK 0 1

/-- Bit-field `MASK.showBgLeft`. -/
def PpuRegisters.showBgLeft (r : PpuRegisters) : Nat := bitfield r.MASK 1 1

/-- Bit-field `MASK.showSpritesLeft`. -/
def PpuRegisters.showSpritesLeft (r : PpuRegisters) : Nat := bitfield r.MASK 2 1

/-- Bit-field `MASK.showBg`. -/
def PpuRegisters.showBg (r : PpuRegisters) : Nat := bitfield r.MASK 3 1

/-- Bit-field `MASK.showSprites`. -/
def PpuRegisters.showSprites (r : PpuRegisters) : Nat := bitfield r.MASK 4 1

/-- Bit-field `CTRL.nametableX`. -/
def PpuRegisters.nametableX (r : PpuRegisters) : Nat := bitfield r.CTRL 0 1

/-- Bit-field `CTRL.nametableY`. -/
def PpuRegisters.nametableY (r : PpuRegisters) : Nat := bitfield r.CTRL 1 1

/-- Bit-field `CTRL.vramAddressInc`. -/
def PpuRegisters.vramAddressInc (r : PpuRegisters) : Nat := bitfield r.CTRL 2 1

/-- Bit-field `CTRL.spriteAdress8x8`. -/
def PpuRegisters.spriteAdress8x8 (r : PpuRegisters) : Nat := bitfield r.CTRL 3 1

/-- Bit-field `CTRL.bgAddress`. -/
def PpuRegisters.bgAddress (r : PpuRegisters) : Nat := bitfield r.CTRL 4 1

/-- Bit-field `CTRL.spriteSize`. -/
def PpuRegisters.spriteSize (r : PpuRegisters) : Nat := bitfield r.CTRL 5 1

/-- Bit-field `CTRL.vblankNmi`. -/
def PpuRegisters.vblankNmi (r : PpuRegisters) : Nat := bitfield r.CTRL 7 1

/-- Bit-field `coarseX` of a `ScrollRegister`. -/
def coarseX (s : Nat) : Nat := bitfield s 0 5

/-- Bit-field `coarseY` of a `ScrollRegister`. -/
def coarseY (s : Nat) : Nat := bitfield s 5 5

/-- Bit-field `nameTableX` of a `ScrollRegister`. -/
def nameTableX (s : Nat) : Nat := bitfield s 10 1

/-- Bit-field `nameTableY` of a `ScrollRegister`. -/
def nameTableY (s : Nat) : Nat := bitfield s 11 1

/-- Bit-field `fineY` of a `ScrollRegister`. -/
def fineY (s : Nat) : Nat := bitfield s 12 3

/-- Store into `coarseX`. -/
def setCoarseX (s x : Nat) : Nat := setBitfield s 0 5 x

/-- Store into `coarseY`. -/
def setCoarseY (s x : Nat) : Nat := setBitfield s 5 5 x

/-- Store into `nameTableX`. -/
def setNameTableX (s x : Nat) : Nat := setBitfield s 10 1 x

/-- Store into `nameTableY`. -/
def setNameTableY (s x : Nat) : Nat := setBitfield s 11 1 x

/-- Store into `fineY`. -/
def setFineY (s x : Nat) : Nat := setBitfield s 12 3 x

/-- The cell that `Ppu2C02::mirroredNameTableEntry` returns a reference to:
the bank and the offset inside it. -/
def mirroredNameTableEntry (rom : NesRom) (addr : Nat) : Nat × Nat :=
  if rom.getMirrorMode = MIRROR_VERTICAL then ((addr / 0x0400) % 2, addr &&& 0x03FF)
  else if rom.getMirrorMode = MIRROR_HORIZONTAL then ((addr / 0x0800) % 2, addr &&& 0x03FF)
  else (0, addr &&& 0x03FF)

/-- The palette index folding shared by `ppuRead` and `ppuWrite`. -/
def paletteIndex (addr : Nat) : Nat :=
  let addr := addr &&& 0x001F
  let addr := if addr = 0x0010 then 0x0000 else addr
  let addr := if addr = 0x0014 then 0x0004 else addr
  let addr := if addr = 0x0018 then 0x0008 else addr
  let addr := if addr = 0x001C then 0x000C else addr
  addr

/-- `Ppu2C02::ppuRead`; the result is a `uint8_t`. -/
def Ppu2C02.ppuRead (p : Ppu2C02) (rom : NesRom) (addr : Nat) : Nat :=
  let data := 0x00
  let addr := addr &&& 0x3FFF
  let r := rom.ppuRead addr data
  if r.1 then u8 r.2
  else if addr ≤ 0x1FFF then u8 (p.patternTable ((addr &&& 0x1000) >>> 12) (addr &&& 0x0FFF))
  else if addr ≤ 0x3EFF then
    let c := mirroredNameTableEntry rom (addr &&& 0x0FFF)
    u8 (p.nameTable c.1 c.2)
  else if addr ≤ 0x3FFF then
    u8 (p.paletteTable (paletteIndex addr)) &&& (if p.registers.grayscale ≠ 0 then 0x30 else 0x3F)
  else data

/-- `Ppu2C02::ppuWrite`. -/
def Ppu2C02.ppuWrite (p : Ppu2C02) (rom : NesRom) (addr data : Nat) : Ppu2C02 × NesRom :=
  let addr := addr &&& 0x3FFF
  let r := rom.ppuWrite addr data
  if r.1 then (p, r.2)
  else if addr ≤ 0x1FFF then
    let bank := (addr &&& 0x1000) >>> 12
    ({ p with patternTable :=
        fun b => if b = bank then store (p.patternTable b) (addr &&& 0x0FFF) data
                 else p.patternTable b }, r.2)
  else if addr ≤ 0x3EFF then
    let c := mirroredNameTableEntry r.2 (addr &&& 0x0FFF)
    ({ p with nameTable :=
        fun b => if b = c.1 then store (p.nameTable b) c.2 data else p.nameTable b }, r.2)
  else if addr ≤ 0x3FFF then
    ({ p with paletteTable := store p.paletteTable (paletteIndex addr) data }, r.2)
  else (p, r.2)

/-- `Ppu2C02::cpuRead`. -/
def Ppu2C02.cpuRead (p : Ppu2C02) (rom : NesRom) (addr : Nat) (rdOnly : Bool) : Nat × Ppu2C02 :=
  let data := p.uninit
  if rdOnly then
    if addr = PPU_CTRL then (p.registers.CTRL, p)
    else if addr = PPU_MASK then (p.registers.MASK, p)
    else if addr = PPU_STATUS then (p.registers.STATUS, p)
    else (data, p)
  else
    if addr = PPU_STATUS then
      let data := u8 ((p.registers.STATUS &&& 0xE0) ||| (p.dataBuffer &&& 0x1F))
      (data, { p with
        registers := { p.registers with STATUS := setBitfield p.registers.STATUS 7 1 0 }
        addressLatch := 0 })
    else if addr = OAM_DATA then (p.OAM.data p.OAM.address, p)
    else if addr = PPU_DATA then
      let data := p.dataBuffer
      let p := { p with dataBuffer := p.ppuRead rom p.registers.v }
      let data := if p.registers.v ≥ 0x3F00 then p.dataBuffer else data
      (data, { p with registers :=
        { p.registers with v := u16 (p.registers.v + (if p.registers.vramAddressInc ≠ 0 then 32 else 1)) } })
    else (data, p)

/-- `Ppu2C02::cpuWrite`. -/
def Ppu2C02.cpuWrite (p : Ppu2C02) (rom : NesRom) (addr data : Nat) : Ppu2C02 × NesRom :=
  if addr = PPU_CTRL then
    let regs := { p.registers with CTRL := data }
    let regs := { regs with t := setNameTableX regs.t regs.nametableX }
    let regs := { regs with t := setNameTableY regs.t regs.nametableY }
    ({ p with registers := regs }, rom)
  else if addr = PPU_MASK then ({ p with registers := { p.registers with MASK := data } }, rom)
  else if addr = OAM_ADDR then ({ p with OAM := { p.OAM with address := data } }, rom)
  else if addr = OAM_DATA then
    ({ p with OAM := { p.OAM with data := store p.OAM.data p.OAM.address data } }, rom)
  else if addr = PPU_SCROLL then
    if p.addressLatch = 0 then
      ({ p with
        registers := { p.registers with fineX := data &&& 0x07, t := setCoarseX p.registers.t (data >>> 3) }
        addressLatch := 1 }, rom)
    else
      ({ p with
        registers := { p.registers with
          t := setCoarseY (setFineY p.registers.t (data &&& 0x07)) (data >>> 3) }
        addressLatch := 0 }, rom)
  else if addr = PPU_ADDR then
    if p.addressLatch = 0 then
      ({ p with
        registers := { p.registers with
          t := u16 ((data &&& 0x3F) <<< 8) ||| (p.registers.t &&& 0x00FF) }
        addressLatch := 1 }, rom)
    else
      let t := (p.registers.t &&& 0xFF00) ||| data
      ({ p with registers := { p.registers with t := t, v := t }, addressLatch := 0 }, rom)
  else if addr = PPU_DATA then
    let r := p.ppuWrite rom p.registers.v data
    ({ r.1 with registers :=
        { r.1.registers with
          v := u16 (r.1.registers.v + (if r.1.registers.vramAddressInc ≠ 0 then 32 else 1)) } }, r.2)
  else (p, rom)

/-- `Ppu2C02::reset`. -/
def Ppu2C02.reset (p : Ppu2C02) : Ppu2C02 :=
  { p with
    addressLatch := 0
    dataBuffer := 0
    scanline := 0
    cycle := 0
    bg := { NextTileId := 0, NextTileAttrib := 0, NextTileLsb := 0, NextTileMsb := 0,
            ShiftPatternLo := 0, ShiftPatternHi := 0, ShiftAttribLo := 0, ShiftAttribHi := 0 }
    registers := { STATUS := 0, MASK := 0, CTRL := 0, v := 0, t := 0, fineX := 0 }
    odd := false }

/-- `Ppu2C02::renderEnabled`. -/
def Ppu2C02.renderEnabled (p : Ppu2C02) : Bool :=
  p.registers.showBg ≠ 0 ∨ p.registers.showSprites ≠ 0

/-- Update of `registers.v`. -/
def Ppu2C02.setV (p : Ppu2C02) (v : Nat) : Ppu2C02 :=
  { p with registers := { p.registers with v := v } }

/-- `Ppu2C02::scrollX`. -/
def Ppu2C02.scrollX (p : Ppu2C02) : Ppu2C02 :=
  if p.renderEnabled then
    let v := p.registers.v
    if coarseX v = 31 then p.setV (setNameTableX (setCoarseX v 0) ((nameTableX (setCoarseX v 0) + 1) % 2))
    else p.setV (setCoarseX v (coarseX v + 1))
  else p

/-- `Ppu2C02::scrollY`. -/
def Ppu2C02.scrollY (p : Ppu2C02) : Ppu2C02 :=
  if p.renderEnabled then
    let v := p.registers.v
    if fineY v < 7 then p.setV (setFineY v (fineY v + 1))
    else
      let v := setFineY v 0
      if coarseY v = 29 then p.setV (setNameTableY (setCoarseY v 0) ((nameTableY (setCoarseY v 0) + 1) % 2))
      else if coarseY v = 31 then p.setV (setCoarseY v 0)
      else p.setV (setCoarseY v (coarseY v + 1))
  else p

/-- `Ppu2C02::txAddressX`. -/
def Ppu2C02.txAddressX (p : Ppu2C02) : Ppu2C02 :=
  if p.renderEnabled then
    let v := setNameTableX p.registers.v (nameTableX p.registers.t)
    p.setV (setCoarseX v (coarseX p.registers.t))
  else p

/-- `Ppu2C02::txAddressY`. -/
def Ppu2C02.txAddressY (p : Ppu2C02) : Ppu2C02 :=
  if p.renderEnabled then
    let v := setNameTableY p.registers.v (nameTableY p.registers.t)
    let v := setCoarseY v (coarseY p.registers.t)
    p.setV (setFineY v (fineY p.registers.t))
  else p

/-- `Ppu2C02::loadBackgroundShifters`. -/
def Ppu2C02.loadBackgroundShifters (p : Ppu2C02) : Ppu2C02 :=
  { p with bg := { p.bg with
      ShiftPatternLo := (p.bg.ShiftPatternLo &&& 0xFF00) ||| p.bg.NextTileLsb
      ShiftPatternHi := (p.bg.ShiftPatternHi &&& 0xFF00) ||| p.bg.NextTileMsb
      ShiftAttribLo :=
        (p.bg.ShiftAttribLo &&& 0xFF00) ||| (if p.bg.NextTileAttrib &&& 0b01 ≠ 0 then 0xFF else 0x00)
      ShiftAttribHi :=
        (p.bg.ShiftAttribHi &&& 0xFF00) ||| (if p.bg.NextTileAttrib &&& 0b10 ≠ 0 then 0xFF else 0x00) } }

/-- `memset(a, x, n)`: the first `n` cells are set to `x`. -/
def memset (a : Nat → Nat) (x n : Nat) : Nat → Nat := fun j => if j < n then x else a j

/-- `Ppu2C02::updateShifters`. -/
def Ppu2C02.updateShifters (p : Ppu2C02) : Ppu2C02 :=
  let p :=
    if p.registers.showBg ≠ 0 then
      { p with bg := { p.bg with
          ShiftPatternLo := u16 (p.bg.ShiftPatternLo <<< 1)
          ShiftPatternHi := u16 (p.bg.ShiftPatternHi <<< 1)
          ShiftAttribLo := u16 (p.bg.ShiftAttribLo <<< 1)
          ShiftAttribHi := u16 (p.bg.ShiftAttribHi <<< 1) } }
    else p
  if p.registers.showSprites ≠ 0 ∧ p.cycle ≥ 1 ∧ p.cycle < 258 then
    let sprites :=
      (List.range p.sprites.count).foldl
        (fun s i =>
          if s.scanlineSprites (4 * i + 3) > 0 then
            { s with
              scanlineSprites :=
                store s.scanlineSprites (4 * i + 3) (s.scanlineSprites (4 * i + 3) - 1) }
          else
            { s with
              shiftPatternLo := store s.shiftPatternLo i (u8 (s.shiftPatternLo i <<< 1))
              shiftPatternHi := store s.shiftPatternHi i (u8 (s.shiftPatternHi i <<< 1)) })
        p.sprites
    { p with sprites := sprites }
  else p

/-- Update of `bg`. -/
def Ppu2C02.setBg (p : Ppu2C02) (bg : BackgroundData) : Ppu2C02 := { p with bg := bg }

/-- The `switch ((cycle - 1) % 8)` of `Ppu2C02::clock`. -/
def Ppu2C02.fetchStep (p : Ppu2C02) (rom : NesRom) : Ppu2C02 :=
  let k := (p.cycle - 1) % 8
  let v := p.registers.v
  if k = 0 then
    let p := p.loadBackgroundShifters
    p.setBg { p.bg with NextTileId := p.ppuRead rom (0x2000 ||| (p.registers.v &&& 0x0FFF)) }
  else if k = 2 then
    let a := p.ppuRead rom
      (0x23C0 ||| (nameTableY v <<< 11) ||| (nameTableX v <<< 10) |||
        ((coarseY v >>> 2) <<< 3) ||| (coarseX v >>> 2))
    let a := if coarseY v &&& 0x02 ≠ 0 then a >>> 4 else a
    let a := if coarseX v &&& 0x02 ≠ 0 then a >>> 2 else a
    p.setBg { p.bg with NextTileAttrib := a &&& 0x03 }
  else if k = 4 then
    let d := p.ppuRead rom
      (u16 ((p.registers.bgAddress <<< 12) + (u16 p.bg.NextTileId <<< 4) + fineY v))
    p.setBg { p.bg with NextTileLsb := d }
  else if k = 6 then
    let d := p.ppuRead rom
      (u16 ((p.registers.bgAddress <<< 12) + (u16 p.bg.NextTileId <<< 4) + fineY v + 8))
    p.setBg { p.bg with NextTileMsb := d }
  else if k = 7 then p.scrollX
  else p

/-- The sprite evaluation of `Ppu2C02::clock` (`cycle == 257 && scanline >= 0`). -/
def Ppu2C02.evaluateSprites (p : Ppu2C02) : Ppu2C02 :=
  let sprites : SpriteInfo :=
    { p.sprites with
      scanlineSprites := memset p.sprites.scanlineSprites 0xFF 32
      count := 0
      shiftPatternLo := memset p.sprites.shiftPatternLo 0 8
      shiftPatternHi := memset p.sprites.shiftPatternHi 0 8
      zeroHitPossible := false }
  let sprites :=
    (List.range 64).foldl
      (fun s entry_count =>
        if s.count < 9 then
          let sd_y : Int := p.scanline - (p.OAM.data (4 * entry_count) : Int)
          if sd_y ≥ 0 ∧ sd_y < (if p.registers.spriteSize ≠ 0 then 16 else 8) then
            if s.count < 8 then
              let s := if entry_count = 0 then { s with zeroHitPossible := true } else s
              let copied : Nat → Nat := fun j =>
                if 4 * s.count ≤ j ∧ j < 4 * s.count + 4 then
                  p.OAM.data (4 * entry_count + (j - 4 * s.count))
                else s.scanlineSprites j
              { s with scanlineSprites := copied, count := u8 (s.count + 1) }
            else s
          else s
        else s)
      sprites
  { p with
    sprites := sprites
    registers := { p.registers with
      STATUS := setBitfield p.registers.STATUS 5 1 (ofBool (decide (sprites.count > 8))) } }

/-- The lambda `flip_byte`. -/
def flip_byte (b : Nat) : Nat :=
  let b := u8 (((b &&& 0xF0) >>> 4) ||| ((b &&& 0x0F) <<< 4))
  let b := u8 (((b &&& 0xCC) >>> 2) ||| ((b &&& 0x33) <<< 2))
  let b := u8 (((b &&& 0xAA) >>> 1) ||| ((b &&& 0x55) <<< 1))
  b

/-- The sprite pattern fetch of `Ppu2C02::clock` (`cycle == 340`).  The row
operand of the address may be negative; `|` on `int` followed by the
conversion to `uint16_t` is taken on the two's complement bits. -/
def Ppu2C02.fetchSprites (p : Ppu2C02) (rom : NesRom) : Ppu2C02 :=
  let sprites :=
      (List.range p.sprites.count).foldl
        (fun s i =>
          let y := s.scanlineSprites (4 * i)
          let id := s.scanlineSprites (4 * i + 1)
          let attributes := s.scanlineSprites (4 * i + 2)
          let row : Int := p.scanline - (y : Int)
          let flip := attributes &&& 0x80 ≠ 0
          let s_pattern_addr_lo :=
            if p.registers.spriteSize = 0 then
              u16 ((p.registers.spriteAdress8x8 <<< 12) ||| (id <<< 4) |||
                i32 (if flip then 7 - row else row))
            else
              let tile_offset := ofBool (decide (row ≥ 8))
              u16 (((id &&& 0x01) <<< 12) ||| (((id &&& 0xFE) + tile_offset) <<< 4) |||
                i32 ((if flip then 7 - row else row) % 8))
          let s_pattern_addr_hi := u16 (s_pattern_addr_lo + 8)
          let s_pattern_data_lo := p.ppuRead rom s_pattern_addr_lo
          let s_pattern_data_hi := p.ppuRead rom s_pattern_addr_hi
          let s_pattern_data_lo :=
            if attributes &&& 0x40 ≠ 0 then flip_byte s_pattern_data_lo else s_pattern_data_lo
          let s_pattern_data_hi :=
            if attributes &&& 0x40 ≠ 0 then flip_byte s_pattern_data_hi else s_pattern_data_hi
          { s with
            shiftPatternLo := store s.shiftPatternLo i s_pattern_data_lo
            shiftPatternHi := store s.shiftPatternHi i s_pattern_data_hi })
        p.sprites
  { p with sprites := sprites }

/-- The part of `Ppu2C02::clock` guarded by `scanline >= -1 && scanline < 240`. -/
def Ppu2C02.renderStep (p : Ppu2C02) (rom : NesRom) : Ppu2C02 :=
  let p := if p.scanline = 0 ∧ p.cycle = 0 ∧ p.odd ∧ p.renderEnabled then { p with cycle := 1 } else p
  let p :=
    if p.scanline = -1 ∧ p.cycle = 1 then
      { p with
        registers := { p.registers with
          STATUS := setBitfield (setBitfield (setBitfield p.registers.STATUS 7 1 0) 5 1 0) 6 1 0 }
        sprites := { p.sprites with
          shiftPatternLo := memset p.sprites.shiftPatternLo 0 8
          shiftPatternHi := memset p.sprites.shiftPatternHi 0 8 } }
    else p
  let p :=
    if (p.cycle ≥ 2 ∧ p.cycle < 258) ∨ (p.cycle ≥ 321 ∧ p.cycle < 338) then
      p.updateShifters.fetchStep rom
    else p
  let p := if p.cycle = 256 then p.scrollY else p
  let p := if p.cycle = 257 then p.loadBackgroundShifters.txAddressX else p
  let p :=
    if p.cycle = 338 ∨ p.cycle = 340 then
      p.setBg { p.bg with NextTileId := p.ppuRead rom (0x2000 ||| (p.registers.v &&& 0x0FFF)) }
    else p
  let p := if p.scanline = -1 ∧ p.cycle ≥ 280 ∧ p.cycle < 305 then p.txAddressY else p
  let p := if p.cycle = 257 ∧ p.scanline ≥ 0 then p.evaluateSprites else p
  let p := if p.cycle = 340 then p.fetchSprites rom else p
  p

/-- The start of vertical blank in `Ppu2C02::clock` (`scanline == 241 && cycle == 1`). -/
def Ppu2C02.vblankStep (p : Ppu2C02) : Ppu2C02 :=
  if p.scanline = 241 ∧ p.cycle = 1 then
    let p := { p with registers := { p.registers with STATUS := setBitfield p.registers.STATUS 7 1 1 } }
    let p := if p.registers.vblankNmi ≠ 0 ∧ ¬ p.nmiIgnore then { p with nmi := true } else p
    { p with nmiIgnore := false }
  else p

/-- The locals of the foreground scan of the pixel composition. -/
structure Foreground where
  fg_pix : Nat
  fg_palette : Nat
  fg_priority : Nat
  zeroDrawing : Bool
  stop : Bool

/-- The foreground scan of the pixel composition; `stop` records the `break`. -/
def Ppu2C02.foreground (p : Ppu2C02) : Foreground :=
  if p.registers.showSprites ≠ 0 then
    (List.range p.sprites.count).foldl
      (fun f i =>
        if f.stop then f
        else if p.sprites.scanlineSprites (4 * i + 3) = 0 then
          let pix_lo := ofBool (decide (p.sprites.shiftPatternLo i &&& 0x80 > 0))
          let pix_hi := ofBool (decide (p.sprites.shiftPatternHi i &&& 0x80 > 0))
          let fg_pix := (pix_hi <<< 1) ||| pix_lo
          let f := { f with
            fg_pix := fg_pix
            fg_palette := (p.sprites.scanlineSprites (4 * i + 2) &&& 0x03) + 0x04
            fg_priority := ofBool (decide (p.sprites.scanlineSprites (4 * i + 2) &&& 0x20 = 0)) }
          if fg_pix ≠ 0 then
            { f with zeroDrawing := if i = 0 then true else f.zeroDrawing, stop := true }
          else f
        else f)
      { fg_pix := 0, fg_palette := 0, fg_priority := 0, zeroDrawing := false, stop := false }
  else
    { fg_pix := 0, fg_palette := 0, fg_priority := 0, zeroDrawing := p.sprites.zeroDrawing,
      stop := false }

/-- The background pixel of the pixel composition. -/
def Ppu2C02.bgPix (p : Ppu2C02) : Nat :=
  if p.registers.showBg ≠ 0 then
    let bit_mux := u16 (0x8000 >>> p.registers.fineX)
    let pix_lo := ofBool (decide (p.bg.ShiftPatternLo &&& bit_mux > 0))
    let pix_hi := ofBool (decide (p.bg.ShiftPatternHi &&& bit_mux > 0))
    (pix_hi <<< 1) ||| pix_lo
  else 0

/-- The background palette of the pixel composition. -/
def Ppu2C02.bgPalette (p : Ppu2C02) : Nat :=
  if p.registers.showBg ≠ 0 then
    let bit_mux := u16 (0x8000 >>> p.registers.fineX)
    let bg_pal_lo := ofBool (decide (p.bg.ShiftAttribLo &&& bit_mux > 0))
    let bg_pal_hi := ofBool (decide (p.bg.ShiftAttribHi &&& bit_mux > 0))
    (bg_pal_hi <<< 1) ||| bg_pal_lo
  else 0

/-- The pixel composition of `Ppu2C02::clock`, as far as it changes the PPU
state: the flag `zeroDrawing` and `STATUS.spriteZeroHit`.  The operand of `~`
is an `int` holding 0 or 1. -/
def Ppu2C02.composeStep (p : Ppu2C02) : Ppu2C02 :=
  let bg_pix := p.bgPix
  let f := p.foreground
  let p := { p with sprites := { p.sprites with zeroDrawing := f.zeroDrawing } }
  if bg_pix > 0 ∧ f.fg_pix > 0 then
    if p.sprites.zeroHitPossible ∧ p.sprites.zeroDrawing then
      if p.registers.showBg &&& p.registers.showSprites ≠ 0 then
        if (-((p.registers.showBgLeft ||| p.registers.showSpritesLeft : Nat) : Int) - 1) ≠ 0 then
          if p.cycle ≥ 9 ∧ p.cycle < 258 then
            { p with registers := { p.registers with STATUS := setBitfield p.registers.STATUS 6 1 1 } }
          else p
        else if p.cycle ≥ 1 ∧ p.cycle < 258 then
          { p with registers := { p.registers with STATUS := setBitfield p.registers.STATUS 6 1 1 } }
        else p
      else p
    else p
  else p

/-- The end of `Ppu2C02::clock`: the dot and line counters and the mapper hook. -/
def Ppu2C02.advance (p : Ppu2C02) (rom : NesRom) : Ppu2C02 × NesRom :=
  let p := { p with cycle := p.cycle + 1 }
  let rom :=
    if p.renderEnabled ∧ p.cycle = 260 ∧ p.scanline < 240 then
      { rom with mapper := rom.mapper.scanline }
    else rom
  if p.cycle ≥ 341 then
    let p := { p with cycle := 0, scanline := p.scanline + 1 }
    if p.scanline ≥ 261 then
      ({ p with scanline := -1, frameComplete := true, framecount := u32 (p.framecount + 1),
                odd := !p.odd }, rom)
    else (p, rom)
  else (p, rom)

/-- `Ppu2C02::clock`. -/
def Ppu2C02.clock (p : Ppu2C02) (rom : NesRom) : Ppu2C02 × NesRom :=
  let p := if p.scanline ≥ -1 ∧ p.scanline < 240 then p.renderStep rom else p
  let p := p.vblankStep
  let p := p.composeStep
  p.advance rom

/-! ## APU (`apu.hpp`)

The integer state of the APU.  The `AudioFloat` members (`systemTime`, the
`Pulse` oscillators, `sample`, `output`, `volume`) are computed from the
integer state and never read back by it. -/

/-- `PulseLength::table`. -/
def PulseLength.table : List Nat :=
  [10, 254, 20, 2, 40, 4, 80, 6, 160, 8, 60, 10, 14, 12, 26, 14,
   12, 16, 24, 18, 48, 20, 96, 22, 192, 24, 72, 26, 16, 28, 32, 30]

/-- `APU::Sequencer`. -/
structure Sequencer where
  sequence : Nat
  nextSequence : Nat
  timer : Nat
  reload : Nat
  output : Nat

/-- `Sequencer::clock`; `mix_function` is applied to `sequence`. -/
def Sequencer.clock (q : Sequencer) (enable : Bool) (mix_function : Nat → Nat) : Sequencer :=
  if enable then
    let q := { q with timer := u16 (q.timer + 65535) }
    if q.timer = 0xFFFF then
      let q := { q with timer := q.reload }
      let q := { q with sequence := u32 (mix_function q.sequence) }
      { q with output := q.sequence &&& 0x00000001 }
    else q
  else q

/-- `APU::PulseCounter::clock`. -/
def PulseCounter.clock (counter : Nat) (enable halt : Bool) : Nat :=
  if ¬ enable then 0
  else if counter > 0 ∧ ¬ halt then counter - 1
  else counter

/-- `APU::PulseEnvelope`. -/
structure PulseEnvelope where
  start : Bool
  disable : Bool
  dividerCount : Nat
  volume : Nat
  output : Nat
  decayCount : Nat

/-- `PulseEnvelope::DECAY_BASE`. -/
def DECAY_BASE : Nat := 15

/-- `PulseEnvelope::clock`. -/
def PulseEnvelope.clock (e : PulseEnvelope) (loop : Bool) : PulseEnvelope :=
  let e :=
    if ¬ e.start then
      if e.dividerCount = 0 then
        let e := { e with dividerCount := e.volume }
        if e.decayCount = 0 then
          if loop then { e with decayCount := DECAY_BASE } else e
        else { e with decayCount := e.decayCount - 1 }
      else { e with dividerCount := e.dividerCount - 1 }
    else { e with start := false, decayCount := DECAY_BASE, dividerCount := e.volume }
  if e.disable then { e with output := e.volume } else { e with output := e.decayCount }

/-- `APU::Sweeper`. -/
structure Sweeper where
  enabled : Bool
  down : Bool
  reload : Bool
  muted : Bool
  shift : Nat
  timer : Nat
  period : Nat
  change : Nat

/-- `Sweeper::track`. -/
def Sweeper.track (w : Sweeper) (target : Nat) : Sweeper :=
  if w.enabled then
    { w with change := target >>> w.shift, muted := decide (target < 8 ∨ target > 0x7FF) }
  else w

/-- `Sweeper::clock`: the sweeper and the reference parameter `target`. -/
def Sweeper.clock (w : Sweeper) (target : Nat) (channel : Bool) : Sweeper × Nat :=
  let target :=
    if w.timer = 0 ∧ w.enabled ∧ w.shift > 0 ∧ ¬ w.muted ∧ target ≥ 8 ∧ w.change < 0x07FF then
      if w.down then i16 ((target : Int) - ((w.change + ofBool channel : Nat) : Int))
      else u16 (target + w.change)
    else target
  if w.enabled then
    let w :=
      if w.timer = 0 ∨ w.reload then { w with timer := w.period, reload := false }
      else { w with timer := w.timer - 1 }
    ({ w with muted := decide (target < 8 ∨ target > 0x7FF) }, target)
  else (w, target)

/-- `APU::PulseChannel`. -/
structure PulseChannel where
  enable : Bool
  halt : Bool
  sequencer : Sequencer
  envelope : PulseEnvelope
  counter : Nat
  sweeper : Sweeper

/-- The `seq` column of `pulse_mappings`. -/
def pulse_mappings : List Nat := [0b01000000, 0b01100000, 0b01111000, 0b10011111]

/-- `PulseChannel::write`. -/
def PulseChannel.write (c : PulseChannel) (rel_addr data : Nat) : PulseChannel :=
  let pulse_mask := (data &&& 0xC0) >>> 6
  if rel_addr = 0 then
    let q := { c.sequencer with nextSequence := pulse_mappings.getD pulse_mask 0 }
    let q := { q with sequence := q.nextSequence }
    { c with
      sequencer := q
      halt := toBool (data &&& 0x20)
      envelope := { c.envelope with volume := data &&& 0x0F, disable := toBool (data &&& 0x10) } }
  else if rel_addr = 1 then
    { c with sweeper := { c.sweeper with
        enabled := toBool (data &&& 0x80)
        period := (data &&& 0x70) >>> 4
        down := toBool (data &&& 0x08)
        shift := data &&& 0x07
        reload := true } }
  else if rel_addr = 2 then
    { c with sequencer := { c.sequencer with reload := (c.sequencer.reload &&& 0xFF00) ||| data } }
  else if rel_addr = 3 then
    let q := { c.sequencer with
      reload := u16 ((data &&& 0x07) <<< 8) ||| (c.sequencer.reload &&& 0x00FF) }
    let q := { q with timer := q.reload, sequence := q.nextSequence }
    { c with
      sequencer := q
      counter := PulseLength.table.getD ((data &&& 0xF8) >>> 3) 0
      envelope := { c.envelope with start := true } }
  else c

/-- The sequencer step of `PulseChannel::update`. -/
def PulseChannel.update (c : PulseChannel) : PulseChannel :=
  { c with sequencer :=
      c.sequencer.clock c.enable (fun s => ((s &&& 1) <<< 7) ||| ((s &&& 0x00FE) >>> 1)) }

/-- `APU::NoiseChannel`. -/
structure NoiseChannel where
  enable : Bool
  halt : Bool
  envelope : PulseEnvelope
  counter : Nat
  sequencer : Sequencer

/-- `APU`. -/
structure APU where
  noiseChannel : NoiseChannel
  frameClockCount : Nat
  clockCount : Nat
  enabled : Bool
  pulseChannel_1 : PulseChannel
  pulseChannel_2 : PulseChannel

/-- The table `noise_seq_vals`. -/
def noise_seq_vals : List Nat :=
  [0, 4, 8, 16, 32, 64, 96, 128, 160, 202, 254, 380, 508, 1016, 2034, 4068]

/-- `APU::cpuWrite`. -/
def APU.cpuWrite (a : APU) (addr data : Nat) : APU :=
  if addr ≥ 0x4000 ∧ addr ≤ 0x4003 then
    { a with pulseChannel_1 := a.pulseChannel_1.write (addr - 0x4000) data }
  else if addr ≥ 0x4004 ∧ addr ≤ 0x4007 then
    { a with pulseChannel_2 := a.pulseChannel_2.write (addr - 0x4004) data }
  else if addr = 0x400C then
    { a with noiseChannel := { a.noiseChannel with
        envelope := { a.noiseChannel.envelope with
          volume := data &&& 0x0F, disable := toBool (data &&& 0x10) }
        halt := toBool (data &&& 0x20) } }
  else if addr = 0x400E then
    { a with noiseChannel := { a.noiseChannel with
        sequencer := { a.noiseChannel.sequencer with reload := noise_seq_vals.getD (data &&& 0x0F) 0 } } }
  else if addr = 0x4015 then
    { a with
      pulseChannel_1 := { a.pulseChannel_1 with enable := toBool (data &&& 0x01) }
      pulseChannel_2 := { a.pulseChannel_2 with enable := toBool (data &&& 0x02) }
      noiseChannel := { a.noiseChannel with enable := toBool (data &&& 0x04) } }
  else if addr = 0x400F then
    { a with
      pulseChannel_1 := { a.pulseChannel_1 with
        envelope := { a.pulseChannel_1.envelope with start := true } }
      pulseChannel_2 := { a.pulseChannel_2 with
        envelope := { a.pulseChannel_2.envelope with start := true } }
      noiseChannel := { a.noiseChannel with
        envelope := { a.noiseChannel.envelope with start := true }
        counter := PulseLength.table.getD ((data &&& 0xF8) >>> 3) 0 } }
  else a

/-- `APU::cpuRead`. -/
def APU.cpuRead (a : APU) (addr : Nat) : Nat :=
  let data := 0
  if addr = 0x4015 then
    let data := data ||| (if a.pulseChannel_1.counter > 0 then 1 else 0)
    let data := data ||| (if a.pulseChannel_2.counter > 0 then 2 else 0)
    let data := data ||| (if a.noiseChannel.counter > 0 then 4 else 0)
    data
  else data

/-- The feedback function of the noise sequencer in `APU::clock`. -/
def noiseMix (s : Nat) : Nat :=
  (((s &&& 0x0001) ^^^ ((s &&& 0x0002) >>> 1)) <<< 14) ||| ((s &&& 0x7FFF) >>> 1)

/-- The envelope clocks of a quarter frame in `APU::clock`. -/
def APU.quarterFrame (a : APU) : APU :=
  { a with
    pulseChannel_1 := { a.pulseChannel_1 with
      envelope := a.pulseChannel_1.envelope.clock a.pulseChannel_1.halt }
    pulseChannel_2 := { a.pulseChannel_2 with
      envelope := a.pulseChannel_2.envelope.clock a.pulseChannel_2.halt }
    noiseChannel := { a.noiseChannel with
      envelope := a.noiseChannel.envelope.clock a.noiseChannel.halt } }

/-- The length counter and sweeper clocks of a half frame in `APU::clock`. -/
def APU.halfFrame (a : APU) : APU :=
  let p1 := a.pulseChannel_1
  let p2 := a.pulseChannel_2
  let n := a.noiseChannel
  let p1 := { p1 with counter := PulseCounter.clock p1.counter p1.enable p1.halt }
  let p2 := { p2 with counter := PulseCounter.clock p2.counter p2.enable p2.halt }
  let n := { n with counter := PulseCounter.clock n.counter n.enable n.halt }
  let w1 := p1.sweeper.clock p1.sequencer.reload false
  let w2 := p2.sweeper.clock p2.sequencer.reload true
  let p1 := { p1 with sweeper := w1.1, sequencer := { p1.sequencer with reload := w1.2 } }
  let p2 := { p2 with sweeper := w2.1, sequencer := { p2.sequencer with reload := w2.2 } }
  { a with pulseChannel_1 := p1, pulseChannel_2 := p2, noiseChannel := n }

/-- The channel updates at the end of a frame step in `APU::clock`. -/
def APU.updateChannels (a : APU) : APU :=
  { a with
    pulseChannel_1 := a.pulseChannel_1.update
    pulseChannel_2 := a.pulseChannel_2.update
    noiseChannel := { a.noiseChannel with
      sequencer := a.noiseChannel.sequencer.clock a.noiseChannel.enable noiseMix } }

/-- The body of `if (clockCount % 6 == 0)` in `APU::clock`. -/
def APU.frameStep (a : APU) : APU :=
  let n := u32 (a.frameClockCount + 1)
  let quarter_frame_clock : Bool := decide (n = 3729 ∨ n = 11186 ∨ n = 7457 ∨ n = 14916)
  let half_frame_clock : Bool := decide (n = 7457 ∨ n = 14916)
  let a : APU := { a with frameClockCount := if n = 14916 then 0 else n }
  let a : APU := if quarter_frame_clock then a.quarterFrame else a
  let a : APU := if half_frame_clock then a.halfFrame else a
  a.updateChannels

/-- The sweeper tracking at the end of `APU::clock`. -/
def APU.trackSweepers (a : APU) : APU :=
  let p1 := a.pulseChannel_1
  let p2 := a.pulseChannel_2
  { a with
    pulseChannel_1 := { p1 with sweeper := p1.sweeper.track p1.sequencer.reload }
    pulseChannel_2 := { p2 with sweeper := p2.sweeper.track p2.sequencer.reload } }

/-- `APU::clock`. -/
def APU.clock (a : APU) : APU :=
  if a.enabled then
    let a : APU := if a.clockCount % 6 = 0 then a.frameStep else a
    let a : APU := a.trackSweepers
    { a with clockCount := u32 (a.clockCount + 1) }
  else a

/-! ## Instruction table (`instruction_set.hpp`, `Cpu6502::createInstructionSet`) -/

/-- The mnemonic strings; `UNK` is the string of three question marks and
`EMPTY` the empty string of a default constructed `Instruction`. -/
inductive Mnemonic where
  | ADC | SBC | LDA | LDX | LDY | STA | STX | STY | SEI | CLI | SEC | CLC | SED | CLD | CLV
  | LSR | ASL | ROL | ROR | RTI | CMP | CPX | CPY | DEC | TXS | TSX | TYA | TXA | TAX | TAY
  | BCS | BCC | BEQ | BNE | BPL | BMI | BVS | BVC | BIT | BRK | DEX | DEY | INC | INY | INX
  | JMP | JSR | ORA | EOR | PHP | PHA | PLA | PLP | RTS | AND | NOP | UNK | EMPTY
  deriving DecidableEq, Repr

/-- The addressing mode strings: `abs`, `abs,X`, `abs,Y`, `#`, `impl`, `rel`,
`zpg`, `zpg,X`, `zpg,Y`, `ind`, `X,ind`, `ind,Y`, `A`, the string of three
question marks and the empty string. -/
inductive AddrMode where
  | abs | absX | absY | imm | impl | rel | zpg | zpgX | zpgY | ind | Xind | indY | A | UNK
  | EMPTY
  deriving DecidableEq, Repr

/-- `Instruction`.  A callback is named by its key in `instrCallbacks` /
`addrModeCallbacks`; `none` is the empty `std::function`. -/
structure Instruction where
  opcode : Mnemonic
  addrmode : AddrMode
  size : Nat
  cycles : Nat
  opByte : Nat
  callback : Option Mnemonic
  addrmodeCallback : Option AddrMode
  implied : Bool
  deriving DecidableEq, Repr

/-- `Instruction::Index`. -/
structure Index where
  a : Nat
  b : Nat
  c : Nat
  deriving DecidableEq, Repr

/-- `Index::unpack`. -/
def Index.unpack (op : Nat) : Index :=
  { a := op >>> 5, b := (op &&& 0b00011100) >>> 2, c := op &&& 0b00000011 }

/-- `Index::pack`. -/
def Index.pack (idx : Index) : Nat := u8 ((idx.a <<< 5) ||| (idx.b <<< 2) ||| idx.c)

/-- `Instruction::TABLE_SIZE`. -/
def TABLE_SIZE : Index := { a := 8, b := 8, c := 3 }

/-- A default constructed `Instruction`; `size` and `opByte` have no initialiser. -/
def Instruction.blank : Instruction :=
  { opcode := .EMPTY, addrmode := .EMPTY, size := 0, cycles := 2, opByte := 0,
    callback := none, addrmodeCallback := none, implied := false }

/-- `Instruction::toUnknown`. -/
def Instruction.toUnknown (i : Instruction) : Instruction :=
  { opcode := .UNK, addrmode := .UNK, size := 1, cycles := 1, opByte := i.opByte,
    callback := none, addrmodeCallback := none, implied := false }

/-- `std::unordered_map<uint8_t, Instruction>`: the entries, each key once. -/
abbrev InstructionMap := List (Nat × Instruction)

/-- `instructionMap.find(key)`. -/
def InstructionMap.find (m : InstructionMap) (key : Nat) : Option Instruction :=
  match m with
  | [] => none
  | kv :: rest => if kv.1 = key then some kv.2 else InstructionMap.find rest key

/-- `instructionMap[key] = val`. -/
def InstructionMap.insert (m : InstructionMap) (key : Nat) (val : Instruction) : InstructionMap :=
  match m with
  | [] => [(key, val)]
  | kv :: rest => if kv.1 = key then (key, val) :: rest else kv :: InstructionMap.insert rest key val

/-- `instructionMap[key]`, which default constructs a missing entry. -/
def InstructionMap.get (m : InstructionMap) (key : Nat) : Instruction :=
  (m.find key).getD Instruction.blank

/-- A member update through `instructionMap[key]`. -/
def InstructionMap.modify (m : InstructionMap) (key : Nat) (f : Instruction → Instruction) :
    InstructionMap :=
  m.insert key (f (m.get key))

/-- A pass `for (auto &[key, val] : instructionMap)`. -/
def InstructionMap.forEach (m : InstructionMap) (f : Instruction → Instruction) : InstructionMap :=
  m.map (fun kv => (kv.1, f kv.2))

/-- The table `default_address_modes`. -/
def default_address_modes : List AddrMode :=
  [.Xind, .zpg, .impl, .abs, .rel, .zpgX, .impl, .absX]

/-- The table `single_byte_instructions`. -/
def single_byte_instructions : List Mnemonic :=
  [.INX, .INY, .DEX, .DEY, .SEI, .CLD, .CLC, .CLI, .CLV,
   .BRK, .PLA, .PHA, .PLP, .PHP, .RTI, .SEC, .RTS, .TAY,
   .TAX, .TXA, .TYA, .TSX, .TXS, .SED, .NOP]

/-- The table `default_opcodes`. -/
def default_opcodes : List (List Mnemonic) :=
  [[.CLC, .SEC, .CLI, .SEI, .STY, .LDY, .CPY, .CPX],
   [.ORA, .AND, .EOR, .ADC, .STA, .LDA, .CMP, .SBC],
   [.ASL, .ROL, .LSR, .ROR, .STX, .LDX, .DEC, .INC]]

/-- The table `nondefault_opcodes`. -/
def nondefault_opcodes : List (Index × Mnemonic) :=
  [(⟨4, 4, 0⟩, .BCC), (⟨5, 4, 0⟩, .BCS), (⟨7, 4, 0⟩, .BEQ),
   (⟨6, 4, 0⟩, .BNE), (⟨1, 3, 0⟩, .BIT), (⟨1, 1, 0⟩, .BIT),
   (⟨1, 4, 0⟩, .BMI), (⟨0, 4, 0⟩, .BPL), (⟨0, 0, 0⟩, .BRK),
   (⟨2, 4, 0⟩, .BVC), (⟨3, 4, 0⟩, .BVS), (⟨6, 6, 0⟩, .CLD),
   (⟨5, 6, 0⟩, .CLV), (⟨6, 2, 2⟩, .DEX), (⟨4, 2, 0⟩, .DEY),
   (⟨7, 2, 0⟩, .INX), (⟨6, 2, 0⟩, .INY), (⟨1, 0, 0⟩, .JSR),
   (⟨7, 2, 2⟩, .NOP), (⟨3, 2, 0⟩, .PLA), (⟨2, 2, 0⟩, .PHA),
   (⟨0, 2, 0⟩, .PHP), (⟨1, 2, 0⟩, .PLP), (⟨2, 0, 0⟩, .RTI),
   (⟨3, 0, 0⟩, .RTS), (⟨7, 6, 0⟩, .SED), (⟨5, 2, 2⟩, .TAX),
   (⟨5, 2, 0⟩, .TAY), (⟨5, 6, 2⟩, .TSX), (⟨4, 2, 2⟩, .TXA),
   (⟨4, 6, 2⟩, .TXS), (⟨4, 6, 0⟩, .TYA), (⟨3, 3, 0⟩, .JMP),
   (⟨2, 3, 0⟩, .JMP)]

/-- The table `dead_cells`. -/
def dead_cells : List Index :=
  [⟨2, 1, 0⟩, ⟨2, 5, 0⟩, ⟨3, 7, 0⟩, ⟨6, 7, 0⟩, ⟨4, 4, 2⟩, ⟨4, 0, 2⟩, ⟨0, 1, 0⟩,
   ⟨4, 0, 0⟩, ⟨1, 5, 0⟩, ⟨0, 3, 0⟩, ⟨3, 1, 0⟩, ⟨4, 2, 1⟩, ⟨4, 7, 2⟩]

/-- Assignment to the member `addrmode` of the entry at an index. -/
def setMode (m : InstructionMap) (idx : Index) (mode : AddrMode) : InstructionMap :=
  m.modify idx.pack (fun i => { i with addrmode := mode })

/-- `toUnknown()` on the entry at an index. -/
def setUnknown (m : InstructionMap) (idx : Index) : InstructionMap :=
  m.modify idx.pack Instruction.toUnknown

/-- The loop body of `Instruction::setAddressModes`. -/
def setAddressModesRow (m : InstructionMap) (a : Nat) : InstructionMap :=
  let m := setMode m ⟨a, 2, 1⟩ .imm
  let m := setMode m ⟨a, 6, 1⟩ .absY
  let m := if a > 4 then setMode m ⟨a, 0, 0⟩ .imm else m
  let m := if a < 4 then setMode m ⟨a, 2, 2⟩ .A else m
  let m := setUnknown m ⟨a, 4, 2⟩
  let m :=
    if a ≠ 5 then
      let m := setUnknown m ⟨a, 0, 2⟩
      let m := setUnknown m ⟨a, 7, 0⟩
      if a ≠ 4 then setUnknown (setUnknown m ⟨a, 6, 2⟩) ⟨a, 5, 0⟩ else m
    else m
  setMode m ⟨a, 4, 1⟩ .indY

/-- `Instruction::setAddressModes`. -/
def setAddressModes (m : InstructionMap) : InstructionMap :=
  let m := setMode m ⟨1, 0, 0⟩ .abs
  let m := setMode m ⟨5, 0, 2⟩ .imm
  let m := setMode m ⟨0, 0, 0⟩ .impl
  let m := setMode m ⟨3, 0, 0⟩ .impl
  let m := setMode m ⟨2, 0, 0⟩ .impl
  let m := setMode m ⟨3, 3, 0⟩ .ind
  let m := setMode m ⟨3, 3, 0⟩ .ind
  let m := setMode m ⟨4, 5, 2⟩ .zpgY
  let m := setMode m ⟨5, 5, 2⟩ .zpgY
  let m := setMode m ⟨5, 7, 2⟩ .absY
  (List.range TABLE_SIZE.a).foldl setAddressModesRow m

/-- The lambda `getExtraCycles` of `Instruction::setCycleCounts`. -/
def getExtraCycles (addrmode : AddrMode) : Nat :=
  if addrmode = .zpg then 1
  else if addrmode = .abs ∨ addrmode = .absX ∨ addrmode = .absY ∨ addrmode = .zpgX ∨
      addrmode = .zpgY then 2
  else if addrmode = .Xind then 4
  else if addrmode = .indY then 3
  else if addrmode = .ind then 4
  else 0

/-- The macro `setCycles`. -/
def setCycles (val : Instruction) (op : Mnemonic) (cyc : Nat) : Instruction :=
  if val.opcode = op then { val with cycles := cyc } else val

/-- The loop body of `Instruction::setCycleCounts`. -/
def setCycleCountsEntry (val : Instruction) : Instruction :=
  let val :=
    if val.opcode = .INC ∨ val.opcode = .DEC then
      let val := if val.addrmode = .imm then { val with cycles := 2 } else { val with cycles := 4 }
      if val.addrmode = .absX then { val with cycles := u8 (val.cycles + 1) } else val
    else val
  let val :=
    if val.opcode = .LSR ∨ val.opcode = .ASL ∨ val.opcode = .ROR ∨ val.opcode = .ROL then
      let val :=
        if val.addrmode ≠ .imm ∧ val.addrmode ≠ .impl ∧ val.addrmode ≠ .A then
          { val with cycles := 4 }
        else val
      if val.addrmode = .absX then { val with cycles := u8 (val.cycles + 1) } else val
    else val
  let val := if val.opcode = .JMP then { val with cycles := 1 } else val
  let val := { val with cycles := u8 (val.cycles + getExtraCycles val.addrmode) }
  let val := setCycles val .JSR 6
  let val := setCycles val .BRK 7
  let val := setCycles val .PHP 3
  let val := setCycles val .PHA 3
  let val := setCycles val .PLA 4
  let val := setCycles val .PLP 4
  let val := setCycles val .RTI 6
  let val := setCycles val .RTS 6
  let val :=
    if val.opcode = .STA ∧ val.addrmode = .indY then { val with cycles := 6 } else val
  if val.opcode = .STA ∧ (val.addrmode = .absY ∨ val.addrmode = .absX) then
    { val with cycles := 5 }
  else val

/-- `Instruction::setCycleCounts`. -/
def setCycleCounts (m : InstructionMap) : InstructionMap := m.forEach setCycleCountsEntry

/-- The population loop of `Cpu6502::createInstructionSet`. -/
def populate : InstructionMap :=
  (List.range TABLE_SIZE.c).foldl
    (fun m c =>
      (List.range TABLE_SIZE.b).foldl
        (fun m b =>
          (List.range TABLE_SIZE.a).foldl
            (fun m a =>
              let op := Index.pack ⟨a, b, c⟩
              m.insert op
                { opcode := (default_opcodes.getD c []).getD a .EMPTY
                  addrmode := default_address_modes.getD b .EMPTY
                  size := 2
                  cycles := 2
                  opByte := op
                  callback := some .UNK
                  addrmodeCallback := some .UNK
                  implied := false })
            m)
        m)
    []

/-- The pass `sizes` of `Cpu6502::createInstructionSet`. -/
def sizeEntry (val : Instruction) : Instruction :=
  let val := if val.opcode ∈ single_byte_instructions then { val with size := 1 } else val
  let val :=
    if val.addrmode = .abs ∨ val.addrmode = .absX ∨ val.addrmode = .absY then
      { val with size := u8 (val.size + 1) }
    else val
  if val.addrmode = .A then { val with size := u8 (val.size + 255), addrmode := .impl } else val

/-- The keys of `instrCallbacks`. -/
def instrCallbackKeys (op : Mnemonic) : Bool := op ≠ .EMPTY

/-- The keys of `addrModeCallbacks`. -/
def addrModeCallbackKeys (mode : AddrMode) : Bool := mode ≠ .EMPTY ∧ mode ≠ .A

/-- The pass `instruction implementations` of `Cpu6502::createInstructionSet`. -/
def implementEntry (val : Instruction) : Instruction :=
  let val := if instrCallbackKeys val.opcode then { val with callback := some val.opcode } else val
  if addrModeCallbackKeys val.addrmode then { val with addrmodeCallback := some val.addrmode }
  else val

/-- The pass that sets `implied`. -/
def impliedEntry (val : Instruction) : Instruction :=
  if val.addrmode = .impl then { val with implied := true } else val

/-- The pass `unknown instructions` of `Cpu6502::createInstructionSet`. -/
def deadCell (m : InstructionMap) (i : Index) : InstructionMap :=
  let m := m.modify i.pack Instruction.toUnknown
  let m := m.modify i.pack (fun v => { v with callback := some .NOP })
  m.modify i.pack (fun v => { v with addrmodeCallback := some .imm })

/-- `Cpu6502::createInstructionSet`: the content of `instructionMap`. -/
def createInstructionSet : InstructionMap :=
  let m := populate
  let m :=
    nondefault_opcodes.foldl (fun m kv => m.modify kv.1.pack (fun i => { i with opcode := kv.2 })) m
  let m := setAddressModes m
  let m := m.forEach sizeEntry
  let m := m.forEach implementEntry
  let m := setCycleCounts m
  let m := m.forEach impliedEntry
  dead_cells.foldl deadCell m

/-- The member `instructionMap` after `NesBus::init`. -/
def instructionMap : InstructionMap := createInstructionSet

/-! ## CPU and bus state (`cpu.hpp`, `bus.hpp`) -/

/-- `Cpu6502::Registers`. -/
structure Registers where
  A : Nat
  P : Nat
  X : Nat
  Y : Nat
  S : Nat
  PC : Nat

/-- Bit numbers of `enum NES_STATUS`. -/
def NES_CARRY : Nat := 0

/-- Bit 1 of the status register. -/
def NES_ZERO : Nat := 1

/-- Bit 2 of the status register. -/
def NES_INTERRUPT : Nat := 2

/-- Bit 3 of the status register. -/
def NES_DECIMAL : Nat := 3

/-- Bit 4 of the status register. -/
def NES_BFLAG : Nat := 4

/-- Bit 5 of the status register. -/
def NES_UNUSED : Nat := 5

/-- Bit 6 of the status register. -/
def NES_OVERFLOW : Nat := 6

/-- Bit 7 of the status register. -/
def NES_NEGATIVE : Nat := 7

/-- `Cpu6502::Registers::reset`. -/
def Registers.reset (r : Registers) : Registers :=
  { r with A := 0, X := 0, Y := 0, S := 0xfd, P := 1 <<< NES_UNUSED }

/-- `Cpu6502` without the members that point to or are shared with the bus. -/
structure Cpu6502 where
  registers : Registers
  inputAlu : Nat
  opcode : Nat
  temp : Nat
  absoluteAddress : Nat
  relativeAddress : Nat
  cycles : Nat
  cycleCount : Nat

/-- `NesBus::DmaInfo`. -/
structure DmaInfo where
  page : Nat
  addr : Nat
  data : Nat
  dummy : Bool
  transfer : Bool

/-- `NesBus`; the cartridge behind `rom` is the one the PPU is connected to. -/
structure NesBus where
  DMA : DmaInfo
  systemClockCount : Nat
  memory : Nat → Nat
  cpu : Cpu6502
  apu : APU
  ppu : Ppu2C02
  rom : NesRom
  controller : Nat → Nat
  controller_state : Nat → Nat

/-- `NesBus::writeCpu`. -/
def NesBus.writeCpu (b : NesBus) (addr data : Nat) : NesBus :=
  let w := b.rom.cpuWrite addr data
  let b := { b with rom := w.2 }
  if w.1 then b
  else if addr ≤ 0x1FFF then { b with memory := store b.memory (addr &&& 0x07FF) data }
  else if addr ≥ 0x2000 ∧ addr ≤ 0x3FFF then
    let r := b.ppu.cpuWrite b.rom (addr &&& 0x0007) data
    { b with ppu := r.1, rom := r.2 }
  else if (addr ≥ 0x4000 ∧ addr ≤ 0x4013) ∨ addr = 0x4015 then
    { b with apu := b.apu.cpuWrite addr data }
  else if addr = 0x4014 then
    { b with DMA := { b.DMA with page := data, addr := 0x00, transfer := true } }
  else if addr ≥ 0x4016 ∧ addr ≤ 0x4017 then
    { b with controller_state :=
        store b.controller_state (addr &&& 0x0001) (b.controller (addr &&& 0x0001)) }
  else b

/-- `NesBus::readCpu`: the byte read (a `uint8_t`) and the bus after the read. -/
def NesBus.readCpu (b : NesBus) (addr : Nat) (readOnly : Bool) : Nat × NesBus :=
  let data := 0
  let r := b.rom.cpuRead addr data
  if r.1 then (u8 r.2, b)
  else if addr ≤ 0x1FFF then (u8 (b.memory (addr &&& 0x07FF)), b)
  else if addr ≤ 0x3FFF then
    let q := b.ppu.cpuRead b.rom (addr &&& 0x0007) readOnly
    (u8 q.1, { b with ppu := q.2 })
  else if addr = 0x4015 then (u8 (b.apu.cpuRead addr), b)
  else if addr ≥ 0x4016 ∧ addr ≤ 0x4017 then
    let i := addr &&& 0x0001
    (ofBool (decide (b.controller_state i &&& 0x80 > 0)),
      { b with controller_state := store b.controller_state i (u8 (b.controller_state i <<< 1)) })
  else (data, b)

/-- `Cpu6502::read`. -/
def Cpu6502.read (b : NesBus) (addr : Nat) : Nat × NesBus := b.readCpu addr false

/-- `Cpu6502::write`; the argument is converted to `uint8_t`. -/
def Cpu6502.write (b : NesBus) (addr data : Nat) : NesBus := b.writeCpu addr (u8 data)

/-- Update of the CPU registers inside the bus. -/
def NesBus.setRegs (b : NesBus) (r : Registers) : NesBus :=
  { b with cpu := { b.cpu with registers := r } }

/-- The CPU registers. -/
def NesBus.regs (b : NesBus) : Registers := b.cpu.registers

/-- `Cpu6502::setStatus`. -/
def Cpu6502.setStatus (b : NesBus) (status : Nat) (val : Bool) : NesBus :=
  b.setRegs { b.regs with P := setBitfield b.regs.P status 1 (ofBool val) }

/-- `Cpu6502::getStatus`. -/
def Cpu6502.getStatus (b : NesBus) (status : Nat) : Bool := bitfield b.regs.P status 1 = 1

/-- Assignment to `registers.PC`. -/
def NesBus.setPC (b : NesBus) (pc : Nat) : NesBus := b.setRegs { b.regs with PC := pc }

/-- Assignment to `registers.S`. -/
def NesBus.setS (b : NesBus) (x : Nat) : NesBus := b.setRegs { b.regs with S := x }

/-- Assignment to `registers.A`. -/
def NesBus.setA (b : NesBus) (x : Nat) : NesBus := b.setRegs { b.regs with A := x }

/-- Assignment to `registers.X`. -/
def NesBus.setX (b : NesBus) (x : Nat) : NesBus := b.setRegs { b.regs with X := x }

/-- Assignment to `registers.Y`. -/
def NesBus.setY (b : NesBus) (x : Nat) : NesBus := b.setRegs { b.regs with Y := x }

/-- Assignment to `registers.P`. -/
def NesBus.setP (b : NesBus) (x : Nat) : NesBus := b.setRegs { b.regs with P := x }

/-- Assignment to `temp`. -/
def NesBus.setTemp (b : NesBus) (x : Nat) : NesBus := { b with cpu := { b.cpu with temp := x } }

/-- Assignment to `absoluteAddress`. -/
def NesBus.setAbs (b : NesBus) (x : Nat) : NesBus :=
  { b with cpu := { b.cpu with absoluteAddress := x } }

/-- Assignment to `cycles`. -/
def NesBus.setCycles (b : NesBus) (x : Nat) : NesBus := { b with cpu := { b.cpu with cycles := x } }

/-- `read(registers.PC++)`. -/
def Cpu6502.readPC (b : NesBus) : Nat × NesBus :=
  let pc := b.regs.PC
  Cpu6502.read (b.setPC (u16 (pc + 1))) pc

/-- `write(0x0100 + registers.S--, data)`. -/
def Cpu6502.push (b : NesBus) (data : Nat) : NesBus :=
  let s := b.regs.S
  Cpu6502.write (b.setS (u8 (s + 255))) (0x0100 + s) data

/-- `read(0x0100 + (++registers.S))`. -/
def Cpu6502.pull (b : NesBus) : Nat × NesBus :=
  let b := b.setS (u8 (b.regs.S + 1))
  Cpu6502.read b (0x0100 + b.regs.S)

/-- `Cpu6502::reset`. -/
def Cpu6502.reset (b : NesBus) : NesBus :=
  let b := b.setAbs 0xFFFC
  let lo := Cpu6502.read b b.cpu.absoluteAddress
  let hi := Cpu6502.read lo.2 (u16 (lo.2.cpu.absoluteAddress + 1))
  let b := hi.2.setPC (u16 ((hi.1 <<< 8) ||| lo.1))
  let b := b.setRegs b.regs.reset
  { b with cpu := { b.cpu with
      inputAlu := 0, relativeAddress := 0, absoluteAddress := 0, cycleCount := 0, cycles := 8 } }

/-- `Cpu6502::interrupt`. -/
def Cpu6502.interrupt (b : NesBus) (pcAddress : Nat) : NesBus :=
  let b := Cpu6502.push b ((b.regs.PC >>> 8) &&& 0x00ff)
  let b := Cpu6502.push b (b.regs.PC &&& 0x00ff)
  let b := Cpu6502.setStatus b NES_BFLAG false
  let b := Cpu6502.setStatus b NES_UNUSED true
  let b := Cpu6502.setStatus b NES_INTERRUPT true
  let b := Cpu6502.push b b.regs.P
  let b := b.setAbs pcAddress
  let lo := Cpu6502.read b b.cpu.absoluteAddress
  let hi := Cpu6502.read lo.2 (u16 (lo.2.cpu.absoluteAddress + 1))
  hi.2.setPC (u16 ((hi.1 <<< 8) ||| lo.1))

/-- `Cpu6502::interruptRequest`. -/
def Cpu6502.interruptRequest (b : NesBus) : NesBus :=
  if Cpu6502.getStatus b NES_INTERRUPT = false then (Cpu6502.interrupt b 0xFFFE).setCycles 7
  else b

/-- `Cpu6502::nonMaskableInterrupt`. -/
def Cpu6502.nonMaskableInterrupt (b : NesBus) : NesBus := (Cpu6502.interrupt b 0xFFFA).setCycles 8

/-- `Cpu6502::fetch`. -/
def Cpu6502.fetch (b : NesBus) : NesBus :=
  if ¬ (instructionMap.get b.cpu.opcode).implied then
    let r := Cpu6502.read b b.cpu.absoluteAddress
    { r.2 with cpu := { r.2.cpu with inputAlu := r.1 } }
  else b

/-- The flag updates shared by loads, transfers and logic: `NES_ZERO` and `NES_NEGATIVE`. -/
def Cpu6502.setZN (b : NesBus) (x : Nat) : NesBus :=
  let b := Cpu6502.setStatus b NES_ZERO (decide (x = 0))
  Cpu6502.setStatus b NES_NEGATIVE (toBool (x &&& 0x80))

/-- The flag updates on `temp`: `(temp & 0x00FF) == 0` and `temp & 0x0080`. -/
def Cpu6502.setZNTemp (b : NesBus) : NesBus :=
  let b := Cpu6502.setStatus b NES_ZERO (decide (b.cpu.temp &&& 0x00FF = 0))
  Cpu6502.setStatus b NES_NEGATIVE (toBool (b.cpu.temp &&& 0x0080))

/-- `Cpu6502::CMP_Generic`. -/
def Cpu6502.CMP_Generic (b : NesBus) (reg : Nat) : NesBus :=
  let b := Cpu6502.fetch b
  let b := b.setTemp (i16 ((reg : Int) - (b.cpu.inputAlu : Int)))
  let b := Cpu6502.setStatus b NES_CARRY (decide (reg ≥ b.cpu.inputAlu))
  Cpu6502.setZNTemp b

/-- `Cpu6502::setRotateRegisters`. -/
def Cpu6502.setRotateRegisters (b : NesBus) : NesBus :=
  let b := Cpu6502.setZNTemp b
  if (instructionMap.get b.cpu.opcode).addrmode = .impl then b.setA (b.cpu.temp &&& 0x00FF)
  else Cpu6502.write b b.cpu.absoluteAddress (b.cpu.temp &&& 0x00FF)

/-- The common tail of `LSR` and `ASL`. -/
def Cpu6502.storeShift (b : NesBus) : NesBus :=
  if (instructionMap.get b.cpu.opcode).implied then b.setA (b.cpu.temp &&& 0x00FF)
  else Cpu6502.write b b.cpu.absoluteAddress (b.cpu.temp &&& 0x00FF)

/-- `Cpu6502::branch`. -/
def Cpu6502.branch (b : NesBus) : NesBus :=
  let b := b.setCycles (u16 (b.cpu.cycles + 1))
  let b := b.setAbs (u16 (b.regs.PC + b.cpu.relativeAddress))
  let b :=
    if b.cpu.absoluteAddress &&& 0xFF00 ≠ b.regs.PC &&& 0xFF00 then
      b.setCycles (u16 (b.cpu.cycles + 1))
    else b
  b.setPC b.cpu.absoluteAddress

/-- The operator `~` on a 32 bit `int` holding a non-negative value, as bits. -/
def bnot (x : Nat) : Nat := 0xFFFFFFFF - x

/-- `Cpu6502::LD_Generic`, returning the new value of the register. -/
def Cpu6502.LD_Generic (b : NesBus) : Nat × NesBus :=
  let b := Cpu6502.fetch b
  (b.cpu.inputAlu, Cpu6502.setZN b b.cpu.inputAlu)

/-- The callback `ADC`. -/
def Cpu6502.ADC (b : NesBus) : Nat × NesBus :=
  let b := Cpu6502.fetch b
  let a := b.regs.A
  let m := b.cpu.inputAlu
  let b := b.setTemp (u16 (a + m + ofBool (Cpu6502.getStatus b NES_CARRY)))
  let temp := b.cpu.temp
  let b := Cpu6502.setStatus b NES_CARRY (decide (temp > 255))
  let b := Cpu6502.setStatus b NES_ZERO (decide (temp &&& 0x00FF = 0))
  let b := Cpu6502.setStatus b NES_OVERFLOW (toBool ((bnot (a ^^^ m) &&& (a ^^^ temp)) &&& 0x0080))
  let b := Cpu6502.setStatus b NES_NEGATIVE (toBool (temp &&& 0x80))
  (1, b.setA (temp &&& 0x00FF))

/-- The callback `SBC`. -/
def Cpu6502.SBC (b : NesBus) : Nat × NesBus :=
  let b := Cpu6502.fetch b
  let a := b.regs.A
  let val := b.cpu.inputAlu ^^^ 0x00FF
  let b := b.setTemp (u16 (a + val + ofBool (Cpu6502.getStatus b NES_CARRY)))
  let temp := b.cpu.temp
  let b := Cpu6502.setStatus b NES_CARRY (toBool (temp &&& 0xFF00))
  let b := Cpu6502.setStatus b NES_ZERO (decide (temp &&& 0x00FF = 0))
  let b := Cpu6502.setStatus b NES_OVERFLOW (toBool ((a ^^^ temp) &&& (temp ^^^ val) &&& 0x0080))
  let b := Cpu6502.setStatus b NES_NEGATIVE (toBool (temp &&& 0x80))
  (1, b.setA (temp &&& 0x00FF))

/-- The callback `LSR`. -/
def Cpu6502.LSR (b : NesBus) : Nat × NesBus :=
  let b := Cpu6502.fetch b
  let b := Cpu6502.setStatus b NES_CARRY (toBool (b.cpu.inputAlu &&& 0x0001))
  let b := b.setTemp (b.cpu.inputAlu >>> 1)
  let b := Cpu6502.setStatus b NES_ZERO (decide (b.cpu.temp &&& 0x00FF = 0x0000))
  let b := Cpu6502.setStatus b NES_NEGATIVE (toBool (b.cpu.temp &&& 0x0080))
  (0, Cpu6502.storeShift b)

/-- The callback `ASL`. -/
def Cpu6502.ASL (b : NesBus) : Nat × NesBus :=
  let b := Cpu6502.fetch b
  let b := b.setTemp (u16 (b.cpu.inputAlu <<< 1))
  let b := Cpu6502.setStatus b NES_CARRY (decide (b.cpu.temp &&& 0xFF00 > 0))
  let b := Cpu6502.setStatus b NES_ZERO (decide (b.cpu.temp &&& 0x00FF = 0x0000))
  let b := Cpu6502.setStatus b NES_NEGATIVE (toBool (b.cpu.temp &&& 0x0080))
  (0, Cpu6502.storeShift b)

/-- The callback `ROL`. -/
def Cpu6502.ROL (b : NesBus) : Nat × NesBus :=
  let b := Cpu6502.fetch b
  let b := b.setTemp (ofBool (Cpu6502.getStatus b NES_CARRY) ||| u16 (b.cpu.inputAlu <<< 1))
  let b := Cpu6502.setStatus b NES_CARRY (toBool (b.cpu.temp &&& 0xFF00))
  (0, Cpu6502.setRotateRegisters b)

/-- The callback `ROR`. -/
def Cpu6502.ROR (b : NesBus) : Nat × NesBus :=
  let b := Cpu6502.fetch b
  let b := b.setTemp
    (u16 (ofBool (Cpu6502.getStatus b NES_CARRY) <<< 7) ||| (b.cpu.inputAlu >>> 1))
  let b := Cpu6502.setStatus b NES_CARRY (toBool (b.cpu.inputAlu &&& 0x0001))
  (0, Cpu6502.setRotateRegisters b)

/-- The callback `RTI`. -/
def Cpu6502.RTI (b : NesBus) : Nat × NesBus :=
  let r := Cpu6502.pull b
  let b := r.2.setP r.1
  let b := b.setP (b.regs.P &&& (0xFF ^^^ (1 <<< NES_BFLAG)))
  let b := b.setP (b.regs.P &&& (0xFF ^^^ (1 <<< NES_UNUSED)))
  let lo := Cpu6502.pull b
  let b := lo.2.setPC lo.1
  let hi := Cpu6502.pull b
  (0, hi.2.setPC (hi.2.regs.PC ||| (hi.1 <<< 8)))

/-- The callbacks `DEC` (`d = -1`) and `INC` (`d = 1`). -/
def Cpu6502.incDec (b : NesBus) (d : Int) : Nat × NesBus :=
  let b := Cpu6502.fetch b
  let b := b.setTemp (i16 ((b.cpu.inputAlu : Int) + d))
  let b := Cpu6502.write b b.cpu.absoluteAddress (b.cpu.temp &&& 0x00FF)
  (0, Cpu6502.setZNTemp b)

/-- The callback `BIT`. -/
def Cpu6502.BIT (b : NesBus) : Nat × NesBus :=
  let b := Cpu6502.fetch b
  let b := b.setTemp (b.regs.A &&& b.cpu.inputAlu)
  let b := Cpu6502.setStatus b NES_ZERO (decide (b.cpu.temp &&& 0x00FF = 0))
  let b := Cpu6502.setStatus b NES_NEGATIVE (toBool (b.cpu.inputAlu &&& (1 <<< 7)))
  (0, Cpu6502.setStatus b NES_OVERFLOW (toBool (b.cpu.inputAlu &&& (1 <<< 6))))

/-- The callback `BRK`.  The two vector reads are taken left to right. -/
def Cpu6502.BRK (b : NesBus) : Nat × NesBus :=
  let b := b.setPC (u16 (b.regs.PC + 1))
  let b := Cpu6502.setStatus b NES_INTERRUPT true
  let b := Cpu6502.push b ((b.regs.PC >>> 8) &&& 0x00FF)
  let b := Cpu6502.push b (b.regs.PC &&& 0x00FF)
  let b := Cpu6502.setStatus b NES_BFLAG true
  let b := Cpu6502.push b b.regs.P
  let b := Cpu6502.setStatus b NES_BFLAG false
  let lo := Cpu6502.read b 0xFFFE
  let hi := Cpu6502.read lo.2 0xFFFF
  (0, hi.2.setPC (lo.1 ||| (hi.1 <<< 8)))

/-- The callback `JSR`. -/
def Cpu6502.JSR (b : NesBus) : Nat × NesBus :=
  let b := b.setPC (u16 (b.regs.PC + 65535))
  let b := Cpu6502.push b ((b.regs.PC >>> 8) &&& 0x00FF)
  let b := Cpu6502.push b (b.regs.PC &&& 0x00FF)
  (0, b.setPC b.cpu.absoluteAddress)

/-- The callback `PHP`. -/
def Cpu6502.PHP (b : NesBus) : Nat × NesBus :=
  let b := Cpu6502.write b (0x0100 + b.regs.S) (b.regs.P ||| 16 ||| 32)
  let b := Cpu6502.setStatus b NES_BFLAG false
  let b := Cpu6502.setStatus b NES_UNUSED false
  (0, b.setS (u8 (b.regs.S + 255)))

/-- The callback `PLA`. -/
def Cpu6502.PLA (b : NesBus) : Nat × NesBus :=
  let r := Cpu6502.pull b
  let b := r.2.setA r.1
  (0, Cpu6502.setZN b b.regs.A)

/-- The callback `PLP`. -/
def Cpu6502.PLP (b : NesBus) : Nat × NesBus :=
  let r := Cpu6502.pull b
  (0, Cpu6502.setStatus (r.2.setP r.1) NES_UNUSED true)

/-- The callback `RTS`. -/
def Cpu6502.RTS (b : NesBus) : Nat × NesBus :=
  let lo := Cpu6502.pull b
  let b := lo.2.setPC lo.1
  let hi := Cpu6502.pull b
  let b := hi.2.setPC (hi.2.regs.PC ||| (hi.1 <<< 8))
  (0, b.setPC (u16 (b.regs.PC + 1)))

/-- The callback `NOP`. -/
def Cpu6502.NOP (b : NesBus) : Nat × NesBus :=
  if b.cpu.opcode = 0x1C ∨ b.cpu.opcode = 0x3C ∨ b.cpu.opcode = 0x5C ∨ b.cpu.opcode = 0x7C ∨
      b.cpu.opcode = 0xDC ∨ b.cpu.opcode = 0xFC then (1, b)
  else (0, b)

/-- The accumulator logic callbacks `ORA`, `EOR`, `AND`. -/
def Cpu6502.logic (b : NesBus) (f : Nat → Nat → Nat) : Nat × NesBus :=
  let b := Cpu6502.fetch b
  let b := b.setA (f b.regs.A b.cpu.inputAlu)
  (1, Cpu6502.setZN b b.regs.A)

/-- A conditional branch callback: `if (getStatus(flag) == want) branch();`. -/
def Cpu6502.branchIf (b : NesBus) (flag : Nat) (want : Bool) : Nat × NesBus :=
  if Cpu6502.getStatus b flag = want then (0, Cpu6502.branch b) else (0, b)

/-- The map `instrCallbacks`: the callback stored under a key, with its return value. -/
def instrCallbacks (op : Mnemonic) (b : NesBus) : Nat × NesBus :=
  match op with
  | .ADC => Cpu6502.ADC b
  | .SBC => Cpu6502.SBC b
  | .LDA => let r := Cpu6502.LD_Generic b; (1, r.2.setA r.1)
  | .LDX => let r := Cpu6502.LD_Generic b; (1, r.2.setX r.1)
  | .LDY => let r := Cpu6502.LD_Generic b; (1, r.2.setY r.1)
  | .STA => (0, Cpu6502.write b b.cpu.absoluteAddress b.regs.A)
  | .STX => (0, Cpu6502.write b b.cpu.absoluteAddress b.regs.X)
  | .STY => (0, Cpu6502.write b b.cpu.absoluteAddress b.regs.Y)
  | .SEI => (0, Cpu6502.setStatus b NES_INTERRUPT true)
  | .CLI => (0, Cpu6502.setStatus b NES_INTERRUPT false)
  | .SEC => (0, Cpu6502.setStatus b NES_CARRY true)
  | .CLC => (0, Cpu6502.setStatus b NES_CARRY false)
  | .SED => (0, Cpu6502.setStatus b NES_DECIMAL true)
  | .CLD => (0, Cpu6502.setStatus b NES_DECIMAL false)
  | .CLV => (0, Cpu6502.setStatus b NES_OVERFLOW false)
  | .LSR => Cpu6502.LSR b
  | .ASL => Cpu6502.ASL b
  | .ROL => Cpu6502.ROL b
  | .ROR => Cpu6502.ROR b
  | .RTI => Cpu6502.RTI b
  | .CMP => (1, Cpu6502.CMP_Generic b b.regs.A)
  | .CPX => (0, Cpu6502.CMP_Generic b b.regs.X)
  | .CPY => (0, Cpu6502.CMP_Generic b b.regs.Y)
  | .DEC => Cpu6502.incDec b (-1)
  | .TXS => (0, b.setS b.regs.X)
  | .TSX => let b := b.setX b.regs.S; (0, Cpu6502.setZN b b.regs.X)
  | .TYA => let b := b.setA b.regs.Y; (0, Cpu6502.setZN b b.regs.A)
  | .TXA => let b := b.setA b.regs.X; (0, Cpu6502.setZN b b.regs.A)
  | .TAX => let b := b.setX b.regs.A; (0, Cpu6502.setZN b b.regs.X)
  | .TAY => let b := b.setY b.regs.A; (0, Cpu6502.setZN b b.regs.Y)
  | .BCS => Cpu6502.branchIf b NES_CARRY true
  | .BCC => Cpu6502.branchIf b NES_CARRY false
  | .BEQ => Cpu6502.branchIf b NES_ZERO true
  | .BNE => Cpu6502.branchIf b NES_ZERO false
  | .BPL => Cpu6502.branchIf b NES_NEGATIVE false
  | .BMI => Cpu6502.branchIf b NES_NEGATIVE true
  | .BVS => Cpu6502.branchIf b NES_OVERFLOW true
  | .BVC => Cpu6502.branchIf b NES_OVERFLOW false
  | .BIT => Cpu6502.BIT b
  | .BRK => Cpu6502.BRK b
  | .DEX => let b := b.setX (u8 (b.regs.X + 255)); (0, Cpu6502.setZN b b.regs.X)
  | .DEY => let b := b.setY (u8 (b.regs.Y + 255)); (0, Cpu6502.setZN b b.regs.Y)
  | .INC => Cpu6502.incDec b 1
  | .INY => let b := b.setY (u8 (b.regs.Y + 1)); (0, Cpu6502.setZN b b.regs.Y)
  | .INX => let b := b.setX (u8 (b.regs.X + 1)); (0, Cpu6502.setZN b b.regs.X)
  | .JMP => (0, b.setPC b.cpu.absoluteAddress)
  | .JSR => Cpu6502.JSR b
  | .ORA => Cpu6502.logic b (fun x y => x ||| y)
  | .EOR => Cpu6502.logic b (fun x y => x ^^^ y)
  | .PHP => Cpu6502.PHP b
  | .PHA => (0, Cpu6502.push b b.regs.A)
  | .PLA => Cpu6502.PLA b
  | .PLP => Cpu6502.PLP b
  | .RTS => Cpu6502.RTS b
  | .AND => Cpu6502.logic b (fun x y => x &&& y)
  | .NOP => Cpu6502.NOP b
  | .UNK => (0, b)
  | .EMPTY => (0, b)

/-- The two operand reads `lo = read(PC++); hi = read(PC++)`. -/
def Cpu6502.readWord (b : NesBus) : Nat × Nat × NesBus :=
  let lo := Cpu6502.readPC b
  let hi := Cpu6502.readPC lo.2
  (lo.1, hi.1, hi.2)

/-- The callbacks `abs,X`, `abs,Y` with the index register value `r`. -/
def Cpu6502.absIndexed (b : NesBus) (r : Nat) : Nat × NesBus :=
  let w := Cpu6502.readWord b
  let b := w.2.2.setAbs (u16 ((w.2.1 <<< 8) ||| w.1))
  let b := b.setAbs (u16 (b.cpu.absoluteAddress + r))
  if b.cpu.absoluteAddress &&& 0xFF00 ≠ w.2.1 <<< 8 then (1, b) else (0, b)

/-- The callback `ind`.  In each branch the two reads through the pointer are
taken left to right as written: the high byte first. -/
def Cpu6502.ind (b : NesBus) : Nat × NesBus :=
  let w := Cpu6502.readWord b
  let lo := w.1
  let ptr := u16 ((w.2.1 <<< 8) ||| lo)
  let b := w.2.2
  if lo = 0x00FF then
    let h := Cpu6502.read b (ptr &&& 0xFF00)
    let l := Cpu6502.read h.2 ptr
    (0, l.2.setAbs (u16 ((h.1 <<< 8) ||| l.1)))
  else
    let h := Cpu6502.read b (u16 (ptr + 1))
    let l := Cpu6502.read h.2 ptr
    (0, l.2.setAbs (u16 ((h.1 <<< 8) ||| l.1)))

/-- The callback `X,ind`. -/
def Cpu6502.Xind (b : NesBus) : Nat × NesBus :=
  let t := Cpu6502.readPC b
  let b := t.2
  let lo := Cpu6502.read b (u16 (t.1 + b.regs.X) &&& 0x00FF)
  let hi := Cpu6502.read lo.2 (u16 (t.1 + lo.2.regs.X + 1) &&& 0x00FF)
  (0, hi.2.setAbs (u16 ((hi.1 <<< 8) ||| lo.1)))

/-- The callback `ind,Y`. -/
def Cpu6502.indY (b : NesBus) : Nat × NesBus :=
  let t := Cpu6502.readPC b
  let lo := Cpu6502.read t.2 (t.1 &&& 0x00FF)
  let hi := Cpu6502.read lo.2 ((t.1 + 1) &&& 0x00FF)
  let b := hi.2.setAbs (u16 ((hi.1 <<< 8) ||| lo.1))
  let b := b.setAbs (u16 (b.cpu.absoluteAddress + b.regs.Y))
  if b.cpu.absoluteAddress &&& 0xFF00 ≠ hi.1 <<< 8 then (1, b) else (0, b)

/-- The map `addrModeCallbacks`: the callback stored under a key, with its return value. -/
def addrModeCallbacks (mode : AddrMode) (b : NesBus) : Nat × NesBus :=
  match mode with
  | .abs =>
    let w := Cpu6502.readWord b
    (0, w.2.2.setAbs (u16 ((w.2.1 <<< 8) ||| w.1)))
  | .absX => Cpu6502.absIndexed b b.regs.X
  | .absY => Cpu6502.absIndexed b b.regs.Y
  | .imm =>
    let pc := b.regs.PC
    (0, (b.setPC (u16 (pc + 1))).setAbs pc)
  | .impl => (0, { b with cpu := { b.cpu with inputAlu := b.regs.A } })
  | .rel =>
    let r := Cpu6502.readPC b
    let rel := if r.1 &&& 0x80 ≠ 0 then r.1 ||| 0xFF00 else r.1
    (0, { r.2 with cpu := { r.2.cpu with relativeAddress := rel } })
  | .zpg =>
    let r := Cpu6502.readPC b
    (0, r.2.setAbs (r.1 &&& 0x00FF))
  | .zpgX =>
    let r := Cpu6502.readPC b
    (0, r.2.setAbs ((r.1 + r.2.regs.X) &&& 0x00FF))
  | .zpgY =>
    let r := Cpu6502.readPC b
    (0, r.2.setAbs ((r.1 + r.2.regs.Y) &&& 0x00FF))
  | .ind => Cpu6502.ind b
  | .Xind => Cpu6502.Xind b
  | .indY => Cpu6502.indY b
  | .A => (0, b)
  | .UNK => (0, b)
  | .EMPTY => (0, b)

/-- A call of a callback member; calling an empty `std::function` does not
return, and no entry of `instructionMap` has one. -/
def callInstr (cb : Option Mnemonic) (b : NesBus) : Nat × NesBus :=
  match cb with
  | some op => instrCallbacks op b
  | none => (0, b)

/-- A call of an addressing mode callback member. -/
def callAddrMode (cb : Option AddrMode) (b : NesBus) : Nat × NesBus :=
  match cb with
  | some mode => addrModeCallbacks mode b
  | none => (0, b)

/-- The start of the body of `if (cycles == 0)` in `Cpu6502::clock`:
`opcode = read(registers.PC++); setStatus(NES_UNUSED, 1)`. -/
def Cpu6502.fetchOpcode (b : NesBus) : NesBus :=
  let r := Cpu6502.readPC b
  let b : NesBus := { r.2 with cpu := { r.2.cpu with opcode := r.1 } }
  Cpu6502.setStatus b NES_UNUSED true

/-- The start of the `else` branch of `Cpu6502::clock`:
`cycles = instr.cycles; extra_cycles = instr.addrmodeCallback()`. -/
def Cpu6502.fetchOperand (b : NesBus) : Nat × NesBus :=
  let instr := instructionMap.get b.cpu.opcode
  callAddrMode instr.addrmodeCallback (b.setCycles instr.cycles)

/-- The `else` branch of `Cpu6502::clock`: decode and execute. -/
def Cpu6502.execute (b : NesBus) : NesBus :=
  let instr := instructionMap.get b.cpu.opcode
  let am := Cpu6502.fetchOperand b
  let op := callInstr instr.callback am.2
  let extra_cycles := u8 am.1 &&& op.1
  let b := op.2
  let b := b.setCycles (u16 (b.cpu.cycles + extra_cycles))
  { b with cpu := { b.cpu with cycleCount := u32 (b.cpu.cycleCount + b.cpu.cycles) } }

/-- The body of `if (cycles == 0)` in `Cpu6502::clock`. -/
def Cpu6502.step (b : NesBus) : NesBus :=
  let b := Cpu6502.fetchOpcode b
  let idx := Index.unpack b.cpu.opcode
  let b := if idx.c > 2 then b else Cpu6502.execute b
  Cpu6502.setStatus b NES_UNUSED true

/-- `Cpu6502::clock`. -/
def Cpu6502.clock (b : NesBus) : NesBus :=
  let b := if b.cpu.cycles = 0 then Cpu6502.step b else b
  b.setCycles (u16 (b.cpu.cycles + 65535))

/-! ## Bus (`bus.hpp`) -/

/-- `NesBus::reset`. -/
def NesBus.reset (b : NesBus) : NesBus :=
  let b := { b with memory := memset b.memory 0 2048 }
  let b := { b with rom := b.rom.reset }
  let b := Cpu6502.reset b
  let b := { b with ppu := b.ppu.reset }
  { b with
    systemClockCount := 0
    DMA := { page := 0, addr := 0, data := 0, dummy := true, transfer := false } }

/-- The body of `if (DMA.transfer)` in `NesBus::clock`. -/
def NesBus.dmaStep (b : NesBus) : NesBus :=
  if b.DMA.dummy then
    if b.systemClockCount % 2 = 1 then { b with DMA := { b.DMA with dummy := false } } else b
  else if b.systemClockCount % 2 = 0 then
    let r := b.readCpu (u16 ((b.DMA.page <<< 8) ||| b.DMA.addr)) false
    { r.2 with DMA := { r.2.DMA with data := r.1 } }
  else
    let oam := store b.ppu.OAM.data b.DMA.addr b.DMA.data
    let b := { b with
      ppu := { b.ppu with OAM := { b.ppu.OAM with data := oam } }
      DMA := { b.DMA with addr := u8 (b.DMA.addr + 1) } }
    if b.DMA.addr = 0 then { b with DMA := { b.DMA with transfer := false, dummy := true } }
    else b

/-- The part of `NesBus::clock` guarded by `systemClockCount % 3 == 0`. -/
def NesBus.cpuSlot (b : NesBus) : NesBus :=
  if b.DMA.transfer then b.dmaStep else Cpu6502.clock b

/-- The interrupt delivery at the end of `NesBus::clock`. -/
def NesBus.interrupts (b : NesBus) : NesBus :=
  let b :=
    if b.ppu.nmi then Cpu6502.nonMaskableInterrupt { b with ppu := { b.ppu with nmi := false } }
    else b
  if b.rom.mapper.irqState then
    Cpu6502.interruptRequest { b with rom := { b.rom with mapper := b.rom.mapper.irqClear } }
  else b

/-- The first two statements of `NesBus::clock`: `ppu.clock(); apu.clock();`. -/
def NesBus.clockUnits (b : NesBus) : NesBus :=
  let r := b.ppu.clock b.rom
  let b := { b with ppu := r.1, rom := r.2 }
  { b with apu := b.apu.clock }

/-- `NesBus::clock`, without the audio time accumulator and its result. -/
def NesBus.clock (b : NesBus) : NesBus :=
  let b := b.clockUnits
  let b := if b.systemClockCount % 3 = 0 then b.cpuSlot else b
  let b := b.interrupts
  { b with systemClockCount := u32 (b.systemClockCount + 1) }

/-! ## Save states (`NesBus::saveState`, `NesBus::loadState`)

The file is a list of bytes.  Every record is written field by field in
declaration order, little endian, as in the format table of the source;
padding bytes, whose content is indeterminate, are not represented. -/

/-- The object representation of an unsigned integer of `w` bytes. -/
def bytesLE : Nat → Nat → List Nat
  | 0, _ => []
  | w + 1, x => (x % 256) :: bytesLE w (x / 256)

/-- The unsigned integer with a given object representation. -/
def leValue : List Nat → Nat
  | [] => 0
  | b :: bs => b + 256 * leValue bs

/-- The bytes of an array of `n` bytes. -/
def arrayBytes (a : Nat → Nat) (n : Nat) : List Nat := (List.range n).map (fun i => u8 (a i))

/-- The array with given bytes. -/
def arrayOf (bs : List Nat) : Nat → Nat := fun i => bs.getD i 0

/-- The byte of a `bool`. -/
def boolBytes (b : Bool) : List Nat := [ofBool b]

/-- The `bool` with a given byte. -/
def boolOf (bs : List Nat) : Bool := leValue bs != 0

/-- The bytes of an `int16_t`. -/
def int16Bytes (x : Int) : List Nat := bytesLE 2 (i16 x)

/-- The `int16_t` with given bytes. -/
def int16Of (bs : List Nat) : Int :=
  let v := leValue bs
  if v ≥ 32768 then (v : Int) - 65536 else (v : Int)

/-- `stream.read(dst, n)`: the new bytes of the destination, whose bytes were
`old`, and the rest of the stream.  Where the stream ends early the
destination keeps its bytes, and every later read finds the stream empty. -/
def readBytes (st : List Nat) (n : Nat) (old : List Nat) : List Nat × List Nat :=
  (st.take n ++ old.drop st.length, st.drop n)

/-- The first `n` bytes of a buffer and the rest of it. -/
def cut (bs : List Nat) (n : Nat) : List Nat × List Nat := (bs.take n, bs.drop n)

/-- The bytes of a `NesRom::Header`. -/
def Header.bytes (h : Header) : List Nat :=
  arrayBytes h.nes 4 ++ bytesLE 1 h.prgSize ++ bytesLE 1 h.chrSize ++ bytesLE 1 h.flags6 ++
    bytesLE 1 h.flags7 ++ bytesLE 1 h.flags8 ++ bytesLE 1 h.flags9 ++ bytesLE 1 h.flags10 ++
    arrayBytes h.padding 5

/-- The `NesRom::Header` with given bytes. -/
def Header.ofBytes (bs : List Nat) : Header :=
  let nes := cut bs 4
  let prgSize := cut nes.2 1
  let chrSize := cut prgSize.2 1
  let flags6 := cut chrSize.2 1
  let flags7 := cut flags6.2 1
  let flags8 := cut flags7.2 1
  let flags9 := cut flags8.2 1
  let flags10 := cut flags9.2 1
  let padding := cut flags10.2 5
  { nes := arrayOf nes.1
    prgSize := leValue prgSize.1
    chrSize := leValue chrSize.1
    flags6 := leValue flags6.1
    flags7 := leValue flags7.1
    flags8 := leValue flags8.1
    flags9 := leValue flags9.1
    flags10 := leValue flags10.1
    padding := arrayOf padding.1 }

/-- `Mapper::size`, dispatched. -/
def Mapper.size (m : Mapper) : Nat :=
  match m.kind with
  | .m001 _ => 1 + 1 + 2 * 3 + 3 + 4 + STATIC_RAM_SIZE
  | _ => 2

/-- The bytes of a `Mapper001::BankSelect`. -/
def BankSelect.bytes (k : BankSelect) : List Nat := bytesLE 1 k.lo ++ bytesLE 1 k.hi ++ bytesLE 1 k.full

/-- The `Mapper001::BankSelect` with given bytes. -/
def BankSelect.ofBytes (bs : List Nat) : BankSelect :=
  let lo := cut bs 1
  let hi := cut lo.2 1
  let full := cut hi.2 1
  { lo := leValue lo.1, hi := leValue hi.1, full := leValue full.1 }

/-- `Mapper001::serialize`. -/
def Mapper001.serialize (prgBankCount chrBankCount : Nat) (s : Mapper001) : List Nat :=
  bytesLE 1 chrBankCount ++ bytesLE 1 prgBankCount ++ s.chrBankSelect.bytes ++
    s.prgBankSelect.bytes ++ bytesLE 1 s.load ++ bytesLE 1 s.loadCount ++ bytesLE 1 s.control ++
    bytesLE 4 s.mirrorMode ++ arrayBytes s.staticRam STATIC_RAM_SIZE

/-- `Mapper::serialize`, dispatched: `Mapper001::serialize` or the base class version. -/
def Mapper.serialize (m : Mapper) : List Nat :=
  match m.kind with
  | .m001 s => Mapper001.serialize m.prgBankCount m.chrBankCount s
  | _ => bytesLE 1 m.prgBankCount ++ bytesLE 1 m.chrBankCount

/-- `Mapper001::deserialize`: the two bank counts of the base class and the derived part. -/
def Mapper001.deserialize (buffer : List Nat) : Mapper :=
  let chrBankCount := cut buffer 1
  let prgBankCount := cut chrBankCount.2 1
  let chrBankSelect := cut prgBankCount.2 3
  let prgBankSelect := cut chrBankSelect.2 3
  let load := cut prgBankSelect.2 1
  let loadCount := cut load.2 1
  let control := cut loadCount.2 1
  let mirrorMode := cut control.2 4
  let staticRam := cut mirrorMode.2 STATIC_RAM_SIZE
  { chrBankCount := leValue chrBankCount.1
    prgBankCount := leValue prgBankCount.1
    kind := .m001
      { chrBankSelect := BankSelect.ofBytes chrBankSelect.1
        prgBankSelect := BankSelect.ofBytes prgBankSelect.1
        load := leValue load.1
        loadCount := leValue loadCount.1
        control := leValue control.1
        mirrorMode := leValue mirrorMode.1
        staticRam := arrayOf staticRam.1 } }

/-- `Mapper::deserialize`, dispatched. -/
def Mapper.deserialize (m : Mapper) (buffer : List Nat) : Mapper :=
  match m.kind with
  | .m001 _ => Mapper001.deserialize buffer
  | _ =>
    let prgBankCount := cut buffer 1
    let chrBankCount := cut prgBankCount.2 1
    { m with prgBankCount := leValue prgBankCount.1, chrBankCount := leValue chrBankCount.1 }

/-- The bytes of `cpu.registers`. -/
def Registers.bytes (r : Registers) : List Nat :=
  bytesLE 1 r.A ++ bytesLE 1 r.P ++ bytesLE 1 r.X ++ bytesLE 1 r.Y ++ bytesLE 1 r.S ++
    bytesLE 2 r.PC

/-- The `Cpu6502::Registers` with given bytes. -/
def Registers.ofBytes (bs : List Nat) : Registers :=
  let a := cut bs 1
  let p := cut a.2 1
  let x := cut p.2 1
  let y := cut x.2 1
  let s := cut y.2 1
  let pc := cut s.2 2
  { A := leValue a.1, P := leValue p.1, X := leValue x.1, Y := leValue y.1, S := leValue s.1,
    PC := leValue pc.1 }

/-- The bytes of `ppu.registers`. -/
def PpuRegisters.bytes (r : PpuRegisters) : List Nat :=
  bytesLE 1 r.STATUS ++ bytesLE 1 r.MASK ++ bytesLE 1 r.CTRL ++ bytesLE 2 r.v ++ bytesLE 2 r.t ++
    bytesLE 1 r.fineX

/-- The `Ppu2C02::Registers` with given bytes. -/
def PpuRegisters.ofBytes (bs : List Nat) : PpuRegisters :=
  let status := cut bs 1
  let mask := cut status.2 1
  let ctrl := cut mask.2 1
  let v := cut ctrl.2 2
  let t := cut v.2 2
  let fineX := cut t.2 1
  { STATUS := leValue status.1, MASK := leValue mask.1, CTRL := leValue ctrl.1,
    v := leValue v.1, t := leValue t.1, fineX := leValue fineX.1 }

/-- The bytes of `ppu.bg`. -/
def BackgroundData.bytes (g : BackgroundData) : List Nat :=
  bytesLE 1 g.NextTileId ++ bytesLE 1 g.NextTileAttrib ++ bytesLE 1 g.NextTileLsb ++
    bytesLE 1 g.NextTileMsb ++ bytesLE 2 g.ShiftPatternLo ++ bytesLE 2 g.ShiftPatternHi ++
    bytesLE 2 g.ShiftAttribLo ++ bytesLE 2 g.ShiftAttribHi

/-- The `Ppu2C02::BackgroundData` with given bytes. -/
def BackgroundData.ofBytes (bs : List Nat) : BackgroundData :=
  let id := cut bs 1
  let attrib := cut id.2 1
  let lsb := cut attrib.2 1
  let msb := cut lsb.2 1
  let plo := cut msb.2 2
  let phi := cut plo.2 2
  let alo := cut phi.2 2
  let ahi := cut alo.2 2
  { NextTileId := leValue id.1, NextTileAttrib := leValue attrib.1, NextTileLsb := leValue lsb.1,
    NextTileMsb := leValue msb.1, ShiftPatternLo := leValue plo.1, ShiftPatternHi := leValue phi.1,
    ShiftAttribLo := leValue alo.1, ShiftAttribHi := leValue ahi.1 }

/-- The bytes of `ppu.OAM`. -/
def ObjectAttributeMemory.bytes (o : ObjectAttributeMemory) : List Nat :=
  arrayBytes o.data 256 ++ bytesLE 1 o.address

/-- The `ObjectAttributeMemory` with given bytes. -/
def ObjectAttributeMemory.ofBytes (bs : List Nat) : ObjectAttributeMemory :=
  let data := cut bs 256
  let address := cut data.2 1
  { data := arrayOf data.1, address := leValue address.1 }

/-- The bytes of `ppu.sprites`. -/
def SpriteInfo.bytes (q : SpriteInfo) : List Nat :=
  arrayBytes q.scanlineSprites 32 ++ bytesLE 1 q.count ++ arrayBytes q.shiftPatternLo 8 ++
    arrayBytes q.shiftPatternHi 8 ++ boolBytes q.zeroHitPossible ++ boolBytes q.zeroDrawing

/-- The `Ppu2C02::SpriteInfo` with given bytes. -/
def SpriteInfo.ofBytes (bs : List Nat) : SpriteInfo :=
  let sprites := cut bs 32
  let count := cut sprites.2 1
  let lo := cut count.2 8
  let hi := cut lo.2 8
  let possible := cut hi.2 1
  let drawing := cut possible.2 1
  { scanlineSprites := arrayOf sprites.1
    count := leValue count.1
    shiftPatternLo := arrayOf lo.1
    shiftPatternHi := arrayOf hi.1
    zeroHitPossible := boolOf possible.1
    zeroDrawing := boolOf drawing.1 }

/-- The bytes of `DMA`. -/
def DmaInfo.bytes (d : DmaInfo) : List Nat :=
  bytesLE 1 d.page ++ bytesLE 1 d.addr ++ bytesLE 1 d.data ++ boolBytes d.dummy ++
    boolBytes d.transfer

/-- The `NesBus::DmaInfo` with given bytes. -/
def DmaInfo.ofBytes (bs : List Nat) : DmaInfo :=
  let page := cut bs 1
  let addr := cut page.2 1
  let data := cut addr.2 1
  let dummy := cut data.2 1
  let transfer := cut dummy.2 1
  { page := leValue page.1, addr := leValue addr.1, data := leValue data.1,
    dummy := boolOf dummy.1, transfer := boolOf transfer.1 }

/-- `vector::resize(n)` on a vector of length `len`: new cells are zero. -/
def resized (a : Nat → Nat) (len : Nat) : Nat → Nat := fun i => if i < len then a i else 0

/-- The cartridge part of the file written by `NesBus::saveState`, after the header. -/
def NesRom.saveBody (r : NesRom) : List Nat :=
  bytesLE 8 r.prgLen ++ arrayBytes r.prg r.prgLen ++
    bytesLE 8 r.chrLen ++ arrayBytes r.chr r.chrLen ++
    (if r.header.getMapperNumber = 1 then r.mapper.serialize else [])

/-- The CPU part of the file written by `NesBus::saveState`. -/
def Cpu6502.save (c : Cpu6502) : List Nat :=
  c.registers.bytes ++ bytesLE 1 c.inputAlu ++ bytesLE 1 c.opcode ++ bytesLE 2 c.temp ++
    bytesLE 2 c.absoluteAddress ++ bytesLE 2 c.relativeAddress ++ bytesLE 2 c.cycles

/-- The PPU part of the file written by `NesBus::saveState`. -/
def Ppu2C02.save (p : Ppu2C02) : List Nat :=
  p.registers.bytes ++ p.bg.bytes ++ p.OAM.bytes ++ p.sprites.bytes ++
    arrayBytes (p.nameTable 0) 1024 ++ arrayBytes (p.nameTable 1) 1024 ++
    arrayBytes (p.patternTable 0) 4096 ++ arrayBytes (p.patternTable 1) 4096 ++
    arrayBytes p.paletteTable 32 ++ bytesLE 1 p.addressLatch ++ bytesLE 1 p.dataBuffer ++
    int16Bytes p.scanline ++ int16Bytes p.cycle ++ boolBytes p.nmi

/-- `NesBus::saveState`: the bytes written to the file.  With a trainer the
source writes the object representation of a `std::vector`, which the
embedding does not represent: `none`. -/
def NesBus.saveState (b : NesBus) : Option (List Nat) :=
  if b.rom.header.hasTrainer then none
  else
    some (b.rom.header.bytes ++ b.rom.saveBody ++ b.cpu.save ++ b.ppu.save ++
      b.DMA.bytes ++ arrayBytes b.memory 2048)

/-- The cartridge part of `NesBus::loadState`, after the header `h` was read:
the cartridge and the rest of the stream.  The locals `prgSize` and `chrSize`
are uninitialised. -/
def NesRom.loadBody (r : NesRom) (h : Header) (st : List Nat) (resize : Bool) : NesRom × List Nat :=
  let ps := if resize then readBytes st 8 (bytesLE 8 r.uninit) else ([], st)
  let prgLen := if resize then leValue ps.1 else r.prgLen
  let pd := readBytes ps.2 prgLen (arrayBytes (resized r.prg r.prgLen) prgLen)
  let cs := if resize then readBytes pd.2 8 (bytesLE 8 r.uninit) else ([], pd.2)
  let chrLen := if resize then leValue cs.1 else r.chrLen
  let cd := readBytes cs.2 chrLen (arrayBytes (resized r.chr r.chrLen) chrLen)
  let mb :=
    if h.getMapperNumber = 1 then readBytes cd.2 r.mapper.size (List.replicate r.mapper.size 0)
    else ([], cd.2)
  let mapper := if h.getMapperNumber = 1 then r.mapper.deserialize mb.1 else r.mapper
  ({ r with header := h, prg := arrayOf pd.1, prgLen := prgLen, chr := arrayOf cd.1,
            chrLen := chrLen, mapper := mapper }, mb.2)

/-- The CPU part of `NesBus::loadState`. -/
def Cpu6502.load (c : Cpu6502) (st : List Nat) : Cpu6502 × List Nat :=
  let r := readBytes st 7 c.registers.bytes
  let ia := readBytes r.2 1 (bytesLE 1 c.inputAlu)
  let op := readBytes ia.2 1 (bytesLE 1 c.opcode)
  let tp := readBytes op.2 2 (bytesLE 2 c.temp)
  let ab := readBytes tp.2 2 (bytesLE 2 c.absoluteAddress)
  let rl := readBytes ab.2 2 (bytesLE 2 c.relativeAddress)
  let cy := readBytes rl.2 2 (bytesLE 2 c.cycles)
  ({ c with
     registers := Registers.ofBytes r.1
     inputAlu := leValue ia.1
     opcode := leValue op.1
     temp := leValue tp.1
     absoluteAddress := leValue ab.1
     relativeAddress := leValue rl.1
     cycles := leValue cy.1 }, cy.2)

/-- The first half of the PPU part of `NesBus::loadState`: the records. -/
def Ppu2C02.loadRecords (p : Ppu2C02) (st : List Nat) : Ppu2C02 × List Nat :=
  let rg := readBytes st 8 p.registers.bytes
  let bg := readBytes rg.2 12 p.bg.bytes
  let om := readBytes bg.2 257 p.OAM.bytes
  let sp := readBytes om.2 51 p.sprites.bytes
  ({ p with
     registers := PpuRegisters.ofBytes rg.1
     bg := BackgroundData.ofBytes bg.1
     OAM := ObjectAttributeMemory.ofBytes om.1
     sprites := SpriteInfo.ofBytes sp.1 }, sp.2)

/-- The second half of the PPU part of `NesBus::loadState`: the tables. -/
def Ppu2C02.loadTables (p : Ppu2C02) (st : List Nat) : Ppu2C02 × List Nat :=
  let n0 := readBytes st 1024 (arrayBytes (p.nameTable 0) 1024)
  let n1 := readBytes n0.2 1024 (arrayBytes (p.nameTable 1) 1024)
  let p0 := readBytes n1.2 4096 (arrayBytes (p.patternTable 0) 4096)
  let p1 := readBytes p0.2 4096 (arrayBytes (p.patternTable 1) 4096)
  let pl := readBytes p1.2 32 (arrayBytes p.paletteTable 32)
  ({ p with
     nameTable := fun k => if k = 0 then arrayOf n0.1 else if k = 1 then arrayOf n1.1 else p.nameTable k
     patternTable := fun k =>
       if k = 0 then arrayOf p0.1 else if k = 1 then arrayOf p1.1 else p.patternTable k
     paletteTable := arrayOf pl.1 }, pl.2)

/-- The last part of the PPU part of `NesBus::loadState`: the scalars. -/
def Ppu2C02.loadScalars (p : Ppu2C02) (st : List Nat) : Ppu2C02 × List Nat :=
  let al := readBytes st 1 (bytesLE 1 p.addressLatch)
  let db := readBytes al.2 1 (bytesLE 1 p.dataBuffer)
  let sl := readBytes db.2 2 (int16Bytes p.scanline)
  let cy := readBytes sl.2 2 (int16Bytes p.cycle)
  let nm := readBytes cy.2 1 (boolBytes p.nmi)
  ({ p with
     addressLatch := leValue al.1
     dataBuffer := leValue db.1
     scanline := int16Of sl.1
     cycle := int16Of cy.1
     nmi := boolOf nm.1 }, nm.2)

/-- The PPU part of `NesBus::loadState`. -/
def Ppu2C02.load (p : Ppu2C02) (st : List Nat) : Ppu2C02 × List Nat :=
  let a := p.loadRecords st
  let t := a.1.loadTables a.2
  t.1.loadScalars t.2

/-- `NesBus::loadState` on the bytes of an existing file.  With a trainer the
source reads into the object representation of a `std::vector`: `none`. -/
def NesBus.loadState (st : List Nat) (b : NesBus) (resize : Bool) : Option NesBus :=
  let h := readBytes st 16 b.rom.header.bytes
  let header := Header.ofBytes h.1
  if header.hasTrainer then none
  else
    let r := b.rom.loadBody header h.2 resize
    let c := b.cpu.load r.2
    let p := b.ppu.load c.2
    let d := readBytes p.2 5 b.DMA.bytes
    let m := readBytes d.2 2048 (arrayBytes b.memory 2048)
    some { b with rom := r.1, cpu := c.1, ppu := p.1, DMA := DmaInfo.ofBytes d.1,
                  memory := arrayOf m.1 }

/-! ## Quantities the statements are about -/

/-- The number of bytes `Cpu6502::clock` consumes through `registers.PC` when
it fetches the instruction at `PC`: the distance of `PC` after the opcode
fetch and, for an opcode with a table entry, the addressing mode callback. -/
def Cpu6502.bytesConsumed (b : NesBus) : Nat :=
  let f := Cpu6502.fetchOpcode b
  let d := if (Index.unpack f.cpu.opcode).c > 2 then f else (Cpu6502.fetchOperand f).2
  u16 (d.cpu.registers.PC + 65536 - b.cpu.registers.PC)

/-- The opcode bytes of the table `dead_cells`. -/
def deadOpcodes : List Nat := dead_cells.map Index.pack

/-- Whether a call of `NesBus::clock` in the state `b` reaches `cpu.clock()`:
after `ppu.clock(); apu.clock();` the master clock count is divisible by 3
and no DMA transfer is in progress. -/
def NesBus.cpuClocked (b : NesBus) : Bool :=
  decide (b.clockUnits.systemClockCount % 3 = 0) && !b.clockUnits.DMA.transfer

/-- The machine at the first CPU tick (master clock count divisible by 3) at
or after `b`: at most two calls of `NesBus::clock`. -/
def NesBus.toCpuTick (b : NesBus) : NesBus :=
  if b.systemClockCount % 3 = 0 then b
  else if b.clock.systemClockCount % 3 = 0 then b.clock
  else b.clock.clock

/-- From a CPU tick to the next: `NesBus::clock` is called once, and then
until the master clock count is divisible by 3 again. -/
def NesBus.nextCpuTick (b : NesBus) : NesBus := b.clock.toCpuTick

/-- The byte the bus returns for a read of `addr` inside the call of
`NesBus::clock` in the state `b`, after `ppu.clock(); apu.clock();`. -/
def NesBus.byteAt (b : NesBus) (addr : Nat) : Nat := (b.clockUnits.readCpu addr false).1

/-! ## Concrete machines used to instantiate the statements -/

/-- An iNES header with the given bank counts and flag bytes. -/
def exampleHeader (prgSize chrSize flags6 flags7 : Nat) : Header :=
  { nes := fun i => [0x4e, 0x45, 0x53, 0x1a].getD i 0
    prgSize := prgSize, chrSize := chrSize, flags6 := flags6, flags7 := flags7
    flags8 := 0, flags9 := 0, flags10 := 0, padding := filled 0 }

/-- A `Mapper001` part with all members zero and horizontal mirroring. -/
def exampleMapper001 : Mapper001 :=
  { load := 0, loadCount := 0, control := 0
    chrBankSelect := { lo := 0, hi := 0, full := 0 }
    prgBankSelect := { lo := 0, hi := 0, full := 0 }
    mirrorMode := MIRROR_HORIZONTAL, staticRam := filled 0 }

/-- A `Mapper004` part with all members zero and horizontal mirroring. -/
def exampleMapper004 : Mapper004 :=
  { registers := filled 0, chrBank := filled 0, prgBank := filled 0, staticRam := filled 0
    irq := { counter := 0, reload := 0, active := false, enable := false, update := false }
    targetRegister := 0, prgBankMode := false, chrInversion := false
    mirrorMode := MIRROR_HORIZONTAL }

/-- The mapper part constructed for mapper number `n`. -/
def exampleKind (n : Nat) : MapperKind :=
  if n = 1 then .m001 exampleMapper001
  else if n = 2 then .m002 { prgBankSelectLo := 0, prgBankSelectHi := 0 }
  else if n = 4 then .m004 exampleMapper004
  else .m000

/-- A cartridge with mapper number `n` (0, 1, 2 or 4), `prgSize` PRG banks
holding `prg`, and `chrSize` CHR banks holding `chr`, after `reset`. -/
def exampleRom (n prgSize chrSize : Nat) (prg chr : Nat → Nat) : NesRom :=
  NesRom.reset
    { header := exampleHeader prgSize chrSize ((n % 16) <<< 4) 0
      mapper := { prgBankCount := prgSize, chrBankCount := chrSize, kind := exampleKind n }
      prg := prg, prgLen := 16384 * prgSize
      chr := chr, chrLen := if chrSize = 0 then 8192 else 8192 * chrSize
      uninit := 0 }

/-- A PPU with every member zero. -/
def examplePpu : Ppu2C02 :=
  { registers := { STATUS := 0, MASK := 0, CTRL := 0, v := 0, t := 0, fineX := 0 }
    bg := { NextTileId := 0, NextTileAttrib := 0, NextTileLsb := 0, NextTileMsb := 0,
            ShiftPatternLo := 0, ShiftPatternHi := 0, ShiftAttribLo := 0, ShiftAttribHi := 0 }
    OAM := { data := filled 0, address := 0 }
    sprites := { scanlineSprites := filled 0, count := 0, shiftPatternLo := filled 0,
                 shiftPatternHi := filled 0, zeroHitPossible := false, zeroDrawing := false }
    nameTable := fun _ => filled 0
    patternTable := fun _ => filled 0
    paletteTable := filled 0
    addressLatch := 0, dataBuffer := 0, scanline := 0, cycle := 0
    frameComplete := false, nmi := false, nmiIgnore := false, framecount := 0, odd := false
    uninit := 0 }

/-- An envelope with every member zero. -/
def exampleEnvelope : PulseEnvelope :=
  { start := false, disable := false, dividerCount := 0, volume := 0, output := 0, decayCount := 0 }

/-- A sequencer with the given `sequence` and every other member zero. -/
def exampleSequencer (sequence : Nat) : Sequencer :=
  { sequence := sequence, nextSequence := 0, timer := 0, reload := 0, output := 0 }

/-- A pulse channel as default constructed. -/
def examplePulse : PulseChannel :=
  { enable := false, halt := false, sequencer := exampleSequencer 0, envelope := exampleEnvelope
    counter := 0
    sweeper := { enabled := false, down := false, reload := false, muted := false, shift := 0,
                 timer := 0, period := 0, change := 0 } }

/-- An APU as constructed, with both clock counters zero. -/
def exampleApu : APU :=
  { noiseChannel := { enable := false, halt := false, envelope := exampleEnvelope, counter := 0,
                      sequencer := exampleSequencer 0xDBDB }
    frameClockCount := 0, clockCount := 0, enabled := true
    pulseChannel_1 := examplePulse, pulseChannel_2 := examplePulse }

/-- A machine with the given cartridge and RAM, the CPU at `pc` with status `p`
and no pending cycles, and everything else zero. -/
def exampleBus (rom : NesRom) (memory : Nat → Nat) (pc p : Nat) : NesBus :=
  { DMA := { page := 0, addr := 0, data := 0, dummy := true, transfer := false }
    systemClockCount := 0
    memory := memory
    cpu := { registers := { A := 0, P := p, X := 0, Y := 0, S := 0xFD, PC := pc }
             inputAlu := 0, opcode := 0, temp := 0, absoluteAddress := 0, relativeAddress := 0
             cycles := 0, cycleCount := 0 }
    apu := exampleApu
    ppu := examplePpu
    rom := rom
    controller := filled 0
    controller_state := filled 0 }

/-- The bytes of a program placed at the start of PRG memory. -/
def programAt (off : Nat) (bytes : List Nat) : Nat → Nat :=
  fun i => if off ≤ i then bytes.getD (i - off) 0 else 0

/-- A machine about to fetch the opcode byte `$03`, whose low two bits are 3. -/
def invalidOpcodeBus : NesBus :=
  exampleBus (exampleRom 0 1 0 (programAt 0 [0x03]) (filled 0)) (filled 0) 0x8000 0x20

/-- The number of operand bytes an addressing mode callback reads through
`registers.PC` (see `addrModeCallbacks_PC`). -/
def operandBytes (mode : AddrMode) : Nat :=
  match mode with
  | .abs | .absX | .absY | .ind => 2
  | .imm | .rel | .zpg | .zpgX | .zpgY | .Xind | .indY => 1
  | .impl | .A | .UNK | .EMPTY => 0

/-- A machine about to fetch `JMP ($02FF)` at `$8000`, with `$00` at `$02FF`,
`$40` at `$0200` and `$80` at `$0300`. -/
def jmpIndirectBus : NesBus :=
  exampleBus (exampleRom 0 1 0 (programAt 0 [0x6C, 0xFF, 0x02]) (filled 0))
    (fun a => if a = 0x2FF then 0x00 else if a = 0x200 then 0x40 else if a = 0x300 then 0x80 else 0)
    0x8000 0x20

/-- A machine about to fetch the dead cell `$80` at `$8000`. -/
def deadCellBus : NesBus :=
  exampleBus (exampleRom 0 1 0 (programAt 0 [0x80, 0x00]) (filled 0)) (filled 0) 0x8000 0x20

/-- A machine about to fetch `LDA #$01` at `$8000`. -/
def ldaImmediateBus : NesBus :=
  exampleBus (exampleRom 0 1 0 (programAt 0 [0xA9, 0x01]) (filled 0)) (filled 0) 0x8000 0x20

/-- The comparison made for one opcode byte by `instructionMap_sizes`: no entry
if both low bits are set; otherwise an entry with an addressing mode callback
whose `size` is one more than the operand bytes of that callback, except in
the dead cells (`size` 1, one operand byte) and at `$6C` (`size` 2, two
operand bytes). -/
def sizeCheck (op : Nat) : Bool :=
  match instructionMap.find op with
  | none => op &&& 3 = 3
  | some i =>
    match i.addrmodeCallback with
    | none => false
    | some mode =>
      op &&& 3 ≠ 3 ∧
        (if op ∈ deadOpcodes then i.size = 1 ∧ operandBytes mode = 1
         else if op = 0x6C then i.size = 2 ∧ operandBytes mode = 2
         else i.size = 1 + operandBytes mode)

/-- The cost `clock()` fixes for the instruction at `PC`: the value of the
pending-cycle counter after the instruction was executed, before the first
decrement. -/
def Cpu6502.cost (b : NesBus) : Nat := (Cpu6502.step b).cpu.cycles

/-- A machine whose PPU has all three status flags set, the data buffer at
`$5A` and the address latch at 1. -/
def statusBus : NesBus :=
  let b := exampleBus (exampleRom 0 1 1 (filled 0) (filled 0)) (filled 0) 0x8000 0x20
  { b with ppu := { b.ppu with
      registers := { b.ppu.registers with STATUS := 0xE0 }
      dataBuffer := 0x5A
      addressLatch := 1 } }

/-- A machine with an MMC3 cartridge (mapper 4) without CHR banks, after reset. -/
def chrRamBus4 : NesBus :=
  exampleBus (exampleRom 4 2 0 (filled 0) (filled 0)) (filled 0) 0x8000 0x20

/-- A machine with the Z flag set about to fetch `BEQ +1` located at `loc`. -/
def beqBus (loc : Nat) : NesBus :=
  exampleBus (exampleRom 0 1 0 (programAt (loc - 0x8000) [0xF0, 0x01]) (filled 0)) (filled 0)
    loc 0x22

/-- A machine with an MMC1 cartridge (mapper 1) of one PRG bank and one CHR
bank, the CPU at `$8000`. -/
def mmc1Machine : NesBus :=
  exampleBus (exampleRom 1 1 1 (programAt 0 [0xA9, 0x01]) (filled 0)) (filled 0) 0x8000 0x24

/-- Another machine with an MMC1 cartridge: two PRG banks filled with `$EA`, no
CHR bank, RAM cell `a` holding `a mod 256`, the CPU at `$C000` with `P = $27`. -/
def mmc1Target : NesBus :=
  exampleBus (exampleRom 1 2 0 (filled 0xEA) (filled 0)) (fun a => a % 256) 0xC000 0x27

/-- A machine with an NROM cartridge as constructed: master clock count 0,
APU counters 0, controller shift registers 0. -/
def freshMachine : NesBus :=
  exampleBus (exampleRom 0 1 1 (filled 0) (filled 0)) (filled 0) 0x8000 0x24

/-- The machine `freshMachine` after it has run: master clock count 3, APU
clock counters 1 and 3, accumulator `$42`, and both controller shift
registers holding `$80`. -/
def savedMachine : NesBus :=
  { freshMachine with
    systemClockCount := 3
    apu := { exampleApu with frameClockCount := 1, clockCount := 3 }
    cpu := { freshMachine.cpu with registers := { freshMachine.cpu.registers with A := 0x42 } }
    controller_state := filled 0x80 }

/-- A machine about to execute `STA $4014` with the accumulator holding `$02`
at master clock count `c`; RAM cell `a` holds `(7 a + 3) mod 256`. -/
def dmaBus (c : Nat) : NesBus :=
  let b := exampleBus (exampleRom 0 1 0 (programAt 0 [0x8D, 0x14, 0x40]) (filled 0))
    (fun a => (a * 7 + 3) % 256) 0x8000 0x24
  { b with
    systemClockCount := c
    cpu := { b.cpu with registers := { b.cpu.registers with A := 0x02 } } }

/-- Decides whether `s` is first reached from `x` after exactly `n` applications
of `f`: `x, f x, ..., f^[n-1] x` all differ from `s` and `f^[n] x = s`. -/
def firstReturnAfter (f : Nat → Nat) (s : Nat) : Nat → Nat → Bool
  | 0, x => x == s
  | n + 1, x => x != s && firstReturnAfter f s n (f x)

/-- An NROM cartridge whose vectors are NMI `$9000`, reset `$8000` and IRQ/BRK
`$9234`; every other PRG byte is `$00`, the opcode of `BRK`. -/
def vectorRom : NesRom :=
  exampleRom 0 1 0 (programAt 0x3FFA [0x00, 0x90, 0x00, 0x80, 0x34, 0x92]) (filled 0)

/-- A machine on `vectorRom` with `PC = $8000`, `S = $FD` and every flag clear. -/
def vectorMachine : NesBus := exampleBus vectorRom (filled 0) 0x8000 0x00

/-- The machine `freshMachine` with the first controller holding `$A5`
(A, Select, Down and Right pressed). -/
def controllerMachine : NesBus := { freshMachine with controller := store (filled 0) 0 0xA5 }

/-- A machine inside `ADC #$50` (opcode `$69` at `$8000`, operand at `$8001`)
after the addressing mode has run: `A = $50` and the carry flag is set. -/
def adcMachine : NesBus :=
  { exampleBus (exampleRom 0 1 0 (programAt 0 [0x69, 0x50]) (filled 0)) (filled 0) 0x8002 0x01 with
    cpu := { registers := { A := 0x50, P := 0x01, X := 0, Y := 0, S := 0xFD, PC := 0x8002 }
             inputAlu := 0, opcode := 0x69, temp := 0, absoluteAddress := 0x8001
             relativeAddress := 0, cycles := 2, cycleCount := 0 } }

/-! ## Definitions for mirroring, PPUDATA, vertical blank, loading, banking, clocking and cost -/

/-- The conditional branch mnemonics. -/
def Mnemonic.isBranch (op : Mnemonic) : Bool :=
  op = .BCS ∨ op = .BCC ∨ op = .BEQ ∨ op = .BNE ∨ op = .BPL ∨ op = .BMI ∨ op = .BVS ∨ op = .BVC

/-- An NROM cartridge whose header has bit 0 of `flags6` set. -/
def verticalRom : NesRom :=
  { exampleRom 0 1 1 (filled 0) (filled 0) with header := exampleHeader 1 1 0x01 0 }

/-- A cartridge with mapper 0 and CHR ROM whose byte 0 is `$22`. -/
def chrRom22 : NesRom := exampleRom 0 1 1 (filled 0) (store (filled 0) 0 0x22)

/-- The PPU after the CPU has written `$3F` and `$FF` to PPUADDR and has read
PPUDATA once: `v = $4000`. -/
def ppuPast3FFF : Ppu2C02 :=
  (((examplePpu.cpuWrite chrRom22 PPU_ADDR 0x3F).1.cpuWrite chrRom22 PPU_ADDR 0xFF).1.cpuRead
    chrRom22 PPU_DATA false).2

/-- What a step inside `Ppu2C02::clock` other than the start of vertical blank
does to the vertical blank state: `q` has the scanline, the flags `nmi` and
`nmiIgnore` and the register `CTRL` of `p`, and `STATUS.vblank` is set in `q`
only if it is set in `p`. -/
def Ppu2C02.keepsVblank (p q : Ppu2C02) : Prop :=
  q.scanline = p.scanline ∧ q.nmi = p.nmi ∧ q.nmiIgnore = p.nmiIgnore ∧
    q.registers.CTRL = p.registers.CTRL ∧ (q.registers.vblank = 1 → p.registers.vblank = 1)

instance Ppu2C02.decKeepsVblank (p q : Ppu2C02) : Decidable (p.keepsVblank q) := by
  unfold Ppu2C02.keepsVblank
  infer_instance

/-- The PPU at scanline 241, cycle 1 with `CTRL.vblankNmi` set. -/
def vblankPpu : Ppu2C02 :=
  { examplePpu with
    scanline := 241, cycle := 1
    registers := { examplePpu.registers with CTRL := 0x80 } }

/-- The object the constructor `NesRom::NesRom(filename)` leaves behind:
`mapper` is `none` for the null pointer, and the three vectors are lists. -/
structure RomImage where
  header : Header
  mapper : Option Mapper
  trainer : List Nat
  prg : List Nat
  chr : List Nat

/-- The mapper object `std::make_shared<MapperNNN>(prgSize, chrSize)`: the
base class constructor stores the bank counts and calls `Mapper::reset` (the
base version, which does nothing), so the derived members keep their default
initialisers; the three arrays of `Mapper004::RomMemory` have none and hold
the indeterminate content `indet`. -/
def Mapper.construct (number prgSize chrSize : Nat) (indet : Nat → Nat) : Option Mapper :=
  if number = 0 then some { prgBankCount := prgSize, chrBankCount := chrSize, kind := .m000 }
  else if number = 1 then
    some { prgBankCount := prgSize, chrBankCount := chrSize
           kind := .m001
             { load := 0, loadCount := 0, control := 0
               chrBankSelect := { lo := 0, hi := 0, full := 0 }
               prgBankSelect := { lo := 0, hi := 0, full := 0 }
               mirrorMode := MIRROR_HORIZONTAL, staticRam := filled 0 } }
  else if number = 2 then
    some { prgBankCount := prgSize, chrBankCount := chrSize
           kind := .m002 { prgBankSelectLo := 0, prgBankSelectHi := 0 } }
  else if number = 4 then
    some { prgBankCount := prgSize, chrBankCount := chrSize
           kind := .m004
             { registers := indet, chrBank := indet, prgBank := indet, staticRam := filled 0
               irq := { counter := 0, reload := 0, active := false, enable := false,
                        update := false }
               targetRegister := 0, prgBankMode := false, chrInversion := false
               mirrorMode := MIRROR_HORIZONTAL } }
  else none

/-- The constructor `NesRom::NesRom(filename)` on a file with the bytes `file`
(a file that cannot be opened reads like an empty one).  `old` is the
indeterminate content of the member `header` before the read, `indet` that of
the arrays of a `Mapper004`.  With an invalid header the constructor returns
at once; an unsupported mapper number leaves `mapper` null. -/
def NesRom.construct (old : Header) (indet : Nat → Nat) (file : List Nat) : RomImage :=
  let h := readBytes file 16 old.bytes
  let header := Header.ofBytes h.1
  if ¬ header.isValid then
    { header := header, mapper := none, trainer := [], prg := [], chr := [] }
  else
    let rom_file_format := if u8 header.flags7 &&& 0x0C = 0x08 then 2 else 1
    let header :=
      if rom_file_format = 1 then header
      else
        let header :=
          { header with prgSize := u8 (((u8 header.flags8 &&& 0x07) <<< 8) ||| u8 header.prgSize) }
        { header with chrSize := u8 (((u8 header.flags8 &&& 0x38) <<< 8) ||| u8 header.chrSize) }
    let prgLen := 16384 * u8 header.prgSize
    let chrLen := if u8 header.chrSize = 0 then 8192 else 8192 * u8 header.chrSize
    let t := if header.hasTrainer then readBytes h.2 512 (List.replicate 512 0) else ([], h.2)
    let p := readBytes t.2 prgLen (List.replicate prgLen 0)
    let c :=
      if u8 header.chrSize > 0 then readBytes p.2 chrLen (List.replicate chrLen 0)
      else (List.replicate chrLen 0, p.2)
    { header := header
      mapper := Mapper.construct header.getMapperNumber (u8 header.prgSize) (u8 header.chrSize) indet
      trainer := t.1, prg := p.1, chr := c.1 }

/-- `NesRom::read_rom`: the result and the object stored through `rom`. -/
def NesRom.read_rom (old : Header) (indet : Nat → Nat) (file : List Nat) : Int × RomImage :=
  (0, NesRom.construct old indet file)

/-- `NesBus::loadRom`: `int res = NesRom::read_rom(filepath, rom);
ppu.connectRom(rom); return res;`, with the cartridge the bus then holds. -/
def NesBus.loadRom (old : Header) (indet : Nat → Nat) (file : List Nat) : Int × RomImage :=
  let res := NesRom.read_rom old indet file
  (res.1, res.2)

/-- The test of `RomManager::setActiveRom`: `nes.loadRom(path) < 0`, on which
it prints `Rom not found!` and exits. -/
def RomManager.loadFailed (old : Header) (indet : Nat → Nat) (file : List Nat) : Bool :=
  decide ((NesBus.loadRom old indet file).1 < 0)

/-- A file of 16 zero bytes: no `NES\x1A` signature. -/
def zeroFile : List Nat := List.replicate 16 0

/-- The 16 header bytes of a file with a valid signature, one PRG bank, one
CHR bank and mapper number 3. -/
def mapper3File : List Nat := [0x4e, 0x45, 0x53, 0x1a, 1, 1, 0x30, 0, 0, 0, 0, 0, 0, 0, 0, 0]

/-- The cartridge after the CPU writes `ws` (pairs of address and data), each
passed to `NesRom::cpuWrite` as `NesBus::writeCpu` does. -/
def NesRom.afterWrites (r : NesRom) (ws : List (Nat × Nat)) : NesRom :=
  ws.foldl (fun q w => (q.cpuWrite w.1 w.2).2) r

/-- A cartridge with mapper 2 and one PRG bank. -/
def uxRom : NesRom := exampleRom 2 1 0 (filled 0) (filled 0)

/-- The number of calls that reach `cpu.clock()` among the first `k` calls of
`NesBus::clock` from the state `b`. -/
def NesBus.cpuClocksIn (b : NesBus) : Nat → Nat
  | 0 => 0
  | k + 1 => ofBool b.cpuClocked + NesBus.cpuClocksIn b.clock k

/-- The number of values divisible by 3 among `k` consecutive values of the
32 bit master clock count starting at `c`. -/
def masterTicks (c : Nat) : Nat → Nat
  | 0 => 0
  | k + 1 => (if c % 3 = 0 then 1 else 0) + masterTicks (u32 (c + 1)) k

/-- An NROM cartridge with one PRG bank that holds `JMP $8000` at `$8000` and
whose three vectors all point to `$8000`. -/
def loopRom : NesRom :=
  exampleRom 0 1 0
    (fun i => if i = 0 then 0x4C else if i = 2 ∨ i = 0x3FFB ∨ i = 0x3FFD ∨ i = 0x3FFF then 0x80 else 0)
    (filled 0)

/-- The machine with `loopRom` after `NesBus::reset()`. -/
def loopMachine : NesBus := NesBus.reset (exampleBus loopRom (filled 0) 0 0)

/-- What every state of a machine running `loopRom` satisfies: no DMA transfer
is in progress, `PC = $8000`, `S` and `P` are bytes, and the cartridge is an
NROM cartridge with one bank, `JMP $8000` at `$8000` and the NMI vector `$8000`. -/
def NesBus.inLoop (b : NesBus) : Prop :=
  b.DMA.transfer = false ∧ b.cpu.registers.PC = 0x8000 ∧ b.cpu.registers.S < 256 ∧
    b.cpu.registers.P < 256 ∧ b.rom.mapper.kind = .m000 ∧ b.rom.mapper.prgBankCount = 1 ∧
    b.rom.prg 0 = 0x4C ∧ b.rom.prg 1 = 0x00 ∧ b.rom.prg 2 = 0x80 ∧
    b.rom.prg 0x3FFA = 0x00 ∧ b.rom.prg 0x3FFB = 0x80

/-- A machine with the Z flag clear about to fetch `BNE -3` (bytes `$D0 $FD`)
located at `$8100`. -/
def bneBus : NesBus :=
  exampleBus (exampleRom 0 1 0 (programAt 0x100 [0xD0, 0xFD]) (filled 0)) (filled 0) 0x8100 0x20

/-- A machine about to fetch `ADC #$50` (bytes `$69 $50`) located at `$8000`. -/
def adcImmBus : NesBus :=
  exampleBus (exampleRom 0 1 0 (programAt 0 [0x69, 0x50]) (filled 0)) (filled 0) 0x8000 0x20

/-- A machine with X = 1 about to fetch `LDA $80FF,X` (bytes `$BD $FF $80`)
located at `$8000`. -/
def ldaCrossBus : NesBus :=
  let b := exampleBus (exampleRom 0 1 0 (programAt 0 [0xBD, 0xFF, 0x80]) (filled 0)) (filled 0)
    0x8000 0x20
  { b with cpu := { b.cpu with registers := { b.cpu.registers with X := 1 } } }

/-- The base cycle count of the instruction at `PC`: `instr.cycles`. -/
def Cpu6502.baseCycles (b : NesBus) : Nat :=
  (instructionMap.get (Cpu6502.fetchOpcode b).cpu.opcode).cycles

/-- The value `instr.addrmodeCallback()` returns for the instruction at `PC`. -/
def Cpu6502.addrmodeExtra (b : NesBus) : Nat :=
  (Cpu6502.fetchOperand (Cpu6502.fetchOpcode b)).1

/-- The value `instr.callback()` returns for the instruction at `PC`. -/
def Cpu6502.opcodeExtra (b : NesBus) : Nat :=
  (callInstr (instructionMap.get (Cpu6502.fetchOpcode b).cpu.opcode).callback
    (Cpu6502.fetchOperand (Cpu6502.fetchOpcode b)).2).1

/-- The opcode bytes of the eight conditional branches. -/
def branchOpcodes : List Nat := [0x10, 0x30, 0x50, 0x70, 0x90, 0xB0, 0xD0, 0xF0]

/-- The check made on each table entry by `instructionMap_costEntry`: at most 7
base cycles, and a branch callback exactly under the branch opcode bytes. -/
def costEntry (kv : Nat × Instruction) : Bool :=
  decide (kv.2.cycles ≤ 7) &&
    (match kv.2.callback with
     | some m => m.isBranch == decide (kv.1 ∈ branchOpcodes)
     | none => decide (kv.1 ∉ branchOpcodes))

/-! ## Definitions for the envelope reference, IRQ polling, the PPU position and sprite evaluation -/

/-- The reference step of the envelope, following the words of the
specification: the start flag short-circuits; otherwise the divider counts
down, and when it is 0 it is reloaded with the volume and the decay counter is
decremented, wrapping to 15 only when looping; the output is the volume when
the envelope is disabled and the decay counter otherwise. -/
def PulseEnvelope.reference (e : PulseEnvelope) (loop : Bool) : PulseEnvelope :=
  let start := false
  let decay :=
    if e.start then 15
    else if e.dividerCount > 0 then e.decayCount
    else if e.decayCount > 0 then e.decayCount - 1
    else if loop then 15
    else 0
  let divider :=
    if e.start then e.volume
    else if e.dividerCount > 0 then e.dividerCount - 1
    else e.volume
  { start := start, disable := e.disable, dividerCount := divider, volume := e.volume,
    output := if e.disable then e.volume else decay, decayCount := decay }

/-- An envelope that is not restarting, with volume 2, divider 0 and decay 3. -/
def decayingEnvelope : PulseEnvelope :=
  { start := false, disable := false, dividerCount := 0, volume := 2, output := 3, decayCount := 3 }

/-- A 16-byte iNES 2.0 header (`flags7 = $08`) with `prgSize = 1`, `chrSize = 1`
and `flags8 = $09`: both extension fields are non-zero. -/
def ines2File : List Nat := [0x4e, 0x45, 0x53, 0x1a, 1, 1, 0, 0x08, 0x09, 0, 0, 0, 0, 0, 0, 0]

/-- The state `NesBus::clock` has reached when it tests `ppu.nmi` and
`rom->mapper->irqState()`: after `ppu.clock()`, `apu.clock()` and the CPU slot. -/
def NesBus.beforeInterrupts (b : NesBus) : NesBus :=
  let b := b.clockUnits
  if b.systemClockCount % 3 = 0 then b.cpuSlot else b

/-- A machine with an MMC3 cartridge whose IRQ is enabled with counter and
reload value 0, the PPU rendering at scanline 10, cycle 259, the CPU with the
I flag set, and the master clock at a count that does not clock the CPU. -/
def irqMachine : NesBus :=
  let b := exampleBus (exampleRom 4 2 1 (filled 0) (filled 0)) (filled 0) 0x8000 0x24
  { b with
    systemClockCount := 1
    ppu := { b.ppu with
      scanline := 10, cycle := 259
      registers := { b.ppu.registers with MASK := 0x18 } }
    rom := { b.rom with
      mapper := { b.rom.mapper with
        kind := .m004 { Mapper004.reset 2 exampleMapper004 with
          irq := { counter := 0, reload := 0, active := false, enable := true,
                   update := false } } } } }

/-- A machine whose CPU has fetched `SBC #$AF` at `$8000` with `A = $50` and
the carry flag set. -/
def sbcMachine : NesBus :=
  { exampleBus (exampleRom 0 1 0 (programAt 0 [0xE9, 0xAF]) (filled 0)) (filled 0) 0x8002 0x01 with
    cpu := { registers := { A := 0x50, P := 0x01, X := 0, Y := 0, S := 0xFD, PC := 0x8002 }
             inputAlu := 0, opcode := 0xE9, temp := 0, absoluteAddress := 0x8001
             relativeAddress := 0, cycles := 2, cycleCount := 0 } }

/-- A machine about to fetch `JSR $9000` (bytes `$20 $00 $90`) located at
`$80FE`, with `S = $00`: the two pushes wrap around the stack page. -/
def jsrMachine : NesBus :=
  let b := exampleBus (exampleRom 0 1 0 (programAt 0xFE [0x20, 0x00, 0x90]) (filled 0)) (filled 0)
    0x80FE 0x20
  { b with cpu := { b.cpu with registers := { b.cpu.registers with S := 0x00 } } }

/-- The machine `jsrMachine` after its `JSR`, about to fetch `RTS` (`$60`) at
`$9000`. -/
def rtsMachine : NesBus :=
  let b := Cpu6502.step jsrMachine
  { b with rom := exampleRom 0 1 0 (programAt 0x1000 [0x60]) (filled 0) }

/-- What a step inside `Ppu2C02::clock` other than the odd-frame skip and the
position advance does to the position: `q` has the dot and line counters, the
flag `frameComplete` and the register `CTRL` of `p`. -/
def Ppu2C02.samePosition (p q : Ppu2C02) : Prop :=
  q.cycle = p.cycle ∧ q.scanline = p.scanline ∧ q.frameComplete = p.frameComplete ∧
    q.registers.CTRL = p.registers.CTRL

instance Ppu2C02.decSamePosition (p q : Ppu2C02) : Decidable (p.samePosition q) := by
  unfold Ppu2C02.samePosition
  infer_instance

/-- The odd-frame skip at the start of the rendering part of `Ppu2C02::clock`. -/
def Ppu2C02.skipDot (p : Ppu2C02) : Ppu2C02 :=
  if p.scanline = 0 ∧ p.cycle = 0 ∧ p.odd ∧ p.renderEnabled then { p with cycle := 1 } else p

/-- The PPU at the last dot of the last line: scanline 260, cycle 340. -/
def lastDotPpu : Ppu2C02 := { examplePpu with scanline := 260, cycle := 340 }

/-- The test `sd_y >= 0 && sd_y < (registers.CTRL.spriteSize ? 16 : 8)` of the
sprite evaluation on OAM entry `e`, with `sd_y = scanline - entries[e].y`. -/
def Ppu2C02.onScanline (p : Ppu2C02) (e : Nat) : Bool :=
  decide (p.scanline - (p.OAM.data (4 * e) : Int) ≥ 0 ∧
    p.scanline - (p.OAM.data (4 * e) : Int) < (if p.registers.spriteSize ≠ 0 then 16 else 8))

/-- The OAM entries that pass the test of the sprite evaluation, in increasing
index order. -/
def Ppu2C02.spritesOnScanline (p : Ppu2C02) : List Nat :=
  (List.range 64).filter p.onScanline

/-- The body of the loop of the sprite evaluation on OAM entry `entry_count`. -/
def Ppu2C02.evaluateEntry (p : Ppu2C02) (s : SpriteInfo) (entry_count : Nat) : SpriteInfo :=
  if s.count < 9 then
    let sd_y : Int := p.scanline - (p.OAM.data (4 * entry_count) : Int)
    if sd_y ≥ 0 ∧ sd_y < (if p.registers.spriteSize ≠ 0 then 16 else 8) then
      if s.count < 8 then
        let s := if entry_count = 0 then { s with zeroHitPossible := true } else s
        let copied : Nat → Nat := fun j =>
          if 4 * s.count ≤ j ∧ j < 4 * s.count + 4 then
            p.OAM.data (4 * entry_count + (j - 4 * s.count))
          else s.scanlineSprites j
        { s with scanlineSprites := copied, count := u8 (s.count + 1) }
      else s
    else s
  else s

/-- The sprite cache as the sprite evaluation clears it before its loop. -/
def Ppu2C02.clearedSprites (p : Ppu2C02) : SpriteInfo :=
  { p.sprites with
    scanlineSprites := memset p.sprites.scanlineSprites 0xFF 32
    count := 0
    shiftPatternLo := memset p.sprites.shiftPatternLo 0 8
    shiftPatternHi := memset p.sprites.shiftPatternHi 0 8
    zeroHitPossible := false }

/-- The PPU at scanline 12, cycle 257 whose OAM entries 3 and 5 have `y = 10`
and all others `y = 200`. -/
def spritePpu : Ppu2C02 :=
  { examplePpu with
    scanline := 12, cycle := 257
    OAM := { data := fun i => if i = 12 ∨ i = 20 then 10 else 200, address := 0 } }

/-- The PPU at scanline 12, cycle 257 whose 64 OAM entries all have `y = 10`. -/
def crowdedPpu : Ppu2C02 :=
  { examplePpu with
    scanline := 12, cycle := 257
    OAM := { data := filled 10, address := 0 } }

/-- The state `Ppu2C02::clock` has reached at the pixel composition: after the
rendering part and the start of vertical blank. -/
def Ppu2C02.beforeCompose (p : Ppu2C02) (rom : NesRom) : Ppu2C02 :=
  (if p.scanline ≥ -1 ∧ p.scanline < 240 then p.renderStep rom else p).vblankStep

/-- The PPU at scanline 20, cycle 5 with background and sprites shown, also
in the left column (`MASK = $1E`), an opaque background pixel, and sprite 0
cached at `x = 0` with an opaque pixel and `zeroHitPossible` set. -/
def zeroHitPpu : Ppu2C02 :=
  { examplePpu with
    scanline := 20, cycle := 5
    registers := { examplePpu.registers with MASK := 0x1E }
    bg := { examplePpu.bg with ShiftPatternLo := 0xFFFF }
    sprites := { scanlineSprites := filled 0, count := 1, shiftPatternLo := filled 0xFF,
                 shiftPatternHi := filled 0, zeroHitPossible := true, zeroDrawing := false } }

/-! # Properties -/

/-! ## Fixed width arithmetic -/

theorem u8_lt (x : Nat) : u8 x < 256 := by unfold u8; omega

theorem u8_of_lt {x : Nat} (h : x < 256) : u8 x = x := by unfold u8; omega

theorem u16_lt (x : Nat) : u16 x < 65536 := by unfold u16; omega

theorem u16_of_lt {x : Nat} (h : x < 65536) : u16 x = x := by unfold u16; omega

theorem word_lt {hi lo : Nat} (hh : hi < 256) (hl : lo < 256) : (hi <<< 8) ||| lo < 65536 := by
  have h1 : hi <<< 8 < 2 ^ 16 := by
    rw [Nat.shiftLeft_eq]; omega
  have h2 : lo < 2 ^ 16 := by omega
  exact Nat.or_lt_two_pow h1 h2

/-! ## The bus as seen from the CPU -/

theorem Mapper.cpuMapRead_cart (m : Mapper) (addr x : Nat) (h1 : 0x8000 ≤ addr)
    (h2 : addr ≤ 0xFFFF) : (m.cpuMapRead addr x).1 = true := by
  unfold Mapper.cpuMapRead
  cases hk : m.kind with
  | m000 => simp [Mapper000.cpuMapRead, h1, h2]
  | m001 s =>
    simp only [Mapper001.cpuMapRead]
    split_ifs <;> first | rfl | omega
  | m002 s =>
    simp only [Mapper002.cpuMapRead]
    split_ifs <;> first | rfl | omega
  | m004 s =>
    simp only [Mapper004.cpuMapRead]
    split_ifs <;> first | rfl | omega

/-- A read of `$8000-$FFFF` is served by the cartridge and leaves the bus as it was. -/
theorem NesBus.readCpu_cart (b : NesBus) (addr : Nat) (ro : Bool) (h1 : 0x8000 ≤ addr)
    (h2 : addr ≤ 0xFFFF) : b.readCpu addr ro = (u8 (b.rom.cpuRead addr 0).2, b) := by
  have h : (b.rom.cpuRead addr 0).1 = true := by
    unfold NesRom.cpuRead
    simp [Mapper.cpuMapRead_cart b.rom.mapper addr b.rom.uninit h1 h2]
    split_ifs <;> rfl
  unfold NesBus.readCpu
  simp [h]

theorem NesBus.readCpu_lt (b : NesBus) (a : Nat) (ro : Bool) : (b.readCpu a ro).1 < 256 := by
  unfold NesBus.readCpu
  simp only []
  split_ifs <;> first | exact u8_lt _ | (simp only [ofBool]; split_ifs <;> omega) | norm_num

theorem NesBus.readCpu_cpu (b : NesBus) (a : Nat) (ro : Bool) : (b.readCpu a ro).2.cpu = b.cpu := by
  unfold NesBus.readCpu
  simp only []
  split_ifs <;> rfl

theorem NesBus.readCpu_withCpu (b : NesBus) (c : Cpu6502) (a : Nat) (ro : Bool) :
    ({ b with cpu := c } : NesBus).readCpu a ro =
      ((b.readCpu a ro).1, { (b.readCpu a ro).2 with cpu := c }) := by
  unfold NesBus.readCpu
  simp only []
  split_ifs <;> rfl

theorem NesBus.writeCpu_cpu (b : NesBus) (a d : Nat) : (b.writeCpu a d).cpu = b.cpu := by
  unfold NesBus.writeCpu
  simp only []
  split_ifs <;> rfl

theorem NesBus.writeCpu_withCpu (b : NesBus) (c : Cpu6502) (a d : Nat) :
    ({ b with cpu := c } : NesBus).writeCpu a d = { b.writeCpu a d with cpu := c } := by
  unfold NesBus.writeCpu
  simp only []
  split_ifs <;> rfl

/-! ## Reset -/

/-- C1: after `Cpu6502::reset()` the program counter is the little-endian word
the bus returns at `$FFFC`/`$FFFD`, `S = $FD`, `P = $20` (only bit 5, the U
flag), `A = X = Y = 0`, and the pending-cycle counter is 8; for every bus
state. -/
theorem reset_registers (b : NesBus) :
    (Cpu6502.reset b).cpu.registers.PC
        = (b.readCpu 0xFFFC false).1 ||| ((b.readCpu 0xFFFD false).1 <<< 8) ∧
      (Cpu6502.reset b).cpu.registers.S = 0xFD ∧
      (Cpu6502.reset b).cpu.registers.P = 0x20 ∧
      (Cpu6502.reset b).cpu.registers.A = 0 ∧
      (Cpu6502.reset b).cpu.registers.X = 0 ∧
      (Cpu6502.reset b).cpu.registers.Y = 0 ∧
      (Cpu6502.reset b).cpu.cycles = 8 := by
  have e1 : ∀ c : NesBus, c.readCpu 0xFFFC false = (u8 (c.rom.cpuRead 0xFFFC 0).2, c) :=
    fun c => NesBus.readCpu_cart c 0xFFFC false (by norm_num) (by norm_num)
  have e2 : ∀ c : NesBus, c.readCpu 0xFFFD false = (u8 (c.rom.cpuRead 0xFFFD 0).2, c) :=
    fun c => NesBus.readCpu_cart c 0xFFFD false (by norm_num) (by norm_num)
  refine ⟨?_, ?_, ?_, ?_, ?_, ?_, ?_⟩
  · simp only [Cpu6502.reset, Cpu6502.read, NesBus.setAbs, NesBus.setPC, NesBus.setRegs,
      NesBus.regs, Registers.reset, e1, e2]
    simp only [show u16 (65532 + 1) = 0xFFFD by rfl, e2]
    rw [u16_of_lt (word_lt (u8_lt _) (u8_lt _)), Nat.lor_comm]
  all_goals simp [Cpu6502.reset, NesBus.setRegs, NesBus.regs, Registers.reset, NES_UNUSED]

/-! ## The pending-cycle counter -/

theorem fetchOpcode_cycles (b : NesBus) : (Cpu6502.fetchOpcode b).cpu.cycles = b.cpu.cycles := by
  simp [Cpu6502.fetchOpcode, Cpu6502.readPC, Cpu6502.read, Cpu6502.setStatus, NesBus.setRegs,
    NesBus.setPC, NesBus.regs, NesBus.readCpu_withCpu]

theorem fetchOpcode_cycleCount (b : NesBus) :
    (Cpu6502.fetchOpcode b).cpu.cycleCount = b.cpu.cycleCount := by
  simp [Cpu6502.fetchOpcode, Cpu6502.readPC, Cpu6502.read, Cpu6502.setStatus, NesBus.setRegs,
    NesBus.setPC, NesBus.regs, NesBus.readCpu_withCpu]

theorem fetchOpcode_opcode (b : NesBus) :
    (Cpu6502.fetchOpcode b).cpu.opcode = (b.readCpu b.cpu.registers.PC false).1 := by
  simp [Cpu6502.fetchOpcode, Cpu6502.readPC, Cpu6502.read, Cpu6502.setStatus, NesBus.setRegs,
    NesBus.setPC, NesBus.regs, NesBus.readCpu_withCpu]

theorem clock_pending (b : NesBus) (h : b.cpu.cycles ≠ 0) :
    Cpu6502.clock b = b.setCycles (u16 (b.cpu.cycles + 65535)) := by
  simp [Cpu6502.clock, h]

/-- While cycles are pending, each `clock()` only takes one off the counter. -/
theorem clock_iterate_pending (n : Nat) : ∀ (b : NesBus), n ≤ b.cpu.cycles → b.cpu.cycles < 65536 →
    (Cpu6502.clock^[n] b).cpu.cycles = b.cpu.cycles - n ∧
    (Cpu6502.clock^[n] b).cpu.cycleCount = b.cpu.cycleCount := by
  induction n with
  | zero => intro b _ _; simp
  | succ k ih =>
    intro b hk hlt
    have hne : b.cpu.cycles ≠ 0 := by omega
    rw [Function.iterate_succ_apply, clock_pending b hne]
    have hc : (b.setCycles (u16 (b.cpu.cycles + 65535))).cpu.cycles = b.cpu.cycles - 1 := by
      show (b.cpu.cycles + 65535) % 65536 = b.cpu.cycles - 1
      omega
    have := ih (b.setCycles (u16 (b.cpu.cycles + 65535))) (by rw [hc]; omega) (by rw [hc]; omega)
    rw [hc] at this
    refine ⟨by rw [this.1]; omega, by rw [this.2]; simp only [NesBus.setCycles]⟩

/-- C2, at the opcodes where the code departs from it: when the opcode byte at
`PC` has both low bits set, `clock()` on a CPU without pending cycles executes
nothing and leaves the pending-cycle counter at 65535; the counter is zero
again only after 65536 calls, and `cycleCount` has not changed. -/
theorem clock_invalid_opcode_stalls (b : NesBus) (hc : b.cpu.cycles = 0)
    (hop : (b.readCpu b.cpu.registers.PC false).1 &&& 3 = 3) :
    (Cpu6502.clock b).cpu.cycles = 65535 ∧
      (∀ n, 1 ≤ n → n < 65536 → (Cpu6502.clock^[n] b).cpu.cycles ≠ 0) ∧
      (Cpu6502.clock^[65536] b).cpu.cycles = 0 ∧
      (Cpu6502.clock^[65536] b).cpu.cycleCount = b.cpu.cycleCount := by
  have hstep : (Cpu6502.step b).cpu.cycles = 0 ∧
      (Cpu6502.step b).cpu.cycleCount = b.cpu.cycleCount := by
    have hidx : (Index.unpack (Cpu6502.fetchOpcode b).cpu.opcode).c > 2 := by
      rw [fetchOpcode_opcode]
      show (b.readCpu b.cpu.registers.PC false).1 &&& 3 > 2
      omega
    simp only [Cpu6502.step, hidx, if_true]
    simp [Cpu6502.setStatus, NesBus.setRegs, fetchOpcode_cycles, fetchOpcode_cycleCount, hc]
  have h1 : (Cpu6502.clock b).cpu.cycles = 65535 ∧
      (Cpu6502.clock b).cpu.cycleCount = b.cpu.cycleCount := by
    simp only [Cpu6502.clock, hc, if_true, NesBus.setCycles, hstep.1, hstep.2]
    exact ⟨rfl, trivial⟩
  have hit : ∀ n, 1 ≤ n → n ≤ 65536 → (Cpu6502.clock^[n] b).cpu.cycles = 65536 - n ∧
      (Cpu6502.clock^[n] b).cpu.cycleCount = b.cpu.cycleCount := by
    intro n hn1 hn2
    obtain ⟨k, rfl⟩ : ∃ k, n = k + 1 := ⟨n - 1, by omega⟩
    rw [Function.iterate_succ_apply]
    have := clock_iterate_pending k (Cpu6502.clock b) (by rw [h1.1]; omega) (by rw [h1.1]; omega)
    rw [h1.1, h1.2] at this
    exact ⟨by rw [this.1]; omega, this.2⟩
  refine ⟨h1.1, ?_, ?_, ?_⟩
  · intro n hn1 hn2
    rw [(hit n hn1 (by omega)).1]; omega
  · rw [(hit 65536 (by omega) (by omega)).1]
  · exact (hit 65536 (by omega) (by omega)).2

/-- C2, the failing input: the machine fetching opcode `$03`. -/
theorem clock_invalid_opcode_stalls_witness :
    (invalidOpcodeBus.cpu.cycles = 0 ∧
      (invalidOpcodeBus.readCpu invalidOpcodeBus.cpu.registers.PC false).1 &&& 3 = 3) ∧
    ((Cpu6502.clock invalidOpcodeBus).cpu.cycles = 65535 ∧
      (∀ n, 1 ≤ n → n < 65536 → (Cpu6502.clock^[n] invalidOpcodeBus).cpu.cycles ≠ 0) ∧
      (Cpu6502.clock^[65536] invalidOpcodeBus).cpu.cycles = 0 ∧
      (Cpu6502.clock^[65536] invalidOpcodeBus).cpu.cycleCount = invalidOpcodeBus.cpu.cycleCount) :=
  ⟨⟨by decide, by decide⟩, clock_invalid_opcode_stalls invalidOpcodeBus (by decide) (by decide)⟩

/-! ## The instruction table and the fetch -/

theorem u16_succ_succ (x : Nat) : u16 (u16 (x + 1) + 1) = u16 (x + 2) := by
  unfold u16; omega

theorem readPC_PC (b : NesBus) : (Cpu6502.readPC b).2.cpu.registers.PC = u16 (b.cpu.registers.PC + 1) := by
  simp [Cpu6502.readPC, Cpu6502.read, NesBus.setPC, NesBus.setRegs, NesBus.regs,
    NesBus.readCpu_withCpu]

theorem read_PC (b : NesBus) (a : Nat) : (Cpu6502.read b a).2.cpu.registers.PC = b.cpu.registers.PC := by
  simp [Cpu6502.read, NesBus.readCpu_cpu]

theorem read_regs (b : NesBus) (a : Nat) : (Cpu6502.read b a).2.cpu = b.cpu := by
  simp [Cpu6502.read, NesBus.readCpu_cpu]

theorem fetchOpcode_PC (b : NesBus) :
    (Cpu6502.fetchOpcode b).cpu.registers.PC = u16 (b.cpu.registers.PC + 1) := by
  have := readPC_PC b
  simp only [Cpu6502.fetchOpcode, Cpu6502.setStatus, NesBus.setRegs, NesBus.regs]
  exact this

theorem readWord_PC (b : NesBus) :
    (Cpu6502.readWord b).2.2.cpu.registers.PC = u16 (b.cpu.registers.PC + 2) := by
  simp only [Cpu6502.readWord, readPC_PC, u16_succ_succ]

theorem setAbs_PC (b : NesBus) (x : Nat) : (b.setAbs x).cpu.registers.PC = b.cpu.registers.PC := rfl

/-- Every addressing mode callback advances `PC` by its number of operand bytes. -/
theorem addrModeCallbacks_PC (mode : AddrMode) (b : NesBus) (hpc : b.cpu.registers.PC < 65536) :
    (addrModeCallbacks mode b).2.cpu.registers.PC = u16 (b.cpu.registers.PC + operandBytes mode) := by
  have h0 : u16 (b.cpu.registers.PC + 0) = b.cpu.registers.PC := u16_of_lt hpc
  cases mode
  case abs => simp only [addrModeCallbacks, operandBytes, setAbs_PC, readWord_PC]
  case absX =>
    simp only [addrModeCallbacks, operandBytes, Cpu6502.absIndexed]
    split_ifs <;> simp only [setAbs_PC, readWord_PC]
  case absY =>
    simp only [addrModeCallbacks, operandBytes, Cpu6502.absIndexed]
    split_ifs <;> simp only [setAbs_PC, readWord_PC]
  case imm => simp [addrModeCallbacks, operandBytes, NesBus.setAbs, NesBus.setPC, NesBus.setRegs, NesBus.regs]
  case impl => simp only [addrModeCallbacks, operandBytes, h0]
  case rel => simp only [addrModeCallbacks, operandBytes, readPC_PC]
  case zpg => simp only [addrModeCallbacks, operandBytes, setAbs_PC, readPC_PC]
  case zpgX => simp only [addrModeCallbacks, operandBytes, setAbs_PC, readPC_PC]
  case zpgY => simp only [addrModeCallbacks, operandBytes, setAbs_PC, readPC_PC]
  case ind =>
    simp only [addrModeCallbacks, operandBytes, Cpu6502.ind]
    split_ifs <;> simp only [setAbs_PC, read_PC, readWord_PC]
  case Xind => simp only [addrModeCallbacks, operandBytes, Cpu6502.Xind, setAbs_PC, read_PC, readPC_PC]
  case indY =>
    simp only [addrModeCallbacks, operandBytes, Cpu6502.indY]
    split_ifs <;> simp only [setAbs_PC, read_PC, readPC_PC]
  case A => simp only [addrModeCallbacks, operandBytes, h0]
  case UNK => simp only [addrModeCallbacks, operandBytes, h0]
  case EMPTY => simp only [addrModeCallbacks, operandBytes, h0]

set_option maxRecDepth 1000000 in
set_option maxHeartbeats 4000000 in
theorem sizeCheck_all : ∀ op, op < 256 → sizeCheck op = true := by
  decide

theorem instructionMap_sizes (op : Nat) (h : op < 256) :
    (op &&& 3 = 3 → instructionMap.find op = none) ∧
    (op &&& 3 ≠ 3 → ∃ i mode, instructionMap.find op = some i ∧ i.addrmodeCallback = some mode ∧
      (op ∉ deadOpcodes → op ≠ 0x6C → i.size = 1 + operandBytes mode) ∧
      (op ∈ deadOpcodes → i.size = 1 ∧ operandBytes mode = 1) ∧
      (op = 0x6C → i.size = 2 ∧ operandBytes mode = 2)) := by
  have hc := sizeCheck_all op h
  unfold sizeCheck at hc
  have h6c : (0x6C : Nat) ∉ deadOpcodes := by decide
  cases hf : instructionMap.find op with
  | none =>
    rw [hf] at hc
    simp only [decide_eq_true_eq] at hc
    exact ⟨fun _ => rfl, fun hne => absurd hc hne⟩
  | some i =>
    rw [hf] at hc
    simp only [] at hc
    cases hm : i.addrmodeCallback with
    | none => rw [hm] at hc; exact absurd hc (by simp)
    | some mode =>
      rw [hm] at hc
      simp only [decide_eq_true_eq] at hc
      obtain ⟨hne, hrest⟩ := hc
      refine ⟨fun h3 => absurd h3 hne, fun _ => ⟨i, mode, rfl, hm, ?_, ?_, ?_⟩⟩
      · intro hd h6; simpa [hd, h6] using hrest
      · intro hd; simpa [hd] using hrest
      · intro h6; subst h6; simpa [h6c] using hrest

theorem operandBytes_le (mode : AddrMode) : operandBytes mode ≤ 2 := by
  cases mode <;> simp [operandBytes]

/-- The bytes consumed by the fetch, from the table entry of the opcode byte. -/
theorem bytesConsumed_eq (b : NesBus) (hpc : b.cpu.registers.PC < 65536) :
    ((b.readCpu b.cpu.registers.PC false).1 &&& 3 = 3 → Cpu6502.bytesConsumed b = 1) ∧
    (∀ i mode, instructionMap.find (b.readCpu b.cpu.registers.PC false).1 = some i →
      i.addrmodeCallback = some mode → Cpu6502.bytesConsumed b = 1 + operandBytes mode) := by
  have hlt := NesBus.readCpu_lt b b.cpu.registers.PC false
  constructor
  · intro h3
    have hidx : (Index.unpack (Cpu6502.fetchOpcode b).cpu.opcode).c > 2 := by
      rw [fetchOpcode_opcode]
      show (b.readCpu b.cpu.registers.PC false).1 &&& 3 > 2
      omega
    simp only [Cpu6502.bytesConsumed, hidx, if_true, fetchOpcode_PC]
    unfold u16; omega
  · intro i mode hf hm
    have hne : (b.readCpu b.cpu.registers.PC false).1 &&& 3 ≠ 3 := by
      intro h3
      have := (instructionMap_sizes _ hlt).1 h3
      rw [this] at hf; exact absurd hf (by simp)
    have hidx : ¬ (Index.unpack (Cpu6502.fetchOpcode b).cpu.opcode).c > 2 := by
      rw [fetchOpcode_opcode]
      show ¬ (b.readCpu b.cpu.registers.PC false).1 &&& 3 > 2
      have : (b.readCpu b.cpu.registers.PC false).1 &&& 3 ≤ 3 := Nat.and_le_right
      omega
    have hget : instructionMap.get (Cpu6502.fetchOpcode b).cpu.opcode = i := by
      rw [fetchOpcode_opcode]; simp [InstructionMap.get, hf]
    have hk := operandBytes_le mode
    have hf1 : (Cpu6502.fetchOpcode b).cpu.registers.PC < 65536 := by
      rw [fetchOpcode_PC]; exact u16_lt _
    have hd : (Cpu6502.fetchOperand (Cpu6502.fetchOpcode b)).2.cpu.registers.PC
        = u16 (u16 (b.cpu.registers.PC + 1) + operandBytes mode) := by
      unfold Cpu6502.fetchOperand
      rw [hget]
      simp only []
      rw [hm]
      show (addrModeCallbacks mode _).2.cpu.registers.PC = _
      rw [addrModeCallbacks_PC mode ((Cpu6502.fetchOpcode b).setCycles i.cycles) hf1]
      show u16 ((Cpu6502.fetchOpcode b).cpu.registers.PC + operandBytes mode) = _
      rw [fetchOpcode_PC]
    unfold Cpu6502.bytesConsumed
    simp only []
    rw [if_neg hidx, hd]
    unfold u16; omega

/-- C3: the `size` of the table entry against the bytes `clock()` consumes.
For every machine whose `PC` is a 16-bit value: if the opcode byte at `PC` is
`$6C` (`JMP` indirect), the entry built by `createInstructionSet` has `size` 2
while `clock()` consumes 3 bytes (the opcode byte and the two operand bytes the
`ind` callback reads through `PC`); for every other opcode byte with an entry
that is not one of the 13 dead cells, the entry's `size` is the number of
bytes `clock()` consumes. -/
theorem instruction_size_consumed (b : NesBus) (hpc : b.cpu.registers.PC < 65536) :
    ((b.readCpu b.cpu.registers.PC false).1 = 0x6C →
      (instructionMap.find 0x6C).map (fun i => i.size) = some 2 ∧
        Cpu6502.bytesConsumed b = 3) ∧
    (∀ i, instructionMap.find (b.readCpu b.cpu.registers.PC false).1 = some i →
      (b.readCpu b.cpu.registers.PC false).1 ∉ deadOpcodes →
      (b.readCpu b.cpu.registers.PC false).1 ≠ 0x6C → Cpu6502.bytesConsumed b = i.size) := by
  have hlt := NesBus.readCpu_lt b b.cpu.registers.PC false
  constructor
  · intro h6
    obtain ⟨j, mode, hfj, hm, _, _, h3⟩ := (instructionMap_sizes 0x6C (by norm_num)).2 (by decide)
    have hb := (bytesConsumed_eq b hpc).2 j mode (by rw [h6]; exact hfj) hm
    obtain ⟨hs, ho⟩ := h3 rfl
    refine ⟨?_, by rw [hb, ho]⟩
    rw [hfj]; simp only [Option.map_some', hs]
  · intro i hf hd h6
    have hne : (b.readCpu b.cpu.registers.PC false).1 &&& 3 ≠ 3 := by
      intro h3
      have := (instructionMap_sizes _ hlt).1 h3
      rw [this] at hf; exact absurd hf (by simp)
    obtain ⟨j, mode, hfj, hm, h1, _, _⟩ := (instructionMap_sizes _ hlt).2 hne
    have hij : j = i := by rw [hfj] at hf; exact Option.some.inj hf
    subst hij
    rw [(bytesConsumed_eq b hpc).2 j mode hfj hm, h1 hd h6]

set_option maxRecDepth 1000000 in
/-- C3 at the machine fetching `JMP ($02FF)` at `$8000`: the opcode byte is
`$6C`, its entry has `size` 2 and the fetch consumes 3 bytes. -/
theorem instruction_size_consumed_witness :
    jmpIndirectBus.cpu.registers.PC < 65536 ∧
    (jmpIndirectBus.readCpu jmpIndirectBus.cpu.registers.PC false).1 = 0x6C ∧
    (instructionMap.find 0x6C).map (fun i => i.size) = some 2 ∧
    Cpu6502.bytesConsumed jmpIndirectBus = 3 :=
  ⟨by decide, by decide, (instruction_size_consumed jmpIndirectBus (by decide)).1 (by decide)⟩

/-! ## PPUSTATUS -/

theorem Mapper.cpuMapRead_low (m : Mapper) (addr x : Nat) (h : addr < 0x6000) :
    (m.cpuMapRead addr x).1 = false := by
  unfold Mapper.cpuMapRead
  cases hk : m.kind with
  | m000 =>
    simp only [Mapper000.cpuMapRead]
    split_ifs <;> first | rfl | omega
  | m001 s =>
    simp only [Mapper001.cpuMapRead]
    split_ifs <;> first | rfl | omega
  | m002 s =>
    simp only [Mapper002.cpuMapRead]
    split_ifs <;> first | rfl | omega
  | m004 s =>
    simp only [Mapper004.cpuMapRead]
    split_ifs <;> first | rfl | omega

theorem NesRom.cpuRead_low (r : NesRom) (addr data : Nat) (h : addr < 0x6000) :
    (r.cpuRead addr data).1 = false := by
  unfold NesRom.cpuRead
  simp [Mapper.cpuMapRead_low r.mapper addr r.uninit h]

theorem setBitfield_clear7 (v k : Nat) (hk : k < 7) :
    bitfield (setBitfield v 7 1 0) 7 1 = 0 ∧
    bitfield (setBitfield v 7 1 0) k 1 = bitfield v k 1 := by
  unfold bitfield setBitfield
  simp only [Nat.shiftRight_eq_div_pow, Nat.shiftLeft_eq]
  interval_cases k <;> norm_num <;> omega

theorem status_byte_lt (s d : Nat) : (s &&& 0xE0) ||| (d &&& 0x1F) < 256 := by
  have h1 : s &&& 0xE0 < 2 ^ 8 := lt_of_le_of_lt Nat.and_le_right (by norm_num)
  have h2 : d &&& 0x1F < 2 ^ 8 := lt_of_le_of_lt Nat.and_le_right (by norm_num)
  exact Nat.or_lt_two_pow h1 h2

/-- C6: for every machine state, a CPU read of PPUSTATUS (any address in
`$2000-$3FFF` with `addr & 7 = 2`) returns `(STATUS & 0xE0) | (dataBuffer & 0x1F)`;
afterwards the address latch is 0 and `STATUS.vblank` is 0, and nothing else has
changed: the other seven STATUS bits and every other member of the PPU and of
the bus are as before. -/
theorem read_ppustatus (b : NesBus) (addr : Nat) (h1 : 0x2000 ≤ addr) (h2 : addr ≤ 0x3FFF)
    (h3 : addr &&& 7 = 2) :
    b.readCpu addr false =
      ((b.ppu.registers.STATUS &&& 0xE0) ||| (b.ppu.dataBuffer &&& 0x1F),
       { b with ppu := { b.ppu with
           registers := { b.ppu.registers with STATUS := setBitfield b.ppu.registers.STATUS 7 1 0 }
           addressLatch := 0 } }) ∧
    (b.readCpu addr false).2.ppu.addressLatch = 0 ∧
    (b.readCpu addr false).2.ppu.registers.vblank = 0 ∧
    (∀ k, k < 7 → bitfield (b.readCpu addr false).2.ppu.registers.STATUS k 1
        = bitfield b.ppu.registers.STATUS k 1) := by
  have hr : (b.rom.cpuRead addr 0).1 = false := NesRom.cpuRead_low _ _ _ (by omega)
  have e : b.readCpu addr false =
      ((b.ppu.registers.STATUS &&& 0xE0) ||| (b.ppu.dataBuffer &&& 0x1F),
       { b with ppu := { b.ppu with
           registers := { b.ppu.registers with STATUS := setBitfield b.ppu.registers.STATUS 7 1 0 }
           addressLatch := 0 } }) := by
    unfold NesBus.readCpu
    simp only [hr]
    rw [if_neg (by simp), if_neg (by omega), if_pos h2]
    simp only [h3, Ppu2C02.cpuRead, PPU_STATUS, if_true, Bool.false_eq_true, if_false]
    rw [u8_of_lt (u8_lt _), u8_of_lt (status_byte_lt _ _)]
  refine ⟨e, ?_, ?_, ?_⟩
  · rw [e]
  · rw [e]; exact (setBitfield_clear7 _ 0 (by norm_num)).1
  · intro k hk; rw [e]; exact (setBitfield_clear7 _ k hk).2

/-- C6 at the machine with all status flags set, read through the mirror `$2002`. -/
theorem read_ppustatus_witness :
    ((0x2000 ≤ 0x2002 ∧ 0x2002 ≤ 0x3FFF) ∧ 0x2002 &&& 7 = 2) ∧
    (statusBus.readCpu 0x2002 false =
      ((statusBus.ppu.registers.STATUS &&& 0xE0) ||| (statusBus.ppu.dataBuffer &&& 0x1F),
       { statusBus with ppu := { statusBus.ppu with
           registers := { statusBus.ppu.registers with
             STATUS := setBitfield statusBus.ppu.registers.STATUS 7 1 0 }
           addressLatch := 0 } }) ∧
    (statusBus.readCpu 0x2002 false).2.ppu.addressLatch = 0 ∧
    (statusBus.readCpu 0x2002 false).2.ppu.registers.vblank = 0 ∧
    (∀ k, k < 7 → bitfield (statusBus.readCpu 0x2002 false).2.ppu.registers.STATUS k 1
        = bitfield statusBus.ppu.registers.STATUS k 1)) :=
  ⟨⟨⟨by decide, by decide⟩, by decide⟩,
    read_ppustatus statusBus 0x2002 (by decide) (by decide) (by decide)⟩


/-! ## CHR RAM -/

/-- C7, the failing input: on an MMC3 cartridge (mapper 4) without CHR banks,
after reset, the PPU write of `$01` to `$0000` lands in the PPU's own pattern
table, while the PPU read of `$0000` is served by the cartridge and returns
`$00`. -/
theorem chr_ram_mapper4_not_read_back :
    chrRamBus4.rom.mapper.chrBankCount = 0 ∧
    ((chrRamBus4.ppu.ppuWrite chrRamBus4.rom 0x0000 0x01).1.ppuRead
        (chrRamBus4.ppu.ppuWrite chrRamBus4.rom 0x0000 0x01).2 0x0000 = 0) ∧
    (chrRamBus4.ppu.ppuWrite chrRamBus4.rom 0x0000 0x01).1.patternTable 0 0 = 1 := by
  decide

theorem and_3FFF_of_le {a : Nat} (h : a ≤ 0x1FFF) : a &&& 0x3FFF = a := by
  have : a &&& 0x3FFF = a % 2 ^ 14 := Nat.and_pow_two_sub_one_eq_mod a 14
  rw [this]; omega

/-- On the mappers 0, 1 and 2 a cartridge without CHR banks reads back what was
written to `$0000-$1FFF`. -/
theorem chr_ram_read_back (p : Ppu2C02) (rom : NesRom) (a d : Nat) (ha : a ≤ 0x1FFF)
    (hd : d < 256) (hchr : rom.mapper.chrBankCount = 0) (hlen : rom.chrLen = 8192)
    (hk : ∀ s, rom.mapper.kind ≠ .m004 s) :
    (p.ppuWrite rom a d).1.ppuRead (p.ppuWrite rom a d).2 a = d := by
  have hw : (rom.mapper.ppuMapWrite a rom.uninit) = (true, a) := by
    unfold Mapper.ppuMapWrite
    cases hkind : rom.mapper.kind with
    | m000 => simp [Mapper000.ppuMapWrite, ha, hchr]
    | m001 s => simp [Mapper001.ppuMapWrite, ha, hchr]
    | m002 s => simp [Mapper002.ppuMapWrite, ha, hchr]
    | m004 s => exact absurd hkind (hk s)
  have hr : ∀ r : NesRom, r.mapper = rom.mapper → r.uninit = rom.uninit →
      (r.mapper.ppuMapRead a r.uninit) = (true, a) := by
    intro r hm hu
    rw [hm, hu]
    unfold Mapper.ppuMapRead
    cases hkind : rom.mapper.kind with
    | m000 => simp [Mapper000.ppuMapRead, ha]
    | m001 s => simp [Mapper001.ppuMapRead, ha, hchr]
    | m002 s => simp [Mapper002.ppuMapRead, ha]
    | m004 s => exact absurd hkind (hk s)
  have e : p.ppuWrite rom a d = (p, { rom with chr := store rom.chr a d }) := by
    unfold Ppu2C02.ppuWrite NesRom.ppuWrite
    simp [and_3FFF_of_le ha, hw]
  rw [e]
  unfold Ppu2C02.ppuRead NesRom.ppuRead
  simp only [and_3FFF_of_le ha]
  rw [hr _ rfl rfl]
  have ha2 : a < 8192 := by omega
  simp [hlen, store, u8_of_lt hd, ha2]

/-! ## JMP indirect -/

set_option maxRecDepth 1000000 in
theorem instructionMap_get_6C : instructionMap.get 0x6C =
    { opcode := .JMP, addrmode := .ind, size := 2, cycles := 5, opByte := 0x6C,
      callback := some .JMP, addrmodeCallback := some .ind, implied := false } := by
  decide

theorem word_succ_lt {hi lo : Nat} (hh : hi < 256) (hl : lo < 256) (hne : lo ≠ 0xFF) :
    ((hi <<< 8) ||| lo) + 1 < 65536 := by
  have h1 : 2 ^ 8 * hi + lo = 2 ^ 8 * hi ||| lo := Nat.mul_add_lt_is_or (by omega) hi
  have h2 : hi <<< 8 = 2 ^ 8 * hi := by rw [Nat.shiftLeft_eq, Nat.mul_comm]
  rw [h2, ← h1]; omega

/-- C8: `clock()` on a CPU without pending cycles whose opcode byte is `$6C`
(`JMP` indirect) reads the operand `ptr` and sets `PC` to
`(read(ptr & 0xFF00) << 8) | read(ptr)` when the low byte of `ptr` is `$FF`,
and to `(read(ptr + 1) << 8) | read(ptr)` otherwise; the reads are the bus
reads, taken in program order. -/
theorem jmp_indirect (b : NesBus) (hc : b.cpu.cycles = 0)
    (hop : (b.readCpu b.cpu.registers.PC false).1 = 0x6C) :
    (Cpu6502.clock b).cpu.registers.PC =
      (let pc := b.cpu.registers.PC
       let b1 := (b.readCpu pc false).2
       let lo := b1.readCpu (u16 (pc + 1)) false
       let hi := lo.2.readCpu (u16 (u16 (pc + 1) + 1)) false
       let ptr := (hi.1 <<< 8) ||| lo.1
       let h := hi.2.readCpu (if lo.1 = 0xFF then ptr &&& 0xFF00 else ptr + 1) false
       let l := h.2.readCpu ptr false
       (h.1 <<< 8) ||| l.1) := by
  rcases h0 : b.readCpu b.cpu.registers.PC false with ⟨v0, s0⟩
  rw [h0] at hop
  simp only at hop
  subst hop
  rcases h1 : s0.readCpu (u16 (b.cpu.registers.PC + 1)) false with ⟨lo, s1⟩
  rcases h2 : s1.readCpu (u16 (u16 (b.cpu.registers.PC + 1) + 1)) false with ⟨hi, s2⟩
  have hlo : lo < 256 := by
    have := NesBus.readCpu_lt s0 (u16 (b.cpu.registers.PC + 1)) false
    rw [h1] at this; exact this
  have hhi : hi < 256 := by
    have := NesBus.readCpu_lt s1 (u16 (u16 (b.cpu.registers.PC + 1) + 1)) false
    rw [h2] at this; exact this
  have hptr := word_lt hhi hlo
  have hf : Cpu6502.fetchOpcode b = { s0 with cpu := { b.cpu with
      opcode := 0x6C
      registers := { b.cpu.registers with
        PC := u16 (b.cpu.registers.PC + 1), P := setBitfield b.cpu.registers.P 5 1 1 } } } := by
    simp [Cpu6502.fetchOpcode, Cpu6502.readPC, Cpu6502.read, NesBus.setPC, NesBus.setRegs,
      NesBus.regs, NesBus.readCpu_withCpu, h0, Cpu6502.setStatus, NES_UNUSED, ofBool]
  simp only [Cpu6502.clock, hc, if_true]
  by_cases hFF : lo = 0xFF
  · subst hFF
    rcases h3 : s2.readCpu (((hi <<< 8) ||| 0xFF) &&& 0xFF00) false with ⟨h, s3⟩
    rcases h4 : s3.readCpu ((hi <<< 8) ||| 0xFF) false with ⟨l, s4⟩
    have hh : h < 256 := by
      have := NesBus.readCpu_lt s2 (((hi <<< 8) ||| 0xFF) &&& 0xFF00) false
      rw [h3] at this; exact this
    have hl : l < 256 := by
      have := NesBus.readCpu_lt s3 ((hi <<< 8) ||| 0xFF) false
      rw [h4] at this; exact this
    set_option maxRecDepth 100000 in
    simp +decide [Cpu6502.step, hf, Index.unpack, Cpu6502.execute, Cpu6502.fetchOperand,
        instructionMap_get_6C, callAddrMode, addrModeCallbacks, Cpu6502.ind, Cpu6502.readWord,
        Cpu6502.readPC, Cpu6502.read,
        NesBus.readCpu_withCpu, callInstr, instrCallbacks, NesBus.setPC, NesBus.setRegs, NesBus.regs,
        NesBus.setCycles, NesBus.setAbs, Cpu6502.setStatus, NES_UNUSED, u16_of_lt hptr,
        h0, h1, h2, h3, h4, u16_of_lt (word_lt hh hl)]
  · rcases h3 : s2.readCpu (((hi <<< 8) ||| lo) + 1) false with ⟨h, s3⟩
    rcases h4 : s3.readCpu ((hi <<< 8) ||| lo) false with ⟨l, s4⟩
    have hh : h < 256 := by
      have := NesBus.readCpu_lt s2 (((hi <<< 8) ||| lo) + 1) false
      rw [h3] at this; exact this
    have hl : l < 256 := by
      have := NesBus.readCpu_lt s3 ((hi <<< 8) ||| lo) false
      rw [h4] at this; exact this
    set_option maxRecDepth 100000 in
    simp +decide [Cpu6502.step, hf, Index.unpack, Cpu6502.execute, Cpu6502.fetchOperand,
        instructionMap_get_6C, callAddrMode, addrModeCallbacks, Cpu6502.ind, Cpu6502.readWord,
        Cpu6502.readPC, Cpu6502.read,
        NesBus.readCpu_withCpu, callInstr, instrCallbacks, NesBus.setPC, NesBus.setRegs, NesBus.regs,
        NesBus.setCycles, NesBus.setAbs, Cpu6502.setStatus, NES_UNUSED, u16_of_lt hptr,
        h0, h1, h2, h3, h4, hFF, u16_of_lt (word_lt hh hl), u16_of_lt (word_succ_lt hhi hlo hFF)]

set_option maxRecDepth 1000000 in
/-- C8 at `JMP ($02FF)` with `$00` at `$02FF`, `$40` at `$0200` and `$80` at
`$0300`: the program counter becomes `$4000`, not `$8000`. -/
theorem jmp_indirect_witness :
    (jmpIndirectBus.cpu.cycles = 0 ∧
      (jmpIndirectBus.readCpu jmpIndirectBus.cpu.registers.PC false).1 = 0x6C) ∧
    (Cpu6502.clock jmpIndirectBus).cpu.registers.PC =
      (let pc := jmpIndirectBus.cpu.registers.PC
       let b1 := (jmpIndirectBus.readCpu pc false).2
       let lo := b1.readCpu (u16 (pc + 1)) false
       let hi := lo.2.readCpu (u16 (u16 (pc + 1) + 1)) false
       let ptr := (hi.1 <<< 8) ||| lo.1
       let h := hi.2.readCpu (if lo.1 = 0xFF then ptr &&& 0xFF00 else ptr + 1) false
       let l := h.2.readCpu ptr false
       (h.1 <<< 8) ||| l.1) ∧
    ((jmpIndirectBus.readCpu 0x8001 false).1 = 0xFF ∧
      (jmpIndirectBus.readCpu 0x8002 false).1 = 0x02 ∧
      (jmpIndirectBus.readCpu 0x02FF false).1 = 0x00 ∧
      (jmpIndirectBus.readCpu 0x0200 false).1 = 0x40 ∧
      (jmpIndirectBus.readCpu 0x0300 false).1 = 0x80 ∧
      (Cpu6502.clock jmpIndirectBus).cpu.registers.PC = 0x4000) :=
  ⟨⟨by decide, by decide⟩, jmp_indirect jmpIndirectBus (by decide) (by decide), by decide⟩


/-! ## Branch timing -/

set_option maxRecDepth 1000000 in
theorem instructionMap_get_F0 : instructionMap.get 0xF0 =
    { opcode := .BEQ, addrmode := .rel, size := 2, cycles := 2, opByte := 0xF0,
      callback := some .BEQ, addrmodeCallback := some .rel, implied := false } := by
  decide

set_option maxRecDepth 1000000 in
/-- C9, counterexample: with the Z flag set, `BEQ +1` (bytes `$F0 $01`) located
at `$80FE` costs 3 cycles, not 4. -/
theorem beq_at_80FE_costs_three :
    Cpu6502.getStatus (beqBus 0x80FE) NES_ZERO = true ∧
    ((beqBus 0x80FE).readCpu 0x80FE false).1 = 0xF0 ∧
    ((beqBus 0x80FE).readCpu 0x80FF false).1 = 0x01 ∧
    (beqBus 0x80FE).cpu.registers.PC = 0x80FE ∧
    Cpu6502.cost (beqBus 0x80FE) = 3 ∧
    (Cpu6502.clock (beqBus 0x80FE)).cpu.cycleCount = (beqBus 0x80FE).cpu.cycleCount + 3 := by
  decide

theorem bitfield_setBitfield_5_1 (v x : Nat) : bitfield (setBitfield v 5 1 x) 1 1 = bitfield v 1 1 := by
  unfold bitfield setBitfield
  simp only [Nat.shiftRight_eq_div_pow, Nat.shiftLeft_eq]
  norm_num
  omega

/-- C9, amended: with the Z flag set, `BEQ +1` (bytes `$F0 $01`) located at
`$80FE` costs 3 cycles, and the same instruction located at `$8002` costs 3
cycles: the cost fixed by `clock()` is 3, two cycles are left pending after the
call and `cycleCount` has grown by 3. -/
theorem beq_cost (b : NesBus) (a : Nat) (ha : a = 0x80FE ∨ a = 0x8002) (hc : b.cpu.cycles = 0)
    (hpc : b.cpu.registers.PC = a) (hz : Cpu6502.getStatus b NES_ZERO = true)
    (hop : (b.readCpu a false).1 = 0xF0) (hoff : (b.readCpu (a + 1) false).1 = 0x01) :
    Cpu6502.cost b = 3 ∧ (Cpu6502.clock b).cpu.cycles = 2 ∧
      (Cpu6502.clock b).cpu.cycleCount = u32 (b.cpu.cycleCount + 3) := by
  have r0 : b.readCpu a false = (0xF0, b) := by
    have := NesBus.readCpu_cart b a false (by omega) (by omega)
    rw [this] at hop ⊢; simp only at hop; rw [hop]
  have r1 : b.readCpu (a + 1) false = (0x01, b) := by
    have := NesBus.readCpu_cart b (a + 1) false (by omega) (by omega)
    rw [this] at hoff ⊢; simp only at hoff; rw [hoff]
  have hf : Cpu6502.fetchOpcode b = { b with cpu := { b.cpu with
      opcode := 0xF0
      registers := { b.cpu.registers with
        PC := u16 (a + 1), P := setBitfield b.cpu.registers.P 5 1 1 } } } := by
    simp [Cpu6502.fetchOpcode, Cpu6502.readPC, Cpu6502.read, NesBus.setPC, NesBus.setRegs,
      NesBus.regs, NesBus.readCpu_withCpu, hpc, r0, Cpu6502.setStatus, NES_UNUSED, ofBool]
  have hz2 : bitfield (setBitfield b.cpu.registers.P 5 1 1) 1 1 = 1 := by
    rw [bitfield_setBitfield_5_1]
    simpa [Cpu6502.getStatus, NesBus.regs, NES_ZERO] using hz
  have hs : (Cpu6502.step b).cpu.cycles = 3 ∧
      (Cpu6502.step b).cpu.cycleCount = u32 (b.cpu.cycleCount + 3) := by
    rcases ha with rfl | rfl <;>
    · set_option maxRecDepth 100000 in
      simp +decide [Cpu6502.step, hf, Index.unpack, Cpu6502.execute, Cpu6502.fetchOperand,
        instructionMap_get_F0, callAddrMode, addrModeCallbacks, Cpu6502.readPC, Cpu6502.read,
        NesBus.readCpu_withCpu, r1, callInstr, instrCallbacks, Cpu6502.branchIf,
        Cpu6502.getStatus, Cpu6502.branch, NesBus.setPC, NesBus.setRegs, NesBus.regs,
        NesBus.setCycles, NesBus.setAbs, Cpu6502.setStatus, u16, u8, NES_ZERO, NES_UNUSED, hz2]
  refine ⟨hs.1, ?_, ?_⟩
  · simp only [Cpu6502.clock, hc, if_true, NesBus.setCycles, hs.1]
    rfl
  · simp only [Cpu6502.clock, hc, if_true, NesBus.setCycles, hs.2]

set_option maxRecDepth 1000000 in
/-- C9, amended, at the machine fetching `BEQ +1` at `$80FE`. -/
theorem beq_cost_witness :
    ((0x80FE = 0x80FE ∨ 0x80FE = 0x8002) ∧ (beqBus 0x80FE).cpu.cycles = 0 ∧
      (beqBus 0x80FE).cpu.registers.PC = 0x80FE ∧
      Cpu6502.getStatus (beqBus 0x80FE) NES_ZERO = true ∧
      ((beqBus 0x80FE).readCpu 0x80FE false).1 = 0xF0 ∧
      ((beqBus 0x80FE).readCpu (0x80FE + 1) false).1 = 0x01) ∧
    (Cpu6502.cost (beqBus 0x80FE) = 3 ∧ (Cpu6502.clock (beqBus 0x80FE)).cpu.cycles = 2 ∧
      (Cpu6502.clock (beqBus 0x80FE)).cpu.cycleCount = u32 ((beqBus 0x80FE).cpu.cycleCount + 3)) :=
  ⟨⟨by decide, by decide, by decide, by decide, by decide, by decide⟩,
    beq_cost (beqBus 0x80FE) 0x80FE (by decide) (by decide) (by decide) (by decide) (by decide)
      (by decide)⟩

/-! ## Save states: the byte representation -/

theorem bytesLE_length (w x : Nat) : (bytesLE w x).length = w := by
  induction w generalizing x with
  | zero => rfl
  | succ k ih => simp [bytesLE, ih]

theorem arrayBytes_length (a : Nat → Nat) (n : Nat) : (arrayBytes a n).length = n := by
  simp [arrayBytes]

theorem leValue_bytesLE (w x : Nat) : leValue (bytesLE w x) = x % 256 ^ w := by
  induction w generalizing x with
  | zero => simp [bytesLE, leValue, Nat.mod_one]
  | succ k ih =>
    simp only [bytesLE, leValue, ih]
    rw [pow_succ, Nat.mul_comm (256 ^ k) 256, Nat.mod_mul, Nat.add_comm]

theorem bytesLE_mod (w x : Nat) : bytesLE w (x % 256 ^ w) = bytesLE w x := by
  induction w generalizing x with
  | zero => rfl
  | succ k ih =>
    simp only [bytesLE]
    have h1 : x % 256 ^ (k + 1) % 256 = x % 256 := by
      rw [pow_succ, Nat.mul_comm]; exact Nat.mod_mul_right_mod x 256 (256 ^ k)
    have h2 : x % 256 ^ (k + 1) / 256 = x / 256 % 256 ^ k := by
      rw [pow_succ, Nat.mul_comm]; exact Nat.mod_mul_right_div_self x 256 (256 ^ k)
    rw [h1, h2, ih]

/-- Writing an unsigned integer, reading it back and writing it again gives the same bytes. -/
theorem bytesLE_leValue (w x : Nat) : bytesLE w (leValue (bytesLE w x)) = bytesLE w x := by
  rw [leValue_bytesLE, bytesLE_mod]

theorem arrayBytes_getD (a : Nat → Nat) (n i : Nat) (h : i < n) :
    (arrayBytes a n).getD i 0 = u8 (a i) := by
  simp [arrayBytes, List.getD_eq_getElem?_getD, List.getElem?_map, List.getElem?_range h]

theorem arrayBytes_congr (a c : Nat → Nat) (n : Nat) (h : ∀ i, i < n → u8 (a i) = u8 (c i)) :
    arrayBytes a n = arrayBytes c n := by
  unfold arrayBytes
  apply List.map_congr_left
  intro i hi
  exact h i (List.mem_range.mp hi)

/-- Writing an array, reading it back and writing it again gives the same bytes. -/
theorem arrayBytes_arrayOf (a : Nat → Nat) (n : Nat) :
    arrayBytes (arrayOf (arrayBytes a n)) n = arrayBytes a n := by
  apply arrayBytes_congr
  intro i hi
  simp only [arrayOf]
  rw [arrayBytes_getD a n i hi]
  unfold u8; omega

theorem readBytes_append (seg rest old : List Nat) (n : Nat) (h : seg.length = n)
    (hold : old.length ≤ n) : readBytes (seg ++ rest) n old = (seg, rest) := by
  unfold readBytes
  subst h
  have h1 : List.take seg.length (seg ++ rest) = seg := List.take_left' rfl
  have h2 : List.drop seg.length (seg ++ rest) = rest := List.drop_left' rfl
  have h3 : List.drop (seg ++ rest).length old = [] := by
    apply List.drop_eq_nil_of_le
    simp only [List.length_append]; omega
  rw [h1, h2, h3, List.append_nil]

theorem boolBytes_boolOf (b : Bool) : boolBytes (boolOf (boolBytes b)) = boolBytes b := by
  cases b <;> rfl

theorem i16_int16Of (bs : List Nat) (h : leValue bs < 65536) : i16 (int16Of bs) = leValue bs := by
  unfold i16 int16Of
  simp only []
  split_ifs <;> omega

theorem int16Bytes_int16Of (x : Int) : int16Bytes (int16Of (int16Bytes x)) = int16Bytes x := by
  unfold int16Bytes
  rw [i16_int16Of]
  · exact bytesLE_leValue 2 _
  · rw [leValue_bytesLE]; exact Nat.mod_lt _ (by norm_num)

theorem boolBytes_length (b : Bool) : (boolBytes b).length = 1 := rfl

theorem int16Bytes_length (x : Int) : (int16Bytes x).length = 2 := bytesLE_length 2 _

theorem cut_append (seg rest : List Nat) (n : Nat) (h : seg.length = n) :
    cut (seg ++ rest) n = (seg, rest) := by
  unfold cut
  subst h
  rw [List.take_left' rfl, List.drop_left' rfl]

theorem cut_bytesLE (w x : Nat) (rest : List Nat) :
    cut (bytesLE w x ++ rest) w = (bytesLE w x, rest) := cut_append _ _ _ (bytesLE_length w x)

theorem cut_bytesLE_end (w x : Nat) : cut (bytesLE w x) w = (bytesLE w x, []) := by
  have h := cut_bytesLE w x []
  rwa [List.append_nil] at h

theorem cut_arrayBytes (a : Nat → Nat) (n : Nat) (rest : List Nat) :
    cut (arrayBytes a n ++ rest) n = (arrayBytes a n, rest) :=
  cut_append _ _ _ (arrayBytes_length a n)

theorem cut_arrayBytes_end (a : Nat → Nat) (n : Nat) : cut (arrayBytes a n) n = (arrayBytes a n, []) := by
  have h := cut_arrayBytes a n []
  rwa [List.append_nil] at h

theorem cut_boolBytes (b : Bool) (rest : List Nat) :
    cut (boolBytes b ++ rest) 1 = (boolBytes b, rest) := cut_append _ _ _ rfl

theorem cut_boolBytes_end (b : Bool) : cut (boolBytes b) 1 = (boolBytes b, []) := by
  have h := cut_boolBytes b []
  rwa [List.append_nil] at h

theorem readBytes_bytesLE (w x y : Nat) (rest : List Nat) :
    readBytes (bytesLE w x ++ rest) w (bytesLE w y) = (bytesLE w x, rest) :=
  readBytes_append _ _ _ _ (bytesLE_length w x) (le_of_eq (bytesLE_length w y))

theorem readBytes_arrayBytes (a c : Nat → Nat) (n : Nat) (rest : List Nat) :
    readBytes (arrayBytes a n ++ rest) n (arrayBytes c n) = (arrayBytes a n, rest) :=
  readBytes_append _ _ _ _ (arrayBytes_length a n) (le_of_eq (arrayBytes_length c n))

theorem readBytes_arrayBytes_end (a c : Nat → Nat) (n : Nat) :
    readBytes (arrayBytes a n) n (arrayBytes c n) = (arrayBytes a n, []) := by
  have h := readBytes_arrayBytes a c n []
  rwa [List.append_nil] at h

theorem readBytes_int16Bytes (x y : Int) (rest : List Nat) :
    readBytes (int16Bytes x ++ rest) 2 (int16Bytes y) = (int16Bytes x, rest) :=
  readBytes_append _ _ _ _ (int16Bytes_length x) (le_of_eq (int16Bytes_length y))

theorem readBytes_boolBytes (x y : Bool) (rest : List Nat) :
    readBytes (boolBytes x ++ rest) 1 (boolBytes y) = (boolBytes x, rest) :=
  readBytes_append _ _ _ _ rfl (le_of_eq rfl)

/-! ### Records -/

theorem Header_bytes_length (h : Header) : h.bytes.length = 16 := by
  simp [Header.bytes, bytesLE_length, arrayBytes_length]

theorem Header_ofBytes_bytes (h : Header) :
    Header.ofBytes h.bytes =
      { nes := arrayOf (arrayBytes h.nes 4), prgSize := leValue (bytesLE 1 h.prgSize),
        chrSize := leValue (bytesLE 1 h.chrSize), flags6 := leValue (bytesLE 1 h.flags6),
        flags7 := leValue (bytesLE 1 h.flags7), flags8 := leValue (bytesLE 1 h.flags8),
        flags9 := leValue (bytesLE 1 h.flags9), flags10 := leValue (bytesLE 1 h.flags10),
        padding := arrayOf (arrayBytes h.padding 5) } := by
  simp only [Header.bytes, Header.ofBytes, List.append_assoc, cut_bytesLE, cut_arrayBytes,
    cut_arrayBytes_end]

theorem Header_bytes_ofBytes (h : Header) : (Header.ofBytes h.bytes).bytes = h.bytes := by
  rw [Header_ofBytes_bytes]
  simp only [Header.bytes, bytesLE_leValue, arrayBytes_arrayOf]

theorem leValue_bytesLE_one (x : Nat) : leValue (bytesLE 1 x) = u8 x := by
  rw [leValue_bytesLE]; rfl

theorem leValue_bytesLE_two (x : Nat) : leValue (bytesLE 2 x) = u16 x := by
  rw [leValue_bytesLE]; rfl

theorem u8_u8 (x : Nat) : u8 (u8 x) = u8 x := by unfold u8; omega

theorem Header.hasTrainer_ofBytes (h : Header) :
    (Header.ofBytes h.bytes).hasTrainer = h.hasTrainer := by
  rw [Header_ofBytes_bytes]
  simp only [Header.hasTrainer, leValue_bytesLE_one, u8_u8]

theorem Header.getMapperNumber_ofBytes (h : Header) :
    (Header.ofBytes h.bytes).getMapperNumber = h.getMapperNumber := by
  rw [Header_ofBytes_bytes]
  simp only [Header.getMapperNumber, leValue_bytesLE_one, u8_u8]

theorem BankSelect_bytes_length (k : BankSelect) : k.bytes.length = 3 := by
  simp [BankSelect.bytes, bytesLE_length]

theorem BankSelect_bytes_ofBytes (k : BankSelect) : (BankSelect.ofBytes k.bytes).bytes = k.bytes := by
  simp only [BankSelect.bytes, BankSelect.ofBytes, List.append_assoc, cut_bytesLE, cut_bytesLE_end,
    bytesLE_leValue]

theorem cut_bankSelect (k : BankSelect) (rest : List Nat) :
    cut (k.bytes ++ rest) 3 = (k.bytes, rest) := cut_append _ _ _ (BankSelect_bytes_length k)

theorem Mapper.serialize_length (m : Mapper) : m.serialize.length = m.size := by
  unfold Mapper.serialize Mapper.size
  cases m.kind with
  | m001 _ =>
    simp [Mapper001.serialize, bytesLE_length, arrayBytes_length, BankSelect_bytes_length]
    omega
  | _ => simp [bytesLE_length]

theorem Mapper.serialize_deserialize (m s : Mapper) (h : m.size = s.size) :
    (m.deserialize s.serialize).serialize = s.serialize := by
  have hS : (2 : Nat) ≠ 1 + 1 + 2 * 3 + 3 + 4 + STATIC_RAM_SIZE := by unfold STATIC_RAM_SIZE; omega
  rcases m with ⟨mp, mc, mk⟩
  rcases s with ⟨sp, sc, sk⟩
  cases mk <;> cases sk <;>
    first
    | exact absurd h hS
    | exact absurd h.symm hS
    | simp only [Mapper.serialize, Mapper.deserialize, Mapper001.serialize, Mapper001.deserialize,
        List.append_assoc, cut_bytesLE, cut_bytesLE_end, cut_arrayBytes_end, cut_bankSelect,
        bytesLE_leValue, arrayBytes_arrayOf, BankSelect_bytes_ofBytes]

theorem Registers_bytes_length (r : Registers) : r.bytes.length = 7 := by
  simp [Registers.bytes, bytesLE_length]

theorem Registers_bytes_ofBytes (r : Registers) : (Registers.ofBytes r.bytes).bytes = r.bytes := by
  simp only [Registers.bytes, Registers.ofBytes, List.append_assoc, cut_bytesLE, cut_bytesLE_end,
    bytesLE_leValue]

theorem PpuRegisters_bytes_length (r : PpuRegisters) : r.bytes.length = 8 := by
  simp [PpuRegisters.bytes, bytesLE_length]

theorem PpuRegisters_bytes_ofBytes (r : PpuRegisters) :
    (PpuRegisters.ofBytes r.bytes).bytes = r.bytes := by
  simp only [PpuRegisters.bytes, PpuRegisters.ofBytes, List.append_assoc, cut_bytesLE,
    cut_bytesLE_end, bytesLE_leValue]

theorem BackgroundData_bytes_length (g : BackgroundData) : g.bytes.length = 12 := by
  simp [BackgroundData.bytes, bytesLE_length]

theorem BackgroundData_bytes_ofBytes (g : BackgroundData) :
    (BackgroundData.ofBytes g.bytes).bytes = g.bytes := by
  simp only [BackgroundData.bytes, BackgroundData.ofBytes, List.append_assoc, cut_bytesLE,
    cut_bytesLE_end, bytesLE_leValue]

theorem ObjectAttributeMemory_bytes_length (o : ObjectAttributeMemory) : o.bytes.length = 257 := by
  simp [ObjectAttributeMemory.bytes, bytesLE_length, arrayBytes_length]

theorem ObjectAttributeMemory_bytes_ofBytes (o : ObjectAttributeMemory) :
    (ObjectAttributeMemory.ofBytes o.bytes).bytes = o.bytes := by
  simp only [ObjectAttributeMemory.bytes, ObjectAttributeMemory.ofBytes, cut_arrayBytes,
    cut_bytesLE_end, bytesLE_leValue, arrayBytes_arrayOf]

theorem SpriteInfo_bytes_length (q : SpriteInfo) : q.bytes.length = 51 := by
  simp [SpriteInfo.bytes, bytesLE_length, arrayBytes_length, boolBytes_length]

theorem SpriteInfo_bytes_ofBytes (q : SpriteInfo) : (SpriteInfo.ofBytes q.bytes).bytes = q.bytes := by
  simp only [SpriteInfo.bytes, SpriteInfo.ofBytes, List.append_assoc, cut_arrayBytes, cut_bytesLE,
    cut_boolBytes, cut_boolBytes_end, bytesLE_leValue, arrayBytes_arrayOf, boolBytes_boolOf]

theorem DmaInfo_bytes_length (d : DmaInfo) : d.bytes.length = 5 := by
  simp [DmaInfo.bytes, bytesLE_length, boolBytes_length]

theorem DmaInfo_bytes_ofBytes (d : DmaInfo) : (DmaInfo.ofBytes d.bytes).bytes = d.bytes := by
  simp only [DmaInfo.bytes, DmaInfo.ofBytes, List.append_assoc, cut_bytesLE, cut_boolBytes,
    cut_boolBytes_end, bytesLE_leValue, boolBytes_boolOf]

/-! ### The parts of `loadState` on the bytes written by `saveState` -/

theorem readBytes_header (x y : Header) (rest : List Nat) :
    readBytes (x.bytes ++ rest) 16 y.bytes = (x.bytes, rest) :=
  readBytes_append _ _ _ _ (Header_bytes_length x) (le_of_eq (Header_bytes_length y))

theorem readBytes_registers (x y : Registers) (rest : List Nat) :
    readBytes (x.bytes ++ rest) 7 y.bytes = (x.bytes, rest) :=
  readBytes_append _ _ _ _ (Registers_bytes_length x) (le_of_eq (Registers_bytes_length y))

theorem readBytes_ppuRegisters (x y : PpuRegisters) (rest : List Nat) :
    readBytes (x.bytes ++ rest) 8 y.bytes = (x.bytes, rest) :=
  readBytes_append _ _ _ _ (PpuRegisters_bytes_length x) (le_of_eq (PpuRegisters_bytes_length y))

theorem readBytes_backgroundData (x y : BackgroundData) (rest : List Nat) :
    readBytes (x.bytes ++ rest) 12 y.bytes = (x.bytes, rest) :=
  readBytes_append _ _ _ _ (BackgroundData_bytes_length x) (le_of_eq (BackgroundData_bytes_length y))

theorem readBytes_oam (x y : ObjectAttributeMemory) (rest : List Nat) :
    readBytes (x.bytes ++ rest) 257 y.bytes = (x.bytes, rest) :=
  readBytes_append _ _ _ _ (ObjectAttributeMemory_bytes_length x)
    (le_of_eq (ObjectAttributeMemory_bytes_length y))

theorem readBytes_spriteInfo (x y : SpriteInfo) (rest : List Nat) :
    readBytes (x.bytes ++ rest) 51 y.bytes = (x.bytes, rest) :=
  readBytes_append _ _ _ _ (SpriteInfo_bytes_length x) (le_of_eq (SpriteInfo_bytes_length y))

theorem readBytes_dmaInfo (x y : DmaInfo) (rest : List Nat) :
    readBytes (x.bytes ++ rest) 5 y.bytes = (x.bytes, rest) :=
  readBytes_append _ _ _ _ (DmaInfo_bytes_length x) (le_of_eq (DmaInfo_bytes_length y))

theorem bytesLE_u8 (x : Nat) : bytesLE 1 (u8 x) = bytesLE 1 x := bytesLE_mod 1 x

theorem bytesLE_u16 (x : Nat) : bytesLE 2 (u16 x) = bytesLE 2 x := bytesLE_mod 2 x

/-- The cartridge part of `loadState` on the bytes written by `saveState` for the cartridge `s`. -/
theorem NesRom.loadBody_saveBody (r s : NesRom) (h : Header) (rest : List Nat)
    (hp : s.prgLen < 2 ^ 64) (hc : s.chrLen < 2 ^ 64)
    (hn : h.getMapperNumber = s.header.getMapperNumber) (hm : r.mapper.size = s.mapper.size) :
    r.loadBody h (s.saveBody ++ rest) true =
      ({ r with header := h, prg := arrayOf (arrayBytes s.prg s.prgLen), prgLen := s.prgLen,
                chr := arrayOf (arrayBytes s.chr s.chrLen), chrLen := s.chrLen,
                mapper := if h.getMapperNumber = 1 then r.mapper.deserialize s.mapper.serialize
                          else r.mapper }, rest) := by
  have e1 : leValue (bytesLE 8 s.prgLen) = s.prgLen := by
    rw [leValue_bytesLE]; exact Nat.mod_eq_of_lt (by norm_num; omega)
  have e2 : leValue (bytesLE 8 s.chrLen) = s.chrLen := by
    rw [leValue_bytesLE]; exact Nat.mod_eq_of_lt (by norm_num; omega)
  have e3 : ∀ tl : List Nat, readBytes (s.mapper.serialize ++ tl) r.mapper.size
      (List.replicate r.mapper.size 0) = (s.mapper.serialize, tl) := fun tl =>
    readBytes_append _ _ _ _ (by rw [Mapper.serialize_length, hm]) (by simp)
  unfold NesRom.loadBody NesRom.saveBody
  by_cases h1 : s.header.getMapperNumber = 1
  · simp only [if_true, hn, h1, List.append_assoc, readBytes_bytesLE, e1, e2, readBytes_arrayBytes,
      e3]
  · simp only [if_true, if_false, hn, h1, List.append_assoc, List.nil_append, readBytes_bytesLE,
      e1, e2, readBytes_arrayBytes]

/-- The CPU part of `loadState` on the bytes written by `saveState` for the CPU `new`. -/
theorem Cpu6502_load_save (c new : Cpu6502) (rest : List Nat) :
    Cpu6502.load c (new.save ++ rest) =
      ({ c with registers := Registers.ofBytes new.registers.bytes, inputAlu := u8 new.inputAlu,
                opcode := u8 new.opcode, temp := u16 new.temp,
                absoluteAddress := u16 new.absoluteAddress,
                relativeAddress := u16 new.relativeAddress, cycles := u16 new.cycles }, rest) := by
  simp only [Cpu6502.load, Cpu6502.save, List.append_assoc, readBytes_registers, readBytes_bytesLE,
    leValue_bytesLE_one, leValue_bytesLE_two]

set_option maxRecDepth 100000 in
/-- The PPU part of `loadState` on the bytes written by `saveState` for the PPU `new`. -/
theorem Ppu2C02_load_save (p new : Ppu2C02) (rest : List Nat) :
    Ppu2C02.load p (new.save ++ rest) =
      ({ p with
         registers := PpuRegisters.ofBytes new.registers.bytes
         bg := BackgroundData.ofBytes new.bg.bytes
         OAM := ObjectAttributeMemory.ofBytes new.OAM.bytes
         sprites := SpriteInfo.ofBytes new.sprites.bytes
         nameTable := fun k =>
           if k = 0 then arrayOf (arrayBytes (new.nameTable 0) 1024)
           else if k = 1 then arrayOf (arrayBytes (new.nameTable 1) 1024) else p.nameTable k
         patternTable := fun k =>
           if k = 0 then arrayOf (arrayBytes (new.patternTable 0) 4096)
           else if k = 1 then arrayOf (arrayBytes (new.patternTable 1) 4096) else p.patternTable k
         paletteTable := arrayOf (arrayBytes new.paletteTable 32)
         addressLatch := u8 new.addressLatch
         dataBuffer := u8 new.dataBuffer
         scanline := int16Of (int16Bytes new.scanline)
         cycle := int16Of (int16Bytes new.cycle)
         nmi := boolOf (boolBytes new.nmi) }, rest) := by
  simp only [Ppu2C02.load, Ppu2C02.loadRecords, Ppu2C02.loadTables, Ppu2C02.loadScalars,
    Ppu2C02.save, List.append_assoc, readBytes_ppuRegisters, readBytes_backgroundData,
    readBytes_oam, readBytes_spriteInfo, readBytes_arrayBytes, readBytes_bytesLE,
    readBytes_int16Bytes, readBytes_boolBytes, leValue_bytesLE_one]

theorem NesRom.loadBody_saveBody_end (r s : NesRom) (h : Header)
    (hp : s.prgLen < 2 ^ 64) (hc : s.chrLen < 2 ^ 64)
    (hn : h.getMapperNumber = s.header.getMapperNumber) (hm : r.mapper.size = s.mapper.size) :
    (r.loadBody h s.saveBody true).1 =
      { r with header := h, prg := arrayOf (arrayBytes s.prg s.prgLen), prgLen := s.prgLen,
               chr := arrayOf (arrayBytes s.chr s.chrLen), chrLen := s.chrLen,
               mapper := if h.getMapperNumber = 1 then r.mapper.deserialize s.mapper.serialize
                         else r.mapper } := by
  have h0 := NesRom.loadBody_saveBody r s h [] hp hc hn hm
  rw [List.append_nil] at h0
  rw [h0]

theorem Cpu6502_load_save_end (c new : Cpu6502) :
    (Cpu6502.load c new.save).1 =
      { c with registers := Registers.ofBytes new.registers.bytes, inputAlu := u8 new.inputAlu,
               opcode := u8 new.opcode, temp := u16 new.temp,
               absoluteAddress := u16 new.absoluteAddress,
               relativeAddress := u16 new.relativeAddress, cycles := u16 new.cycles } := by
  have h0 := Cpu6502_load_save c new []
  rw [List.append_nil] at h0
  rw [h0]

theorem Ppu2C02_load_save_end (p new : Ppu2C02) :
    (Ppu2C02.load p new.save).1 =
      { p with
        registers := PpuRegisters.ofBytes new.registers.bytes
        bg := BackgroundData.ofBytes new.bg.bytes
        OAM := ObjectAttributeMemory.ofBytes new.OAM.bytes
        sprites := SpriteInfo.ofBytes new.sprites.bytes
        nameTable := fun k =>
          if k = 0 then arrayOf (arrayBytes (new.nameTable 0) 1024)
          else if k = 1 then arrayOf (arrayBytes (new.nameTable 1) 1024) else p.nameTable k
        patternTable := fun k =>
          if k = 0 then arrayOf (arrayBytes (new.patternTable 0) 4096)
          else if k = 1 then arrayOf (arrayBytes (new.patternTable 1) 4096) else p.patternTable k
        paletteTable := arrayOf (arrayBytes new.paletteTable 32)
        addressLatch := u8 new.addressLatch
        dataBuffer := u8 new.dataBuffer
        scanline := int16Of (int16Bytes new.scanline)
        cycle := int16Of (int16Bytes new.cycle)
        nmi := boolOf (boolBytes new.nmi) } := by
  have h0 := Ppu2C02_load_save p new []
  rw [List.append_nil] at h0
  rw [h0]

/-- Saving the cartridge loaded from the bytes saved for `s` gives those bytes. -/
theorem NesRom.saveBody_loadBody (r s : NesRom)
    (hp : s.prgLen < 2 ^ 64) (hc : s.chrLen < 2 ^ 64) (hm : r.mapper.size = s.mapper.size) :
    (r.loadBody (Header.ofBytes s.header.bytes) s.saveBody true).1.saveBody = s.saveBody := by
  rw [NesRom.loadBody_saveBody_end r s _ hp hc (Header.getMapperNumber_ofBytes _) hm]
  unfold NesRom.saveBody
  by_cases h1 : s.header.getMapperNumber = 1
  · simp only [Header.getMapperNumber_ofBytes, h1, if_true, arrayBytes_arrayOf,
      Mapper.serialize_deserialize r.mapper s.mapper hm]
  · simp only [Header.getMapperNumber_ofBytes, h1, if_false, arrayBytes_arrayOf]

/-- Saving the CPU loaded from the bytes saved for `new` gives those bytes. -/
theorem Cpu6502_save_load (c new : Cpu6502) : (Cpu6502.load c new.save).1.save = new.save := by
  rw [Cpu6502_load_save_end]
  simp only [Cpu6502.save, Registers_bytes_ofBytes, bytesLE_u8, bytesLE_u16]

/-- Saving the PPU loaded from the bytes saved for `new` gives those bytes. -/
theorem Ppu2C02_save_load (p new : Ppu2C02) : (Ppu2C02.load p new.save).1.save = new.save := by
  rw [Ppu2C02_load_save_end]
  simp only [Ppu2C02.save, PpuRegisters_bytes_ofBytes, BackgroundData_bytes_ofBytes,
    ObjectAttributeMemory_bytes_ofBytes, SpriteInfo_bytes_ofBytes, arrayBytes_arrayOf, bytesLE_u8,
    int16Bytes_int16Of, boolBytes_boolOf, if_true, one_ne_zero, if_false]

/-- The bytes `saveState` writes for a cartridge without trainer. -/
theorem NesBus.saveState_eq (s : NesBus) (ht : s.rom.header.hasTrainer = false) :
    s.saveState = some (s.rom.header.bytes ++ s.rom.saveBody ++ s.cpu.save ++ s.ppu.save ++
      s.DMA.bytes ++ arrayBytes s.memory 2048) := by
  simp only [NesBus.saveState, ht, Bool.false_eq_true, if_false]

set_option maxRecDepth 100000 in
/-- The result of `loadState` on the file `saveState` writes for `s`: every
part of the machine `m` is loaded from the part of the file written for it. -/
theorem NesBus.loadState_saved (s m : NesBus) (ht : s.rom.header.hasTrainer = false)
    (hp : s.rom.prgLen < 2 ^ 64) (hc : s.rom.chrLen < 2 ^ 64)
    (hm : m.rom.mapper.size = s.rom.mapper.size) :
    NesBus.loadState (s.rom.header.bytes ++ s.rom.saveBody ++ s.cpu.save ++ s.ppu.save ++
        s.DMA.bytes ++ arrayBytes s.memory 2048) m true =
      some { m with
        rom := (m.rom.loadBody (Header.ofBytes s.rom.header.bytes) s.rom.saveBody true).1
        cpu := (m.cpu.load s.cpu.save).1
        ppu := (m.ppu.load s.ppu.save).1
        DMA := DmaInfo.ofBytes s.DMA.bytes
        memory := arrayOf (arrayBytes s.memory 2048) } := by
  have eR := fun rest => NesRom.loadBody_saveBody m.rom s.rom (Header.ofBytes s.rom.header.bytes)
    rest hp hc (Header.getMapperNumber_ofBytes _) hm
  rw [NesRom.loadBody_saveBody_end m.rom s.rom _ hp hc (Header.getMapperNumber_ofBytes _) hm,
    Cpu6502_load_save_end, Ppu2C02_load_save_end]
  simp only [NesBus.loadState, List.append_assoc, readBytes_header, Header.hasTrainer_ofBytes, ht,
    Bool.false_eq_true, if_false, eR, Cpu6502_load_save, Ppu2C02_load_save, readBytes_dmaInfo,
    readBytes_arrayBytes_end]

set_option maxRecDepth 100000 in
/-- Saving the machine loaded from the file written for `s` writes that file again. -/
theorem NesBus.saveState_loaded (s m : NesBus) (ht : s.rom.header.hasTrainer = false)
    (hp : s.rom.prgLen < 2 ^ 64) (hc : s.rom.chrLen < 2 ^ 64)
    (hm : m.rom.mapper.size = s.rom.mapper.size) :
    ({ m with
        rom := (m.rom.loadBody (Header.ofBytes s.rom.header.bytes) s.rom.saveBody true).1
        cpu := (m.cpu.load s.cpu.save).1
        ppu := (m.ppu.load s.ppu.save).1
        DMA := DmaInfo.ofBytes s.DMA.bytes
        memory := arrayOf (arrayBytes s.memory 2048) } : NesBus).saveState =
      some (s.rom.header.bytes ++ s.rom.saveBody ++ s.cpu.save ++ s.ppu.save ++
        s.DMA.bytes ++ arrayBytes s.memory 2048) := by
  have hh : (m.rom.loadBody (Header.ofBytes s.rom.header.bytes) s.rom.saveBody true).1.header =
      Header.ofBytes s.rom.header.bytes := by
    rw [NesRom.loadBody_saveBody_end m.rom s.rom _ hp hc (Header.getMapperNumber_ofBytes _) hm]
  simp only [NesBus.saveState, hh, Header.hasTrainer_ofBytes, ht, Bool.false_eq_true, if_false,
    Header_bytes_ofBytes, NesRom.saveBody_loadBody m.rom s.rom hp hc hm, Cpu6502_save_load,
    Ppu2C02_save_load, DmaInfo_bytes_ofBytes, arrayBytes_arrayOf]

/-! ### What the records hold after a round trip through their bytes -/

theorem boolOf_boolBytes (b : Bool) : boolOf (boolBytes b) = b := by
  cases b <;> rfl

theorem int16Of_int16Bytes (x : Int) (h1 : -32768 ≤ x) (h2 : x < 32768) :
    int16Of (int16Bytes x) = x := by
  have hv : leValue (int16Bytes x) = i16 x := by
    unfold int16Bytes
    rw [leValue_bytesLE]
    exact Nat.mod_eq_of_lt (by unfold i16; omega)
  unfold int16Of
  simp only [hv]
  unfold i16
  split_ifs <;> omega

theorem Registers_ofBytes_bytes (r : Registers) :
    Registers.ofBytes r.bytes =
      { A := u8 r.A, P := u8 r.P, X := u8 r.X, Y := u8 r.Y, S := u8 r.S, PC := u16 r.PC } := by
  simp only [Registers.bytes, Registers.ofBytes, List.append_assoc, cut_bytesLE, cut_bytesLE_end,
    leValue_bytesLE_one, leValue_bytesLE_two]

theorem PpuRegisters_ofBytes_bytes (r : PpuRegisters) :
    PpuRegisters.ofBytes r.bytes =
      { STATUS := u8 r.STATUS, MASK := u8 r.MASK, CTRL := u8 r.CTRL, v := u16 r.v, t := u16 r.t,
        fineX := u8 r.fineX } := by
  simp only [PpuRegisters.bytes, PpuRegisters.ofBytes, List.append_assoc, cut_bytesLE,
    cut_bytesLE_end, leValue_bytesLE_one, leValue_bytesLE_two]

theorem BackgroundData_ofBytes_bytes (g : BackgroundData) :
    BackgroundData.ofBytes g.bytes =
      { NextTileId := u8 g.NextTileId, NextTileAttrib := u8 g.NextTileAttrib,
        NextTileLsb := u8 g.NextTileLsb, NextTileMsb := u8 g.NextTileMsb,
        ShiftPatternLo := u16 g.ShiftPatternLo, ShiftPatternHi := u16 g.ShiftPatternHi,
        ShiftAttribLo := u16 g.ShiftAttribLo, ShiftAttribHi := u16 g.ShiftAttribHi } := by
  simp only [BackgroundData.bytes, BackgroundData.ofBytes, List.append_assoc, cut_bytesLE,
    cut_bytesLE_end, leValue_bytesLE_one, leValue_bytesLE_two]

theorem ObjectAttributeMemory_ofBytes_bytes (o : ObjectAttributeMemory) :
    ObjectAttributeMemory.ofBytes o.bytes =
      { data := arrayOf (arrayBytes o.data 256), address := u8 o.address } := by
  simp only [ObjectAttributeMemory.bytes, ObjectAttributeMemory.ofBytes, cut_arrayBytes,
    cut_bytesLE_end, leValue_bytesLE_one]

theorem SpriteInfo_ofBytes_bytes (q : SpriteInfo) :
    SpriteInfo.ofBytes q.bytes =
      { scanlineSprites := arrayOf (arrayBytes q.scanlineSprites 32), count := u8 q.count,
        shiftPatternLo := arrayOf (arrayBytes q.shiftPatternLo 8),
        shiftPatternHi := arrayOf (arrayBytes q.shiftPatternHi 8),
        zeroHitPossible := q.zeroHitPossible, zeroDrawing := q.zeroDrawing } := by
  simp only [SpriteInfo.bytes, SpriteInfo.ofBytes, List.append_assoc, cut_arrayBytes, cut_bytesLE,
    cut_boolBytes, cut_boolBytes_end, leValue_bytesLE_one, boolOf_boolBytes]

theorem DmaInfo_ofBytes_bytes (d : DmaInfo) :
    DmaInfo.ofBytes d.bytes =
      { page := u8 d.page, addr := u8 d.addr, data := u8 d.data, dummy := d.dummy,
        transfer := d.transfer } := by
  simp only [DmaInfo.bytes, DmaInfo.ofBytes, List.append_assoc, cut_bytesLE, cut_boolBytes,
    cut_boolBytes_end, leValue_bytesLE_one, boolOf_boolBytes]

/-- A cell of an array after a round trip through its bytes. -/
theorem arrayOf_arrayBytes (a : Nat → Nat) (n i : Nat) (h : i < n) :
    arrayOf (arrayBytes a n) i = u8 (a i) := arrayBytes_getD a n i h

/-! ### Save, load, save (C4) and what a load restores (C5) -/

/-- C4: for every machine state `s` whose cartridge (with mapper 0, 1, 2 or 4)
has no trainer, `saveState` writes a file; `loadState` of that file succeeds
in every state `m` of a machine whose mapper object is of the same class (its
`size()` is that of the mapper of `s`), and `saveState` of the loaded machine
writes the same bytes: save(load(save(s))) = save(s), whatever the machine
held before the load. -/
theorem save_load_save (s m : NesBus) (ht : s.rom.header.hasTrainer = false)
    (hp : s.rom.prgLen < 2 ^ 64) (hc : s.rom.chrLen < 2 ^ 64)
    (hm : m.rom.mapper.size = s.rom.mapper.size) :
    ∃ blob s', s.saveState = some blob ∧ NesBus.loadState blob m true = some s' ∧
      s'.saveState = some blob :=
  ⟨_, _, NesBus.saveState_eq s ht, NesBus.loadState_saved s m ht hp hc hm,
    NesBus.saveState_loaded s m ht hp hc hm⟩

/-- C4 with the file of `mmc1Machine`, which holds the mapper blob, loaded into
`mmc1Target`, a machine with another program counter, PRG size and RAM. -/
theorem save_load_save_witness :
    (mmc1Machine.rom.header.hasTrainer = false ∧ mmc1Machine.rom.header.getMapperNumber = 1 ∧
      mmc1Target.rom.mapper.size = mmc1Machine.rom.mapper.size ∧
      mmc1Target.cpu.registers.PC ≠ mmc1Machine.cpu.registers.PC ∧
      mmc1Target.rom.prgLen ≠ mmc1Machine.rom.prgLen ∧
      mmc1Target.memory 1 ≠ mmc1Machine.memory 1) ∧
      ∃ blob s', mmc1Machine.saveState = some blob ∧
        NesBus.loadState blob mmc1Target true = some s' ∧ s'.saveState = some blob :=
  ⟨⟨by decide, by decide, by decide, by decide, by decide, by decide⟩,
    save_load_save mmc1Machine mmc1Target (by decide) (by decide) (by decide) (by decide)⟩

/-- C5 (counterexample): the file saved for `savedMachine` is loaded into
`freshMachine`, which holds the same cartridge.  The loaded machine has the
accumulator of `savedMachine`, and the master clock count, the APU clock
counters and the controller shift registers of `freshMachine`, which differ
from those of `savedMachine`. -/
theorem load_keeps_clock_apu_controller :
    ∃ blob s', savedMachine.saveState = some blob ∧
      NesBus.loadState blob freshMachine true = some s' ∧
      s'.cpu.registers.A = savedMachine.cpu.registers.A ∧
      s'.systemClockCount ≠ savedMachine.systemClockCount ∧
      s'.apu.frameClockCount ≠ savedMachine.apu.frameClockCount ∧
      s'.apu.clockCount ≠ savedMachine.apu.clockCount ∧
      s'.controller_state 0 ≠ savedMachine.controller_state 0 :=
  ⟨_, _, NesBus.saveState_eq savedMachine (by decide),
    NesBus.loadState_saved savedMachine freshMachine (by decide) (by decide) (by decide) rfl,
    by rw [Cpu6502_load_save_end, Registers_ofBytes_bytes]; decide,
    by decide, by decide, by decide, by decide⟩

set_option maxRecDepth 100000 in
/-- C5 (amended): for every machine state `s` without trainer and every
machine `m` whose cartridge has a mapper of the same class, `loadState` of the
file saved for `s` into `m` gives a machine `t` that writes the same file as
`s` and holds exactly what the file holds: the cartridge header, PRG and CHR
memory, for mapper number 1 the mapper deserialised from the blob of `s`, the
CPU registers and latches, the PPU records, tables and scalars, DMA and RAM,
each with the value it has in `s` (converted to its width).  The APU, the
master clock count, the controller bytes and shift registers, the CPU
cycle count and the PPU members `frameComplete`, `nmiIgnore`, `framecount` and
`odd` are those of `m`. -/
theorem load_restores_saved_parts (s m : NesBus) (ht : s.rom.header.hasTrainer = false)
    (hp : s.rom.prgLen < 2 ^ 64) (hc : s.rom.chrLen < 2 ^ 64)
    (hm : m.rom.mapper.size = s.rom.mapper.size) :
    ∃ blob t, s.saveState = some blob ∧ NesBus.loadState blob m true = some t ∧
      t.saveState = some blob ∧
      t.rom.header = Header.ofBytes s.rom.header.bytes ∧
      t.rom.prgLen = s.rom.prgLen ∧ t.rom.prg = arrayOf (arrayBytes s.rom.prg s.rom.prgLen) ∧
      t.rom.chrLen = s.rom.chrLen ∧ t.rom.chr = arrayOf (arrayBytes s.rom.chr s.rom.chrLen) ∧
      (s.rom.header.getMapperNumber = 1 →
        t.rom.mapper = m.rom.mapper.deserialize s.rom.mapper.serialize) ∧
      t.cpu =
        { m.cpu with
          registers := Registers.ofBytes s.cpu.registers.bytes
          inputAlu := u8 s.cpu.inputAlu, opcode := u8 s.cpu.opcode, temp := u16 s.cpu.temp
          absoluteAddress := u16 s.cpu.absoluteAddress
          relativeAddress := u16 s.cpu.relativeAddress, cycles := u16 s.cpu.cycles } ∧
      t.ppu =
        { m.ppu with
          registers := PpuRegisters.ofBytes s.ppu.registers.bytes
          bg := BackgroundData.ofBytes s.ppu.bg.bytes
          OAM := ObjectAttributeMemory.ofBytes s.ppu.OAM.bytes
          sprites := SpriteInfo.ofBytes s.ppu.sprites.bytes
          nameTable := fun k =>
            if k = 0 then arrayOf (arrayBytes (s.ppu.nameTable 0) 1024)
            else if k = 1 then arrayOf (arrayBytes (s.ppu.nameTable 1) 1024)
            else m.ppu.nameTable k
          patternTable := fun k =>
            if k = 0 then arrayOf (arrayBytes (s.ppu.patternTable 0) 4096)
            else if k = 1 then arrayOf (arrayBytes (s.ppu.patternTable 1) 4096)
            else m.ppu.patternTable k
          paletteTable := arrayOf (arrayBytes s.ppu.paletteTable 32)
          addressLatch := u8 s.ppu.addressLatch
          dataBuffer := u8 s.ppu.dataBuffer
          scanline := int16Of (int16Bytes s.ppu.scanline)
          cycle := int16Of (int16Bytes s.ppu.cycle)
          nmi := boolOf (boolBytes s.ppu.nmi) } ∧
      t.DMA = DmaInfo.ofBytes s.DMA.bytes ∧
      t.memory = arrayOf (arrayBytes s.memory 2048) ∧
      t.apu = m.apu ∧ t.systemClockCount = m.systemClockCount ∧
      t.controller = m.controller ∧ t.controller_state = m.controller_state := by
  have hR := NesRom.loadBody_saveBody_end m.rom s.rom (Header.ofBytes s.rom.header.bytes) hp hc
    (Header.getMapperNumber_ofBytes _) hm
  refine ⟨_, _, NesBus.saveState_eq s ht, NesBus.loadState_saved s m ht hp hc hm,
    NesBus.saveState_loaded s m ht hp hc hm, ?_, ?_, ?_, ?_, ?_, ?_, ?_, ?_, rfl, rfl, rfl, rfl,
    rfl, rfl⟩
  · show (m.rom.loadBody (Header.ofBytes s.rom.header.bytes) s.rom.saveBody true).1.header = _
    rw [hR]
  · show (m.rom.loadBody (Header.ofBytes s.rom.header.bytes) s.rom.saveBody true).1.prgLen = _
    rw [hR]
  · show (m.rom.loadBody (Header.ofBytes s.rom.header.bytes) s.rom.saveBody true).1.prg = _
    rw [hR]
  · show (m.rom.loadBody (Header.ofBytes s.rom.header.bytes) s.rom.saveBody true).1.chrLen = _
    rw [hR]
  · show (m.rom.loadBody (Header.ofBytes s.rom.header.bytes) s.rom.saveBody true).1.chr = _
    rw [hR]
  · intro h1
    show (m.rom.loadBody (Header.ofBytes s.rom.header.bytes) s.rom.saveBody true).1.mapper = _
    rw [hR]
    simp only [Header.getMapperNumber_ofBytes, h1, if_true]
  · exact Cpu6502_load_save_end m.cpu s.cpu
  · exact Ppu2C02_load_save_end m.ppu s.ppu

/-- C5 (amended) at `savedMachine` and `freshMachine`. -/
theorem load_restores_saved_parts_witness :
    savedMachine.rom.header.hasTrainer = false ∧
      ∃ blob t, savedMachine.saveState = some blob ∧
        NesBus.loadState blob freshMachine true = some t ∧
        t.saveState = some blob ∧
        t.cpu.registers = Registers.ofBytes savedMachine.cpu.registers.bytes ∧
        t.apu = freshMachine.apu ∧ t.systemClockCount = freshMachine.systemClockCount :=
  ⟨by decide,
    match load_restores_saved_parts savedMachine freshMachine (by decide) (by decide) (by decide)
      rfl with
    | ⟨blob, t, h1, h2, h3, _, _, _, _, _, _, h4, _, _, _, h5, h6, _, _⟩ =>
      ⟨blob, t, h1, h2, h3, by rw [h4], h5, h6⟩⟩

/-! ## OAM DMA (C10) -/

theorem setV_OAM (p : Ppu2C02) (v : Nat) : (p.setV v).OAM = p.OAM := rfl

theorem setBg_OAM (p : Ppu2C02) (g : BackgroundData) : (p.setBg g).OAM = p.OAM := rfl

theorem scrollX_OAM (p : Ppu2C02) : p.scrollX.OAM = p.OAM := by
  unfold Ppu2C02.scrollX
  simp only []
  split_ifs <;> rfl

theorem scrollY_OAM (p : Ppu2C02) : p.scrollY.OAM = p.OAM := by
  unfold Ppu2C02.scrollY
  simp only []
  split_ifs <;> rfl

theorem txAddressX_OAM (p : Ppu2C02) : p.txAddressX.OAM = p.OAM := by
  unfold Ppu2C02.txAddressX
  simp only []
  split_ifs <;> rfl

theorem txAddressY_OAM (p : Ppu2C02) : p.txAddressY.OAM = p.OAM := by
  unfold Ppu2C02.txAddressY
  simp only []
  split_ifs <;> rfl

theorem loadBackgroundShifters_OAM (p : Ppu2C02) : p.loadBackgroundShifters.OAM = p.OAM := rfl

theorem updateShifters_OAM (p : Ppu2C02) : p.updateShifters.OAM = p.OAM := by
  unfold Ppu2C02.updateShifters
  simp only []
  split_ifs <;> rfl

theorem fetchStep_OAM (p : Ppu2C02) (rom : NesRom) : (p.fetchStep rom).OAM = p.OAM := by
  unfold Ppu2C02.fetchStep
  simp only []
  split_ifs <;> first | rfl | exact scrollX_OAM p

theorem evaluateSprites_OAM (p : Ppu2C02) : p.evaluateSprites.OAM = p.OAM := rfl

theorem fetchSprites_OAM (p : Ppu2C02) (rom : NesRom) : (p.fetchSprites rom).OAM = p.OAM := rfl

theorem renderStep_OAM (p : Ppu2C02) (rom : NesRom) : (p.renderStep rom).OAM = p.OAM := by
  have ite_OAM : ∀ (c : Prop) [Decidable c] (x y : Ppu2C02), y.OAM = p.OAM → x.OAM = y.OAM →
      (if c then x else y).OAM = p.OAM := by
    intro c _ x y hy hx
    split_ifs
    · rw [hx, hy]
    · exact hy
  unfold Ppu2C02.renderStep
  simp only []
  apply ite_OAM _ _ _ _ (fetchSprites_OAM _ _)
  apply ite_OAM _ _ _ _ (evaluateSprites_OAM _)
  apply ite_OAM _ _ _ _ (txAddressY_OAM _)
  apply ite_OAM _ _ _ _ (setBg_OAM _ _)
  apply ite_OAM _ _ _ _ ((txAddressX_OAM _).trans (loadBackgroundShifters_OAM _))
  apply ite_OAM _ _ _ _ (scrollY_OAM _)
  apply ite_OAM _ _ _ _ ((fetchStep_OAM _ _).trans (updateShifters_OAM _))
  refine ite_OAM _ _ _ ?_ ?_
  · refine ite_OAM _ _ _ rfl ?_
    rfl
  · rfl

theorem vblankStep_OAM (p : Ppu2C02) : p.vblankStep.OAM = p.OAM := by
  unfold Ppu2C02.vblankStep
  simp only []
  split_ifs <;> rfl

theorem composeStep_OAM (p : Ppu2C02) : p.composeStep.OAM = p.OAM := by
  unfold Ppu2C02.composeStep
  simp only []
  split_ifs <;> rfl

theorem advance_OAM (p : Ppu2C02) (rom : NesRom) : (p.advance rom).1.OAM = p.OAM := by
  unfold Ppu2C02.advance
  simp only []
  split_ifs <;> rfl

/-- `Ppu2C02::clock` does not write object attribute memory. -/
theorem Ppu2C02.clock_OAM (p : Ppu2C02) (rom : NesRom) : (p.clock rom).1.OAM = p.OAM := by
  unfold Ppu2C02.clock
  simp only []
  rw [advance_OAM, composeStep_OAM, vblankStep_OAM]
  split_ifs
  · exact renderStep_OAM p rom
  · rfl

theorem Mapper.cpuMapWrite_low (m : Mapper) (addr x d : Nat) (h : addr < 0x6000) :
    (m.cpuMapWrite addr x d).1 = false := by
  unfold Mapper.cpuMapWrite
  cases hk : m.kind with
  | m000 =>
    simp only [Mapper000.cpuMapWrite]
    split_ifs
    · omega
    · rfl
  | m001 s =>
    simp only [Mapper001.cpuMapWrite]
    split_ifs <;> first | rfl | omega
  | m002 s =>
    simp only [Mapper002.cpuMapWrite]
    split_ifs <;> rfl
  | m004 s =>
    simp only [Mapper004.cpuMapWrite]
    split_ifs <;> first | rfl | omega

theorem NesRom.cpuWrite_low (r : NesRom) (addr data : Nat) (h : addr < 0x6000) :
    (r.cpuWrite addr data).1 = false := by
  unfold NesRom.cpuWrite
  simp [Mapper.cpuMapWrite_low r.mapper addr r.uninit data h]

/-- `ppu.clock(); apu.clock();` leave the DMA record, the master clock count,
RAM, the CPU and object attribute memory alone. -/
theorem NesBus.clockUnits_frame (b : NesBus) :
    b.clockUnits.DMA = b.DMA ∧ b.clockUnits.systemClockCount = b.systemClockCount ∧
      b.clockUnits.memory = b.memory ∧ b.clockUnits.cpu = b.cpu ∧
      b.clockUnits.ppu.OAM = b.ppu.OAM :=
  ⟨rfl, rfl, rfl, rfl, Ppu2C02.clock_OAM b.ppu b.rom⟩

theorem Ppu2C02.cpuRead_OAM (p : Ppu2C02) (rom : NesRom) (addr : Nat) (ro : Bool) :
    (p.cpuRead rom addr ro).2.OAM = p.OAM := by
  unfold Ppu2C02.cpuRead
  simp only []
  split_ifs <;> rfl

/-- A bus read leaves the DMA record, the master clock count, RAM, the CPU and
object attribute memory alone. -/
theorem NesBus.readCpu_frame (b : NesBus) (a : Nat) (ro : Bool) :
    (b.readCpu a ro).2.DMA = b.DMA ∧
      (b.readCpu a ro).2.systemClockCount = b.systemClockCount ∧
      (b.readCpu a ro).2.memory = b.memory ∧ (b.readCpu a ro).2.cpu = b.cpu ∧
      (b.readCpu a ro).2.ppu.OAM = b.ppu.OAM := by
  unfold NesBus.readCpu
  simp only []
  split_ifs <;> first | exact ⟨rfl, rfl, rfl, rfl, rfl⟩ | exact ⟨rfl, rfl, rfl, rfl, Ppu2C02.cpuRead_OAM _ _ _ _⟩

/-- A read of RAM: the byte, and the machine stays as it is. -/
theorem NesBus.readCpu_ram (b : NesBus) (a : Nat) (ro : Bool) (h : a ≤ 0x1FFF) :
    b.readCpu a ro = (u8 (b.memory (a &&& 0x07FF)), b) := by
  unfold NesBus.readCpu
  simp [NesRom.cpuRead_low b.rom a 0 (by omega), h]

/-- A write into the stack page goes to RAM. -/
theorem NesBus.writeCpu_stack (b : NesBus) (a d : Nat) (h1 : 0x100 ≤ a) (h2 : a ≤ 0x1FF) :
    (b.writeCpu a d).DMA = b.DMA ∧ (b.writeCpu a d).systemClockCount = b.systemClockCount ∧
      (b.writeCpu a d).ppu = b.ppu ∧ (b.writeCpu a d).cpu = b.cpu ∧
      ∀ x, (x < 0x100 ∨ 0x200 ≤ x) → (b.writeCpu a d).memory x = b.memory x := by
  have ha : a &&& 0x07FF = a := by
    have := Nat.and_pow_two_sub_one_eq_mod a 11
    norm_num at this
    rw [this]; omega
  unfold NesBus.writeCpu
  simp only [NesRom.cpuWrite_low b.rom a d (by omega), Bool.false_eq_true, if_false,
    show a ≤ 0x1FFF by omega, if_true, ha]
  refine ⟨trivial, trivial, trivial, trivial, ?_⟩
  intro x hx
  unfold store
  rw [if_neg (by omega)]

/-- A push with the stack pointer in range writes one cell of the stack page. -/
theorem Cpu6502.push_frame (b : NesBus) (d : Nat) (hS : b.cpu.registers.S < 256) :
    (Cpu6502.push b d).DMA = b.DMA ∧
      (Cpu6502.push b d).systemClockCount = b.systemClockCount ∧
      (Cpu6502.push b d).ppu = b.ppu ∧
      (Cpu6502.push b d).cpu.registers.S < 256 ∧
      ∀ x, (x < 0x100 ∨ 0x200 ≤ x) → (Cpu6502.push b d).memory x = b.memory x := by
  have h := NesBus.writeCpu_stack (b.setS (u8 (b.regs.S + 255))) (0x0100 + b.regs.S) (u8 d)
    (by omega) (by show 0x100 + b.cpu.registers.S ≤ 0x1FF; omega)
  obtain ⟨h1, h2, h3, h4, h5⟩ := h
  unfold Cpu6502.push Cpu6502.write
  simp only []
  refine ⟨h1, h2, h3, ?_, h5⟩
  rw [h4]
  exact u8_lt _

theorem setStatus_frame (b : NesBus) (s : Nat) (v : Bool) :
    (Cpu6502.setStatus b s v).DMA = b.DMA ∧
      (Cpu6502.setStatus b s v).systemClockCount = b.systemClockCount ∧
      (Cpu6502.setStatus b s v).ppu = b.ppu ∧
      (Cpu6502.setStatus b s v).cpu.registers.S = b.cpu.registers.S ∧
      (Cpu6502.setStatus b s v).memory = b.memory :=
  ⟨rfl, rfl, rfl, rfl, rfl⟩

/-- `Cpu6502::interrupt` with the stack pointer in range writes three cells of
the stack page and reads the vector from the cartridge. -/
theorem Cpu6502.interrupt_frame (b : NesBus) (v : Nat) (hv1 : 0x8000 ≤ v) (hv2 : v < 0xFFFF)
    (hS : b.cpu.registers.S < 256) :
    (Cpu6502.interrupt b v).DMA = b.DMA ∧
      (Cpu6502.interrupt b v).systemClockCount = b.systemClockCount ∧
      (Cpu6502.interrupt b v).ppu = b.ppu ∧
      (Cpu6502.interrupt b v).cpu.registers.S < 256 ∧
      ∀ x, (x < 0x100 ∨ 0x200 ≤ x) → (Cpu6502.interrupt b v).memory x = b.memory x := by
  obtain ⟨a1, a2, a3, a4, a5⟩ := Cpu6502.push_frame b ((b.regs.PC >>> 8) &&& 0x00ff) hS
  generalize hb1 : Cpu6502.push b ((b.regs.PC >>> 8) &&& 0x00ff) = b1 at a1 a2 a3 a4 a5
  obtain ⟨c1, c2, c3, c4, c5⟩ := Cpu6502.push_frame b1 (b1.regs.PC &&& 0x00ff) a4
  generalize hb2 : Cpu6502.push b1 (b1.regs.PC &&& 0x00ff) = b2 at c1 c2 c3 c4 c5
  let b3 := Cpu6502.setStatus (Cpu6502.setStatus (Cpu6502.setStatus b2 NES_BFLAG false)
    NES_UNUSED true) NES_INTERRUPT true
  have hb3S : b3.cpu.registers.S < 256 := c4
  obtain ⟨e1, e2, e3, e4, e5⟩ := Cpu6502.push_frame b3 b3.regs.P hb3S
  generalize hb4 : Cpu6502.push b3 b3.regs.P = b4 at e1 e2 e3 e4 e5
  have hr1 : Cpu6502.read (b4.setAbs v) v = (u8 ((b4.setAbs v).rom.cpuRead v 0).2, b4.setAbs v) :=
    NesBus.readCpu_cart _ _ _ hv1 (by omega)
  have hu : u16 (v + 1) = v + 1 := u16_of_lt (by omega)
  have hr2 : Cpu6502.read (b4.setAbs v) (u16 (v + 1)) =
      (u8 ((b4.setAbs v).rom.cpuRead (v + 1) 0).2, b4.setAbs v) := by
    rw [hu]
    exact NesBus.readCpu_cart _ _ _ (by omega) (by omega)
  have key : Cpu6502.interrupt b v =
      (b4.setAbs v).setPC (u16 ((u8 ((b4.setAbs v).rom.cpuRead (v + 1) 0).2 <<< 8) |||
        u8 ((b4.setAbs v).rom.cpuRead v 0).2)) := by
    unfold Cpu6502.interrupt
    simp only []
    rw [hb1, hb2]
    show (Cpu6502.read (Cpu6502.read ((Cpu6502.push b3 b3.regs.P).setAbs v) v).2
      (u16 ((Cpu6502.read ((Cpu6502.push b3 b3.regs.P).setAbs v) v).2.cpu.absoluteAddress + 1))).2.setPC
      _ = _
    rw [hb4]
    simp only [show (b4.setAbs v).cpu.absoluteAddress = v from rfl, hr1, hr2]
  rw [key]
  refine ⟨?_, ?_, ?_, ?_, ?_⟩
  · show b4.DMA = b.DMA
    rw [e1]; show b2.DMA = b.DMA; rw [c1, a1]
  · show b4.systemClockCount = b.systemClockCount
    rw [e2]; show b2.systemClockCount = b.systemClockCount; rw [c2, a2]
  · show b4.ppu = b.ppu
    rw [e3]; show b2.ppu = b.ppu; rw [c3, a3]
  · exact e4
  · intro x hx
    show b4.memory x = b.memory x
    rw [e5 x hx]; show b2.memory x = b.memory x; rw [c5 x hx, a5 x hx]

/-- The interrupt delivery at the end of `NesBus::clock` leaves the DMA
record, the master clock count and object attribute memory alone, and writes
RAM in the stack page only. -/
theorem NesBus.interrupts_frame (b : NesBus) (hS : b.cpu.registers.S < 256) :
    b.interrupts.DMA = b.DMA ∧ b.interrupts.systemClockCount = b.systemClockCount ∧
      b.interrupts.ppu.OAM = b.ppu.OAM ∧ b.interrupts.cpu.registers.S < 256 ∧
      ∀ x, (x < 0x100 ∨ 0x200 ≤ x) → b.interrupts.memory x = b.memory x := by
  have step1 : ∀ b1 : NesBus, b1 = (if b.ppu.nmi then
        Cpu6502.nonMaskableInterrupt { b with ppu := { b.ppu with nmi := false } } else b) →
      b1.DMA = b.DMA ∧ b1.systemClockCount = b.systemClockCount ∧ b1.ppu.OAM = b.ppu.OAM ∧
      b1.cpu.registers.S < 256 ∧ ∀ x, (x < 0x100 ∨ 0x200 ≤ x) → b1.memory x = b.memory x := by
    intro b1 h1
    by_cases hn : b.ppu.nmi = true
    · rw [if_pos hn] at h1
      obtain ⟨a1, a2, a3, a4, a5⟩ := Cpu6502.interrupt_frame
        { b with ppu := { b.ppu with nmi := false } } 0xFFFA (by norm_num) (by norm_num) hS
      subst h1
      exact ⟨a1, a2, by show (Cpu6502.interrupt _ _).ppu.OAM = _; rw [a3], a4, a5⟩
    · rw [if_neg hn] at h1
      subst h1
      exact ⟨rfl, rfl, rfl, hS, fun _ _ => rfl⟩
  have step2 : ∀ b1 : NesBus, b1.cpu.registers.S < 256 →
      (if b1.rom.mapper.irqState then
        Cpu6502.interruptRequest { b1 with rom := { b1.rom with mapper := b1.rom.mapper.irqClear } }
       else b1).DMA = b1.DMA ∧
      (if b1.rom.mapper.irqState then
        Cpu6502.interruptRequest { b1 with rom := { b1.rom with mapper := b1.rom.mapper.irqClear } }
       else b1).systemClockCount = b1.systemClockCount ∧
      (if b1.rom.mapper.irqState then
        Cpu6502.interruptRequest { b1 with rom := { b1.rom with mapper := b1.rom.mapper.irqClear } }
       else b1).ppu.OAM = b1.ppu.OAM ∧
      (if b1.rom.mapper.irqState then
        Cpu6502.interruptRequest { b1 with rom := { b1.rom with mapper := b1.rom.mapper.irqClear } }
       else b1).cpu.registers.S < 256 ∧
      ∀ x, (x < 0x100 ∨ 0x200 ≤ x) →
        (if b1.rom.mapper.irqState then
          Cpu6502.interruptRequest { b1 with rom := { b1.rom with mapper := b1.rom.mapper.irqClear } }
         else b1).memory x = b1.memory x := by
    intro b1 hS1
    by_cases hi : b1.rom.mapper.irqState = true
    · simp only [if_pos hi]
      unfold Cpu6502.interruptRequest
      by_cases hf : Cpu6502.getStatus
          { b1 with rom := { b1.rom with mapper := b1.rom.mapper.irqClear } } NES_INTERRUPT = false
      · simp only [if_pos hf]
        obtain ⟨a1, a2, a3, a4, a5⟩ := Cpu6502.interrupt_frame
          { b1 with rom := { b1.rom with mapper := b1.rom.mapper.irqClear } } 0xFFFE
          (by norm_num) (by norm_num) hS1
        exact ⟨a1, a2, by show (Cpu6502.interrupt _ _).ppu.OAM = _; rw [a3], a4, a5⟩
      · simp only [if_neg hf]
        exact ⟨trivial, trivial, trivial, hS1, fun _ _ => trivial⟩
    · simp only [if_neg hi]
      exact ⟨trivial, trivial, trivial, hS1, fun _ _ => trivial⟩
  obtain ⟨a1, a2, a3, a4, a5⟩ := step1 _ rfl
  obtain ⟨c1, c2, c3, c4, c5⟩ := step2 _ a4
  unfold NesBus.interrupts
  simp only []
  exact ⟨c1.trans a1, c2.trans a2, c3.trans a3, c4, fun x hx => (c5 x hx).trans (a5 x hx)⟩

/-- The DMA step: the four cases of `NesBus::clock` under `if (DMA.transfer)`. -/
theorem NesBus.dmaStep_frame (b : NesBus) :
    b.dmaStep.systemClockCount = b.systemClockCount ∧ b.dmaStep.memory = b.memory ∧
      b.dmaStep.cpu = b.cpu ∧
      b.dmaStep.DMA =
        (if b.DMA.dummy then
          if b.systemClockCount % 2 = 1 then { b.DMA with dummy := false } else b.DMA
        else if b.systemClockCount % 2 = 0 then
          { b.DMA with data := (b.readCpu (u16 ((b.DMA.page <<< 8) ||| b.DMA.addr)) false).1 }
        else if u8 (b.DMA.addr + 1) = 0 then
          { b.DMA with addr := u8 (b.DMA.addr + 1), transfer := false, dummy := true }
        else { b.DMA with addr := u8 (b.DMA.addr + 1) }) ∧
      b.dmaStep.ppu.OAM =
        (if b.DMA.dummy = false ∧ b.systemClockCount % 2 ≠ 0 then
          { b.ppu.OAM with data := store b.ppu.OAM.data b.DMA.addr b.DMA.data }
        else b.ppu.OAM) := by
  obtain ⟨r1, r2, r3, r4, r5⟩ :=
    NesBus.readCpu_frame b (u16 ((b.DMA.page <<< 8) ||| b.DMA.addr)) false
  unfold NesBus.dmaStep
  by_cases hd : b.DMA.dummy = true
  · by_cases h2 : b.systemClockCount % 2 = 1
    · simp [hd, h2]
    · simp [hd, h2]
  · by_cases h2 : b.systemClockCount % 2 = 0
    · simp [hd, h2, r1, r2, r3, r4, r5]
    · by_cases h0 : u8 (b.DMA.addr + 1) = 0
      · simp [hd, h2, h0]
      · simp [hd, h2, h0]

/-- A call of `NesBus::clock` that is not a CPU tick. -/
theorem NesBus.clock_idle_tick (b : NesBus) (hS : b.cpu.registers.S < 256)
    (h3 : b.systemClockCount % 3 ≠ 0) :
    b.clock.systemClockCount = u32 (b.systemClockCount + 1) ∧ b.clock.DMA = b.DMA ∧
      b.clock.ppu.OAM = b.ppu.OAM ∧ b.clock.cpu.registers.S < 256 ∧
      ∀ x, (x < 0x100 ∨ 0x200 ≤ x) → b.clock.memory x = b.memory x := by
  obtain ⟨u1, u2, u3, u4, u5⟩ := NesBus.clockUnits_frame b
  have hSu : b.clockUnits.cpu.registers.S < 256 := by rw [u4]; exact hS
  obtain ⟨i1, i2, i3, i4, i5⟩ := NesBus.interrupts_frame b.clockUnits hSu
  have h3u : ¬ b.clockUnits.systemClockCount % 3 = 0 := by rw [u2]; exact h3
  unfold NesBus.clock
  simp only [if_neg h3u]
  refine ⟨by rw [i2, u2], i1.trans u1, i3.trans u5, i4, fun x hx => ?_⟩
  rw [i5 x hx, u3]

/-- A call of `NesBus::clock` that is a CPU tick with a DMA transfer in progress. -/
theorem NesBus.clock_dma_tick (b : NesBus) (hS : b.cpu.registers.S < 256)
    (h3 : b.systemClockCount % 3 = 0) (ht : b.DMA.transfer = true) :
    b.clock.systemClockCount = u32 (b.systemClockCount + 1) ∧
      b.clock.DMA =
        (if b.DMA.dummy then
          if b.systemClockCount % 2 = 1 then { b.DMA with dummy := false } else b.DMA
        else if b.systemClockCount % 2 = 0 then
          { b.DMA with data := b.byteAt (u16 ((b.DMA.page <<< 8) ||| b.DMA.addr)) }
        else if u8 (b.DMA.addr + 1) = 0 then
          { b.DMA with addr := u8 (b.DMA.addr + 1), transfer := false, dummy := true }
        else { b.DMA with addr := u8 (b.DMA.addr + 1) }) ∧
      b.clock.ppu.OAM =
        (if b.DMA.dummy = false ∧ b.systemClockCount % 2 ≠ 0 then
          { b.ppu.OAM with data := store b.ppu.OAM.data b.DMA.addr b.DMA.data }
        else b.ppu.OAM) ∧
      b.clock.cpu.registers.S < 256 ∧
      ∀ x, (x < 0x100 ∨ 0x200 ≤ x) → b.clock.memory x = b.memory x := by
  obtain ⟨u1, u2, u3, u4, u5⟩ := NesBus.clockUnits_frame b
  obtain ⟨d1, d2, d3, d4, d5⟩ := NesBus.dmaStep_frame b.clockUnits
  have hSd : b.clockUnits.dmaStep.cpu.registers.S < 256 := by rw [d3, u4]; exact hS
  obtain ⟨i1, i2, i3, i4, i5⟩ := NesBus.interrupts_frame b.clockUnits.dmaStep hSd
  have h3u : b.clockUnits.systemClockCount % 3 = 0 := by rw [u2]; exact h3
  have htu : b.clockUnits.DMA.transfer = true := by rw [u1]; exact ht
  unfold NesBus.clock
  simp only [if_pos h3u, NesBus.cpuSlot, htu, if_true]
  refine ⟨by rw [i2, d1, u2], ?_, ?_, i4, fun x hx => ?_⟩
  · show b.clockUnits.dmaStep.interrupts.DMA = _
    rw [i1, d4, u1, u2]
    rfl
  · show b.clockUnits.dmaStep.interrupts.ppu.OAM = _
    rw [i3, d5, u1, u2, u5]
  · show b.clockUnits.dmaStep.interrupts.memory x = _
    rw [i5 x hx, d2, u3]

/-- From the machine right after a CPU tick to the start of the next CPU tick:
no call of `NesBus::clock` in between is a CPU tick, and the parity of the
master clock count at a CPU tick alternates, also where the count wraps. -/
theorem NesBus.toCpuTick_frame (b : NesBus) (c : Nat) (hc3 : c % 3 = 0) (hc : c < 2 ^ 32)
    (hscc : b.systemClockCount = u32 (c + 1)) (hS : b.cpu.registers.S < 256) :
    b.toCpuTick.systemClockCount % 3 = 0 ∧ b.toCpuTick.systemClockCount < 2 ^ 32 ∧
      (b.toCpuTick.systemClockCount + c) % 2 = 1 ∧ b.toCpuTick.DMA = b.DMA ∧
      b.toCpuTick.ppu.OAM = b.ppu.OAM ∧ b.toCpuTick.cpu.registers.S < 256 ∧
      ∀ x, (x < 0x100 ∨ 0x200 ≤ x) → b.toCpuTick.memory x = b.memory x := by
  unfold u32 at hscc
  by_cases hw : c = 4294967295
  · have h0 : b.systemClockCount = 0 := by rw [hscc, hw]
    unfold NesBus.toCpuTick
    rw [if_pos (by rw [h0])]
    exact ⟨by rw [h0], by rw [h0]; norm_num, by rw [h0, hw], rfl, rfl, hS, fun _ _ => rfl⟩
  · have h1 : b.systemClockCount = c + 1 := by rw [hscc]; omega
    obtain ⟨a1, a2, a3, a4, a5⟩ := NesBus.clock_idle_tick b hS (by rw [h1]; omega)
    have h2 : b.clock.systemClockCount = c + 2 := by rw [a1, h1]; unfold u32; omega
    obtain ⟨e1, e2, e3, e4, e5⟩ := NesBus.clock_idle_tick b.clock a4 (by rw [h2]; omega)
    have h3 : b.clock.clock.systemClockCount = c + 3 := by rw [e1, h2]; unfold u32; omega
    unfold NesBus.toCpuTick
    rw [if_neg (by rw [h1]; omega), if_neg (by rw [h2]; omega)]
    refine ⟨by rw [h3]; omega, by rw [h3]; omega, by rw [h3]; omega, e2.trans a2, e3.trans a3, e4,
      fun x hx => ?_⟩
    rw [e5 x hx, a5 x hx]

/-- One CPU tick with a DMA transfer in progress, up to the start of the next CPU tick. -/
theorem NesBus.nextCpuTick_dma (b : NesBus) (hS : b.cpu.registers.S < 256)
    (h3 : b.systemClockCount % 3 = 0) (hlt : b.systemClockCount < 2 ^ 32)
    (ht : b.DMA.transfer = true) :
    b.nextCpuTick.systemClockCount % 3 = 0 ∧ b.nextCpuTick.systemClockCount < 2 ^ 32 ∧
      (b.nextCpuTick.systemClockCount + b.systemClockCount) % 2 = 1 ∧
      b.nextCpuTick.DMA =
        (if b.DMA.dummy then
          if b.systemClockCount % 2 = 1 then { b.DMA with dummy := false } else b.DMA
        else if b.systemClockCount % 2 = 0 then
          { b.DMA with data := b.byteAt (u16 ((b.DMA.page <<< 8) ||| b.DMA.addr)) }
        else if u8 (b.DMA.addr + 1) = 0 then
          { b.DMA with addr := u8 (b.DMA.addr + 1), transfer := false, dummy := true }
        else { b.DMA with addr := u8 (b.DMA.addr + 1) }) ∧
      b.nextCpuTick.ppu.OAM =
        (if b.DMA.dummy = false ∧ b.systemClockCount % 2 ≠ 0 then
          { b.ppu.OAM with data := store b.ppu.OAM.data b.DMA.addr b.DMA.data }
        else b.ppu.OAM) ∧
      b.nextCpuTick.cpu.registers.S < 256 ∧
      ∀ x, (x < 0x100 ∨ 0x200 ≤ x) → b.nextCpuTick.memory x = b.memory x := by
  obtain ⟨a1, a2, a3, a4, a5⟩ := NesBus.clock_dma_tick b hS h3 ht
  obtain ⟨e1, e2, e3, e4, e5, e6, e7⟩ :=
    NesBus.toCpuTick_frame b.clock b.systemClockCount h3 hlt a1 a4
  unfold NesBus.nextCpuTick
  exact ⟨e1, e2, e3, e4.trans a2, e5.trans a3, e6, fun x hx => (e7 x hx).trans (a5 x hx)⟩

/-- The transfer phase of OAM DMA, from a CPU tick with even master clock
count on which the dummy cycle is over: `2 j` CPU ticks later `j` bytes are
in object attribute memory, and after 512 CPU ticks the transfer has ended. -/
theorem dma_transfer_phase (X : NesBus) (hS : X.cpu.registers.S < 256)
    (h3 : X.systemClockCount % 3 = 0) (hlt : X.systemClockCount < 2 ^ 32)
    (h2 : X.systemClockCount % 2 = 0) (ht : X.DMA.transfer = true) (hd : X.DMA.dummy = false)
    (ha : X.DMA.addr = 0) (j : Nat) (hj : j ≤ 256) :
    (NesBus.nextCpuTick^[2 * j] X).systemClockCount % 3 = 0 ∧
      (NesBus.nextCpuTick^[2 * j] X).systemClockCount < 2 ^ 32 ∧
      (NesBus.nextCpuTick^[2 * j] X).systemClockCount % 2 = 0 ∧
      (NesBus.nextCpuTick^[2 * j] X).cpu.registers.S < 256 ∧
      (NesBus.nextCpuTick^[2 * j] X).DMA.page = X.DMA.page ∧
      (j < 256 → (NesBus.nextCpuTick^[2 * j] X).DMA.transfer = true ∧
        (NesBus.nextCpuTick^[2 * j] X).DMA.dummy = false ∧
        (NesBus.nextCpuTick^[2 * j] X).DMA.addr = j) ∧
      (j = 256 → (NesBus.nextCpuTick^[2 * j] X).DMA.transfer = false ∧
        (NesBus.nextCpuTick^[2 * j] X).DMA.dummy = true) ∧
      (∀ i, i < j → (NesBus.nextCpuTick^[2 * j] X).ppu.OAM.data i =
        (NesBus.nextCpuTick^[2 * i] X).byteAt (u16 ((X.DMA.page <<< 8) ||| i))) ∧
      (∀ x, (x < 0x100 ∨ 0x200 ≤ x) → (NesBus.nextCpuTick^[2 * j] X).memory x = X.memory x) ∧
      (∀ k, k < 2 * j → (NesBus.nextCpuTick^[k] X).systemClockCount % 3 = 0 ∧
        (NesBus.nextCpuTick^[k] X).DMA.transfer = true) := by
  induction j with
  | zero =>
    refine ⟨h3, hlt, h2, hS, rfl, fun _ => ⟨ht, hd, ha⟩, fun h => absurd h (by norm_num),
      fun i hi => absurd hi (by omega), fun _ _ => rfl, fun k hk => absurd hk (by omega)⟩
  | succ j ih =>
    obtain ⟨y3, ylt, y2, yS, ypg, yj, -, yoam, ymem, yk⟩ := ih (by omega)
    obtain ⟨yt, yd, ya⟩ := yj (by omega)
    have hit : NesBus.nextCpuTick^[2 * (j + 1)] X =
        (NesBus.nextCpuTick^[2 * j] X).nextCpuTick.nextCpuTick := by
      rw [show 2 * (j + 1) = 2 * j + 1 + 1 by ring, Function.iterate_succ_apply',
        Function.iterate_succ_apply']
    have hit1 : NesBus.nextCpuTick^[2 * j + 1] X = (NesBus.nextCpuTick^[2 * j] X).nextCpuTick :=
      Function.iterate_succ_apply' _ _ _
    generalize hY : NesBus.nextCpuTick^[2 * j] X = Y at *
    -- the read tick
    obtain ⟨r3, rlt, rpar, rdma, roam, rS, rmem⟩ := NesBus.nextCpuTick_dma Y yS y3 ylt yt
    rw [yd] at rdma roam
    simp only [Bool.false_eq_true, if_false, y2, if_true, ne_eq, not_true_eq_false, and_false]
      at rdma roam
    have r2 : Y.nextCpuTick.systemClockCount % 2 = 1 := by omega
    have rt : Y.nextCpuTick.DMA.transfer = true := by rw [rdma]; exact yt
    have rd : Y.nextCpuTick.DMA.dummy = false := by rw [rdma]; exact yd
    have ra : Y.nextCpuTick.DMA.addr = j := by rw [rdma]; exact ya
    have rdata : Y.nextCpuTick.DMA.data = Y.byteAt (u16 ((X.DMA.page <<< 8) ||| j)) := by
      rw [rdma, ypg, ya]
    have rpg : Y.nextCpuTick.DMA.page = X.DMA.page := by rw [rdma]; exact ypg
    -- the write tick
    obtain ⟨w3, wlt, wpar, wdma, woam, wS, wmem⟩ :=
      NesBus.nextCpuTick_dma Y.nextCpuTick rS r3 rlt rt
    rw [rd] at wdma woam
    simp only [Bool.false_eq_true, if_false, r2, one_ne_zero, ne_eq, not_false_eq_true,
      and_self, if_true] at wdma woam
    rw [hit]
    refine ⟨w3, wlt, by omega, wS, ?_, ?_, ?_, ?_, ?_, ?_⟩
    · rw [wdma]; split_ifs <;> exact rpg
    · intro hj1
      have hne : ¬ u8 (Y.nextCpuTick.DMA.addr + 1) = 0 := by rw [ra]; unfold u8; omega
      rw [wdma, if_neg hne]
      refine ⟨rt, rd, ?_⟩
      show u8 (Y.nextCpuTick.DMA.addr + 1) = j + 1
      rw [ra]; unfold u8; omega
    · intro hj1
      have h0 : u8 (Y.nextCpuTick.DMA.addr + 1) = 0 := by rw [ra]; unfold u8; omega
      rw [wdma, if_pos h0]
      exact ⟨rfl, rfl⟩
    · intro i hi
      rw [woam, ra, rdata]
      show store Y.nextCpuTick.ppu.OAM.data j _ i = _
      unfold store
      by_cases hij : i = j
      · rw [if_pos hij, hij, hY]
      · rw [if_neg hij, roam]
        exact yoam i (by omega)
    · intro x hx
      rw [wmem x hx, rmem x hx, ymem x hx]
    · intro k hk
      by_cases hk1 : k < 2 * j
      · exact yk k hk1
      · by_cases hk2 : k = 2 * j
        · rw [hk2, hY]; exact ⟨y3, yt⟩
        · have hk3 : k = 2 * j + 1 := by omega
          rw [hk3, hit1]; exact ⟨r3, rt⟩

theorem NesBus.cpuClocked_eq (b : NesBus) :
    b.cpuClocked = (decide (b.systemClockCount % 3 = 0) && !b.DMA.transfer) := by
  obtain ⟨u1, u2, -, -, -⟩ := NesBus.clockUnits_frame b
  unfold NesBus.cpuClocked
  rw [u1, u2]

theorem page_addr (p i : Nat) (hi : i < 256) : (p <<< 8) ||| i = p * 256 + i := by
  have h := Nat.mul_add_lt_is_or (show i < 2 ^ 8 by norm_num; exact hi) p
  rw [Nat.shiftLeft_eq, Nat.mul_comm p (2 ^ 8), ← h]

/-- The byte the bus returns for a RAM address during a call of `NesBus::clock`. -/
theorem NesBus.byteAt_ram (b : NesBus) (a : Nat) (h : a ≤ 0x1FFF) :
    b.byteAt a = u8 (b.memory (a &&& 0x07FF)) := by
  obtain ⟨-, -, u3, -, -⟩ := NesBus.clockUnits_frame b
  unfold NesBus.byteAt
  rw [NesBus.readCpu_ram _ _ _ h, u3]

/-- OAM DMA from the CPU tick on which the dummy cycle is over, which is the
CPU tick number `d` after the tick `B`. -/
theorem dma_after_dummy (B : NesBus) (d p : Nat) (hS : (NesBus.nextCpuTick^[d] B).cpu.registers.S < 256)
    (h3 : (NesBus.nextCpuTick^[d] B).systemClockCount % 3 = 0)
    (hlt : (NesBus.nextCpuTick^[d] B).systemClockCount < 2 ^ 32)
    (h2 : (NesBus.nextCpuTick^[d] B).systemClockCount % 2 = 0)
    (ht : (NesBus.nextCpuTick^[d] B).DMA.transfer = true)
    (hd : (NesBus.nextCpuTick^[d] B).DMA.dummy = false)
    (ha : (NesBus.nextCpuTick^[d] B).DMA.addr = 0)
    (hpg : (NesBus.nextCpuTick^[d] B).DMA.page = p)
    (hpre : ∀ k, k < d → (NesBus.nextCpuTick^[k] B).systemClockCount % 3 = 0 ∧
      (NesBus.nextCpuTick^[k] B).DMA.transfer = true)
    (hmem : ∀ x, (x < 0x100 ∨ 0x200 ≤ x) → (NesBus.nextCpuTick^[d] B).memory x = B.memory x) :
    (∀ k, k < d + 512 → (NesBus.nextCpuTick^[k] B).systemClockCount % 3 = 0 ∧
        (NesBus.nextCpuTick^[k] B).cpuClocked = false) ∧
      (NesBus.nextCpuTick^[d + 512] B).systemClockCount % 3 = 0 ∧
      (NesBus.nextCpuTick^[d + 512] B).cpuClocked = true ∧
      (NesBus.nextCpuTick^[d + 512] B).DMA.transfer = false ∧
      (NesBus.nextCpuTick^[d + 512] B).DMA.dummy = true ∧
      (∀ i, i < 256 → (NesBus.nextCpuTick^[d + 512] B).ppu.OAM.data i =
        (NesBus.nextCpuTick^[d + 2 * i] B).byteAt (u16 ((p <<< 8) ||| i))) ∧
      (p < 0x20 → p % 8 ≠ 1 → ∀ i, i < 256 →
        (NesBus.nextCpuTick^[d + 512] B).ppu.OAM.data i =
            u8 (B.memory (((p <<< 8) ||| i) &&& 0x07FF)) ∧
          (NesBus.nextCpuTick^[d + 512] B).memory (((p <<< 8) ||| i) &&& 0x07FF) =
            B.memory (((p <<< 8) ||| i) &&& 0x07FF)) := by
  have hsplit : ∀ k, NesBus.nextCpuTick^[d + k] B = NesBus.nextCpuTick^[k] (NesBus.nextCpuTick^[d] B) := by
    intro k
    rw [Nat.add_comm, Function.iterate_add_apply]
  generalize hX : NesBus.nextCpuTick^[d] B = X at *
  have hphase := dma_transfer_phase X hS h3 hlt h2 ht hd ha 256 (by norm_num)
  rw [show 2 * 256 = 512 by norm_num] at hphase
  obtain ⟨e3, -, -, -, -, -, eend, eoam, emem, ek⟩ := hphase
  obtain ⟨et, ed⟩ := eend rfl
  rw [hpg] at eoam
  rw [hsplit 512]
  refine ⟨?_, e3, ?_, et, ed, ?_, ?_⟩
  · intro k hk
    have hkk : (NesBus.nextCpuTick^[k] B).systemClockCount % 3 = 0 ∧
        (NesBus.nextCpuTick^[k] B).DMA.transfer = true := by
      by_cases hkd : k < d
      · exact hpre k hkd
      · obtain ⟨m, rfl⟩ : ∃ m, k = d + m := ⟨k - d, by omega⟩
        rw [hsplit m]
        exact ek m (by omega)
    refine ⟨hkk.1, ?_⟩
    rw [NesBus.cpuClocked_eq, hkk.2]
    simp
  · rw [NesBus.cpuClocked_eq, et, e3]
    rfl
  · intro i hi
    rw [hsplit (2 * i)]
    exact eoam i hi
  · intro hp1 hp2 i hi
    have haddr : (p <<< 8) ||| i = p * 256 + i := page_addr p i hi
    have hu : u16 ((p <<< 8) ||| i) = p * 256 + i := by rw [haddr]; unfold u16; omega
    have hand : (p * 256 + i) &&& 0x07FF = (p * 256 + i) % 2048 := by
      have := Nat.and_pow_two_sub_one_eq_mod (p * 256 + i) 11
      norm_num at this
      exact this
    have hoff : (p * 256 + i) % 2048 < 0x100 ∨ 0x200 ≤ (p * 256 + i) % 2048 := by omega
    obtain ⟨-, -, -, -, -, -, -, -, imem, -⟩ :=
      dma_transfer_phase X hS h3 hlt h2 ht hd ha i (by omega)
    rw [haddr, hand]
    refine ⟨?_, ?_⟩
    · rw [eoam i hi, hu, NesBus.byteAt_ram _ _ (by omega), hand, imem _ hoff, hmem _ hoff]
    · rw [emem _ hoff, hmem _ hoff]

theorem ram_off_stack (p i : Nat) (hp8 : p % 8 ≠ 1) (hi : i < 256) :
    ((p <<< 8) ||| i) &&& 0x07FF < 0x100 ∨ 0x200 ≤ ((p <<< 8) ||| i) &&& 0x07FF := by
  have hand : (p * 256 + i) &&& 0x07FF = (p * 256 + i) % 2048 := by
    have := Nat.and_pow_two_sub_one_eq_mod (p * 256 + i) 11
    norm_num at this
    exact this
  rw [page_addr p i hi, hand]
  omega

/-- C10: let `b` be the machine right after the CPU tick with master clock
count `c` on which the CPU wrote `p` to `$4014` with DMA idle before: the
transfer is pending (`transfer`, `dummy`, `addr = 0`, `page = p`).  Then on
each of the next `n` CPU ticks (calls of `NesBus::clock` with the master clock
count divisible by 3) `cpu.clock()` is not reached, where `n = 513` for even
`c` and `n = 514` for odd `c`; on the CPU tick after these it is reached, the
transfer has ended (`transfer = false`, `dummy = true`), and for every
`i < 256` the cell `OAM[i]` holds the byte the bus returned for the address
`(p << 8) | i` on the CPU tick that read it.  For a RAM page `p` other than a
mirror of the stack page (`p = $02` for one) this byte is `RAM[((p << 8) | i)
& $7FF]`, in the RAM at the write as well as at the end of the transfer. -/
theorem oam_dma (b : NesBus) (c p n : Nat) (hc3 : c % 3 = 0) (hc : c < 2 ^ 32)
    (hscc : b.systemClockCount = u32 (c + 1)) (hS : b.cpu.registers.S < 256)
    (ht : b.DMA.transfer = true) (hd : b.DMA.dummy = true) (ha : b.DMA.addr = 0)
    (hpg : b.DMA.page = p) (hn : n = if c % 2 = 0 then 513 else 514) :
    (∀ k, k < n → (NesBus.nextCpuTick^[k] b.toCpuTick).systemClockCount % 3 = 0 ∧
        (NesBus.nextCpuTick^[k] b.toCpuTick).cpuClocked = false) ∧
      (NesBus.nextCpuTick^[n] b.toCpuTick).systemClockCount % 3 = 0 ∧
      (NesBus.nextCpuTick^[n] b.toCpuTick).cpuClocked = true ∧
      (NesBus.nextCpuTick^[n] b.toCpuTick).DMA.transfer = false ∧
      (NesBus.nextCpuTick^[n] b.toCpuTick).DMA.dummy = true ∧
      (∀ i, i < 256 → (NesBus.nextCpuTick^[n] b.toCpuTick).ppu.OAM.data i =
        (NesBus.nextCpuTick^[n - 512 + 2 * i] b.toCpuTick).byteAt (u16 ((p <<< 8) ||| i))) ∧
      (p < 0x20 → p % 8 ≠ 1 → ∀ i, i < 256 →
        (NesBus.nextCpuTick^[n] b.toCpuTick).ppu.OAM.data i =
            u8 (b.memory (((p <<< 8) ||| i) &&& 0x07FF)) ∧
          (NesBus.nextCpuTick^[n] b.toCpuTick).memory (((p <<< 8) ||| i) &&& 0x07FF) =
            b.memory (((p <<< 8) ||| i) &&& 0x07FF)) := by
  obtain ⟨B3, Blt, Bpar, Bdma, -, BS, Bmem⟩ := NesBus.toCpuTick_frame b c hc3 hc hscc hS
  have Bt : b.toCpuTick.DMA.transfer = true := by rw [Bdma]; exact ht
  have Bd : b.toCpuTick.DMA.dummy = true := by rw [Bdma]; exact hd
  have Ba : b.toCpuTick.DMA.addr = 0 := by rw [Bdma]; exact ha
  have Bp : b.toCpuTick.DMA.page = p := by rw [Bdma]; exact hpg
  generalize b.toCpuTick = B at *
  -- the first CPU tick of the transfer
  obtain ⟨f3, flt, fpar, fdma, -, fS, fmem⟩ := NesBus.nextCpuTick_dma B BS B3 Blt Bt
  rw [Bd] at fdma
  simp only [if_true] at fdma
  have hex : ∃ d, n = d + 512 ∧
      (NesBus.nextCpuTick^[d] B).cpu.registers.S < 256 ∧
      (NesBus.nextCpuTick^[d] B).systemClockCount % 3 = 0 ∧
      (NesBus.nextCpuTick^[d] B).systemClockCount < 2 ^ 32 ∧
      (NesBus.nextCpuTick^[d] B).systemClockCount % 2 = 0 ∧
      (NesBus.nextCpuTick^[d] B).DMA.transfer = true ∧
      (NesBus.nextCpuTick^[d] B).DMA.dummy = false ∧
      (NesBus.nextCpuTick^[d] B).DMA.addr = 0 ∧
      (NesBus.nextCpuTick^[d] B).DMA.page = p ∧
      (∀ k, k < d → (NesBus.nextCpuTick^[k] B).systemClockCount % 3 = 0 ∧
        (NesBus.nextCpuTick^[k] B).DMA.transfer = true) ∧
      (∀ x, (x < 0x100 ∨ 0x200 ≤ x) → (NesBus.nextCpuTick^[d] B).memory x = B.memory x) := by
    by_cases hpar : c % 2 = 0
    · -- even: the dummy cycle ends on the first CPU tick
      rw [if_pos hpar] at hn
      have Bodd : B.systemClockCount % 2 = 1 := by omega
      rw [if_pos Bodd] at fdma
      have h1 : NesBus.nextCpuTick^[1] B = B.nextCpuTick := rfl
      refine ⟨1, hn, by rw [h1]; exact fS, by rw [h1]; exact f3, by rw [h1]; exact flt,
        by rw [h1]; omega, by rw [h1, fdma]; exact Bt, by rw [h1, fdma],
        by rw [h1, fdma]; exact Ba, by rw [h1, fdma]; exact Bp, ?_, by rw [h1]; exact fmem⟩
      intro k hk
      obtain rfl : k = 0 := by omega
      exact ⟨B3, Bt⟩
    · -- odd: the first CPU tick waits, the dummy cycle ends on the second
      rw [if_neg hpar] at hn
      have Beven : ¬ B.systemClockCount % 2 = 1 := by omega
      rw [if_neg Beven] at fdma
      obtain ⟨g3, glt, gpar, gdma, -, gS, gmem⟩ :=
        NesBus.nextCpuTick_dma B.nextCpuTick fS f3 flt (by rw [fdma]; exact Bt)
      rw [fdma, Bd] at gdma
      have fodd : B.nextCpuTick.systemClockCount % 2 = 1 := by omega
      simp only [if_true, if_pos fodd] at gdma
      have h1 : NesBus.nextCpuTick^[1] B = B.nextCpuTick := rfl
      have h2 : NesBus.nextCpuTick^[2] B = B.nextCpuTick.nextCpuTick := rfl
      refine ⟨2, hn, by rw [h2]; exact gS, by rw [h2]; exact g3, by rw [h2]; exact glt,
        by rw [h2]; omega, by rw [h2, gdma]; exact Bt, by rw [h2, gdma],
        by rw [h2, gdma]; exact Ba, by rw [h2, gdma]; exact Bp, ?_,
        by rw [h2]; exact fun x hx => (gmem x hx).trans (fmem x hx)⟩
      intro k hk
      by_cases hk0 : k = 0
      · rw [hk0]; exact ⟨B3, Bt⟩
      · obtain rfl : k = 1 := by omega
        rw [h1, fdma]; exact ⟨f3, Bt⟩
  obtain ⟨d, hnd, k1, k2, k3, k4, k5, k6, k7, k8, k9, k10⟩ := hex
  obtain ⟨r1, r2, r3, r4, r5, r6, r7⟩ := dma_after_dummy B d p k1 k2 k3 k4 k5 k6 k7 k8 k9 k10
  subst hnd
  simp only [Nat.add_sub_cancel]
  refine ⟨r1, r2, r3, r4, r5, r6, fun hp1 hp2 i hi => ?_⟩
  have hoff := ram_off_stack p i hp2 hi
  obtain ⟨q1, q2⟩ := r7 hp1 hp2 i hi
  rw [Bmem _ hoff] at q1 q2
  exact ⟨q1, q2⟩

set_option maxRecDepth 1000000 in
/-- C10 at the machines `dmaBus 0` (even master clock count) and `dmaBus 3`
(odd) after their CPU tick, which executes `STA $4014` with the accumulator
holding `$02`: the CPU is not clocked on the next 513 and 514 CPU ticks, and
then `OAM[i] = RAM[$0200 + i]`. -/
theorem oam_dma_witness :
    ((dmaBus 0).clock.DMA.transfer = true ∧ (dmaBus 0).clock.DMA.page = 0x02 ∧
      (∀ k, k < 513 →
        (NesBus.nextCpuTick^[k] (dmaBus 0).clock.toCpuTick).cpuClocked = false) ∧
      (NesBus.nextCpuTick^[513] (dmaBus 0).clock.toCpuTick).cpuClocked = true ∧
      ∀ i, i < 256 →
        (NesBus.nextCpuTick^[513] (dmaBus 0).clock.toCpuTick).ppu.OAM.data i =
          u8 ((dmaBus 0).clock.memory (((0x02 <<< 8) ||| i) &&& 0x07FF))) ∧
    ((dmaBus 3).clock.DMA.transfer = true ∧ (dmaBus 3).clock.DMA.page = 0x02 ∧
      (∀ k, k < 514 →
        (NesBus.nextCpuTick^[k] (dmaBus 3).clock.toCpuTick).cpuClocked = false) ∧
      (NesBus.nextCpuTick^[514] (dmaBus 3).clock.toCpuTick).cpuClocked = true ∧
      ∀ i, i < 256 →
        (NesBus.nextCpuTick^[514] (dmaBus 3).clock.toCpuTick).ppu.OAM.data i =
          u8 ((dmaBus 3).clock.memory (((0x02 <<< 8) ||| i) &&& 0x07FF))) :=
  have h := oam_dma (dmaBus 0).clock 0 0x02 513 (by decide) (by decide) (by decide) (by decide)
    (by decide) (by decide) (by decide) (by decide) (by decide)
  have g := oam_dma (dmaBus 3).clock 3 0x02 514 (by decide) (by decide) (by decide) (by decide)
    (by decide) (by decide) (by decide) (by decide) (by decide)
  ⟨⟨by decide, by decide, fun k hk => (h.1 k hk).2, h.2.2.1,
      fun i hi => (h.2.2.2.2.2.2 (by decide) (by decide) i hi).1⟩,
    ⟨by decide, by decide, fun k hk => (g.1 k hk).2, g.2.2.1,
      fun i hi => (g.2.2.2.2.2.2 (by decide) (by decide) i hi).1⟩⟩

/-! ## The MMC1 serial load register -/

theorem and_one_cases (d : Nat) : d &&& 1 = 0 ∨ d &&& 1 = 1 := by
  rw [Nat.and_one_is_mod]; omega

/-- A write to `$8000-$FFFF` with bit 7 set: the serial load is reset. -/
theorem Mapper001.cpuMapWrite_reset (n : Nat) (m : Mapper001) (a x d : Nat) (ha : 0x8000 ≤ a)
    (hd : d &&& 0x80 ≠ 0) :
    (Mapper001.cpuMapWrite n m a x d).2.2 =
      { m with load := 0, loadCount := 0, control := u8 (m.control ||| 0x0C) } := by
  unfold Mapper001.cpuMapWrite
  rw [if_neg (by omega), if_pos (by omega), if_pos hd]

/-- A write to `$8000-$FFFF` with bit 7 clear that is not the fifth of its
sequence: bit 0 is shifted into the load register. -/
theorem Mapper001.cpuMapWrite_shift (n : Nat) (m : Mapper001) (a x d : Nat) (ha : 0x8000 ≤ a)
    (hd : d &&& 0x80 = 0) (hc : u8 (m.loadCount + 1) ≠ 5) :
    (Mapper001.cpuMapWrite n m a x d).2.2.load = u8 ((m.load >>> 1) ||| ((d &&& 0x01) <<< 4)) ∧
      (Mapper001.cpuMapWrite n m a x d).2.2.loadCount = u8 (m.loadCount + 1) := by
  unfold Mapper001.cpuMapWrite
  rw [if_neg (by omega), if_pos (by omega), if_neg (by simp [hd])]
  simp only [hc, if_false]
  exact ⟨trivial, trivial⟩

/-- The fifth write of a sequence, addressed in `$8000-$9FFF`: the load
register goes to `control`. -/
theorem Mapper001.cpuMapWrite_control (n : Nat) (m : Mapper001) (a x d : Nat) (ha : 0x8000 ≤ a)
    (ha2 : a ≤ 0x9FFF) (hd : d &&& 0x80 = 0) (hc : u8 (m.loadCount + 1) = 5) :
    (Mapper001.cpuMapWrite n m a x d).2.2.control =
        u8 ((m.load >>> 1) ||| ((d &&& 0x01) <<< 4)) &&& 0x1F ∧
      (Mapper001.cpuMapWrite n m a x d).2.2.load = 0 ∧
      (Mapper001.cpuMapWrite n m a x d).2.2.loadCount = 0 := by
  have ht : (a >>> 13) &&& 0x03 = 0 := by
    have h1 : a >>> 13 = 4 := by rw [Nat.shiftRight_eq_div_pow]; omega
    rw [h1]; rfl
  unfold Mapper001.cpuMapWrite
  rw [if_neg (by omega), if_pos (by omega), if_neg (by simp [hd])]
  simp only [hc, if_true, Mapper001.commit, ht]
  exact ⟨trivial, trivial, trivial⟩

/-- C11: for MMC1 in any state `m`, a write to `$8000-$FFFF` whose data has
bit 7 set clears the load register and the load count and ORs `0x0C` into
`control`; when it is followed by five writes to `$8000-$FFFF` with bit 7
clear, the fifth addressed in `$8000-$9FFF`, then `control` is
`b0 + 2 b1 + 4 b2 + 8 b3 + 16 b4` for the bit 0 values `b0 .. b4` of the five
data bytes in the order written, and the load register and count are 0. -/
theorem mmc1_serial_load (n : Nat) (m : Mapper001) (a0 a1 a2 a3 a4 a5 x0 x1 x2 x3 x4 x5 : Nat)
    (d0 d1 d2 d3 d4 d5 : Nat)
    (h0 : 0x8000 ≤ a0) (h1 : 0x8000 ≤ a1) (h2 : 0x8000 ≤ a2) (h3 : 0x8000 ≤ a3)
    (h4 : 0x8000 ≤ a4) (h5 : 0x8000 ≤ a5) (h5' : a5 ≤ 0x9FFF)
    (e0 : d0 &&& 0x80 ≠ 0) (e1 : d1 &&& 0x80 = 0) (e2 : d2 &&& 0x80 = 0) (e3 : d3 &&& 0x80 = 0)
    (e4 : d4 &&& 0x80 = 0) (e5 : d5 &&& 0x80 = 0) :
    (Mapper001.cpuMapWrite n m a0 x0 d0).2.2.load = 0 ∧
    (Mapper001.cpuMapWrite n m a0 x0 d0).2.2.loadCount = 0 ∧
    (Mapper001.cpuMapWrite n m a0 x0 d0).2.2.control = u8 (m.control ||| 0x0C) ∧
    (Mapper001.cpuMapWrite n
      (Mapper001.cpuMapWrite n
        (Mapper001.cpuMapWrite n
          (Mapper001.cpuMapWrite n
            (Mapper001.cpuMapWrite n
              (Mapper001.cpuMapWrite n m a0 x0 d0).2.2 a1 x1 d1).2.2 a2 x2 d2).2.2
                a3 x3 d3).2.2 a4 x4 d4).2.2 a5 x5 d5).2.2.control =
      (d1 &&& 1) + 2 * (d2 &&& 1) + 4 * (d3 &&& 1) + 8 * (d4 &&& 1) + 16 * (d5 &&& 1) ∧
    (Mapper001.cpuMapWrite n
      (Mapper001.cpuMapWrite n
        (Mapper001.cpuMapWrite n
          (Mapper001.cpuMapWrite n
            (Mapper001.cpuMapWrite n
              (Mapper001.cpuMapWrite n m a0 x0 d0).2.2 a1 x1 d1).2.2 a2 x2 d2).2.2
                a3 x3 d3).2.2 a4 x4 d4).2.2 a5 x5 d5).2.2.load = 0 ∧
    (Mapper001.cpuMapWrite n
      (Mapper001.cpuMapWrite n
        (Mapper001.cpuMapWrite n
          (Mapper001.cpuMapWrite n
            (Mapper001.cpuMapWrite n
              (Mapper001.cpuMapWrite n m a0 x0 d0).2.2 a1 x1 d1).2.2 a2 x2 d2).2.2
                a3 x3 d3).2.2 a4 x4 d4).2.2 a5 x5 d5).2.2.loadCount = 0 := by
  have r := Mapper001.cpuMapWrite_reset n m a0 x0 d0 h0 e0
  have r1 : (Mapper001.cpuMapWrite n m a0 x0 d0).2.2.load = 0 := by rw [r]
  have r2 : (Mapper001.cpuMapWrite n m a0 x0 d0).2.2.loadCount = 0 := by rw [r]
  have r3 : (Mapper001.cpuMapWrite n m a0 x0 d0).2.2.control = u8 (m.control ||| 0x0C) := by rw [r]
  refine ⟨r1, r2, r3, ?_⟩
  generalize (Mapper001.cpuMapWrite n m a0 x0 d0).2.2 = M0 at r1 r2 ⊢
  obtain ⟨l1, c1⟩ := Mapper001.cpuMapWrite_shift n M0 a1 x1 d1 h1 e1 (by rw [r2]; decide)
  rw [r1] at l1; rw [r2] at c1
  generalize (Mapper001.cpuMapWrite n M0 a1 x1 d1).2.2 = M1 at l1 c1 ⊢
  obtain ⟨l2, c2⟩ := Mapper001.cpuMapWrite_shift n M1 a2 x2 d2 h2 e2 (by rw [c1]; decide)
  rw [l1] at l2; rw [c1] at c2
  generalize (Mapper001.cpuMapWrite n M1 a2 x2 d2).2.2 = M2 at l2 c2 ⊢
  obtain ⟨l3, c3⟩ := Mapper001.cpuMapWrite_shift n M2 a3 x3 d3 h3 e3 (by rw [c2]; decide)
  rw [l2] at l3; rw [c2] at c3
  generalize (Mapper001.cpuMapWrite n M2 a3 x3 d3).2.2 = M3 at l3 c3 ⊢
  obtain ⟨l4, c4⟩ := Mapper001.cpuMapWrite_shift n M3 a4 x4 d4 h4 e4 (by rw [c3]; decide)
  rw [l3] at l4; rw [c3] at c4
  generalize (Mapper001.cpuMapWrite n M3 a4 x4 d4).2.2 = M4 at l4 c4 ⊢
  obtain ⟨k1, k2, k3⟩ := Mapper001.cpuMapWrite_control n M4 a5 x5 d5 h5 h5' e5 (by rw [c4]; decide)
  refine ⟨?_, k2, k3⟩
  rw [k1, l4]
  rcases and_one_cases d1 with g1 | g1 <;> rcases and_one_cases d2 with g2 | g2 <;>
    rcases and_one_cases d3 with g3 | g3 <;> rcases and_one_cases d4 with g4 | g4 <;>
    rcases and_one_cases d5 with g5 | g5 <;> simp only [g1, g2, g3, g4, g5] <;> decide

/-! ## The noise shift register -/

theorem noiseMix_lt (s : Nat) : noiseMix s < 0x8000 := by
  unfold noiseMix
  have h1 : ((s &&& 0x0001) ^^^ ((s &&& 0x0002) >>> 1)) < 2 := by
    apply Nat.xor_lt_two_pow (n := 1)
    · exact Nat.and_lt_two_pow s (n := 1) (by decide)
    · have : s &&& 2 < 2 ^ 2 := Nat.and_lt_two_pow s (n := 2) (by decide)
      rw [Nat.shiftRight_eq_div_pow]; omega
  have h2 : (s &&& 0x7FFF) >>> 1 < 2 ^ 15 := by
    have : s &&& 0x7FFF < 2 ^ 15 := Nat.and_lt_two_pow s (n := 15) (by decide)
    rw [Nat.shiftRight_eq_div_pow]; omega
  have h3 : ((s &&& 0x0001) ^^^ ((s &&& 0x0002) >>> 1)) <<< 14 < 2 ^ 15 := by
    rw [Nat.shiftLeft_eq]; omega
  exact Nat.or_lt_two_pow h3 h2

theorem noiseMix_iterate_lt (n s : Nat) (h : 1 ≤ n) : noiseMix^[n] s < 0x8000 := by
  obtain ⟨k, rfl⟩ : ∃ k, n = k + 1 := ⟨n - 1, by omega⟩
  rw [Function.iterate_succ_apply']
  exact noiseMix_lt _

theorem firstReturnAfter_sound (f : Nat → Nat) (s : Nat) :
    ∀ n x, firstReturnAfter f s n x = true → f^[n] x = s ∧ ∀ k, k < n → f^[k] x ≠ s := by
  intro n
  induction n with
  | zero =>
    intro x h
    simp only [firstReturnAfter, beq_iff_eq] at h
    exact ⟨h, fun k hk => absurd hk (Nat.not_lt_zero k)⟩
  | succ n ih =>
    intro x h
    simp only [firstReturnAfter, Bool.and_eq_true, bne_iff_ne, ne_eq] at h
    obtain ⟨h0, h1⟩ := h
    obtain ⟨e, d⟩ := ih (f x) h1
    refine ⟨by rw [Function.iterate_succ_apply]; exact e, ?_⟩
    intro k hk
    cases k with
    | zero => exact h0
    | succ k =>
      rw [Function.iterate_succ_apply]
      exact d k (by omega)

set_option maxRecDepth 1000000 in
theorem noiseMix_first_return : firstReturnAfter noiseMix 0x2DED 32766 (noiseMix 0x2DED) = true := by
  decide!

theorem iterate_shift (f : Nat → Nat) (k m x : Nat) : f^[k + 1 + m] x = f^[k] (f^[m] (f x)) := by
  rw [show k + 1 + m = k + (m + 1) by omega, Function.iterate_add_apply,
    Function.iterate_succ_apply]

theorem noiseMix_DBDB : noiseMix 0xDBDB = 0x2DED := by decide

/-- The orbit of `$2DED`: it returns after 32767 steps and not earlier. -/
theorem noiseMix_orbit :
    noiseMix^[32767] 0x2DED = 0x2DED ∧ ∀ k, 1 ≤ k → k < 32767 → noiseMix^[k] 0x2DED ≠ 0x2DED := by
  obtain ⟨e, d⟩ := firstReturnAfter_sound noiseMix 0x2DED 32766 _ noiseMix_first_return
  rw [← Function.iterate_succ_apply] at e
  refine ⟨e, ?_⟩
  intro k h1 h2
  obtain ⟨j, rfl⟩ : ∃ j, k = j + 1 := ⟨k - 1, by omega⟩
  rw [Function.iterate_succ_apply]
  exact d j (by omega)

theorem noiseMix_distinct (i j : Nat) (hij : i < j) (hj : j < 32767) :
    noiseMix^[i] 0x2DED ≠ noiseMix^[j] 0x2DED := by
  intro h
  obtain ⟨e, d⟩ := noiseMix_orbit
  apply d (32767 - j + i) (by omega) (by omega)
  rw [Function.iterate_add_apply, h, ← Function.iterate_add_apply]
  rw [show 32767 - j + j = 32767 by omega]
  exact e

/-- C12, counterexample: 32768 applications of the noise feedback step to
`$DBDB` leave `$2DED` in the register, the value after the first step, not `$DBDB`. -/
theorem noise_not_back_after_32768 :
    noiseMix^[32768] 0xDBDB = 0x2DED ∧ noiseMix^[32768] 0xDBDB ≠ 0xDBDB := by
  have e : noiseMix^[32768] 0xDBDB = 0x2DED := by
    rw [show (32768 : Nat) = 32767 + 1 by norm_num, Function.iterate_succ_apply, noiseMix_DBDB]
    exact noiseMix_orbit.1
  exact ⟨e, by rw [e]; decide⟩

/-- C12, amended: starting the noise sequence register at `$DBDB`, every value
after one or more feedback steps is below `$8000`, so the register never holds
`$DBDB` again; the values after 1..32767 steps are pairwise different; and the
value after `n + 32767` steps is the value after `n` steps for every `n >= 1`:
the register runs through a cycle of length 32767 that `$DBDB` is not part of. -/
theorem noise_period :
    (∀ n, 1 ≤ n → noiseMix^[n] 0xDBDB < 0x8000 ∧ noiseMix^[n] 0xDBDB ≠ 0xDBDB) ∧
      (∀ i j, 1 ≤ i → i < j → j ≤ 32767 → noiseMix^[i] 0xDBDB ≠ noiseMix^[j] 0xDBDB) ∧
      (∀ n, 1 ≤ n → noiseMix^[n + 32767] 0xDBDB = noiseMix^[n] 0xDBDB) := by
  refine ⟨?_, ?_, ?_⟩
  · intro n hn
    have := noiseMix_iterate_lt n 0xDBDB hn
    exact ⟨this, by omega⟩
  · intro i j hi hij hj
    obtain ⟨i', rfl⟩ : ∃ k, i = k + 1 := ⟨i - 1, by omega⟩
    obtain ⟨j', rfl⟩ : ∃ k, j = k + 1 := ⟨j - 1, by omega⟩
    rw [Function.iterate_succ_apply, Function.iterate_succ_apply, noiseMix_DBDB]
    exact noiseMix_distinct i' j' (by omega) (by omega)
  · intro n hn
    obtain ⟨k, rfl⟩ : ∃ k, n = k + 1 := ⟨n - 1, by omega⟩
    have e : noiseMix^[32767] (noiseMix 0xDBDB) = noiseMix 0xDBDB := by
      rw [noiseMix_DBDB]
      exact noiseMix_orbit.1
    have a1 : noiseMix^[k + 1 + 32767] 0xDBDB = noiseMix^[k] (noiseMix^[32767] (noiseMix 0xDBDB)) :=
      iterate_shift noiseMix k 32767 0xDBDB
    have a2 : noiseMix^[k + 1] 0xDBDB = noiseMix^[k] (noiseMix 0xDBDB) :=
      Function.iterate_succ_apply noiseMix k 0xDBDB
    rw [a1, a2, e]

/-- The values after 1 and after 32767 steps differ: `$2DED` and `$5BDB`. -/
theorem noise_period_witness : noiseMix^[1] 0xDBDB ≠ noiseMix^[32767] 0xDBDB :=
  noise_period.2.1 1 32767 (by decide) (by decide) (by decide)

/-! ## RAM mirroring -/

theorem and_7FF (a : Nat) : a &&& 0x07FF = a % 0x0800 := by
  have := Nat.and_pow_two_sub_one_eq_mod a 11
  norm_num at this
  exact this

/-- A write to `$0000-$1FFF` goes to RAM. -/
theorem NesBus.writeCpu_ram (b : NesBus) (a d : Nat) (h : a ≤ 0x1FFF) :
    b.writeCpu a d =
      { b with rom := (b.rom.cpuWrite a d).2, memory := store b.memory (a &&& 0x07FF) d } := by
  unfold NesBus.writeCpu
  simp only [NesRom.cpuWrite_low b.rom a d (by omega), Bool.false_eq_true, if_false, h, if_true]

/-- C13: for every machine (with any of the four mappers), every address
`a <= $1FFF` and byte `d`: after `writeCpu(a, d)` a read of any address
`a' <= $1FFF` with `a' mod $0800 = a mod $0800` returns `d`, and every RAM
cell other than `a mod $0800` is unchanged. -/
theorem ram_mirrored (b : NesBus) (a d a' : Nat) (ro : Bool) (ha : a ≤ 0x1FFF) (hd : d < 256)
    (ha' : a' ≤ 0x1FFF) (hm : a' % 0x0800 = a % 0x0800) :
    ((b.writeCpu a d).readCpu a' ro).1 = d ∧
      ∀ j, j ≠ a % 0x0800 → (b.writeCpu a d).memory j = b.memory j := by
  rw [NesBus.readCpu_ram _ _ _ ha', NesBus.writeCpu_ram b a d ha, and_7FF, and_7FF, hm]
  refine ⟨?_, fun j hj => ?_⟩
  · show u8 (store b.memory (a % 0x0800) d (a % 0x0800)) = d
    unfold store
    rw [if_pos rfl]
    exact u8_of_lt hd
  · show store b.memory (a % 0x0800) d j = b.memory j
    unfold store
    rw [if_neg hj]

/-- C13 at `$0000` and its mirror `$1800` on an NROM machine. -/
theorem ram_mirrored_witness :
    (((exampleBus (exampleRom 0 1 1 (filled 0) (filled 0)) (filled 0) 0x8000 0x24).writeCpu
      0x0000 0x42).readCpu 0x1800 false).1 = 0x42 :=
  (ram_mirrored _ 0x0000 0x42 0x1800 false (by decide) (by decide) (by decide) (by decide)).1

/-! ## Controller ports -/

set_option maxRecDepth 1000000 in
theorem shift_bit : ∀ c, c < 256 → ∀ k, k < 8 →
    ofBool (decide ((c * 2 ^ k) % 256 &&& 0x80 > 0)) = (c >>> (7 - k)) &&& 1 := by
  decide

theorem port_index (i : Nat) (hi : i < 2) : (0x4016 + i) &&& 0x0001 = i := by
  interval_cases i <;> rfl

/-- A read of `$4016` or `$4017`: bit 7 of the shift register, which is shifted left. -/
theorem NesBus.readCpu_controller (b : NesBus) (i : Nat) (ro : Bool) (hi : i < 2) :
    b.readCpu (0x4016 + i) ro =
      (ofBool (decide (b.controller_state i &&& 0x80 > 0)),
        { b with controller_state :=
            store b.controller_state i (u8 (b.controller_state i <<< 1)) }) := by
  unfold NesBus.readCpu
  simp only [NesRom.cpuRead_low b.rom (0x4016 + i) 0 (by omega), Bool.false_eq_true, if_false,
    port_index i hi]
  rw [if_neg (by omega), if_neg (by omega), if_neg (by omega), if_pos (by omega)]

/-- A write to `$4016` or `$4017`: the controller byte is latched. -/
theorem NesBus.writeCpu_controller (b : NesBus) (i v : Nat) (hi : i < 2) :
    (b.writeCpu (0x4016 + i) v).controller_state i = b.controller i := by
  unfold NesBus.writeCpu
  simp only [NesRom.cpuWrite_low b.rom (0x4016 + i) v (by omega), Bool.false_eq_true, if_false,
    port_index i hi]
  rw [if_neg (by omega), if_neg (by omega), if_neg (by omega), if_neg (by omega),
    if_pos (by omega)]
  show store b.controller_state i (b.controller i) i = b.controller i
  unfold store
  rw [if_pos rfl]

/-- The shift register after `k` reads. -/
theorem controller_state_iterate (i : Nat) (ro : Bool) (hi : i < 2) (k : Nat) :
    ∀ (s : NesBus), s.controller_state i < 256 →
      ((fun t : NesBus => (t.readCpu (0x4016 + i) ro).2)^[k] s).controller_state i =
        (s.controller_state i * 2 ^ k) % 256 := by
  induction k with
  | zero =>
    intro s hs
    rw [Function.iterate_zero_apply, pow_zero, Nat.mul_one, Nat.mod_eq_of_lt hs]
  | succ k ih =>
    intro s hs
    have hn : (s.readCpu (0x4016 + i) ro).2.controller_state i =
        (s.controller_state i * 2) % 256 := by
      rw [NesBus.readCpu_controller s i ro hi]
      show store s.controller_state i (u8 (s.controller_state i <<< 1)) i = _
      unfold store u8
      rw [if_pos rfl, Nat.shiftLeft_eq, pow_one]
    rw [Function.iterate_succ_apply, ih _ (by rw [hn]; omega), hn, pow_succ,
      Nat.mod_mul_mod, Nat.mul_assoc, Nat.mul_comm 2 (2 ^ k)]

/-- C14: for port `i` (0 for `$4016`, 1 for `$4017`) and every controller
byte `c`: after a CPU write of any value to `$4016 + i` while
`controller[i] = c`, the read number `k` (counted from 0) of `$4016 + i`
returns bit `7 - k` of `c` as 0 or 1 for `k < 8`, and 0 for every `k >= 8`. -/
theorem controller_reads (b : NesBus) (i v c k : Nat) (ro : Bool) (hi : i < 2)
    (hc : b.controller i = c) (hlt : c < 256) :
    (((fun t : NesBus => (t.readCpu (0x4016 + i) ro).2)^[k]
        (b.writeCpu (0x4016 + i) v)).readCpu (0x4016 + i) ro).1 =
      if k < 8 then (c >>> (7 - k)) &&& 1 else 0 := by
  have hw : (b.writeCpu (0x4016 + i) v).controller_state i = c := by
    rw [NesBus.writeCpu_controller b i v hi, hc]
  rw [NesBus.readCpu_controller _ i ro hi]
  show ofBool (decide (((fun t : NesBus => (t.readCpu (0x4016 + i) ro).2)^[k]
        (b.writeCpu (0x4016 + i) v)).controller_state i &&& 0x80 > 0)) = _
  rw [controller_state_iterate i ro hi k _ (by rw [hw]; exact hlt), hw]
  by_cases hk : k < 8
  · rw [if_pos hk]
    exact shift_bit c hlt k hk
  · rw [if_neg hk]
    have h0 : (c * 2 ^ k) % 256 = 0 := by
      obtain ⟨j, rfl⟩ : ∃ j, k = 8 + j := ⟨k - 8, by omega⟩
      rw [pow_add, show (2 : Nat) ^ 8 = 256 from rfl, ← Nat.mul_assoc, Nat.mul_comm c 256,
        Nat.mul_assoc]
      exact Nat.mul_mod_right 256 _
    rw [h0]
    rfl

/-! ## Interrupts -/

theorem Mapper.cpuMapWrite_low_state (m : Mapper) (addr x d : Nat) (h : addr < 0x6000) :
    (m.cpuMapWrite addr x d).2.2 = m := by
  rcases m with ⟨p, c, k⟩
  cases k with
  | m000 => rfl
  | m001 s =>
    simp only [Mapper.cpuMapWrite, Mapper001.cpuMapWrite]
    rw [if_neg (by omega), if_neg (by omega)]
  | m002 s =>
    simp only [Mapper.cpuMapWrite, Mapper002.cpuMapWrite]
    rw [if_neg (by omega)]
  | m004 s =>
    simp only [Mapper.cpuMapWrite, Mapper004.cpuMapWrite]
    rw [if_neg (by omega), if_neg (by omega), if_neg (by omega), if_neg (by omega),
      if_neg (by omega)]

theorem NesRom.cpuWrite_low_rom (r : NesRom) (addr data : Nat) (h : addr < 0x6000) :
    (r.cpuWrite addr data).2 = r := by
  unfold NesRom.cpuWrite
  simp only [Mapper.cpuMapWrite_low r.mapper addr r.uninit data h,
    Mapper.cpuMapWrite_low_state r.mapper addr r.uninit data h, Bool.false_eq_true, if_false]

/-- A write to `$0000-$1FFF` changes one RAM cell and nothing else. -/
theorem NesBus.writeCpu_ram_eq (b : NesBus) (a d : Nat) (h : a ≤ 0x1FFF) :
    b.writeCpu a d = { b with memory := store b.memory (a % 0x0800) d } := by
  have ha : a &&& 0x07FF = a % 0x0800 := by
    have := Nat.and_pow_two_sub_one_eq_mod a 11
    norm_num at this
    exact this
  unfold NesBus.writeCpu
  simp only [NesRom.cpuWrite_low b.rom a d (by omega), NesRom.cpuWrite_low_rom b.rom a d (by omega),
    Bool.false_eq_true, if_false, h, if_true, ha]

/-- A push with the stack pointer in range. -/
theorem Cpu6502.push_eq (b : NesBus) (d : Nat) (hS : b.cpu.registers.S < 256) :
    Cpu6502.push b d =
      { b with
        memory := store b.memory (0x0100 + b.cpu.registers.S) (u8 d)
        cpu := { b.cpu with
          registers := { b.cpu.registers with S := (b.cpu.registers.S + 255) % 256 } } } := by
  unfold Cpu6502.push Cpu6502.write
  simp only []
  rw [NesBus.writeCpu_ram_eq _ _ _ (by show 0x0100 + b.cpu.registers.S ≤ 0x1FFF; omega)]
  have : (0x0100 + b.regs.S) % 0x0800 = 0x0100 + b.cpu.registers.S := by
    show (0x0100 + b.cpu.registers.S) % 0x0800 = _
    omega
  rw [this]
  rfl

set_option maxRecDepth 1000000 in
theorem interrupt_status : ∀ p, p < 256 →
    setBitfield (setBitfield (setBitfield p NES_BFLAG 1 (ofBool false)) NES_UNUSED 1 (ofBool true))
      NES_INTERRUPT 1 (ofBool true) = (p &&& 0xCB) ||| 0x24 := by
  decide

set_option maxRecDepth 100000 in
/-- `Cpu6502::interrupt` on a CPU whose registers are in range. -/
theorem Cpu6502.interrupt_eq (b : NesBus) (v : Nat) (hv1 : 0x8000 ≤ v) (hv2 : v < 0xFFFF)
    (hS : b.cpu.registers.S < 256) (hP : b.cpu.registers.P < 256) :
    Cpu6502.interrupt b v =
      { b with
        memory :=
          store (store (store b.memory (0x0100 + b.cpu.registers.S) (b.cpu.registers.PC / 256 % 256))
            (0x0100 + (b.cpu.registers.S + 255) % 256) (b.cpu.registers.PC % 256))
            (0x0100 + (b.cpu.registers.S + 254) % 256) ((b.cpu.registers.P &&& 0xCB) ||| 0x24)
        cpu := { b.cpu with
          registers := { b.cpu.registers with
            S := (b.cpu.registers.S + 253) % 256
            P := (b.cpu.registers.P &&& 0xCB) ||| 0x24
            PC := ((b.readCpu (v + 1) false).1 <<< 8) ||| (b.readCpu v false).1 }
          absoluteAddress := v } } := by
  have hhi : u8 ((b.regs.PC >>> 8) &&& 0x00ff) = b.cpu.registers.PC / 256 % 256 := by
    have := Nat.and_pow_two_sub_one_eq_mod (b.regs.PC >>> 8) 8
    norm_num at this
    rw [this, Nat.shiftRight_eq_div_pow]
    show (b.cpu.registers.PC / 2 ^ 8 % 256) % 256 = _
    norm_num
  have hlo : ∀ x : Nat, u8 (x &&& 0x00ff) = x % 256 := by
    intro x
    have := Nat.and_pow_two_sub_one_eq_mod x 8
    norm_num at this
    rw [this]
    show x % 256 % 256 = _
    omega
  have hst : u8 ((b.cpu.registers.P &&& 0xCB) ||| 0x24) = (b.cpu.registers.P &&& 0xCB) ||| 0x24 := by
    apply u8_of_lt
    have h1 : b.cpu.registers.P &&& 0xCB < 2 ^ 8 := Nat.and_lt_two_pow _ (by norm_num)
    exact Nat.or_lt_two_pow h1 (by norm_num)
  have hS1 : (b.cpu.registers.S + 255) % 256 < 256 := Nat.mod_lt _ (by norm_num)
  have hS2 : ((b.cpu.registers.S + 255) % 256 + 255) % 256 < 256 := Nat.mod_lt _ (by norm_num)
  have hr1 : ∀ s : NesBus, Cpu6502.read s v = (u8 (s.rom.cpuRead v 0).2, s) :=
    fun s => NesBus.readCpu_cart s v false hv1 (by omega)
  have hr2 : ∀ s : NesBus, Cpu6502.read s (u16 (v + 1)) = (u8 (s.rom.cpuRead (v + 1) 0).2, s) := by
    intro s
    rw [u16_of_lt (by omega)]
    exact NesBus.readCpu_cart s (v + 1) false (by omega) (by omega)
  have hb1 : b.readCpu v false = (u8 (b.rom.cpuRead v 0).2, b) :=
    NesBus.readCpu_cart b v false hv1 (by omega)
  have hb2 : b.readCpu (v + 1) false = (u8 (b.rom.cpuRead (v + 1) 0).2, b) :=
    NesBus.readCpu_cart b (v + 1) false (by omega) (by omega)
  have hss : ((b.cpu.registers.S + 255) % 256 + 255) % 256 = (b.cpu.registers.S + 254) % 256 := by
    omega
  have hsss : ((b.cpu.registers.S + 254) % 256 + 255) % 256 = (b.cpu.registers.S + 253) % 256 := by
    omega
  unfold Cpu6502.interrupt
  simp only []
  rw [Cpu6502.push_eq b _ hS, hhi]
  simp only [NesBus.regs]
  rw [Cpu6502.push_eq _ (b.cpu.registers.PC &&& 255) hS1, hlo]
  simp only [Cpu6502.setStatus, NesBus.setRegs, NesBus.regs, interrupt_status _ hP]
  rw [Cpu6502.push_eq _ _ hS2, hst]
  simp only [NesBus.setAbs, hr1, hr2, NesBus.setPC, NesBus.setRegs, NesBus.regs, hb1, hb2, hss,
    hsss]
  rw [u16_of_lt (word_lt (u8_lt _) (u8_lt _))]

/-- C15: for every CPU state whose registers `S` and `P` are bytes,
`nonMaskableInterrupt()` writes the high byte of `PC` to `$0100 + S`, the low
byte to `$0100 + ((S - 1) mod 256)` and the status byte with B = 0, U = 1,
I = 1 and every other flag as before (`(P & 0xCB) | 0x24`) to
`$0100 + ((S - 2) mod 256)`; afterwards `S` has decreased by 3 mod 256, `P` is
the byte that was pushed, `PC` is `read($FFFA) | (read($FFFB) << 8)`, the
pending cycle counter is 8, and nothing else but `absoluteAddress` changed. -/
theorem nmi_sequence (b : NesBus) (hS : b.cpu.registers.S < 256) (hP : b.cpu.registers.P < 256) :
    Cpu6502.nonMaskableInterrupt b =
      { b with
        memory :=
          store (store (store b.memory (0x0100 + b.cpu.registers.S) (b.cpu.registers.PC / 256 % 256))
            (0x0100 + (b.cpu.registers.S + 255) % 256) (b.cpu.registers.PC % 256))
            (0x0100 + (b.cpu.registers.S + 254) % 256) ((b.cpu.registers.P &&& 0xCB) ||| 0x24)
        cpu := { b.cpu with
          registers := { b.cpu.registers with
            S := (b.cpu.registers.S + 253) % 256
            P := (b.cpu.registers.P &&& 0xCB) ||| 0x24
            PC := ((b.readCpu 0xFFFB false).1 <<< 8) ||| (b.readCpu 0xFFFA false).1 }
          absoluteAddress := 0xFFFA
          cycles := 8 } } := by
  unfold Cpu6502.nonMaskableInterrupt
  rw [Cpu6502.interrupt_eq b 0xFFFA (by norm_num) (by norm_num) hS hP]
  rfl

/-- C16: `interruptRequest()` on a CPU state with the I flag set returns the
machine unchanged; on a state with I clear (and `S`, `P` bytes) it makes the
three stack writes of an interrupt (high and low byte of `PC`, then
`(P & 0xCB) | 0x24`), decreases `S` by 3 mod 256, loads `PC` from
`$FFFE/$FFFF` and sets the pending cycle counter to 7. -/
theorem irq_sequence (b : NesBus) (hS : b.cpu.registers.S < 256) (hP : b.cpu.registers.P < 256) :
    (Cpu6502.getStatus b NES_INTERRUPT = true → Cpu6502.interruptRequest b = b) ∧
    (Cpu6502.getStatus b NES_INTERRUPT = false → Cpu6502.interruptRequest b =
      { b with
        memory :=
          store (store (store b.memory (0x0100 + b.cpu.registers.S) (b.cpu.registers.PC / 256 % 256))
            (0x0100 + (b.cpu.registers.S + 255) % 256) (b.cpu.registers.PC % 256))
            (0x0100 + (b.cpu.registers.S + 254) % 256) ((b.cpu.registers.P &&& 0xCB) ||| 0x24)
        cpu := { b.cpu with
          registers := { b.cpu.registers with
            S := (b.cpu.registers.S + 253) % 256
            P := (b.cpu.registers.P &&& 0xCB) ||| 0x24
            PC := ((b.readCpu 0xFFFF false).1 <<< 8) ||| (b.readCpu 0xFFFE false).1 }
          absoluteAddress := 0xFFFE
          cycles := 7 } }) := by
  unfold Cpu6502.interruptRequest
  refine ⟨fun h => ?_, fun h => ?_⟩
  · rw [if_neg (by rw [h]; decide)]
  · rw [if_pos h, Cpu6502.interrupt_eq b 0xFFFE (by norm_num) (by norm_num) hS hP]
    rfl

/-! ## BRK -/

set_option maxRecDepth 1000000 in
theorem brk_status : ∀ p, p < 256 →
    setBitfield (setBitfield p NES_INTERRUPT 1 (ofBool true)) NES_BFLAG 1 (ofBool true) =
        p ||| 0x14 ∧
      setBitfield (p ||| 0x14) NES_BFLAG 1 (ofBool false) = (p &&& 0xEB) ||| 0x04 := by
  decide

theorem NesBus.readCpu_rom (b : NesBus) (a : Nat) (ro : Bool) : (b.readCpu a ro).2.rom = b.rom := by
  unfold NesBus.readCpu
  simp only []
  split_ifs <;> rfl

set_option maxRecDepth 100000 in
/-- The callback `BRK` on a CPU whose registers `S` and `P` are bytes. -/
theorem Cpu6502.BRK_eq (b : NesBus) (hS : b.cpu.registers.S < 256) (hP : b.cpu.registers.P < 256) :
    Cpu6502.BRK b =
      (0, { b with
        memory :=
          store (store (store b.memory (0x0100 + b.cpu.registers.S)
              ((b.cpu.registers.PC + 1) % 65536 / 256 % 256))
            (0x0100 + (b.cpu.registers.S + 255) % 256) ((b.cpu.registers.PC + 1) % 65536 % 256))
            (0x0100 + (b.cpu.registers.S + 254) % 256) (b.cpu.registers.P ||| 0x14)
        cpu := { b.cpu with
          registers := { b.cpu.registers with
            S := (b.cpu.registers.S + 253) % 256
            P := (b.cpu.registers.P &&& 0xEB) ||| 0x04
            PC := (b.readCpu 0xFFFE false).1 ||| ((b.readCpu 0xFFFF false).1 <<< 8) } } }) := by
  have hhi : ∀ x : Nat, u8 ((x >>> 8) &&& 0x00FF) = x / 256 % 256 := by
    intro x
    have := Nat.and_pow_two_sub_one_eq_mod (x >>> 8) 8
    norm_num at this
    rw [this, Nat.shiftRight_eq_div_pow]
    show (x / 2 ^ 8 % 256) % 256 = _
    norm_num
  have hlo : ∀ x : Nat, u8 (x &&& 0x00FF) = x % 256 := by
    intro x
    have := Nat.and_pow_two_sub_one_eq_mod x 8
    norm_num at this
    rw [this]
    show x % 256 % 256 = _
    omega
  have hst : u8 (b.cpu.registers.P ||| 0x14) = b.cpu.registers.P ||| 0x14 :=
    u8_of_lt (Nat.or_lt_two_pow (show b.cpu.registers.P < 2 ^ 8 from hP) (by norm_num))
  have hS1 : (b.cpu.registers.S + 255) % 256 < 256 := Nat.mod_lt _ (by norm_num)
  have hS2 : ((b.cpu.registers.S + 255) % 256 + 255) % 256 < 256 := Nat.mod_lt _ (by norm_num)
  have hr1 : ∀ s : NesBus, Cpu6502.read s 0xFFFE = (u8 (s.rom.cpuRead 0xFFFE 0).2, s) :=
    fun s => NesBus.readCpu_cart s 0xFFFE false (by norm_num) (by norm_num)
  have hr2 : ∀ s : NesBus, Cpu6502.read s 0xFFFF = (u8 (s.rom.cpuRead 0xFFFF 0).2, s) :=
    fun s => NesBus.readCpu_cart s 0xFFFF false (by norm_num) (by norm_num)
  have hb1 : b.readCpu 0xFFFE false = (u8 (b.rom.cpuRead 0xFFFE 0).2, b) :=
    NesBus.readCpu_cart b 0xFFFE false (by norm_num) (by norm_num)
  have hb2 : b.readCpu 0xFFFF false = (u8 (b.rom.cpuRead 0xFFFF 0).2, b) :=
    NesBus.readCpu_cart b 0xFFFF false (by norm_num) (by norm_num)
  have hss : ((b.cpu.registers.S + 255) % 256 + 255) % 256 = (b.cpu.registers.S + 254) % 256 := by
    omega
  have hsss : ((b.cpu.registers.S + 254) % 256 + 255) % 256 = (b.cpu.registers.S + 253) % 256 := by
    omega
  obtain ⟨hq1, hq2⟩ := brk_status _ hP
  have hS3 : (b.cpu.registers.S + 254) % 256 < 256 := Nat.mod_lt _ (by norm_num)
  simp only [Cpu6502.BRK, NesBus.setPC, NesBus.setRegs, NesBus.regs, Cpu6502.setStatus,
    Cpu6502.push_eq, hS, hS1, hS2, hS3, hhi, hlo, hq1, hq2, hst, hr1, hr2, hb1, hb2, hss, hsss, u16]

set_option maxRecDepth 1000000 in
theorem instructionMap_get_00 : instructionMap.get 0x00 =
    { opcode := .BRK, addrmode := .impl, size := 1, cycles := 7, opByte := 0x00,
      callback := some .BRK, addrmodeCallback := some .impl, implied := true } := by
  decide

set_option maxRecDepth 1000000 in
theorem brk_status_step : ∀ p, p < 256 →
    setBitfield p NES_UNUSED 1 (ofBool true) < 256 ∧
      setBitfield p NES_UNUSED 1 (ofBool true) ||| 0x14 = p ||| 0x34 ∧
      setBitfield ((setBitfield p NES_UNUSED 1 (ofBool true) &&& 0xEB) ||| 0x04) NES_UNUSED 1
        (ofBool true) = (p &&& 0xCB) ||| 0x24 := by
  decide

set_option maxRecDepth 100000 in
/-- C17: the body of `clock()` for a CPU without pending cycles whose opcode
byte at `PC = a` is `$00` (`BRK`), with `S` and `P` bytes: the return address
`a + 2` is pushed, high byte to `$0100 + S` and low byte to
`$0100 + ((S - 1) mod 256)`, then the status byte with B, U and I set
(`P | 0x34`) to `$0100 + ((S - 2) mod 256)`; `S` has decreased by 3 mod 256,
`PC` is `read($FFFE) | (read($FFFF) << 8)`, the instruction costs 7 cycles,
and `P` itself has B clear and U and I set (`(P & 0xCB) | 0x24`). -/
theorem brk_sequence (b : NesBus) (hS : b.cpu.registers.S < 256) (hP : b.cpu.registers.P < 256)
    (hop : (b.readCpu b.cpu.registers.PC false).1 = 0x00) :
    Cpu6502.step b =
      { (b.readCpu b.cpu.registers.PC false).2 with
        memory :=
          store (store (store b.memory (0x0100 + b.cpu.registers.S)
              ((b.cpu.registers.PC + 2) % 65536 / 256 % 256))
            (0x0100 + (b.cpu.registers.S + 255) % 256) ((b.cpu.registers.PC + 2) % 65536 % 256))
            (0x0100 + (b.cpu.registers.S + 254) % 256) (b.cpu.registers.P ||| 0x34)
        cpu := { b.cpu with
          opcode := 0x00
          inputAlu := b.cpu.registers.A
          cycles := 7
          cycleCount := u32 (b.cpu.cycleCount + 7)
          registers := { b.cpu.registers with
            S := (b.cpu.registers.S + 253) % 256
            P := (b.cpu.registers.P &&& 0xCB) ||| 0x24
            PC := (b.readCpu 0xFFFE false).1 ||| ((b.readCpu 0xFFFF false).1 <<< 8) } } } := by
  obtain ⟨-, -, f3, f4, -⟩ := NesBus.readCpu_frame b b.cpu.registers.PC false
  have f5 := NesBus.readCpu_rom b b.cpu.registers.PC false
  rcases h0 : b.readCpu b.cpu.registers.PC false with ⟨v0, s0⟩
  rw [h0] at hop f3 f4 f5
  simp only at hop f3 f4 f5
  subst hop
  obtain ⟨q1, q2, q3⟩ := brk_status_step _ hP
  have hf : Cpu6502.fetchOpcode b = { s0 with cpu := { b.cpu with
      opcode := 0x00
      registers := { b.cpu.registers with
        PC := u16 (b.cpu.registers.PC + 1)
        P := setBitfield b.cpu.registers.P NES_UNUSED 1 (ofBool true) } } } := by
    simp [Cpu6502.fetchOpcode, Cpu6502.readPC, Cpu6502.read, NesBus.setPC, NesBus.setRegs,
      NesBus.regs, NesBus.readCpu_withCpu, h0, Cpu6502.setStatus]
  have hr1 : ∀ s : NesBus, s.readCpu 0xFFFE false = (u8 (s.rom.cpuRead 0xFFFE 0).2, s) :=
    fun s => NesBus.readCpu_cart s 0xFFFE false (by norm_num) (by norm_num)
  have hr2 : ∀ s : NesBus, s.readCpu 0xFFFF false = (u8 (s.rom.cpuRead 0xFFFF 0).2, s) :=
    fun s => NesBus.readCpu_cart s 0xFFFF false (by norm_num) (by norm_num)
  have hpc : ((b.cpu.registers.PC + 1) % 65536 + 1) % 65536 = (b.cpu.registers.PC + 2) % 65536 := by
    omega
  have hidx : ¬ (Index.unpack 0x00).c > 2 := by decide
  have hcy : (7 + (u8 0 &&& 0)) % 65536 = 7 := by decide
  simp only [Cpu6502.step, hf, hidx, if_false, Cpu6502.execute, Cpu6502.fetchOperand,
    instructionMap_get_00, callAddrMode, addrModeCallbacks, callInstr, instrCallbacks,
    NesBus.setCycles, NesBus.regs, Cpu6502.BRK_eq, hS, q1, q2, q3, hr1, hr2, f3, f5, u16, hpc,
    Cpu6502.setStatus, NesBus.setRegs]
  rw [hcy]

/-! ## ADC -/

theorem and_80_ne_zero (x : Nat) : x &&& 0x80 ≠ 0 ↔ x.testBit 7 = true := by
  have h := Nat.and_two_pow x 7
  norm_num at h
  rw [h]
  cases x.testBit 7 <;> simp

theorem testBit_seven (x : Nat) : x.testBit 7 = decide (x / 128 % 2 = 1) := by
  rw [Nat.testBit_to_div_mod]

theorem testBit_seven_compl (x : Nat) (h : x < 2 ^ 32) :
    (0xFFFFFFFF - x).testBit 7 = !x.testBit 7 := by
  have := Nat.testBit_two_pow_sub_succ h 7
  simp only [show (7 : Nat) < 32 by norm_num, decide_True, Bool.true_and] at this
  rw [← this, show 4294967295 - x = 2 ^ 32 - (x + 1) by omega]

/-- The overflow formula of `ADC`: bit 7 of `~(a ^ m) & (a ^ t)` is set exactly
when `a` and `m` have the same bit 7 and `t` has the other one. -/
theorem adc_overflow (a m t : Nat) (ha : a < 256) (hm : m < 256) :
    (bnot (a ^^^ m) &&& (a ^^^ t)) &&& 0x80 ≠ 0 ↔
      ((a < 128 ∧ m < 128 ∧ t / 128 % 2 = 1) ∨ (128 ≤ a ∧ 128 ≤ m ∧ t / 128 % 2 = 0)) := by
  have hx : a ^^^ m < 2 ^ 32 := Nat.xor_lt_two_pow (by omega) (by omega)
  unfold bnot
  rw [and_80_ne_zero, Nat.testBit_and, Nat.testBit_xor, testBit_seven_compl _ hx, Nat.testBit_xor,
    testBit_seven a, testBit_seven m, testBit_seven t]
  by_cases h1 : a < 128 <;> by_cases h2 : m < 128 <;> by_cases h3 : t / 128 % 2 = 1
  all_goals
    have e1 : a / 128 % 2 = 1 ↔ ¬ a < 128 := by omega
    have e2 : m / 128 % 2 = 1 ↔ ¬ m < 128 := by omega
    simp only [e1, e2, h1, h2, h3]
    simp
    try omega

theorem fetch_registers (b : NesBus) : (Cpu6502.fetch b).cpu.registers = b.cpu.registers := by
  unfold Cpu6502.fetch
  split_ifs
  · rfl
  · show (Cpu6502.read b b.cpu.absoluteAddress).2.cpu.registers = _
    rw [read_regs]

set_option maxRecDepth 1000000 in
theorem adc_flags : ∀ p, p < 256 → ∀ c z v n : Bool,
    bitfield (setBitfield (setBitfield (setBitfield (setBitfield p NES_CARRY 1 (ofBool c))
      NES_ZERO 1 (ofBool z)) NES_OVERFLOW 1 (ofBool v)) NES_NEGATIVE 1 (ofBool n)) NES_CARRY 1 =
        ofBool c ∧
    bitfield (setBitfield (setBitfield (setBitfield (setBitfield p NES_CARRY 1 (ofBool c))
      NES_ZERO 1 (ofBool z)) NES_OVERFLOW 1 (ofBool v)) NES_NEGATIVE 1 (ofBool n)) NES_ZERO 1 =
        ofBool z ∧
    bitfield (setBitfield (setBitfield (setBitfield (setBitfield p NES_CARRY 1 (ofBool c))
      NES_ZERO 1 (ofBool z)) NES_OVERFLOW 1 (ofBool v)) NES_NEGATIVE 1 (ofBool n)) NES_OVERFLOW 1 =
        ofBool v ∧
    bitfield (setBitfield (setBitfield (setBitfield (setBitfield p NES_CARRY 1 (ofBool c))
      NES_ZERO 1 (ofBool z)) NES_OVERFLOW 1 (ofBool v)) NES_NEGATIVE 1 (ofBool n)) NES_NEGATIVE 1 =
        ofBool n := by
  decide

/-- C18: for every accumulator byte `A`, operand byte `M` (the byte `fetch()`
leaves in `inputAlu`) and carry `C`, the callback `ADC` returns 1 and leaves
`A' = (A + M + C) mod 256`, the carry flag `A + M + C > 255`, the overflow
flag `(~(A ^ M) & (A ^ A') & 0x80) != 0`, the zero flag `A' = 0` and the
negative flag `A' >= 128`; the overflow flag is set exactly when the signed
sum `signed(A) + signed(M) + C` lies outside `-128 .. 127`. -/
theorem adc_result (b : NesBus) (A M C : Nat) (hA : b.cpu.registers.A = A)
    (hM : (Cpu6502.fetch b).cpu.inputAlu = M) (hC : ofBool (Cpu6502.getStatus b NES_CARRY) = C)
    (hAlt : A < 256) (hMlt : M < 256) (hP : b.cpu.registers.P < 256) :
    (Cpu6502.ADC b).1 = 1 ∧
      (Cpu6502.ADC b).2.cpu.registers.A = (A + M + C) % 256 ∧
      Cpu6502.getStatus (Cpu6502.ADC b).2 NES_CARRY = decide (A + M + C > 255) ∧
      Cpu6502.getStatus (Cpu6502.ADC b).2 NES_OVERFLOW =
        decide ((bnot (A ^^^ M) &&& (A ^^^ ((A + M + C) % 256))) &&& 0x80 ≠ 0) ∧
      (Cpu6502.getStatus (Cpu6502.ADC b).2 NES_OVERFLOW = true ↔
        ((if A ≥ 128 then (A : Int) - 256 else A) + (if M ≥ 128 then (M : Int) - 256 else M) + C
            < -128 ∨
          (if A ≥ 128 then (A : Int) - 256 else A) + (if M ≥ 128 then (M : Int) - 256 else M) + C
            > 127)) ∧
      Cpu6502.getStatus (Cpu6502.ADC b).2 NES_ZERO = decide ((A + M + C) % 256 = 0) ∧
      Cpu6502.getStatus (Cpu6502.ADC b).2 NES_NEGATIVE = decide ((A + M + C) % 256 ≥ 128) := by
  have hC2 : C < 2 := by rw [← hC]; unfold ofBool; split_ifs <;> omega
  have hregs := fetch_registers b
  have hcarry : ofBool (Cpu6502.getStatus (Cpu6502.fetch b) NES_CARRY) = C := by
    rw [← hC]; unfold Cpu6502.getStatus NesBus.regs; rw [hregs]
  have hP' : (Cpu6502.fetch b).cpu.registers.P < 256 := by rw [hregs]; exact hP
  have hA' : (Cpu6502.fetch b).cpu.registers.A = A := by rw [hregs]; exact hA
  simp only [Cpu6502.ADC]
  generalize Cpu6502.fetch b = f at hM hcarry hP' hA' ⊢
  simp only [Cpu6502.getStatus, NesBus.regs] at hcarry
  have hs : u16 (A + M + C) = A + M + C := u16_of_lt (by omega)
  have hand : (A + M + C) &&& 0x00FF = (A + M + C) % 256 := by
    have := Nat.and_pow_two_sub_one_eq_mod (A + M + C) 8
    norm_num at this
    exact this
  obtain ⟨g1, g2, g3, g4⟩ := adc_flags f.cpu.registers.P hP' (decide (A + M + C > 255))
    (decide ((A + M + C) % 256 = 0))
    (toBool ((bnot (A ^^^ M) &&& (A ^^^ (A + M + C))) &&& 0x0080))
    (toBool ((A + M + C) &&& 0x80))
  simp only [NesBus.regs, NesBus.setTemp, NesBus.setA, NesBus.setRegs, Cpu6502.setStatus,
    Cpu6502.getStatus, hM, hA', hs, hand, hcarry, g1, g2, g3, g4]
  have ob : ∀ x : Bool, decide (ofBool x = 1) = x := by decide
  have tb : ∀ y : Nat, toBool y = decide (y ≠ 0) := by
    intro y; unfold toBool; cases h : decide (y ≠ 0) <;> simp_all
  have ov1 := adc_overflow A M (A + M + C) hAlt hMlt
  have ov2 := adc_overflow A M ((A + M + C) % 256) hAlt hMlt
  have hn : (A + M + C) &&& 0x80 ≠ 0 ↔ (A + M + C) % 256 ≥ 128 := by
    rw [and_80_ne_zero, testBit_seven, decide_eq_true_iff]; omega
  simp only [ob, tb]
  refine ⟨trivial, trivial, trivial, ?_, ?_, trivial, ?_⟩
  · rw [decide_eq_decide, ov1, ov2]
    have : (A + M + C) % 256 / 128 % 2 = (A + M + C) / 128 % 2 := by omega
    rw [this]
  · rw [decide_eq_true_iff, ov1]
    split_ifs <;> omega
  · rw [decide_eq_decide, hn]

/-! ## Cartridge RAM -/

/-- C19, as the code behaves: on a cartridge with mapper 1 or mapper 4, for
every address `a` in `$6000-$7FFF` and every `d`, `writeCpu(a, d)` stores `d`
in the mapper's static RAM and is reported as served by the mapper, but
`readCpu(a)` afterwards returns 0: `cpuMapRead` receives `data` by value, so
the byte it takes from the static RAM never reaches `NesRom::cpuRead`. -/
theorem cartridge_ram_reads_zero (b : NesBus) (a d : Nat) (ro : Bool) (ha1 : 0x6000 ≤ a)
    (ha2 : a ≤ 0x7FFF)
    (hk : (∃ s, b.rom.mapper.kind = .m001 s) ∨ (∃ s, b.rom.mapper.kind = .m004 s)) :
    ((b.writeCpu a d).readCpu a ro).1 = 0 ∧
      ((∀ s, b.rom.mapper.kind = .m001 s →
          ∃ t, (b.writeCpu a d).rom.mapper.kind = .m001 t ∧ t.staticRam (a &&& 0x1FFF) = d) ∧
        (∀ s, b.rom.mapper.kind = .m004 s →
          ∃ t, (b.writeCpu a d).rom.mapper.kind = .m004 t ∧ t.staticRam (a &&& 0x1FFF) = d)) := by
  rcases b with ⟨dma, scc, mem, cpu, apu, ppu, ⟨hdr, ⟨pc, cc, k⟩, prg, pl, chr, cl, un⟩, ct, cs⟩
  rcases hk with ⟨s, hs⟩ | ⟨s, hs⟩
  · simp only at hs
    subst hs
    simp [NesBus.writeCpu, NesBus.readCpu, NesRom.cpuWrite, NesRom.cpuRead, Mapper.cpuMapWrite,
      Mapper.cpuMapRead, Mapper001.cpuMapWrite, Mapper001.cpuMapRead, ha1, ha2, u8, store]
  · simp only at hs
    subst hs
    simp [NesBus.writeCpu, NesBus.readCpu, NesRom.cpuWrite, NesRom.cpuRead, Mapper.cpuMapWrite,
      Mapper.cpuMapRead, Mapper004.cpuMapWrite, Mapper004.cpuMapRead, ha1, ha2, u8, store]

/-! ## Palette memory -/

theorem palette_addr (a : Nat) (h1 : 0x3F00 ≤ a) (h2 : a ≤ 0x3FFF) : a &&& 0x3FFF = a := by
  have : a &&& 0x3FFF = a % 0x4000 := Nat.and_pow_two_sub_one_eq_mod a 14
  omega

theorem NesRom.ppuWrite_high (r : NesRom) (a d : Nat) (h : 0x1FFF < a) :
    r.ppuWrite a d = (false, r) := by
  have h' : ¬ a ≤ 0x1FFF := by omega
  rcases r with ⟨hdr, ⟨pc, cc, k⟩, prg, pl, chr, cl, un⟩
  cases k <;>
    simp [NesRom.ppuWrite, Mapper.ppuMapWrite, Mapper000.ppuMapWrite, Mapper001.ppuMapWrite,
      Mapper002.ppuMapWrite, Mapper004.ppuMapWrite, h']

theorem NesRom.ppuRead_high (r : NesRom) (a d : Nat) (h : 0x1FFF < a) :
    r.ppuRead a d = (false, d) := by
  have h' : ¬ a ≤ 0x1FFF := by omega
  rcases r with ⟨hdr, ⟨pc, cc, k⟩, prg, pl, chr, cl, un⟩
  cases k <;>
    simp [NesRom.ppuRead, Mapper.ppuMapRead, Mapper000.ppuMapRead, Mapper001.ppuMapRead,
      Mapper002.ppuMapRead, Mapper004.ppuMapRead, h']

theorem Ppu2C02.ppuWrite_palette (p : Ppu2C02) (rom : NesRom) (a d : Nat) (h1 : 0x3F00 ≤ a)
    (h2 : a ≤ 0x3FFF) :
    p.ppuWrite rom a d = ({ p with paletteTable := store p.paletteTable (paletteIndex a) d }, rom) := by
  have e1 : ¬ a ≤ 0x1FFF := by omega
  have e2 : ¬ a ≤ 0x3EFF := by omega
  simp only [Ppu2C02.ppuWrite, palette_addr a h1 h2, NesRom.ppuWrite_high rom a d (by omega)]
  simp [e1, e2, h2]

theorem Ppu2C02.ppuRead_palette (p : Ppu2C02) (rom : NesRom) (a : Nat) (h1 : 0x3F00 ≤ a)
    (h2 : a ≤ 0x3FFF) :
    p.ppuRead rom a =
      u8 (p.paletteTable (paletteIndex a)) &&& (if p.registers.grayscale ≠ 0 then 0x30 else 0x3F) := by
  have e1 : ¬ a ≤ 0x1FFF := by omega
  have e2 : ¬ a ≤ 0x3EFF := by omega
  simp only [Ppu2C02.ppuRead, palette_addr a h1 h2, NesRom.ppuRead_high rom a 0 (by omega)]
  simp [e1, e2, h2]

theorem paletteIndex_fold (a : Nat) :
    paletteIndex a =
      if a &&& 0x1F = 0x10 then 0x00 else if a &&& 0x1F = 0x14 then 0x04
      else if a &&& 0x1F = 0x18 then 0x08 else if a &&& 0x1F = 0x1C then 0x0C
      else a &&& 0x1F := by
  unfold paletteIndex
  simp only
  split_ifs <;> simp_all

/-- C20: for every PPU address `a` in `$3F00-$3FFF` and byte `d`, after
`ppuWrite(a, d)` a `ppuRead(a')` of an address `a'` in `$3F00-$3FFF` with the
same palette index returns `d & 0x30` when `MASK.grayscale` is set and
`d & 0x3F` when it is clear; the write leaves the cartridge and every palette
entry with another index unchanged; and the palette index is `addr & 0x1F`
with `$10, $14, $18, $1C` folded onto `$00, $04, $08, $0C`. -/
theorem palette_write_read (p : Ppu2C02) (rom : NesRom) (a d a' : Nat) (ha1 : 0x3F00 ≤ a)
    (ha2 : a ≤ 0x3FFF) (hd : d < 256) (ha1' : 0x3F00 ≤ a') (ha2' : a' ≤ 0x3FFF)
    (hi : paletteIndex a' = paletteIndex a) :
    (p.ppuWrite rom a d).1.ppuRead (p.ppuWrite rom a d).2 a' =
        (if p.registers.grayscale ≠ 0 then d &&& 0x30 else d &&& 0x3F) ∧
      (p.ppuWrite rom a d).2 = rom ∧
      (∀ j, j ≠ paletteIndex a → (p.ppuWrite rom a d).1.paletteTable j = p.paletteTable j) ∧
      paletteIndex a =
        (if a &&& 0x1F = 0x10 then 0x00 else if a &&& 0x1F = 0x14 then 0x04
         else if a &&& 0x1F = 0x18 then 0x08 else if a &&& 0x1F = 0x1C then 0x0C
         else a &&& 0x1F) := by
  rw [Ppu2C02.ppuWrite_palette p rom a d ha1 ha2]
  refine ⟨?_, rfl, ?_, paletteIndex_fold a⟩
  · rw [Ppu2C02.ppuRead_palette _ _ a' ha1' ha2', hi]
    simp only [store, if_true, u8_of_lt hd]
    show (d &&& if p.registers.grayscale ≠ 0 then 0x30 else 0x3F) = _
    split_ifs <;> rfl
  · intro j hj
    simp [store, hj]

/-- The palette entry `$3F10` is the entry `$3F00`: with grayscale clear, `$7F`
written to `$3F10` reads back as `$3F` from `$3F00`. -/
theorem palette_write_read_witness :
    (examplePpu.ppuWrite (exampleRom 0 1 1 (filled 0) (filled 0)) 0x3F10 0x7F).1.ppuRead
        (examplePpu.ppuWrite (exampleRom 0 1 1 (filled 0) (filled 0)) 0x3F10 0x7F).2 0x3F00 =
      0x3F :=
  (palette_write_read examplePpu (exampleRom 0 1 1 (filled 0) (filled 0)) 0x3F10 0x7F 0x3F00
    (by decide) (by decide) (by decide) (by decide) (by decide) (by decide)).1.trans (by decide)

/-! ## The properties at concrete machines -/

/-- C11 on a fresh MMC1: after the reset write `$80`, the five writes with
bit 0 equal to 1, 0, 1, 1, 0 leave `control = 0b01101`. -/
theorem mmc1_serial_load_witness :
    (Mapper001.cpuMapWrite 1
      (Mapper001.cpuMapWrite 1
        (Mapper001.cpuMapWrite 1
          (Mapper001.cpuMapWrite 1
            (Mapper001.cpuMapWrite 1
              (Mapper001.cpuMapWrite 1 exampleMapper001 0x8000 0 0x80).2.2 0x8000 0 1).2.2
                0x8000 0 0).2.2 0x8000 0 1).2.2 0x8000 0 1).2.2 0x8000 0 0).2.2.control =
      0b01101 :=
  (mmc1_serial_load 1 exampleMapper001 0x8000 0x8000 0x8000 0x8000 0x8000 0x8000 0 0 0 0 0 0
    0x80 1 0 1 1 0 (by decide) (by decide) (by decide) (by decide) (by decide) (by decide)
    (by decide) (by decide) (by decide) (by decide) (by decide) (by decide)
    (by decide)).2.2.2.1.trans (by decide)

/-- C14 on `controllerMachine`, whose first controller holds `$A5 = 0b10100101`:
after a write to `$4016` the reads number 0, 1, 2, 7 return 1, 0, 1, 1 and the
reads number 8 and 9 return 0. -/
theorem controller_reads_witness :
    (((fun t : NesBus => (t.readCpu (0x4016 + 0) false).2)^[0]
        (controllerMachine.writeCpu (0x4016 + 0) 1)).readCpu (0x4016 + 0) false).1 = 1 ∧
    (((fun t : NesBus => (t.readCpu (0x4016 + 0) false).2)^[1]
        (controllerMachine.writeCpu (0x4016 + 0) 1)).readCpu (0x4016 + 0) false).1 = 0 ∧
    (((fun t : NesBus => (t.readCpu (0x4016 + 0) false).2)^[2]
        (controllerMachine.writeCpu (0x4016 + 0) 1)).readCpu (0x4016 + 0) false).1 = 1 ∧
    (((fun t : NesBus => (t.readCpu (0x4016 + 0) false).2)^[7]
        (controllerMachine.writeCpu (0x4016 + 0) 1)).readCpu (0x4016 + 0) false).1 = 1 ∧
    (((fun t : NesBus => (t.readCpu (0x4016 + 0) false).2)^[8]
        (controllerMachine.writeCpu (0x4016 + 0) 1)).readCpu (0x4016 + 0) false).1 = 0 ∧
    (((fun t : NesBus => (t.readCpu (0x4016 + 0) false).2)^[9]
        (controllerMachine.writeCpu (0x4016 + 0) 1)).readCpu (0x4016 + 0) false).1 = 0 :=
  ⟨(controller_reads controllerMachine 0 1 0xA5 0 false (by decide) (by decide)
      (by decide)).trans (by decide),
    (controller_reads controllerMachine 0 1 0xA5 1 false (by decide) (by decide)
      (by decide)).trans (by decide),
    (controller_reads controllerMachine 0 1 0xA5 2 false (by decide) (by decide)
      (by decide)).trans (by decide),
    (controller_reads controllerMachine 0 1 0xA5 7 false (by decide) (by decide)
      (by decide)).trans (by decide),
    (controller_reads controllerMachine 0 1 0xA5 8 false (by decide) (by decide)
      (by decide)).trans (by decide),
    (controller_reads controllerMachine 0 1 0xA5 9 false (by decide) (by decide)
      (by decide)).trans (by decide)⟩

/-- C15 on `vectorMachine` (`PC = $8000`, `S = $FD`, `P = $00`, NMI vector
`$9000`): `$80`, `$00`, `$24` are written to `$01FD`, `$01FC`, `$01FB`, and
then `S = $FA`, `P = $24`, `PC = $9000` and 8 cycles are pending. -/
theorem nmi_sequence_witness :
    (Cpu6502.nonMaskableInterrupt vectorMachine).memory 0x01FD = 0x80 ∧
    (Cpu6502.nonMaskableInterrupt vectorMachine).memory 0x01FC = 0x00 ∧
    (Cpu6502.nonMaskableInterrupt vectorMachine).memory 0x01FB = 0x24 ∧
    (Cpu6502.nonMaskableInterrupt vectorMachine).cpu.registers.S = 0xFA ∧
    (Cpu6502.nonMaskableInterrupt vectorMachine).cpu.registers.P = 0x24 ∧
    (Cpu6502.nonMaskableInterrupt vectorMachine).cpu.registers.PC = 0x9000 ∧
    (Cpu6502.nonMaskableInterrupt vectorMachine).cpu.cycles = 8 := by
  rw [nmi_sequence vectorMachine (by decide) (by decide)]
  decide

/-- C16 on `vectorMachine`, whose I flag is clear (IRQ vector `$9234`), and on
the same machine with `P = $04`, whose I flag is set. -/
theorem irq_sequence_witness :
    ((Cpu6502.interruptRequest vectorMachine).memory 0x01FD = 0x80 ∧
      (Cpu6502.interruptRequest vectorMachine).memory 0x01FC = 0x00 ∧
      (Cpu6502.interruptRequest vectorMachine).memory 0x01FB = 0x24 ∧
      (Cpu6502.interruptRequest vectorMachine).cpu.registers.S = 0xFA ∧
      (Cpu6502.interruptRequest vectorMachine).cpu.registers.P = 0x24 ∧
      (Cpu6502.interruptRequest vectorMachine).cpu.registers.PC = 0x9234 ∧
      (Cpu6502.interruptRequest vectorMachine).cpu.cycles = 7) ∧
    Cpu6502.interruptRequest (exampleBus vectorRom (filled 0) 0x8000 0x04) =
      exampleBus vectorRom (filled 0) 0x8000 0x04 := by
  refine ⟨?_, (irq_sequence (exampleBus vectorRom (filled 0) 0x8000 0x04) (by decide)
    (by decide)).1 (by decide)⟩
  rw [(irq_sequence vectorMachine (by decide) (by decide)).2 (by decide)]
  decide

/-- C17 on `vectorMachine`, whose byte at `PC = $8000` is `$00`: the return
address `$8002` and the status byte `$34` are pushed, and then `S = $FA`,
`P = $24`, `PC = $9234` and the instruction has cost 7 cycles. -/
theorem brk_sequence_witness :
    (Cpu6502.step vectorMachine).memory 0x01FD = 0x80 ∧
    (Cpu6502.step vectorMachine).memory 0x01FC = 0x02 ∧
    (Cpu6502.step vectorMachine).memory 0x01FB = 0x34 ∧
    (Cpu6502.step vectorMachine).cpu.registers.S = 0xFA ∧
    (Cpu6502.step vectorMachine).cpu.registers.P = 0x24 ∧
    (Cpu6502.step vectorMachine).cpu.registers.PC = 0x9234 ∧
    (Cpu6502.step vectorMachine).cpu.cycles = 7 := by
  rw [brk_sequence vectorMachine (by decide) (by decide) (by decide)]
  decide

set_option maxRecDepth 1000000 in
/-- C18 at `A = $50`, `M = $50`, carry set: `A' = $A1`, no carry out, and the
overflow flag is set (80 + 80 + 1 = 161 is more than 127). -/
theorem adc_result_witness :
    (Cpu6502.ADC adcMachine).2.cpu.registers.A = 0xA1 ∧
    Cpu6502.getStatus (Cpu6502.ADC adcMachine).2 NES_CARRY = false ∧
    Cpu6502.getStatus (Cpu6502.ADC adcMachine).2 NES_OVERFLOW = true :=
  have h := adc_result adcMachine 0x50 0x50 1 (by decide) (by decide) (by decide) (by decide)
    (by decide) (by decide)
  ⟨h.2.1.trans (by decide), h.2.2.1.trans (by decide), h.2.2.2.1.trans (by decide)⟩

/-- C19 on the machine `mmc1Machine`: `$42` written to `$6000` is in the
mapper's static RAM, and the read of `$6000` returns `$00`. -/
theorem cartridge_ram_reads_zero_witness :
    ((mmc1Machine.writeCpu 0x6000 0x42).readCpu 0x6000 false).1 = 0 :=
  (cartridge_ram_reads_zero mmc1Machine 0x6000 0x42 false (by decide) (by decide)
    (Or.inl ⟨_, rfl⟩)).1

/-! ## CPU frame lemmas: the master clock count and the pending cycles -/

theorem writeCpu_keeps_clock (b : NesBus) (a d : Nat) :
    (NesBus.writeCpu b a d).systemClockCount = b.systemClockCount := by
  unfold NesBus.writeCpu
  simp only []
  split_ifs <;> rfl

theorem writeCpu_keeps_cycles (b : NesBus) (a d : Nat) :
    (NesBus.writeCpu b a d).cpu.cycles = b.cpu.cycles := by
  rw [NesBus.writeCpu_cpu]

theorem readCpu_keeps_clock (b : NesBus) (a : Nat) (ro : Bool) :
    (NesBus.readCpu b a ro).2.systemClockCount = b.systemClockCount := by
  unfold NesBus.readCpu
  simp only []
  split_ifs <;> rfl

theorem readCpu_keeps_cycles (b : NesBus) (a : Nat) (ro : Bool) :
    (NesBus.readCpu b a ro).2.cpu.cycles = b.cpu.cycles := by
  rw [NesBus.readCpu_cpu]

theorem read_keeps_clock (b : NesBus) (a : Nat) :
    (Cpu6502.read b a).2.systemClockCount = b.systemClockCount := by
  unfold Cpu6502.read
  simp only [readCpu_keeps_clock]

theorem read_keeps_cycles (b : NesBus) (a : Nat) :
    (Cpu6502.read b a).2.cpu.cycles = b.cpu.cycles := by
  unfold Cpu6502.read
  simp only [readCpu_keeps_cycles]

theorem write_keeps_clock (b : NesBus) (a d : Nat) :
    (Cpu6502.write b a d).systemClockCount = b.systemClockCount := by
  unfold Cpu6502.write
  simp only [writeCpu_keeps_clock]

theorem write_keeps_cycles (b : NesBus) (a d : Nat) :
    (Cpu6502.write b a d).cpu.cycles = b.cpu.cycles := by
  unfold Cpu6502.write
  simp only [writeCpu_keeps_cycles]

theorem setRegs_keeps_clock (b : NesBus) (r : Registers) :
    (NesBus.setRegs b r).systemClockCount = b.systemClockCount := rfl

theorem setRegs_keeps_cycles (b : NesBus) (r : Registers) :
    (NesBus.setRegs b r).cpu.cycles = b.cpu.cycles := rfl

theorem setStatus_keeps_clock (b : NesBus) (s : Nat) (v : Bool) :
    (Cpu6502.setStatus b s v).systemClockCount = b.systemClockCount := rfl

theorem setStatus_keeps_cycles (b : NesBus) (s : Nat) (v : Bool) :
    (Cpu6502.setStatus b s v).cpu.cycles = b.cpu.cycles := rfl

theorem setPC_keeps_clock (b : NesBus) (x : Nat) :
    (NesBus.setPC b x).systemClockCount = b.systemClockCount := rfl

theorem setPC_keeps_cycles (b : NesBus) (x : Nat) :
    (NesBus.setPC b x).cpu.cycles = b.cpu.cycles := rfl

theorem setS_keeps_clock (b : NesBus) (x : Nat) :
    (NesBus.setS b x).systemClockCount = b.systemClockCount := rfl

theorem setS_keeps_cycles (b : NesBus) (x : Nat) :
    (NesBus.setS b x).cpu.cycles = b.cpu.cycles := rfl

theorem setA_keeps_clock (b : NesBus) (x : Nat) :
    (NesBus.setA b x).systemClockCount = b.systemClockCount := rfl

theorem setA_keeps_cycles (b : NesBus) (x : Nat) :
    (NesBus.setA b x).cpu.cycles = b.cpu.cycles := rfl

theorem setX_keeps_clock (b : NesBus) (x : Nat) :
    (NesBus.setX b x).systemClockCount = b.systemClockCount := rfl

theorem setX_keeps_cycles (b : NesBus) (x : Nat) :
    (NesBus.setX b x).cpu.cycles = b.cpu.cycles := rfl

theorem setY_keeps_clock (b : NesBus) (x : Nat) :
    (NesBus.setY b x).systemClockCount = b.systemClockCount := rfl

theorem setY_keeps_cycles (b : NesBus) (x : Nat) :
    (NesBus.setY b x).cpu.cycles = b.cpu.cycles := rfl

theorem setP_keeps_clock (b : NesBus) (x : Nat) :
    (NesBus.setP b x).systemClockCount = b.systemClockCount := rfl

theorem setP_keeps_cycles (b : NesBus) (x : Nat) :
    (NesBus.setP b x).cpu.cycles = b.cpu.cycles := rfl

theorem setTemp_keeps_clock (b : NesBus) (x : Nat) :
    (NesBus.setTemp b x).systemClockCount = b.systemClockCount := rfl

theorem setTemp_keeps_cycles (b : NesBus) (x : Nat) :
    (NesBus.setTemp b x).cpu.cycles = b.cpu.cycles := rfl

theorem setAbs_keeps_clock (b : NesBus) (x : Nat) :
    (NesBus.setAbs b x).systemClockCount = b.systemClockCount := rfl

theorem setAbs_keeps_cycles (b : NesBus) (x : Nat) :
    (NesBus.setAbs b x).cpu.cycles = b.cpu.cycles := rfl

theorem setCycles_keeps_clock (b : NesBus) (x : Nat) :
    (NesBus.setCycles b x).systemClockCount = b.systemClockCount := rfl

theorem readPC_keeps_clock (b : NesBus) :
    (Cpu6502.readPC b).2.systemClockCount = b.systemClockCount := by
  unfold Cpu6502.readPC
  simp only [read_keeps_clock, setPC_keeps_clock]

theorem readPC_keeps_cycles (b : NesBus) :
    (Cpu6502.readPC b).2.cpu.cycles = b.cpu.cycles := by
  unfold Cpu6502.readPC
  simp only [read_keeps_cycles, setPC_keeps_cycles]

theorem push_keeps_clock (b : NesBus) (d : Nat) :
    (Cpu6502.push b d).systemClockCount = b.systemClockCount := by
  unfold Cpu6502.push
  simp only [write_keeps_clock, setS_keeps_clock]

theorem push_keeps_cycles (b : NesBus) (d : Nat) :
    (Cpu6502.push b d).cpu.cycles = b.cpu.cycles := by
  unfold Cpu6502.push
  simp only [write_keeps_cycles, setS_keeps_cycles]

theorem pull_keeps_clock (b : NesBus) :
    (Cpu6502.pull b).2.systemClockCount = b.systemClockCount := by
  unfold Cpu6502.pull
  simp only [read_keeps_clock, setS_keeps_clock]

theorem pull_keeps_cycles (b : NesBus) :
    (Cpu6502.pull b).2.cpu.cycles = b.cpu.cycles := by
  unfold Cpu6502.pull
  simp only [read_keeps_cycles, setS_keeps_cycles]

theorem fetch_keeps_clock (b : NesBus) :
    (Cpu6502.fetch b).systemClockCount = b.systemClockCount := by
  unfold Cpu6502.fetch
  simp only []
  split_ifs <;> simp only [read_keeps_clock]

theorem fetch_keeps_cycles (b : NesBus) :
    (Cpu6502.fetch b).cpu.cycles = b.cpu.cycles := by
  unfold Cpu6502.fetch
  simp only []
  split_ifs <;> simp only [read_keeps_cycles]

theorem setZN_keeps_clock (b : NesBus) (x : Nat) :
    (Cpu6502.setZN b x).systemClockCount = b.systemClockCount := by
  unfold Cpu6502.setZN
  simp only [setStatus_keeps_clock]

theorem setZN_keeps_cycles (b : NesBus) (x : Nat) :
    (Cpu6502.setZN b x).cpu.cycles = b.cpu.cycles := by
  unfold Cpu6502.setZN
  simp only [setStatus_keeps_cycles]

theorem setZNTemp_keeps_clock (b : NesBus) :
    (Cpu6502.setZNTemp b).systemClockCount = b.systemClockCount := by
  unfold Cpu6502.setZNTemp
  simp only [setStatus_keeps_clock]

theorem setZNTemp_keeps_cycles (b : NesBus) :
    (Cpu6502.setZNTemp b).cpu.cycles = b.cpu.cycles := by
  unfold Cpu6502.setZNTemp
  simp only [setStatus_keeps_cycles]

theorem CMP_Generic_keeps_clock (b : NesBus) (reg : Nat) :
    (Cpu6502.CMP_Generic b reg).systemClockCount = b.systemClockCount := by
  unfold Cpu6502.CMP_Generic
  simp only [setStatus_keeps_clock, setTemp_keeps_clock, fetch_keeps_clock, setZNTemp_keeps_clock]

theorem CMP_Generic_keeps_cycles (b : NesBus) (reg : Nat) :
    (Cpu6502.CMP_Generic b reg).cpu.cycles = b.cpu.cycles := by
  unfold Cpu6502.CMP_Generic
  simp only [setStatus_keeps_cycles, setTemp_keeps_cycles, fetch_keeps_cycles, setZNTemp_keeps_cycles]

theorem setRotateRegisters_keeps_clock (b : NesBus) :
    (Cpu6502.setRotateRegisters b).systemClockCount = b.systemClockCount := by
  unfold Cpu6502.setRotateRegisters
  simp only []
  split_ifs <;> simp only [write_keeps_clock, setA_keeps_clock, setZNTemp_keeps_clock]

theorem setRotateRegisters_keeps_cycles (b : NesBus) :
    (Cpu6502.setRotateRegisters b).cpu.cycles = b.cpu.cycles := by
  unfold Cpu6502.setRotateRegisters
  simp only []
  split_ifs <;> simp only [write_keeps_cycles, setA_keeps_cycles, setZNTemp_keeps_cycles]

theorem storeShift_keeps_clock (b : NesBus) :
    (Cpu6502.storeShift b).systemClockCount = b.systemClockCount := by
  unfold Cpu6502.storeShift
  split_ifs <;> first | rfl | simp only [write_keeps_clock, setA_keeps_clock]

theorem storeShift_keeps_cycles (b : NesBus) :
    (Cpu6502.storeShift b).cpu.cycles = b.cpu.cycles := by
  unfold Cpu6502.storeShift
  split_ifs <;> first | rfl | simp only [write_keeps_cycles, setA_keeps_cycles]

theorem branch_keeps_clock (b : NesBus) :
    (Cpu6502.branch b).systemClockCount = b.systemClockCount := by
  unfold Cpu6502.branch
  simp only []
  split_ifs <;> simp only [setPC_keeps_clock, setAbs_keeps_clock, setCycles_keeps_clock]

theorem LD_Generic_keeps_clock (b : NesBus) :
    (Cpu6502.LD_Generic b).2.systemClockCount = b.systemClockCount := by
  unfold Cpu6502.LD_Generic
  simp only [fetch_keeps_clock, setZN_keeps_clock]

theorem LD_Generic_keeps_cycles (b : NesBus) :
    (Cpu6502.LD_Generic b).2.cpu.cycles = b.cpu.cycles := by
  unfold Cpu6502.LD_Generic
  simp only [fetch_keeps_cycles, setZN_keeps_cycles]

theorem ADC_keeps_clock (b : NesBus) :
    (Cpu6502.ADC b).2.systemClockCount = b.systemClockCount := by
  unfold Cpu6502.ADC
  simp only [setStatus_keeps_clock, setA_keeps_clock, setTemp_keeps_clock, fetch_keeps_clock]

theorem ADC_keeps_cycles (b : NesBus) :
    (Cpu6502.ADC b).2.cpu.cycles = b.cpu.cycles := by
  unfold Cpu6502.ADC
  simp only [setStatus_keeps_cycles, setA_keeps_cycles, setTemp_keeps_cycles, fetch_keeps_cycles]

theorem SBC_keeps_clock (b : NesBus) :
    (Cpu6502.SBC b).2.systemClockCount = b.systemClockCount := by
  unfold Cpu6502.SBC
  simp only [setStatus_keeps_clock, setA_keeps_clock, setTemp_keeps_clock, fetch_keeps_clock]

theorem SBC_keeps_cycles (b : NesBus) :
    (Cpu6502.SBC b).2.cpu.cycles = b.cpu.cycles := by
  unfold Cpu6502.SBC
  simp only [setStatus_keeps_cycles, setA_keeps_cycles, setTemp_keeps_cycles, fetch_keeps_cycles]

theorem LSR_keeps_clock (b : NesBus) :
    (Cpu6502.LSR b).2.systemClockCount = b.systemClockCount := by
  unfold Cpu6502.LSR
  simp only [setStatus_keeps_clock, setTemp_keeps_clock, fetch_keeps_clock, storeShift_keeps_clock]

theorem LSR_keeps_cycles (b : NesBus) :
    (Cpu6502.LSR b).2.cpu.cycles = b.cpu.cycles := by
  unfold Cpu6502.LSR
  simp only [setStatus_keeps_cycles, setTemp_keeps_cycles, fetch_keeps_cycles, storeShift_keeps_cycles]

theorem ASL_keeps_clock (b : NesBus) :
    (Cpu6502.ASL b).2.systemClockCount = b.systemClockCount := by
  unfold Cpu6502.ASL
  simp only [setStatus_keeps_clock, setTemp_keeps_clock, fetch_keeps_clock, storeShift_keeps_clock]

theorem ASL_keeps_cycles (b : NesBus) :
    (Cpu6502.ASL b).2.cpu.cycles = b.cpu.cycles := by
  unfold Cpu6502.ASL
  simp only [setStatus_keeps_cycles, setTemp_keeps_cycles, fetch_keeps_cycles, storeShift_keeps_cycles]

theorem ROL_keeps_clock (b : NesBus) :
    (Cpu6502.ROL b).2.systemClockCount = b.systemClockCount := by
  unfold Cpu6502.ROL
  simp only [setStatus_keeps_clock, setTemp_keeps_clock, fetch_keeps_clock, setRotateRegisters_keeps_clock]

theorem ROL_keeps_cycles (b : NesBus) :
    (Cpu6502.ROL b).2.cpu.cycles = b.cpu.cycles := by
  unfold Cpu6502.ROL
  simp only [setStatus_keeps_cycles, setTemp_keeps_cycles, fetch_keeps_cycles, setRotateRegisters_keeps_cycles]

theorem ROR_keeps_clock (b : NesBus) :
    (Cpu6502.ROR b).2.systemClockCount = b.systemClockCount := by
  unfold Cpu6502.ROR
  simp only [setStatus_keeps_clock, setTemp_keeps_clock, fetch_keeps_clock, setRotateRegisters_keeps_clock]

theorem ROR_keeps_cycles (b : NesBus) :
    (Cpu6502.ROR b).2.cpu.cycles = b.cpu.cycles := by
  unfold Cpu6502.ROR
  simp only [setStatus_keeps_cycles, setTemp_keeps_cycles, fetch_keeps_cycles, setRotateRegisters_keeps_cycles]

theorem RTI_keeps_clock (b : NesBus) :
    (Cpu6502.RTI b).2.systemClockCount = b.systemClockCount := by
  unfold Cpu6502.RTI
  simp only [setPC_keeps_clock, setP_keeps_clock, pull_keeps_clock]

theorem RTI_keeps_cycles (b : NesBus) :
    (Cpu6502.RTI b).2.cpu.cycles = b.cpu.cycles := by
  unfold Cpu6502.RTI
  simp only [setPC_keeps_cycles, setP_keeps_cycles, pull_keeps_cycles]

theorem incDec_keeps_clock (b : NesBus) (d : Int) :
    (Cpu6502.incDec b d).2.systemClockCount = b.systemClockCount := by
  unfold Cpu6502.incDec
  simp only [write_keeps_clock, setTemp_keeps_clock, fetch_keeps_clock, setZNTemp_keeps_clock]

theorem incDec_keeps_cycles (b : NesBus) (d : Int) :
    (Cpu6502.incDec b d).2.cpu.cycles = b.cpu.cycles := by
  unfold Cpu6502.incDec
  simp only [write_keeps_cycles, setTemp_keeps_cycles, fetch_keeps_cycles, setZNTemp_keeps_cycles]

theorem BIT_keeps_clock (b : NesBus) :
    (Cpu6502.BIT b).2.systemClockCount = b.systemClockCount := by
  unfold Cpu6502.BIT
  simp only [setStatus_keeps_clock, setTemp_keeps_clock, fetch_keeps_clock]

theorem BIT_keeps_cycles (b : NesBus) :
    (Cpu6502.BIT b).2.cpu.cycles = b.cpu.cycles := by
  unfold Cpu6502.BIT
  simp only [setStatus_keeps_cycles, setTemp_keeps_cycles, fetch_keeps_cycles]

theorem BRK_keeps_clock (b : NesBus) :
    (Cpu6502.BRK b).2.systemClockCount = b.systemClockCount := by
  unfold Cpu6502.BRK
  simp only [read_keeps_clock, setStatus_keeps_clock, setPC_keeps_clock, push_keeps_clock]

theorem BRK_keeps_cycles (b : NesBus) :
    (Cpu6502.BRK b).2.cpu.cycles = b.cpu.cycles := by
  unfold Cpu6502.BRK
  simp only [read_keeps_cycles, setStatus_keeps_cycles, setPC_keeps_cycles, push_keeps_cycles]

theorem JSR_keeps_clock (b : NesBus) :
    (Cpu6502.JSR b).2.systemClockCount = b.systemClockCount := by
  unfold Cpu6502.JSR
  simp only [setPC_keeps_clock, push_keeps_clock]

theorem JSR_keeps_cycles (b : NesBus) :
    (Cpu6502.JSR b).2.cpu.cycles = b.cpu.cycles := by
  unfold Cpu6502.JSR
  simp only [setPC_keeps_cycles, push_keeps_cycles]

theorem PHP_keeps_clock (b : NesBus) :
    (Cpu6502.PHP b).2.systemClockCount = b.systemClockCount := by
  unfold Cpu6502.PHP
  simp only [write_keeps_clock, setStatus_keeps_clock, setS_keeps_clock]

theorem PHP_keeps_cycles (b : NesBus) :
    (Cpu6502.PHP b).2.cpu.cycles = b.cpu.cycles := by
  unfold Cpu6502.PHP
  simp only [write_keeps_cycles, setStatus_keeps_cycles, setS_keeps_cycles]

theorem PLA_keeps_clock (b : NesBus) :
    (Cpu6502.PLA b).2.systemClockCount = b.systemClockCount := by
  unfold Cpu6502.PLA
  simp only [setA_keeps_clock, pull_keeps_clock, setZN_keeps_clock]

theorem PLA_keeps_cycles (b : NesBus) :
    (Cpu6502.PLA b).2.cpu.cycles = b.cpu.cycles := by
  unfold Cpu6502.PLA
  simp only [setA_keeps_cycles, pull_keeps_cycles, setZN_keeps_cycles]

theorem PLP_keeps_clock (b : NesBus) :
    (Cpu6502.PLP b).2.systemClockCount = b.systemClockCount := by
  unfold Cpu6502.PLP
  simp only [setStatus_keeps_clock, setP_keeps_clock, pull_keeps_clock]

theorem PLP_keeps_cycles (b : NesBus) :
    (Cpu6502.PLP b).2.cpu.cycles = b.cpu.cycles := by
  unfold Cpu6502.PLP
  simp only [setStatus_keeps_cycles, setP_keeps_cycles, pull_keeps_cycles]

theorem RTS_keeps_clock (b : NesBus) :
    (Cpu6502.RTS b).2.systemClockCount = b.systemClockCount := by
  unfold Cpu6502.RTS
  simp only [setPC_keeps_clock, pull_keeps_clock]

theorem RTS_keeps_cycles (b : NesBus) :
    (Cpu6502.RTS b).2.cpu.cycles = b.cpu.cycles := by
  unfold Cpu6502.RTS
  simp only [setPC_keeps_cycles, pull_keeps_cycles]

theorem NOP_keeps_clock (b : NesBus) :
    (Cpu6502.NOP b).2.systemClockCount = b.systemClockCount := by
  unfold Cpu6502.NOP
  split_ifs <;> rfl

theorem NOP_keeps_cycles (b : NesBus) :
    (Cpu6502.NOP b).2.cpu.cycles = b.cpu.cycles := by
  unfold Cpu6502.NOP
  split_ifs <;> rfl

theorem logic_keeps_clock (b : NesBus) (f : Nat → Nat → Nat) :
    (Cpu6502.logic b f).2.systemClockCount = b.systemClockCount := by
  unfold Cpu6502.logic
  simp only [setA_keeps_clock, fetch_keeps_clock, setZN_keeps_clock]

theorem logic_keeps_cycles (b : NesBus) (f : Nat → Nat → Nat) :
    (Cpu6502.logic b f).2.cpu.cycles = b.cpu.cycles := by
  unfold Cpu6502.logic
  simp only [setA_keeps_cycles, fetch_keeps_cycles, setZN_keeps_cycles]

theorem branchIf_keeps_clock (b : NesBus) (flag : Nat) (want : Bool) :
    (Cpu6502.branchIf b flag want).2.systemClockCount = b.systemClockCount := by
  unfold Cpu6502.branchIf
  split_ifs <;> first | rfl | simp only [branch_keeps_clock]

theorem readWord_keeps_clock (b : NesBus) :
    (Cpu6502.readWord b).2.2.systemClockCount = b.systemClockCount := by
  unfold Cpu6502.readWord
  simp only [readPC_keeps_clock]

theorem readWord_keeps_cycles (b : NesBus) :
    (Cpu6502.readWord b).2.2.cpu.cycles = b.cpu.cycles := by
  unfold Cpu6502.readWord
  simp only [readPC_keeps_cycles]

theorem absIndexed_keeps_clock (b : NesBus) (r : Nat) :
    (Cpu6502.absIndexed b r).2.systemClockCount = b.systemClockCount := by
  unfold Cpu6502.absIndexed
  simp only []
  split_ifs <;> simp only [setAbs_keeps_clock, readWord_keeps_clock]

theorem absIndexed_keeps_cycles (b : NesBus) (r : Nat) :
    (Cpu6502.absIndexed b r).2.cpu.cycles = b.cpu.cycles := by
  unfold Cpu6502.absIndexed
  simp only []
  split_ifs <;> simp only [setAbs_keeps_cycles, readWord_keeps_cycles]

theorem ind_keeps_clock (b : NesBus) :
    (Cpu6502.ind b).2.systemClockCount = b.systemClockCount := by
  unfold Cpu6502.ind
  simp only []
  split_ifs <;> simp only [read_keeps_clock, setAbs_keeps_clock, readWord_keeps_clock]

theorem ind_keeps_cycles (b : NesBus) :
    (Cpu6502.ind b).2.cpu.cycles = b.cpu.cycles := by
  unfold Cpu6502.ind
  simp only []
  split_ifs <;> simp only [read_keeps_cycles, setAbs_keeps_cycles, readWord_keeps_cycles]

theorem Xind_keeps_clock (b : NesBus) :
    (Cpu6502.Xind b).2.systemClockCount = b.systemClockCount := by
  unfold Cpu6502.Xind
  simp only [read_keeps_clock, setAbs_keeps_clock, readPC_keeps_clock]

theorem Xind_keeps_cycles (b : NesBus) :
    (Cpu6502.Xind b).2.cpu.cycles = b.cpu.cycles := by
  unfold Cpu6502.Xind
  simp only [read_keeps_cycles, setAbs_keeps_cycles, readPC_keeps_cycles]

theorem indY_keeps_clock (b : NesBus) :
    (Cpu6502.indY b).2.systemClockCount = b.systemClockCount := by
  unfold Cpu6502.indY
  simp only []
  split_ifs <;> simp only [read_keeps_clock, setAbs_keeps_clock, readPC_keeps_clock]

theorem indY_keeps_cycles (b : NesBus) :
    (Cpu6502.indY b).2.cpu.cycles = b.cpu.cycles := by
  unfold Cpu6502.indY
  simp only []
  split_ifs <;> simp only [read_keeps_cycles, setAbs_keeps_cycles, readPC_keeps_cycles]

theorem interrupt_keeps_clock (b : NesBus) (v : Nat) :
    (Cpu6502.interrupt b v).systemClockCount = b.systemClockCount := by
  unfold Cpu6502.interrupt
  simp only [read_keeps_clock, setStatus_keeps_clock, setPC_keeps_clock, setAbs_keeps_clock, push_keeps_clock]

theorem interruptRequest_keeps_clock (b : NesBus) :
    (Cpu6502.interruptRequest b).systemClockCount = b.systemClockCount := by
  unfold Cpu6502.interruptRequest
  split_ifs <;> first | rfl | simp only [setCycles_keeps_clock, interrupt_keeps_clock]

theorem nonMaskableInterrupt_keeps_clock (b : NesBus) :
    (Cpu6502.nonMaskableInterrupt b).systemClockCount = b.systemClockCount := by
  unfold Cpu6502.nonMaskableInterrupt
  simp only [setCycles_keeps_clock, interrupt_keeps_clock]

theorem instrCallbacks_keeps_clock (op : Mnemonic) (b : NesBus) :
    (instrCallbacks op b).2.systemClockCount = b.systemClockCount := by
  cases op <;>
    simp only [instrCallbacks, ADC_keeps_clock, SBC_keeps_clock, LD_Generic_keeps_clock,
      setA_keeps_clock, setX_keeps_clock, setY_keeps_clock, setS_keeps_clock,
      write_keeps_clock, setStatus_keeps_clock, LSR_keeps_clock, ASL_keeps_clock,
      ROL_keeps_clock, ROR_keeps_clock, RTI_keeps_clock, CMP_Generic_keeps_clock,
      incDec_keeps_clock, setZN_keeps_clock, branchIf_keeps_clock, BIT_keeps_clock,
      BRK_keeps_clock, setPC_keeps_clock, JSR_keeps_clock, logic_keeps_clock,
      PHP_keeps_clock, push_keeps_clock, PLA_keeps_clock, PLP_keeps_clock, RTS_keeps_clock,
      NOP_keeps_clock]

theorem instrCallbacks_keeps_cycles (op : Mnemonic) (b : NesBus) (h : op.isBranch = false) :
    (instrCallbacks op b).2.cpu.cycles = b.cpu.cycles := by
  cases op <;>
    first
    | exact absurd h (by decide)
    | simp only [instrCallbacks, ADC_keeps_cycles, SBC_keeps_cycles, LD_Generic_keeps_cycles,
        setA_keeps_cycles, setX_keeps_cycles, setY_keeps_cycles, setS_keeps_cycles,
        write_keeps_cycles, setStatus_keeps_cycles, LSR_keeps_cycles, ASL_keeps_cycles,
        ROL_keeps_cycles, ROR_keeps_cycles, RTI_keeps_cycles, CMP_Generic_keeps_cycles,
        incDec_keeps_cycles, setZN_keeps_cycles, BIT_keeps_cycles,
        BRK_keeps_cycles, setPC_keeps_cycles, JSR_keeps_cycles, logic_keeps_cycles,
        PHP_keeps_cycles, push_keeps_cycles, PLA_keeps_cycles, PLP_keeps_cycles,
        RTS_keeps_cycles, NOP_keeps_cycles]

theorem addrModeCallbacks_keeps_clock (mode : AddrMode) (b : NesBus) :
    (addrModeCallbacks mode b).2.systemClockCount = b.systemClockCount := by
  cases mode <;>
    simp only [addrModeCallbacks, readWord_keeps_clock, setAbs_keeps_clock,
      absIndexed_keeps_clock, setPC_keeps_clock, readPC_keeps_clock, ind_keeps_clock,
      Xind_keeps_clock, indY_keeps_clock]

theorem addrModeCallbacks_keeps_cycles (mode : AddrMode) (b : NesBus) :
    (addrModeCallbacks mode b).2.cpu.cycles = b.cpu.cycles := by
  cases mode <;>
    simp only [addrModeCallbacks, readWord_keeps_cycles, setAbs_keeps_cycles,
      absIndexed_keeps_cycles, setPC_keeps_cycles, readPC_keeps_cycles, ind_keeps_cycles,
      Xind_keeps_cycles, indY_keeps_cycles]

theorem callInstr_keeps_clock (cb : Option Mnemonic) (b : NesBus) :
    (callInstr cb b).2.systemClockCount = b.systemClockCount := by
  cases cb with
  | none => rfl
  | some op => exact instrCallbacks_keeps_clock op b

theorem callAddrMode_keeps_clock (cb : Option AddrMode) (b : NesBus) :
    (callAddrMode cb b).2.systemClockCount = b.systemClockCount := by
  cases cb with
  | none => rfl
  | some mode => exact addrModeCallbacks_keeps_clock mode b

theorem callAddrMode_keeps_cycles (cb : Option AddrMode) (b : NesBus) :
    (callAddrMode cb b).2.cpu.cycles = b.cpu.cycles := by
  cases cb with
  | none => rfl
  | some mode => exact addrModeCallbacks_keeps_cycles mode b

theorem fetchOpcode_keeps_clock (b : NesBus) :
    (Cpu6502.fetchOpcode b).systemClockCount = b.systemClockCount := by
  unfold Cpu6502.fetchOpcode
  simp only [setStatus_keeps_clock, readPC_keeps_clock]

theorem fetchOperand_keeps_clock (b : NesBus) :
    (Cpu6502.fetchOperand b).2.systemClockCount = b.systemClockCount := by
  unfold Cpu6502.fetchOperand
  simp only [callAddrMode_keeps_clock, setCycles_keeps_clock]

theorem execute_keeps_clock (b : NesBus) :
    (Cpu6502.execute b).systemClockCount = b.systemClockCount := by
  unfold Cpu6502.execute
  simp only [setCycles_keeps_clock, callInstr_keeps_clock, fetchOperand_keeps_clock]

theorem step_keeps_clock (b : NesBus) :
    (Cpu6502.step b).systemClockCount = b.systemClockCount := by
  unfold Cpu6502.step
  simp only [setStatus_keeps_clock]
  split_ifs <;> simp only [execute_keeps_clock, fetchOpcode_keeps_clock]

theorem Cpu6502.clock_keeps_clock (b : NesBus) :
    (Cpu6502.clock b).systemClockCount = b.systemClockCount := by
  unfold Cpu6502.clock
  simp only [setCycles_keeps_clock]
  split_ifs <;> first | rfl | exact step_keeps_clock b

theorem dmaStep_keeps_clock (b : NesBus) : b.dmaStep.systemClockCount = b.systemClockCount := by
  unfold NesBus.dmaStep
  simp only []
  split_ifs <;> first | rfl | exact readCpu_keeps_clock _ _ _

theorem cpuSlot_keeps_clock (b : NesBus) : b.cpuSlot.systemClockCount = b.systemClockCount := by
  unfold NesBus.cpuSlot
  split_ifs
  · exact dmaStep_keeps_clock b
  · exact Cpu6502.clock_keeps_clock b

theorem interrupts_keeps_clock (b : NesBus) :
    b.interrupts.systemClockCount = b.systemClockCount := by
  unfold NesBus.interrupts
  simp only []
  split_ifs <;>
    simp only [interruptRequest_keeps_clock, nonMaskableInterrupt_keeps_clock]

/-- Every call of `NesBus::clock` adds one to the master clock count (mod `2^32`). -/
theorem NesBus.clock_systemClockCount (b : NesBus) :
    b.clock.systemClockCount = u32 (b.systemClockCount + 1) := by
  unfold NesBus.clock
  simp only [interrupts_keeps_clock]
  split_ifs <;> first | rfl | (simp only [cpuSlot_keeps_clock]; rfl)

/-! ## Nametable mirroring -/

theorem flags6_bit0 (f : Nat) : bitfield (u8 f) 0 1 = f % 2 := by
  unfold bitfield u8
  simp only [Nat.shiftRight_zero, pow_one]
  omega

/-- The mirror mode of a cartridge whose mapper reports hardware mirroring. -/
theorem NesRom.getMirrorMode_hardware (r : NesRom)
    (hk : r.mapper.kind = .m000 ∨ ∃ s, r.mapper.kind = .m002 s) :
    r.getMirrorMode = if r.header.flags6 % 2 = 1 then MIRROR_VERTICAL else MIRROR_HORIZONTAL := by
  have hm : r.mapper.getMirror = MIRROR_HARDWARE := by
    unfold Mapper.getMirror
    rcases hk with h | ⟨s, h⟩ <;> rw [h]
  unfold NesRom.getMirrorMode Header.getMirrorMode
  simp only [hm, if_true, flags6_bit0]
  split_ifs <;> simp_all [ofBool, MIRROR_VERTICAL, MIRROR_HORIZONTAL]

theorem nametable_bits (a : Nat) :
    (a ^^^ 0x0800) &&& 0x0FFF = ((a &&& 0x0FFF) ^^^ 0x0800) ∧
    (a ^^^ 0x0400) &&& 0x0FFF = ((a &&& 0x0FFF) ^^^ 0x0400) := by
  constructor <;> rw [Nat.and_xor_distrib_right] <;> rfl

theorem bit_of_xor (x y i : Nat) :
    (x ^^^ y) / 2 ^ i % 2 = (x / 2 ^ i % 2 + y / 2 ^ i % 2) % 2 := by
  have h := Nat.testBit_xor x y i
  simp only [Nat.testBit_to_div_mod] at h
  have hx : x / 2 ^ i % 2 < 2 := Nat.mod_lt _ (by norm_num)
  have hy : y / 2 ^ i % 2 < 2 := Nat.mod_lt _ (by norm_num)
  have hz : (x ^^^ y) / 2 ^ i % 2 < 2 := Nat.mod_lt _ (by norm_num)
  by_cases a : x / 2 ^ i % 2 = 1 <;> by_cases c : y / 2 ^ i % 2 = 1 <;>
    by_cases d : (x ^^^ y) / 2 ^ i % 2 = 1 <;> simp [a, c, d] at h ⊢ <;> omega

theorem nametable_cells (x : Nat) :
    ((x ^^^ 0x0800) / 0x0400 % 2 = x / 0x0400 % 2 ∧ (x ^^^ 0x0800) &&& 0x03FF = x &&& 0x03FF ∧
      (x ^^^ 0x0400) / 0x0400 % 2 ≠ x / 0x0400 % 2) ∧
    ((x ^^^ 0x0400) / 0x0800 % 2 = x / 0x0800 % 2 ∧ (x ^^^ 0x0400) &&& 0x03FF = x &&& 0x03FF ∧
      (x ^^^ 0x0800) / 0x0800 % 2 ≠ x / 0x0800 % 2) := by
  have a1 := bit_of_xor x 0x0800 10
  have a2 := bit_of_xor x 0x0400 10
  have a3 := bit_of_xor x 0x0400 11
  have a4 := bit_of_xor x 0x0800 11
  norm_num at a1 a2 a3 a4
  have e1 : (x ^^^ 0x0800) &&& 0x03FF = x &&& 0x03FF := by
    rw [Nat.and_xor_distrib_right, show 0x0800 &&& 0x03FF = 0 from rfl, Nat.xor_zero]
  have e2 : (x ^^^ 0x0400) &&& 0x03FF = x &&& 0x03FF := by
    rw [Nat.and_xor_distrib_right, show 0x0400 &&& 0x03FF = 0 from rfl, Nat.xor_zero]
  refine ⟨⟨a1, e1, ?_⟩, ⟨a3, e2, ?_⟩⟩ <;> omega

theorem xor_keeps_page (a y : Nat) (hy : y < 0x1000) (h1 : 0x2000 ≤ a) (h2 : a ≤ 0x2FFF) :
    (a ^^^ y) &&& 0x3FFF = a ^^^ y ∧ 0x2000 ≤ (a ^^^ y) ∧ (a ^^^ y) ≤ 0x2FFF := by
  have b12 := bit_of_xor a y 12
  have b13 := bit_of_xor a y 13
  have hlt : a ^^^ y < 2 ^ 14 := Nat.xor_lt_two_pow (by omega) (by omega)
  have hm : (a ^^^ y) &&& 0x3FFF = (a ^^^ y) % 0x4000 := Nat.and_pow_two_sub_one_eq_mod _ 14
  rw [hm]
  norm_num at b12 b13 hlt
  omega

/-- A read of a nametable address returns the cell `mirroredNameTableEntry` selects. -/
theorem Ppu2C02.ppuRead_nametable (p : Ppu2C02) (rom : NesRom) (a : Nat) (h1 : 0x2000 ≤ a)
    (h2 : a ≤ 0x2FFF) :
    p.ppuRead rom a =
      u8 (p.nameTable (mirroredNameTableEntry rom (a &&& 0x0FFF)).1
        (mirroredNameTableEntry rom (a &&& 0x0FFF)).2) := by
  have hm : a &&& 0x3FFF = a := by
    have : a &&& 0x3FFF = a % 0x4000 := Nat.and_pow_two_sub_one_eq_mod a 14
    omega
  have e1 : ¬ a ≤ 0x1FFF := by omega
  have e2 : a ≤ 0x3EFF := by omega
  simp only [Ppu2C02.ppuRead, hm, NesRom.ppuRead_high rom a 0 (by omega)]
  simp [e1, e2]

/-- A write to a nametable address stores into the cell `mirroredNameTableEntry` selects. -/
theorem Ppu2C02.ppuWrite_nametable (p : Ppu2C02) (rom : NesRom) (a d : Nat) (h1 : 0x2000 ≤ a)
    (h2 : a ≤ 0x2FFF) :
    p.ppuWrite rom a d =
      ({ p with nameTable := fun b =>
          if b = (mirroredNameTableEntry rom (a &&& 0x0FFF)).1 then
            store (p.nameTable b) (mirroredNameTableEntry rom (a &&& 0x0FFF)).2 d
          else p.nameTable b }, rom) := by
  have hm : a &&& 0x3FFF = a := by
    have : a &&& 0x3FFF = a % 0x4000 := Nat.and_pow_two_sub_one_eq_mod a 14
    omega
  have e1 : ¬ a ≤ 0x1FFF := by omega
  have e2 : a ≤ 0x3EFF := by omega
  simp only [Ppu2C02.ppuWrite, hm, NesRom.ppuWrite_high rom a d (by omega)]
  simp [e1, e2]

/-- C21: for a cartridge whose mapper reports hardware mirroring (mappers 0
and 2) the mirror mode is vertical when bit 0 of header `flags6` is 1 and
horizontal when it is 0.  For a PPU address `a` in `$2000-$2FFF`: under
vertical mirroring `a` and `a xor $0800` select the same nametable cell (a
byte written to `a` is read at `a xor $0800`) while `a xor $0400` selects
another cell (a write to `a` leaves the byte read there as it was); under
horizontal mirroring the same holds with `$0400` and `$0800` exchanged. -/
theorem nametable_mirroring (p : Ppu2C02) (r : NesRom) (a d : Nat)
    (hk : r.mapper.kind = .m000 ∨ ∃ s, r.mapper.kind = .m002 s)
    (h1 : 0x2000 ≤ a) (h2 : a ≤ 0x2FFF) (hd : d < 256) :
    (r.getMirrorMode =
        if r.header.flags6 % 2 = 1 then MIRROR_VERTICAL else MIRROR_HORIZONTAL) ∧
    (r.header.flags6 % 2 = 1 →
      mirroredNameTableEntry r ((a ^^^ 0x0800) &&& 0x0FFF) =
          mirroredNameTableEntry r (a &&& 0x0FFF) ∧
        mirroredNameTableEntry r ((a ^^^ 0x0400) &&& 0x0FFF) ≠
          mirroredNameTableEntry r (a &&& 0x0FFF) ∧
        (p.ppuWrite r a d).1.ppuRead (p.ppuWrite r a d).2 (a ^^^ 0x0800) = d ∧
        (p.ppuWrite r a d).1.ppuRead (p.ppuWrite r a d).2 (a ^^^ 0x0400) =
          p.ppuRead r (a ^^^ 0x0400)) ∧
    (r.header.flags6 % 2 = 0 →
      mirroredNameTableEntry r ((a ^^^ 0x0400) &&& 0x0FFF) =
          mirroredNameTableEntry r (a &&& 0x0FFF) ∧
        mirroredNameTableEntry r ((a ^^^ 0x0800) &&& 0x0FFF) ≠
          mirroredNameTableEntry r (a &&& 0x0FFF) ∧
        (p.ppuWrite r a d).1.ppuRead (p.ppuWrite r a d).2 (a ^^^ 0x0400) = d ∧
        (p.ppuWrite r a d).1.ppuRead (p.ppuWrite r a d).2 (a ^^^ 0x0800) =
          p.ppuRead r (a ^^^ 0x0800)) := by
  have hmode := NesRom.getMirrorMode_hardware r hk
  obtain ⟨b8, b4⟩ := nametable_bits a
  obtain ⟨⟨v1, v2, v3⟩, ⟨g1, g2, g3⟩⟩ := nametable_cells (a &&& 0x0FFF)
  obtain ⟨-, p8, q8⟩ := xor_keeps_page a 0x0800 (by norm_num) h1 h2
  obtain ⟨-, p4, q4⟩ := xor_keeps_page a 0x0400 (by norm_num) h1 h2
  rw [Ppu2C02.ppuWrite_nametable p r a d h1 h2]
  simp only [Ppu2C02.ppuRead_nametable _ r _ p8 q8, Ppu2C02.ppuRead_nametable _ r _ p4 q4]
  rw [b8, b4]
  refine ⟨hmode, fun hv => ?_, fun hh => ?_⟩
  · have hV : r.getMirrorMode = MIRROR_VERTICAL := by rw [hmode, if_pos hv]
    simp only [mirroredNameTableEntry, hV, if_true, v1, v2]
    refine ⟨trivial, ?_, ?_, ?_⟩
    · intro h
      exact v3 (congrArg Prod.fst h)
    · simp [store, u8_of_lt hd]
    · simp [v3]
  · have hH : r.getMirrorMode = MIRROR_HORIZONTAL := by
      rw [hmode, if_neg (by omega)]
    have hne : MIRROR_HORIZONTAL ≠ MIRROR_VERTICAL := by decide
    simp only [mirroredNameTableEntry, hH, if_neg hne, if_true, g1, g2]
    refine ⟨trivial, ?_, ?_, ?_⟩
    · intro h
      exact g3 (congrArg Prod.fst h)
    · simp [store, u8_of_lt hd]
    · simp [g3]

/-- C21 on `verticalRom` (bit 0 of `flags6` set): `$42` written to `$2005` is
read at `$2805`. -/
theorem nametable_mirroring_witness :
    (examplePpu.ppuWrite verticalRom 0x2005 0x42).1.ppuRead
        (examplePpu.ppuWrite verticalRom 0x2005 0x42).2 (0x2005 ^^^ 0x0800) = 0x42 ∧
      verticalRom.getMirrorMode = MIRROR_VERTICAL :=
  have h := nametable_mirroring examplePpu verticalRom 0x2005 0x42 (Or.inl rfl) (by decide)
    (by decide) (by decide)
  ⟨(h.2.1 (by decide)).2.2.1, h.1.trans (by decide)⟩

/-! ## The PPUDATA read buffer -/

/-- C22, as the code behaves: a CPU read of PPUDATA returns the new content
of the data buffer, `ppuRead(v)`, when `v >= $3F00` as a 16 bit number, and
the previous content otherwise; the data buffer becomes `ppuRead(v)` and `v`
is increased by 32 if `CTRL.vramAddressInc` is set and by 1 otherwise (mod
65536).  So for `v >= $4000` with `(v & 0x3FFF) < $3F00`, a non-palette
address, the read is not buffered: it returns `ppuRead(v)`. -/
theorem ppudata_read (p : Ppu2C02) (rom : NesRom) :
    (p.cpuRead rom PPU_DATA false).1 =
        (if p.registers.v ≥ 0x3F00 then p.ppuRead rom p.registers.v else p.dataBuffer) ∧
      (p.cpuRead rom PPU_DATA false).2.dataBuffer = p.ppuRead rom p.registers.v ∧
      (p.cpuRead rom PPU_DATA false).2.registers.v =
        u16 (p.registers.v + (if p.registers.vramAddressInc ≠ 0 then 32 else 1)) ∧
      (0x4000 ≤ p.registers.v → p.registers.v &&& 0x3FFF < 0x3F00 →
        (p.cpuRead rom PPU_DATA false).1 = p.ppuRead rom p.registers.v) := by
  have h : (p.cpuRead rom PPU_DATA false).1 =
      (if p.registers.v ≥ 0x3F00 then p.ppuRead rom p.registers.v else p.dataBuffer) := by
    simp [Ppu2C02.cpuRead, PPU_DATA, PPU_STATUS, OAM_DATA]
  refine ⟨h, ?_, ?_, ?_⟩
  · simp [Ppu2C02.cpuRead, PPU_DATA, PPU_STATUS, OAM_DATA]
  · simp [Ppu2C02.cpuRead, PPU_DATA, PPU_STATUS, OAM_DATA, PpuRegisters.vramAddressInc]
  · intro h1 _
    rw [h, if_pos (by omega)]

set_option maxRecDepth 1000000 in
/-- C22 fails on `ppuPast3FFF`: `v = $4000` addresses the pattern table byte
`$0000`, the data buffer holds `$00`, and the read of PPUDATA returns the
CHR byte `$22` at once. -/
theorem ppudata_read_witness :
    ppuPast3FFF.registers.v = 0x4000 ∧ ppuPast3FFF.registers.v &&& 0x3FFF < 0x3F00 ∧
      ppuPast3FFF.dataBuffer = 0x00 ∧
      (ppuPast3FFF.cpuRead chrRom22 PPU_DATA false).1 = 0x22 :=
  ⟨by decide, by decide, by decide,
    ((ppudata_read ppuPast3FFF chrRom22).2.2.2 (by decide) (by decide)).trans (by decide)⟩

/-! ## Start of vertical blank -/

theorem keepsVblank_refl (p : Ppu2C02) : p.keepsVblank p := ⟨rfl, rfl, rfl, rfl, id⟩

theorem keepsVblank_trans {p q r : Ppu2C02} (h1 : p.keepsVblank q) (h2 : q.keepsVblank r) :
    p.keepsVblank r :=
  ⟨h2.1.trans h1.1, h2.2.1.trans h1.2.1, h2.2.2.1.trans h1.2.2.1, h2.2.2.2.1.trans h1.2.2.2.1,
    fun h => h1.2.2.2.2 (h2.2.2.2.2 h)⟩

theorem keepsVblank_ite (p : Ppu2C02) (c : Prop) [Decidable c] (f : Ppu2C02 → Ppu2C02)
    (h : ∀ q : Ppu2C02, q.keepsVblank (f q)) : p.keepsVblank (if c then f p else p) := by
  split_ifs
  · exact h p
  · exact keepsVblank_refl p

theorem keepsVblank_of_registers (p q : Ppu2C02) (h1 : q.scanline = p.scanline)
    (h2 : q.nmi = p.nmi) (h3 : q.nmiIgnore = p.nmiIgnore)
    (h4 : q.registers.CTRL = p.registers.CTRL) (h5 : q.registers.STATUS = p.registers.STATUS) :
    p.keepsVblank q :=
  ⟨h1, h2, h3, h4, fun h => by unfold PpuRegisters.vblank at h ⊢; rw [← h5]; exact h⟩

theorem setV_keepsVblank (p : Ppu2C02) (v : Nat) : p.keepsVblank (p.setV v) :=
  keepsVblank_of_registers _ _ rfl rfl rfl rfl rfl

theorem setBg_keepsVblank (p : Ppu2C02) (g : BackgroundData) : p.keepsVblank (p.setBg g) :=
  keepsVblank_of_registers _ _ rfl rfl rfl rfl rfl

theorem scrollX_keepsVblank (p : Ppu2C02) : p.keepsVblank p.scrollX := by
  unfold Ppu2C02.scrollX
  simp only []
  split_ifs <;> exact keepsVblank_refl p

theorem scrollY_keepsVblank (p : Ppu2C02) : p.keepsVblank p.scrollY := by
  unfold Ppu2C02.scrollY
  simp only []
  split_ifs <;> exact keepsVblank_refl p

theorem txAddressX_keepsVblank (p : Ppu2C02) : p.keepsVblank p.txAddressX := by
  unfold Ppu2C02.txAddressX
  simp only []
  split_ifs <;> exact keepsVblank_refl p

theorem txAddressY_keepsVblank (p : Ppu2C02) : p.keepsVblank p.txAddressY := by
  unfold Ppu2C02.txAddressY
  simp only []
  split_ifs <;> exact keepsVblank_refl p

theorem loadBackgroundShifters_keepsVblank (p : Ppu2C02) :
    p.keepsVblank p.loadBackgroundShifters :=
  keepsVblank_of_registers _ _ rfl rfl rfl rfl rfl

theorem updateShifters_keepsVblank (p : Ppu2C02) : p.keepsVblank p.updateShifters := by
  unfold Ppu2C02.updateShifters
  simp only []
  split_ifs <;> exact keepsVblank_of_registers _ _ rfl rfl rfl rfl rfl

theorem fetchStep_keepsVblank (p : Ppu2C02) (rom : NesRom) : p.keepsVblank (p.fetchStep rom) := by
  unfold Ppu2C02.fetchStep
  simp only []
  split_ifs <;> first | exact keepsVblank_refl p | exact scrollX_keepsVblank p

theorem status_bit7 (s x : Nat) :
    bitfield (setBitfield s 5 1 x) 7 1 = bitfield s 7 1 ∧
      bitfield (setBitfield s 6 1 x) 7 1 = bitfield s 7 1 ∧
      bitfield (setBitfield (setBitfield (setBitfield s 7 1 0) 5 1 0) 6 1 0) 7 1 = 0 ∧
      bitfield (setBitfield s 7 1 1) 7 1 = 1 := by
  unfold bitfield setBitfield
  simp only [Nat.shiftRight_eq_div_pow, Nat.shiftLeft_eq]
  norm_num
  omega

theorem evaluateSprites_keepsVblank (p : Ppu2C02) : p.keepsVblank p.evaluateSprites := by
  refine ⟨rfl, rfl, rfl, rfl, fun h => ?_⟩
  unfold PpuRegisters.vblank at h ⊢
  unfold Ppu2C02.evaluateSprites at h
  simp only [] at h
  rw [(status_bit7 _ _).1] at h
  exact h

theorem fetchSprites_keepsVblank (p : Ppu2C02) (rom : NesRom) :
    p.keepsVblank (p.fetchSprites rom) :=
  keepsVblank_of_registers _ _ rfl rfl rfl rfl rfl

theorem renderStep_keepsVblank (p : Ppu2C02) (rom : NesRom) :
    p.keepsVblank (p.renderStep rom) := by
  have step : ∀ (q : Ppu2C02) (c : Prop) [Decidable c] (x : Ppu2C02), p.keepsVblank q →
      q.keepsVblank x → p.keepsVblank (if c then x else q) := by
    intro q c _ x hq hx
    split_ifs
    · exact keepsVblank_trans hq hx
    · exact hq
  unfold Ppu2C02.renderStep
  simp only []
  apply step _ _ _ _ (fetchSprites_keepsVblank _ _)
  apply step _ _ _ _ (evaluateSprites_keepsVblank _)
  apply step _ _ _ _ (txAddressY_keepsVblank _)
  apply step _ _ _ _ (setBg_keepsVblank _ _)
  apply step _ _ _ _
    (keepsVblank_trans (loadBackgroundShifters_keepsVblank _) (txAddressX_keepsVblank _))
  apply step _ _ _ _ (scrollY_keepsVblank _)
  apply step _ _ _ _
    (keepsVblank_trans (updateShifters_keepsVblank _) (fetchStep_keepsVblank _ _))
  refine step _ _ _ ?_ ?_
  · refine step _ _ _ (keepsVblank_refl p) ?_
    exact keepsVblank_of_registers _ _ rfl rfl rfl rfl rfl
  · refine ⟨rfl, rfl, rfl, rfl, fun h => ?_⟩
    unfold PpuRegisters.vblank at h
    simp only [] at h
    rw [(status_bit7 _ 0).2.2.1] at h
    exact absurd h (by decide)

theorem composeStep_keepsVblank (p : Ppu2C02) : p.keepsVblank p.composeStep := by
  have set6 : ∀ q : Ppu2C02, q.keepsVblank
      { q with registers := { q.registers with STATUS := setBitfield q.registers.STATUS 6 1 1 } } := by
    intro q
    refine ⟨rfl, rfl, rfl, rfl, fun h => ?_⟩
    unfold PpuRegisters.vblank at h ⊢
    simp only [] at h
    rw [(status_bit7 _ _).2.1] at h
    exact h
  unfold Ppu2C02.composeStep
  simp only []
  split_ifs <;> first | exact keepsVblank_refl _ | exact set6 _

theorem composeStep_vblank (p : Ppu2C02) :
    p.composeStep.registers.vblank = p.registers.vblank := by
  unfold Ppu2C02.composeStep PpuRegisters.vblank
  simp only []
  split_ifs <;> first | rfl | exact (status_bit7 _ _).2.1

theorem advance_vblank (p : Ppu2C02) (rom : NesRom) :
    (p.advance rom).1.registers = p.registers ∧ (p.advance rom).1.nmi = p.nmi ∧
      (p.advance rom).1.nmiIgnore = p.nmiIgnore := by
  unfold Ppu2C02.advance
  simp only []
  split_ifs <;> exact ⟨rfl, rfl, rfl⟩

theorem vblankStep_off (p : Ppu2C02) (h : ¬ (p.scanline = 241 ∧ p.cycle = 1)) :
    p.vblankStep = p := by
  unfold Ppu2C02.vblankStep
  rw [if_neg h]

theorem vblankStep_at (p : Ppu2C02) (h : p.scanline = 241 ∧ p.cycle = 1)
    (hi : p.nmiIgnore = false) :
    p.vblankStep.registers.vblank = 1 ∧
      p.vblankStep.nmi = (p.nmi || decide (p.registers.vblankNmi ≠ 0)) ∧
      p.vblankStep.nmiIgnore = false := by
  have h7 : bitfield (setBitfield p.registers.STATUS 7 1 1) 7 1 = 1 := (status_bit7 _ 1).2.2.2
  unfold Ppu2C02.vblankStep
  rw [if_pos h]
  by_cases hz : bitfield p.registers.CTRL 7 1 = 0
  · simp [PpuRegisters.vblankNmi, PpuRegisters.vblank, hz, h7]
  · simp [PpuRegisters.vblankNmi, PpuRegisters.vblank, hz, h7, hi]

/-- C23: for every PPU state in which `nmiIgnore` is false (it is constructed
false and `clock()` is the only function assigning it, always `false`):
a `clock()` executed at scanline 241, cycle 1 leaves `STATUS.vblank = 1` and
sets `nmi` exactly when `CTRL.vblankNmi` is set (afterwards `nmi` holds if it
held before or `CTRL.vblankNmi` is set); a `clock()` executed at any other
position leaves `nmi` as it was and leaves `STATUS.vblank` set only if it
was set before; in both cases `nmiIgnore` is false afterwards. -/
theorem vblank_start (p : Ppu2C02) (rom : NesRom) (hi : p.nmiIgnore = false) :
    (p.scanline = 241 ∧ p.cycle = 1 →
        (p.clock rom).1.registers.vblank = 1 ∧
          (p.clock rom).1.nmi = (p.nmi || decide (p.registers.vblankNmi ≠ 0))) ∧
      (¬ (p.scanline = 241 ∧ p.cycle = 1) →
        (p.clock rom).1.nmi = p.nmi ∧
          ((p.clock rom).1.registers.vblank = 1 → p.registers.vblank = 1)) ∧
      (p.clock rom).1.nmiIgnore = false := by
  have hQ : p.keepsVblank (if p.scanline ≥ -1 ∧ p.scanline < 240 then p.renderStep rom else p) := by
    split_ifs
    · exact renderStep_keepsVblank p rom
    · exact keepsVblank_refl p
  have hclock : ∀ q : Ppu2C02,
      (q.vblankStep.composeStep.advance rom).1.nmi = q.vblankStep.nmi ∧
      (q.vblankStep.composeStep.advance rom).1.nmiIgnore = q.vblankStep.nmiIgnore ∧
      (q.vblankStep.composeStep.advance rom).1.registers.vblank = q.vblankStep.registers.vblank := by
    intro q
    obtain ⟨a1, a2, a3⟩ := advance_vblank q.vblankStep.composeStep rom
    obtain ⟨-, c2, c3, -, -⟩ := composeStep_keepsVblank q.vblankStep
    exact ⟨a2.trans c2, a3.trans c3, by rw [a1]; exact composeStep_vblank _⟩
  unfold Ppu2C02.clock
  simp only []
  generalize hQdef : (if p.scanline ≥ -1 ∧ p.scanline < 240 then p.renderStep rom else p) = Q at hQ
  have hQp : ¬ (p.scanline ≥ -1 ∧ p.scanline < 240) → Q = p := by
    intro hc
    rw [← hQdef, if_neg hc]
  obtain ⟨k1, k2, k3⟩ := hclock Q
  obtain ⟨q1, q2, q3, q4, q5⟩ := hQ
  rw [k1, k2, k3]
  refine ⟨fun h => ?_, fun h => ?_, ?_⟩
  · have hc : ¬ (p.scanline ≥ -1 ∧ p.scanline < 240) := by omega
    rw [hQp hc]
    exact ⟨(vblankStep_at p h hi).1, (vblankStep_at p h hi).2.1⟩
  · have hq : ¬ (Q.scanline = 241 ∧ Q.cycle = 1) := by
      intro hq
      by_cases hc : p.scanline ≥ -1 ∧ p.scanline < 240
      · omega
      · rw [hQp hc] at hq
        exact h hq
    rw [vblankStep_off Q hq]
    exact ⟨q2, q5⟩
  · by_cases hq : Q.scanline = 241 ∧ Q.cycle = 1
    · exact (vblankStep_at Q hq (q3.trans hi)).2.2
    · rw [vblankStep_off Q hq]
      exact q3.trans hi

/-- C23 on `vblankPpu`: `clock()` sets `STATUS.vblank` and `nmi`. -/
theorem vblank_start_witness :
    (vblankPpu.clock (exampleRom 0 1 1 (filled 0) (filled 0))).1.registers.vblank = 1 ∧
      (vblankPpu.clock (exampleRom 0 1 1 (filled 0) (filled 0))).1.nmi = true :=
  have h := (vblank_start vblankPpu (exampleRom 0 1 1 (filled 0) (filled 0)) rfl).1 (by decide)
  ⟨h.1, h.2.trans (by decide)⟩

/-! ## Cartridge loading -/

theorem Header.ofBytes_nes (bs : List Nat) (i : Nat) (hi : i < 4) :
    (Header.ofBytes bs).nes i = bs.getD i 0 := by
  simp only [Header.ofBytes, cut, arrayOf]
  interval_cases i <;> rcases bs with _ | ⟨a, _ | ⟨b, _ | ⟨c, _ | ⟨d, t⟩⟩⟩⟩ <;> simp

theorem readBytes_header_of_le (file : List Nat) (old : Header) (h : 16 ≤ file.length) :
    (readBytes file 16 old.bytes).1 = file.take 16 := by
  unfold readBytes
  simp only []
  rw [List.drop_eq_nil_of_le (by rw [Header_bytes_length]; exact h), List.append_nil]

theorem Header.isValid_ofBytes (bs : List Nat) :
    (Header.ofBytes bs).isValid = true ↔
      (bs.getD 0 0 = 0x4e ∧ bs.getD 1 0 = 0x45 ∧ bs.getD 2 0 = 0x53 ∧ bs.getD 3 0 = 0x1a) := by
  unfold Header.isValid
  rw [Header.ofBytes_nes bs 0 (by norm_num), Header.ofBytes_nes bs 1 (by norm_num),
    Header.ofBytes_nes bs 2 (by norm_num), Header.ofBytes_nes bs 3 (by norm_num)]
  simp

theorem getD_take (bs : List Nat) (i n : Nat) (h : i < n) : (bs.take n).getD i 0 = bs.getD i 0 := by
  simp only [List.getD_eq_getElem?_getD, List.getElem?_take, if_pos h]

theorem Mapper.construct_none (number p c : Nat) (indet : Nat → Nat) (h0 : number ≠ 0)
    (h1 : number ≠ 1) (h2 : number ≠ 2) (h4 : number ≠ 4) :
    Mapper.construct number p c indet = none := by
  unfold Mapper.construct
  rw [if_neg h0, if_neg h1, if_neg h2, if_neg h4]

theorem NesRom.construct_invalid (old : Header) (indet : Nat → Nat) (file : List Nat)
    (hv : (Header.ofBytes (readBytes file 16 old.bytes).1).isValid = false) :
    NesRom.construct old indet file =
      { header := Header.ofBytes (readBytes file 16 old.bytes).1, mapper := none, trainer := [],
        prg := [], chr := [] } := by
  unfold NesRom.construct
  simp only [hv, Bool.false_eq_true, not_false_eq_true, if_true]

theorem NesRom.construct_mapper (old : Header) (indet : Nat → Nat) (file : List Nat)
    (hv : (Header.ofBytes (readBytes file 16 old.bytes).1).isValid = true) :
    ∃ p c, (NesRom.construct old indet file).mapper =
      Mapper.construct (Header.ofBytes (readBytes file 16 old.bytes).1).getMapperNumber p c
        indet := by
  unfold NesRom.construct
  simp only [hv, not_true_eq_false, if_false]
  split_ifs <;> exact ⟨_, _, rfl⟩

/-- C24, as the code behaves: `NesBus::loadRom` returns 0 for every file, so
the test `loadRom(path) < 0` of `RomManager::setActiveRom` never holds.  For a
file of at least 16 bytes whose first four bytes are not `N`, `E`, `S`, `$1A`
it leaves a cartridge without mapper, PRG and CHR, and for one with these four
bytes and a mapper number other than 0, 1, 2, 4 a cartridge without mapper:
neither is reported. -/
theorem loadRom_reports_success (old : Header) (indet : Nat → Nat) (file : List Nat) :
    (NesBus.loadRom old indet file).1 = 0 ∧ RomManager.loadFailed old indet file = false ∧
      (16 ≤ file.length →
        ¬ (file.getD 0 0 = 0x4e ∧ file.getD 1 0 = 0x45 ∧ file.getD 2 0 = 0x53 ∧
            file.getD 3 0 = 0x1a) →
        (NesBus.loadRom old indet file).2.mapper = none ∧
          (NesBus.loadRom old indet file).2.prg = [] ∧
          (NesBus.loadRom old indet file).2.chr = []) ∧
      (16 ≤ file.length →
        (file.getD 0 0 = 0x4e ∧ file.getD 1 0 = 0x45 ∧ file.getD 2 0 = 0x53 ∧
            file.getD 3 0 = 0x1a) →
        (Header.ofBytes (file.take 16)).getMapperNumber ≠ 0 →
        (Header.ofBytes (file.take 16)).getMapperNumber ≠ 1 →
        (Header.ofBytes (file.take 16)).getMapperNumber ≠ 2 →
        (Header.ofBytes (file.take 16)).getMapperNumber ≠ 4 →
        (NesBus.loadRom old indet file).2.mapper = none) := by
  refine ⟨rfl, rfl, fun hlen hsig => ?_, fun hlen hsig h0 h1 h2 h4 => ?_⟩
  · have hv : (Header.ofBytes (readBytes file 16 old.bytes).1).isValid = false := by
      rw [readBytes_header_of_le file old hlen, Bool.eq_false_iff, Ne, Header.isValid_ofBytes,
        getD_take _ _ _ (by norm_num), getD_take _ _ _ (by norm_num),
        getD_take _ _ _ (by norm_num), getD_take _ _ _ (by norm_num)]
      exact hsig
    simp only [NesBus.loadRom, NesRom.read_rom, NesRom.construct_invalid old indet file hv,
      and_self]
  · have hv : (Header.ofBytes (readBytes file 16 old.bytes).1).isValid = true := by
      rw [readBytes_header_of_le file old hlen, Header.isValid_ofBytes,
        getD_take _ _ _ (by norm_num), getD_take _ _ _ (by norm_num),
        getD_take _ _ _ (by norm_num), getD_take _ _ _ (by norm_num)]
      exact hsig
    obtain ⟨p, c, hm⟩ := NesRom.construct_mapper old indet file hv
    simp only [NesBus.loadRom, NesRom.read_rom]
    rw [hm, readBytes_header_of_le file old hlen]
    exact Mapper.construct_none _ p c indet h0 h1 h2 h4

set_option maxRecDepth 1000000 in
/-- C24 fails on `zeroFile` (no signature) and on `mapper3File` (valid
signature, mapper number 3): `loadRom` returns 0 for both and leaves a
cartridge without mapper. -/
theorem loadRom_reports_success_witness :
    ((NesBus.loadRom (exampleHeader 0 0 0 0) (filled 0) zeroFile).1 = 0 ∧
      (NesBus.loadRom (exampleHeader 0 0 0 0) (filled 0) zeroFile).2.mapper.isNone = true) ∧
    ((NesBus.loadRom (exampleHeader 0 0 0 0) (filled 0) mapper3File).1 = 0 ∧
      (Header.ofBytes (mapper3File.take 16)).getMapperNumber = 3 ∧
      (NesBus.loadRom (exampleHeader 0 0 0 0) (filled 0) mapper3File).2.mapper.isNone = true) :=
  have h := loadRom_reports_success (exampleHeader 0 0 0 0) (filled 0) zeroFile
  have g := loadRom_reports_success (exampleHeader 0 0 0 0) (filled 0) mapper3File
  ⟨⟨h.1, by rw [(h.2.2.1 (by decide) (by decide)).1]; rfl⟩,
    ⟨g.1, by decide,
      by rw [g.2.2.2 (by decide) (by decide) (by decide) (by decide) (by decide) (by decide)]; rfl⟩⟩

/-! ## PRG offsets and bank registers -/

theorem u32_of_lt {x : Nat} (h : x < 4294967296) : u32 x = x := Nat.mod_eq_of_lt h

theorem and_3FFF_lt (a : Nat) : a &&& 0x3FFF < 0x4000 :=
  lt_of_le_of_lt Nat.and_le_right (by norm_num)

theorem and_0F_lt (d : Nat) : d &&& 0x0F < 16 :=
  lt_of_le_of_lt Nat.and_le_right (by norm_num)

/-- C25, as the code behaves: on a mapper 2 cartridge with `n` PRG banks
(a PRG store of `16384 * n` bytes), after `reset` and one CPU write of `d`
with `(d & 0x0F) >= n` to an address in `$8000-$FFFF`, a CPU read of any `a`
in `$8000-$BFFF` is forwarded by the mapper to the offset
`(d & 0x0F) * $4000 + (a & $3FFF)`, which is not smaller than the size of
the PRG store; `NesRom::cpuRead` takes `prg[offset]` there. -/
theorem prg_offset_outside_store (r : NesRom) (s : Mapper002) (n w d a x : Nat)
    (hk : r.mapper.kind = .m002 s) (hn : r.mapper.prgBankCount = n)
    (hlen : r.prgLen = 16384 * n) (hw1 : 0x8000 ≤ w) (hw2 : w ≤ 0xFFFF)
    (hd : n ≤ d &&& 0x0F) (ha1 : 0x8000 ≤ a) (ha2 : a ≤ 0xBFFF) :
    (r.reset.afterWrites [(w, d)]).mapper.cpuMapRead a x =
        (true, (d &&& 0x0F) * 0x4000 + (a &&& 0x3FFF)) ∧
      (r.reset.afterWrites [(w, d)]).prgLen ≤
        ((r.reset.afterWrites [(w, d)]).mapper.cpuMapRead a x).2 ∧
      (r.reset.afterWrites [(w, d)]).cpuRead a 0 =
        (true, r.prg ((d &&& 0x0F) * 0x4000 + (a &&& 0x3FFF))) := by
  rcases r with ⟨hdr, ⟨pc, cc, k⟩, prg, pl, chr, cl, un⟩
  simp only at hk hn hlen
  subst hk hn hlen
  have hA := and_3FFF_lt a
  have hD := and_0F_lt d
  have e1 : w ≥ 0x8000 ∧ w ≤ 0xFFFF := ⟨hw1, hw2⟩
  have e2 : a ≥ 0x8000 ∧ a ≤ 0xBFFF := ⟨ha1, ha2⟩
  have hu : u32 ((d &&& 0x0F) * 0x4000 + (a &&& 0x3FFF)) = (d &&& 0x0F) * 0x4000 + (a &&& 0x3FFF) :=
    u32_of_lt (by omega)
  have hne : (d &&& 0x0F) * 0x4000 + (a &&& 0x3FFF) ≠ MAPPER_SERVED := by
    unfold MAPPER_SERVED; omega
  simp only [NesRom.afterWrites, List.foldl, NesRom.reset, Mapper.reset, NesRom.cpuWrite,
    Mapper.cpuMapWrite, Mapper002.cpuMapWrite, Mapper002.reset, if_pos e1, NesRom.cpuRead,
    Mapper.cpuMapRead, Mapper002.cpuMapRead, if_pos e2, hu, if_neg hne]
  simp only [Bool.false_eq_true, if_false, if_true, true_and]
  rw [hu, if_neg hne]
  exact ⟨rfl, by omega, rfl⟩

/-- C25 fails on `uxRom` (one PRG bank, a store of 16384 bytes): after the
write of `$0F` to `$8000`, the read of `$8000` is forwarded to offset `$3C000`. -/
theorem prg_offset_outside_store_witness :
    (uxRom.reset.afterWrites [(0x8000, 0x0F)]).mapper.cpuMapRead 0x8000 0 = (true, 0x3C000) ∧
      (uxRom.reset.afterWrites [(0x8000, 0x0F)]).prgLen = 16384 :=
  ⟨(prg_offset_outside_store uxRom { prgBankSelectLo := 0, prgBankSelectHi := 0 } 1 0x8000 0x0F
      0x8000 0 rfl rfl rfl (by decide) (by decide) (by decide) (by decide) (by decide)).1.trans
      (by decide),
    by decide⟩

/-- The offsets of mappers 1 and 4 leave the PRG store in the same way: on a
mapper 1 cartridge with two banks, after the reset write and the five serial
writes of the value `$0F` to `$E000`, a read of `$8000` is forwarded to offset
`$3C000`; on a mapper 4 cartridge with two banks, after register 6 has been
given the value `$3F`, to offset `$7E000`. -/
theorem mmc_offsets_outside_store :
    ((exampleRom 1 2 1 (filled 0) (filled 0)).afterWrites
        [(0x8000, 0x80), (0xE000, 1), (0xE000, 1), (0xE000, 1), (0xE000, 1),
          (0xE000, 0)]).mapper.cpuMapRead 0x8000 0 = (true, 0x3C000) ∧
      ((exampleRom 4 2 1 (filled 0) (filled 0)).afterWrites
        [(0x8000, 0x06), (0x8001, 0x3F)]).mapper.cpuMapRead 0x8000 0 = (true, 0x7E000) := by
  decide

/-- A CPU write on a mapper 2 cartridge: it is not handled, no PRG byte
changes, the high bank stays, and the low bank is `data & 0x0F` for an address
in `$8000-$FFFF`. -/
theorem NesRom.cpuWrite_m002 (r : NesRom) (s : Mapper002) (w d : Nat)
    (hk : r.mapper.kind = .m002 s) :
    (r.cpuWrite w d).1 = false ∧ (r.cpuWrite w d).2.prg = r.prg ∧
      (r.cpuWrite w d).2.prgLen = r.prgLen ∧
      (r.cpuWrite w d).2.mapper.prgBankCount = r.mapper.prgBankCount ∧
      ∃ t, (r.cpuWrite w d).2.mapper.kind = .m002 t ∧ t.prgBankSelectHi = s.prgBankSelectHi ∧
        (0x8000 ≤ w → w ≤ 0xFFFF → t.prgBankSelectLo = d &&& 0x0F) := by
  rcases r with ⟨hdr, ⟨pc, cc, k⟩, prg, pl, chr, cl, un⟩
  simp only at hk
  subst hk
  by_cases hw : w ≥ 0x8000 ∧ w ≤ 0xFFFF
  · simp [NesRom.cpuWrite, Mapper.cpuMapWrite, Mapper002.cpuMapWrite, hw]
  · simp only [NesRom.cpuWrite, Mapper.cpuMapWrite, Mapper002.cpuMapWrite, if_neg hw]
    refine ⟨by simp, by simp, by simp, by simp, s, by simp, rfl, fun h1 h2 => absurd ⟨h1, h2⟩ hw⟩

/-- Mapper 2 after `reset` and any CPU writes: the high bank is the last bank. -/
theorem NesRom.afterWrites_m002 (ws : List (Nat × Nat)) (r : NesRom) (s : Mapper002)
    (hk : r.mapper.kind = .m002 s) :
    (r.afterWrites ws).prg = r.prg ∧ (r.afterWrites ws).prgLen = r.prgLen ∧
      (r.afterWrites ws).mapper.prgBankCount = r.mapper.prgBankCount ∧
      ∃ t, (r.afterWrites ws).mapper.kind = .m002 t ∧
        t.prgBankSelectHi = s.prgBankSelectHi := by
  induction ws generalizing r s with
  | nil => exact ⟨rfl, rfl, rfl, s, hk, rfl⟩
  | cons w ws ih =>
    obtain ⟨-, a2, a3, a4, t, a5, a6, -⟩ := NesRom.cpuWrite_m002 r s w.1 w.2 hk
    obtain ⟨b1, b2, b3, u, b4, b5⟩ := ih (r.cpuWrite w.1 w.2).2 t a5
    exact ⟨b1.trans a2, b2.trans a3, b3.trans a4, u, b4, b5.trans a6⟩

/-- C26: for a mapper 2 cartridge with `n` PRG banks (`1 <= n <= 255`), after
`reset` and any sequence `ws` of CPU writes: a read of `a` in `$C000-$FFFF`
maps to offset `(n - 1) * $4000 + (a & $3FFF)`; a further CPU write of `d` to
an address `w` in `$8000-$FFFF` is reported as not handled and changes no PRG
byte, and after it a read of `a` in `$8000-$BFFF` maps to offset
`(d & 0x0F) * $4000 + (a & $3FFF)`. -/
theorem uxrom_banks (r : NesRom) (s : Mapper002) (n : Nat) (ws : List (Nat × Nat))
    (w d a x : Nat) (hk : r.mapper.kind = .m002 s) (hn : r.mapper.prgBankCount = n)
    (h1 : 1 ≤ n) (h2 : n ≤ 255) (hw1 : 0x8000 ≤ w) (hw2 : w ≤ 0xFFFF) (ha1 : 0x8000 ≤ a)
    (ha2 : a ≤ 0xFFFF) :
    (0xC000 ≤ a →
        (r.reset.afterWrites ws).mapper.cpuMapRead a x =
          (true, (n - 1) * 0x4000 + (a &&& 0x3FFF))) ∧
      ((r.reset.afterWrites ws).cpuWrite w d).1 = false ∧
      ((r.reset.afterWrites ws).cpuWrite w d).2.prg = r.prg ∧
      (a ≤ 0xBFFF →
        ((r.reset.afterWrites ws).cpuWrite w d).2.mapper.cpuMapRead a x =
          (true, (d &&& 0x0F) * 0x4000 + (a &&& 0x3FFF))) ∧
      (0xC000 ≤ a →
        ((r.reset.afterWrites ws).cpuWrite w d).2.mapper.cpuMapRead a x =
          (true, (n - 1) * 0x4000 + (a &&& 0x3FFF))) := by
  have hreset : r.reset.mapper.kind =
      .m002 { prgBankSelectLo := 0, prgBankSelectHi := i8 ((n : Int) - 1) } := by
    simp only [NesRom.reset, Mapper.reset, hk, Mapper002.reset, hn]
  have hhi : i8 ((n : Int) - 1) = n - 1 := by
    unfold i8
    omega
  obtain ⟨b1, -, -, t, b4, b5⟩ := NesRom.afterWrites_m002 ws r.reset _ hreset
  obtain ⟨c1, c2, -, -, u, c5, c6, c7⟩ :=
    NesRom.cpuWrite_m002 (r.reset.afterWrites ws) t w d b4
  have hA := and_3FFF_lt a
  have hD := and_0F_lt d
  have read : ∀ v : Mapper002, ∀ m : Mapper, m.kind = .m002 v →
      (0xC000 ≤ a → v.prgBankSelectHi = n - 1 →
        m.cpuMapRead a x = (true, (n - 1) * 0x4000 + (a &&& 0x3FFF))) ∧
      (a ≤ 0xBFFF → v.prgBankSelectLo = d &&& 0x0F →
        m.cpuMapRead a x = (true, (d &&& 0x0F) * 0x4000 + (a &&& 0x3FFF))) := by
    intro v m hm
    constructor
    · intro h hv
      have e1 : ¬ (a ≥ 0x8000 ∧ a ≤ 0xBFFF) := by omega
      have e2 : a ≥ 0xC000 ∧ a ≤ 0xFFFF := ⟨h, ha2⟩
      simp only [Mapper.cpuMapRead, hm, Mapper002.cpuMapRead, if_neg e1, if_pos e2, hv]
      rw [u32_of_lt (by omega)]
    · intro h hv
      have e1 : a ≥ 0x8000 ∧ a ≤ 0xBFFF := ⟨ha1, h⟩
      simp only [Mapper.cpuMapRead, hm, Mapper002.cpuMapRead, if_pos e1, hv]
      rw [u32_of_lt (by omega)]
  refine ⟨fun h => (read t _ b4).1 h (by rw [b5, hhi]), c1, c2.trans b1, fun h => ?_, fun h => ?_⟩
  · exact (read u _ c5).2 h (c7 hw1 hw2)
  · exact (read u _ c5).1 h (by rw [c6, b5, hhi])

/-- C26 on `uxRom` with eight banks written as `n`: after the writes `$05` to
`$8000` and `$03` to `$FFFF`, a read of `$8001` maps to bank 3 and a read of
`$C001` to the last bank. -/
theorem uxrom_banks_witness :
    ((({ uxRom with mapper := { uxRom.mapper with prgBankCount := 8 } } : NesRom).reset.afterWrites
        [(0x8000, 0x05)]).cpuWrite 0xFFFF 0x03).2.mapper.cpuMapRead 0x8001 0 = (true, 0xC001) ∧
    ((({ uxRom with mapper := { uxRom.mapper with prgBankCount := 8 } } : NesRom).reset.afterWrites
        [(0x8000, 0x05)]).cpuWrite 0xFFFF 0x03).2.mapper.cpuMapRead 0xC001 0 = (true, 0x1C001) :=
  have h := uxrom_banks { uxRom with mapper := { uxRom.mapper with prgBankCount := 8 } }
    { prgBankSelectLo := 0, prgBankSelectHi := 0 } 8 [(0x8000, 0x05)] 0xFFFF 0x03
  ⟨((h 0x8001 0 rfl rfl (by decide) (by decide) (by decide) (by decide) (by decide)
      (by decide)).2.2.2.1 (by decide)).trans (by decide),
    ((h 0xC001 0 rfl rfl (by decide) (by decide) (by decide) (by decide) (by decide)
      (by decide)).2.2.2.2 (by decide)).trans (by decide)⟩

/-! ## The master clock ratio -/

theorem masterTicks_add (j : Nat) : ∀ c k, c < 2 ^ 32 →
    masterTicks c (j + k) = masterTicks c j + masterTicks ((c + j) % 2 ^ 32) k := by
  induction j with
  | zero =>
    intro c k hc
    simp only [Nat.zero_add, masterTicks, Nat.add_zero, Nat.mod_eq_of_lt hc]
  | succ j ih =>
    intro c k hc
    rw [show j + 1 + k = (j + k) + 1 by omega, masterTicks, masterTicks,
      ih (u32 (c + 1)) k (Nat.mod_lt _ (by norm_num))]
    have : (u32 (c + 1) + j) % 2 ^ 32 = (c + (j + 1)) % 2 ^ 32 := by
      unfold u32
      omega
    rw [this]
    omega

theorem masterTicks_eq (k : Nat) : ∀ c, c + k ≤ 2 ^ 32 →
    masterTicks c k = (c + k + 2) / 3 - (c + 2) / 3 := by
  induction k with
  | zero => intro c _; simp [masterTicks]
  | succ k ih =>
    intro c hc
    rw [masterTicks]
    by_cases hk : k = 0
    · subst hk
      simp only [masterTicks]
      split_ifs <;> omega
    · have hu : u32 (c + 1) = c + 1 := by unfold u32; omega
      rw [hu, ih (c + 1) (by omega)]
      split_ifs <;> omega

theorem iterate_clock_count (b : NesBus) (i : Nat) (h : b.systemClockCount < 2 ^ 32) :
    (NesBus.clock^[i] b).systemClockCount = (b.systemClockCount + i) % 2 ^ 32 := by
  induction i with
  | zero => rw [Function.iterate_zero, id, Nat.add_zero, Nat.mod_eq_of_lt h]
  | succ i ih =>
    rw [Function.iterate_succ_apply', NesBus.clock_systemClockCount, ih]
    unfold u32
    omega

theorem cpuClocksIn_eq (k : Nat) : ∀ b : NesBus, b.systemClockCount < 2 ^ 32 →
    (∀ i, i < k → (NesBus.clock^[i] b).DMA.transfer = false) →
    b.cpuClocksIn k = masterTicks b.systemClockCount k := by
  induction k with
  | zero => intro b _ _; rfl
  | succ k ih =>
    intro b hb hD
    rw [NesBus.cpuClocksIn, masterTicks, ih b.clock
      (by rw [NesBus.clock_systemClockCount]; exact Nat.mod_lt _ (by norm_num))
      (fun i hi => by
        have := hD (i + 1) (by omega)
        rw [Function.iterate_succ_apply] at this
        exact this),
      NesBus.clock_systemClockCount, NesBus.cpuClocked_eq]
    have h0 := hD 0 (by omega)
    rw [Function.iterate_zero, id] at h0
    rw [h0]
    simp only [Bool.not_false, Bool.and_true, ofBool, decide_eq_true_eq]

/-- C27, as the code behaves: from a state with master clock count 0 (the
state after `NesBus::reset()`) and as long as no OAM DMA is in progress,
the master clock count after `i` calls of `NesBus::clock` is `i mod 2^32` and
call number `i` (from 0) reaches `cpu.clock()` exactly when that count is
divisible by 3; so the CPU is clocked `n` times in the first `3 n` calls as
long as `3 n <= 2^32`.  But `2^32 - 1` and `0` are both divisible by 3: the
calls number `2^32 - 1` and `2^32` both clock the CPU, and in the first
`2^32 + 2 = 3 * 1431655766` calls the CPU is clocked 1431655767 times.  (The
PPU is clocked by the first statement of every call.) -/
theorem cpu_clock_ratio (b : NesBus) (N : Nat) (h0 : b.systemClockCount = 0)
    (hD : ∀ i, i < N → (NesBus.clock^[i] b).DMA.transfer = false) :
    (∀ i, i ≤ N → (NesBus.clock^[i] b).systemClockCount = i % 4294967296) ∧
      (∀ i, i < N → ((NesBus.clock^[i] b).cpuClocked = true ↔ i % 4294967296 % 3 = 0)) ∧
      (∀ n, 3 * n ≤ N → 3 * n ≤ 4294967296 → b.cpuClocksIn (3 * n) = n) ∧
      (4294967298 ≤ N →
        (NesBus.clock^[4294967295] b).cpuClocked = true ∧
          (NesBus.clock^[4294967296] b).cpuClocked = true ∧
          b.cpuClocksIn 4294967298 = 1431655767) := by
  have hb : b.systemClockCount < 2 ^ 32 := by rw [h0]; norm_num
  have hcount : ∀ i, (NesBus.clock^[i] b).systemClockCount = i % 4294967296 := by
    intro i
    rw [iterate_clock_count b i hb, h0, Nat.zero_add]
    norm_num
  have hclk : ∀ i, i < N → ((NesBus.clock^[i] b).cpuClocked = true ↔ i % 4294967296 % 3 = 0) := by
    intro i hi
    rw [NesBus.cpuClocked_eq, hD i hi, hcount i]
    simp only [Bool.not_false, Bool.and_true, decide_eq_true_eq]
  refine ⟨fun i _ => hcount i, hclk, fun n hn hw => ?_, fun hN => ?_⟩
  · rw [cpuClocksIn_eq (3 * n) b hb (fun i hi => hD i (by omega)), h0,
      masterTicks_eq (3 * n) 0 (by omega)]
    omega
  · refine ⟨(hclk 4294967295 (by omega)).2 (by norm_num),
      (hclk 4294967296 (by omega)).2 (by norm_num), ?_⟩
    rw [cpuClocksIn_eq 4294967298 b hb (fun i hi => hD i (by omega)), h0,
      show (4294967298 : Nat) = 4294967296 + 2 by norm_num,
      masterTicks_add 4294967296 0 2 (by norm_num), masterTicks_eq 4294967296 0 (by norm_num)]
    norm_num [masterTicks, u32]

theorem advance_rom (p : Ppu2C02) (rom : NesRom) (hk : rom.mapper.kind = .m000) :
    (p.advance rom).2 = rom := by
  have hs : ({ rom with mapper := rom.mapper.scanline } : NesRom) = rom := by
    rcases rom with ⟨hdr, ⟨pc, cc, k⟩, prg, pl, chr, cl, un⟩
    simp only at hk
    subst hk
    rfl
  unfold Ppu2C02.advance
  simp only [hs]
  split_ifs <;> rfl

theorem Ppu2C02.clock_rom (p : Ppu2C02) (rom : NesRom) (hk : rom.mapper.kind = .m000) :
    (p.clock rom).2 = rom := by
  unfold Ppu2C02.clock
  simp only []
  exact advance_rom _ rom hk

theorem inLoop_clockUnits (b : NesBus) (h : b.inLoop) : b.clockUnits.inLoop := by
  obtain ⟨h1, h2, h3, h4, h5, h6, h7, h8, h9, h10, h11⟩ := h
  have hr : b.clockUnits.rom = b.rom := Ppu2C02.clock_rom b.ppu b.rom h5
  refine ⟨h1, h2, h3, h4, ?_, ?_, ?_, ?_, ?_, ?_, ?_⟩ <;> rw [hr] <;> assumption

theorem loop_read (b : NesBus) (a : Nat) (h1 : 0x8000 ≤ a) (h2 : a ≤ 0xFFFF)
    (hk : b.rom.mapper.kind = .m000) (hn : b.rom.mapper.prgBankCount = 1) :
    b.readCpu a false = (u8 (b.rom.prg (a &&& 0x3FFF)), b) := by
  rw [NesBus.readCpu_cart b a false h1 h2]
  have : b.rom.cpuRead a 0 = (true, b.rom.prg (a &&& 0x3FFF)) := by
    have e : a ≥ 0x8000 ∧ a ≤ 0xFFFF := ⟨h1, h2⟩
    have hne : a &&& 0x3FFF ≠ MAPPER_SERVED := by
      have : a &&& 0x3FFF ≤ 0x3FFF := Nat.and_le_right
      unfold MAPPER_SERVED
      omega
    simp only [NesRom.cpuRead, Mapper.cpuMapRead, hk, Mapper000.cpuMapRead, if_pos e, hn,
      if_true, if_neg hne]
    simp [hne]
  rw [this]

set_option maxRecDepth 1000000 in
theorem instructionMap_get_4C : instructionMap.get 0x4C =
    { opcode := .JMP, addrmode := .abs, size := 3, cycles := 3, opByte := 0x4C,
      callback := some .JMP, addrmodeCallback := some .abs, implied := false } := by
  decide

set_option maxRecDepth 1000000 in
theorem unused_flag_lt : ∀ p, p < 256 → setBitfield p NES_UNUSED 1 (ofBool true) < 256 := by
  decide

set_option maxRecDepth 100000 in
theorem inLoop_step (b : NesBus) (h : b.inLoop) : (Cpu6502.step b).inLoop := by
  obtain ⟨h1, h2, h3, h4, h5, h6, h7, h8, h9, h10, h11⟩ := h
  have r0 : ∀ s : NesBus, s.rom = b.rom → s.readCpu 0x8000 false = (0x4C, s) := by
    intro s hs
    rw [loop_read s 0x8000 (by norm_num) (by norm_num) (by rw [hs]; exact h5)
      (by rw [hs]; exact h6), hs]
    show (u8 (b.rom.prg 0), s) = _
    rw [h7]; rfl
  have r1 : ∀ s : NesBus, s.rom = b.rom → s.readCpu 0x8001 false = (0x00, s) := by
    intro s hs
    rw [loop_read s 0x8001 (by norm_num) (by norm_num) (by rw [hs]; exact h5)
      (by rw [hs]; exact h6), hs]
    show (u8 (b.rom.prg 1), s) = _
    rw [h8]; rfl
  have r2 : ∀ s : NesBus, s.rom = b.rom → s.readCpu 0x8002 false = (0x80, s) := by
    intro s hs
    rw [loop_read s 0x8002 (by norm_num) (by norm_num) (by rw [hs]; exact h5)
      (by rw [hs]; exact h6), hs]
    show (u8 (b.rom.prg 2), s) = _
    rw [h9]; rfl
  have hf : Cpu6502.fetchOpcode b = { b with cpu := { b.cpu with
      opcode := 0x4C
      registers := { b.cpu.registers with
        PC := 0x8001
        P := setBitfield b.cpu.registers.P NES_UNUSED 1 (ofBool true) } } } := by
    simp [Cpu6502.fetchOpcode, Cpu6502.readPC, Cpu6502.read, NesBus.setPC, NesBus.setRegs,
      NesBus.regs, NesBus.readCpu_withCpu, h2, r0 b rfl, Cpu6502.setStatus, u16]
  have hidx : ¬ (Index.unpack 0x4C).c > 2 := by decide
  have hs : Cpu6502.step b = { b with cpu := { b.cpu with
      opcode := 0x4C
      cycles := 3
      cycleCount := u32 (b.cpu.cycleCount + 3)
      absoluteAddress := 0x8000
      registers := { b.cpu.registers with
        PC := 0x8000
        P := setBitfield (setBitfield b.cpu.registers.P NES_UNUSED 1 (ofBool true))
          NES_UNUSED 1 (ofBool true) } } } := by
    simp +decide [Cpu6502.step, hf, hidx, Cpu6502.execute, Cpu6502.fetchOperand,
      instructionMap_get_4C, callAddrMode, addrModeCallbacks, Cpu6502.readWord, Cpu6502.readPC,
      Cpu6502.read, NesBus.readCpu_withCpu, r1 b rfl, r2 b rfl, callInstr, instrCallbacks,
      NesBus.setPC, NesBus.setRegs, NesBus.regs, NesBus.setCycles, NesBus.setAbs,
      Cpu6502.setStatus, u16, u8]
  rw [hs]
  exact ⟨h1, rfl, h3, unused_flag_lt _ (unused_flag_lt _ h4), h5, h6, h7, h8, h9, h10, h11⟩

theorem inLoop_cpuSlot (b : NesBus) (h : b.inLoop) : b.cpuSlot.inLoop := by
  have hc : ∀ s : NesBus, s.inLoop → ∀ x, (s.setCycles x).inLoop := fun s hs _ => hs
  unfold NesBus.cpuSlot
  rw [if_neg (by rw [h.1]; decide)]
  unfold Cpu6502.clock
  simp only []
  split_ifs
  · exact hc _ (inLoop_step b h) _
  · exact hc _ h _

set_option maxRecDepth 100000 in
theorem inLoop_interrupts (b : NesBus) (h : b.inLoop) : b.interrupts.inLoop := by
  obtain ⟨h1, h2, h3, h4, h5, h6, h7, h8, h9, h10, h11⟩ := h
  have hirq : ∀ s : NesBus, s.rom = b.rom → s.rom.mapper.irqState = false := by
    intro s hs
    rw [hs]
    unfold Mapper.irqState
    rw [h5]
  have hnmi : ∀ s : NesBus, s.rom = b.rom → s.DMA = b.DMA → s.cpu = b.cpu →
      (Cpu6502.nonMaskableInterrupt s).inLoop ∧ (Cpu6502.nonMaskableInterrupt s).rom = b.rom := by
    intro s hs hd hcpu
    have ra : s.readCpu 0xFFFA false = (0x00, s) := by
      rw [loop_read s 0xFFFA (by norm_num) (by norm_num) (by rw [hs]; exact h5)
        (by rw [hs]; exact h6), hs]
      show (u8 (b.rom.prg 0x3FFA), s) = _
      rw [h10]; rfl
    have rb : s.readCpu (0xFFFA + 1) false = (0x80, s) := by
      rw [loop_read s (0xFFFA + 1) (by norm_num) (by norm_num) (by rw [hs]; exact h5)
        (by rw [hs]; exact h6), hs]
      show (u8 (b.rom.prg 0x3FFB), s) = _
      rw [h11]; rfl
    unfold Cpu6502.nonMaskableInterrupt
    rw [Cpu6502.interrupt_eq s 0xFFFA (by norm_num) (by norm_num) (by rw [hcpu]; exact h3)
      (by rw [hcpu]; exact h4), ra, rb]
    have hP : (s.cpu.registers.P &&& 0xCB) ||| 0x24 < 256 := by
      have a1 : s.cpu.registers.P &&& 0xCB < 2 ^ 8 := Nat.and_lt_two_pow _ (by norm_num)
      exact Nat.or_lt_two_pow a1 (by norm_num)
    refine ⟨⟨by show s.DMA.transfer = false; rw [hd]; exact h1,
      show ((0x80 : Nat) <<< 8) ||| 0x00 = 0x8000 from rfl,
      Nat.mod_lt _ (by norm_num), hP, ?_, ?_, ?_, ?_, ?_, ?_, ?_⟩, hs⟩ <;>
      (show _ = _; simp only [NesBus.setCycles, hs]; assumption)
  unfold NesBus.interrupts
  simp only []
  by_cases hn : b.ppu.nmi = true
  · obtain ⟨g1, g2⟩ := hnmi { b with ppu := { b.ppu with nmi := false } } rfl rfl rfl
    rw [if_pos hn, if_neg (by rw [hirq _ g2]; decide)]
    exact g1
  · rw [if_neg hn, if_neg (by rw [hirq b rfl]; decide)]
    exact ⟨h1, h2, h3, h4, h5, h6, h7, h8, h9, h10, h11⟩

theorem inLoop_clock (b : NesBus) (h : b.inLoop) : b.clock.inLoop := by
  have hc : ∀ s : NesBus, s.inLoop → ∀ x, ({ s with systemClockCount := x } : NesBus).inLoop :=
    fun s hs _ => hs
  unfold NesBus.clock
  simp only []
  apply hc
  apply inLoop_interrupts
  split_ifs
  · exact inLoop_cpuSlot _ (inLoop_clockUnits b h)
  · exact inLoop_clockUnits b h

theorem inLoop_iterate (b : NesBus) (h : b.inLoop) (i : Nat) : (NesBus.clock^[i] b).inLoop := by
  induction i with
  | zero => exact h
  | succ i ih =>
    rw [Function.iterate_succ_apply']
    exact inLoop_clock _ ih

set_option maxRecDepth 1000000 in
theorem loopMachine_inLoop : loopMachine.inLoop := by
  refine ⟨by decide, by decide, by decide, by decide, rfl, by decide, by decide, by decide,
    by decide, by decide, by decide⟩

set_option maxRecDepth 1000000 in
/-- C27 on `loopMachine`, the machine after `NesBus::reset()` whose program is
the loop `JMP $8000`: no DMA transfer ever starts, the CPU is clocked twice in
the first 6 calls of `NesBus::clock`, and 1431655767 times in the first
`3 * 1431655766 = 2^32 + 2` calls, the calls number `2^32 - 1` and `2^32`
both being CPU ticks. -/
theorem cpu_clock_ratio_witness :
    loopMachine.systemClockCount = 0 ∧
      (∀ i, (NesBus.clock^[i] loopMachine).DMA.transfer = false) ∧
      loopMachine.cpuClocksIn (3 * 2) = 2 ∧
      (NesBus.clock^[4294967295] loopMachine).cpuClocked = true ∧
      (NesBus.clock^[4294967296] loopMachine).cpuClocked = true ∧
      loopMachine.cpuClocksIn 4294967298 = 1431655767 :=
  have hD : ∀ i, (NesBus.clock^[i] loopMachine).DMA.transfer = false :=
    fun i => (inLoop_iterate loopMachine loopMachine_inLoop i).1
  have h := cpu_clock_ratio loopMachine 4294967298 (by decide) (fun i _ => hD i)
  ⟨by decide, hD, h.2.2.1 2 (by norm_num) (by norm_num), (h.2.2.2 (le_refl _)).1,
    (h.2.2.2 (le_refl _)).2.1, (h.2.2.2 (le_refl _)).2.2⟩

/-! ## Conditional branches -/

set_option maxRecDepth 1000000 in
theorem low_byte_and_FF00 : ∀ r, r < 256 → r &&& 0xFF00 = 0 := by decide

set_option maxRecDepth 1000000 in
theorem high_byte_and_FF00 : ∀ q, q < 256 → (2 ^ 8 * q) &&& 0xFF00 = 2 ^ 8 * q := by decide

theorem and_FF00 (x : Nat) (h : x < 65536) : x &&& 0xFF00 = x / 256 * 256 := by
  have hx : x = 2 ^ 8 * (x / 256) + x % 256 := by omega
  have hr : x % 256 < 2 ^ 8 := by omega
  have hor := Nat.mul_add_lt_is_or hr (x / 256)
  have hq : (2 ^ 8 * (x / 256)) &&& 0xFF00 = 2 ^ 8 * (x / 256) :=
    high_byte_and_FF00 _ (by omega)
  rw [hx, hor, Nat.and_distrib_right, hq, low_byte_and_FF00 _ (by omega), Nat.or_zero]
  omega

theorem unused_keeps_flag (v x k : Nat) (hk : k = 0 ∨ k = 1 ∨ k = 6 ∨ k = 7) :
    bitfield (setBitfield v 5 1 x) k 1 = bitfield v k 1 := by
  unfold bitfield setBitfield
  simp only [Nat.shiftRight_eq_div_pow, Nat.shiftLeft_eq]
  rcases hk with rfl | rfl | rfl | rfl <;> norm_num <;> omega

set_option maxRecDepth 100000 in
/-- The body of `clock()` on a conditional branch: the table entry of the
opcode byte has the mode `rel` and 2 cycles, and its callback tests `flag`. -/
theorem branch_step (b : NesBus) (m : Mnemonic) (flag : Nat) (want : Bool) (op : Nat)
    (htab : instructionMap.get op =
      { opcode := m, addrmode := .rel, size := 2, cycles := 2, opByte := op,
        callback := some m, addrmodeCallback := some .rel, implied := false })
    (hcb : ∀ s, instrCallbacks m s = Cpu6502.branchIf s flag want)
    (hidx : ¬ (Index.unpack op).c > 2)
    (hflag : flag = 0 ∨ flag = 1 ∨ flag = 6 ∨ flag = 7)
    (hop : (b.readCpu b.cpu.registers.PC false).1 = op) :
    (Cpu6502.getStatus b flag ≠ want →
      (Cpu6502.step b).cpu.cycles = 2 ∧
        (Cpu6502.step b).cpu.registers.PC = u16 (u16 (b.cpu.registers.PC + 1) + 1)) ∧
    (Cpu6502.getStatus b flag = want →
      (Cpu6502.step b).cpu.registers.PC =
          u16 (u16 (u16 (b.cpu.registers.PC + 1) + 1) +
            (if ((b.readCpu b.cpu.registers.PC false).2.readCpu
                  (u16 (b.cpu.registers.PC + 1)) false).1 &&& 0x80 ≠ 0 then
              ((b.readCpu b.cpu.registers.PC false).2.readCpu
                  (u16 (b.cpu.registers.PC + 1)) false).1 ||| 0xFF00
            else ((b.readCpu b.cpu.registers.PC false).2.readCpu
                  (u16 (b.cpu.registers.PC + 1)) false).1)) ∧
        (Cpu6502.step b).cpu.cycles =
          if u16 (u16 (u16 (b.cpu.registers.PC + 1) + 1) +
              (if ((b.readCpu b.cpu.registers.PC false).2.readCpu
                    (u16 (b.cpu.registers.PC + 1)) false).1 &&& 0x80 ≠ 0 then
                ((b.readCpu b.cpu.registers.PC false).2.readCpu
                    (u16 (b.cpu.registers.PC + 1)) false).1 ||| 0xFF00
              else ((b.readCpu b.cpu.registers.PC false).2.readCpu
                    (u16 (b.cpu.registers.PC + 1)) false).1)) &&& 0xFF00 =
              u16 (u16 (b.cpu.registers.PC + 1) + 1) &&& 0xFF00 then 3
          else 4) := by
  have f4 := NesBus.readCpu_cpu b b.cpu.registers.PC false
  rcases h0 : b.readCpu b.cpu.registers.PC false with ⟨v0, s0⟩
  rw [h0] at hop f4
  simp only at hop f4
  subst hop
  have g4 := NesBus.readCpu_cpu s0 (u16 (b.cpu.registers.PC + 1)) false
  rcases h1 : s0.readCpu (u16 (b.cpu.registers.PC + 1)) false with ⟨v1, s1⟩
  rw [h1] at g4
  simp only at g4
  have hf : Cpu6502.fetchOpcode b = { s0 with cpu := { b.cpu with
      opcode := v0
      registers := { b.cpu.registers with
        PC := u16 (b.cpu.registers.PC + 1)
        P := setBitfield b.cpu.registers.P NES_UNUSED 1 (ofBool true) } } } := by
    simp [Cpu6502.fetchOpcode, Cpu6502.readPC, Cpu6502.read, NesBus.setPC, NesBus.setRegs,
      NesBus.regs, NesBus.readCpu_withCpu, h0, Cpu6502.setStatus, f4]
  have hst : bitfield (setBitfield b.cpu.registers.P NES_UNUSED 1 (ofBool true)) flag 1 =
      bitfield b.cpu.registers.P flag 1 := unused_keeps_flag _ _ _ hflag
  have hfo : Cpu6502.fetchOperand (Cpu6502.fetchOpcode b) =
      (0, { s1 with cpu := { b.cpu with
        opcode := v0
        cycles := 2
        relativeAddress := if v1 &&& 0x80 ≠ 0 then v1 ||| 0xFF00 else v1
        registers := { b.cpu.registers with
          PC := u16 (u16 (b.cpu.registers.PC + 1) + 1)
          P := setBitfield b.cpu.registers.P NES_UNUSED 1 (ofBool true) } } }) := by
    simp [hf, Cpu6502.fetchOperand, htab, callAddrMode, addrModeCallbacks, Cpu6502.readPC,
      Cpu6502.read, NesBus.readCpu_withCpu, h1, NesBus.setPC, NesBus.setRegs, NesBus.regs,
      NesBus.setCycles, g4, f4]
  have hget : instructionMap.get (Cpu6502.fetchOpcode b).cpu.opcode =
      { opcode := m, addrmode := .rel, size := 2, cycles := 2, opByte := v0,
        callback := some m, addrmodeCallback := some .rel, implied := false } := by
    rw [hf]; exact htab
  have hidx2 : ¬ (Index.unpack (Cpu6502.fetchOpcode b).cpu.opcode).c > 2 := by
    rw [hf]; exact hidx
  constructor
  · intro hne
    have hne2 : ¬ (decide (bitfield b.cpu.registers.P flag 1 = 1) = want) := hne
    simp [Cpu6502.step, hidx2, Cpu6502.execute, hget, hfo, callInstr, hcb, Cpu6502.branchIf,
      Cpu6502.getStatus, NesBus.regs, hst, hne2, NesBus.setCycles, Cpu6502.setStatus,
      NesBus.setRegs, u16, u8]
  · intro heq
    have heq2 : decide (bitfield b.cpu.registers.P flag 1 = 1) = want := heq
    simp only [Cpu6502.step, hidx2, if_false, Cpu6502.execute, hget, hfo, callInstr, hcb,
      Cpu6502.branchIf, Cpu6502.getStatus, NesBus.regs, hst, heq2, if_true, Cpu6502.branch,
      NesBus.setCycles, NesBus.setAbs, NesBus.setPC, Cpu6502.setStatus, NesBus.setRegs]
    constructor
    · split_ifs <;> rfl
    · generalize (if v1 &&& 128 ≠ 0 then v1 ||| 65280 else v1) = rel
      by_cases hc : u16 (u16 (u16 (b.cpu.registers.PC + 1) + 1) + rel) &&& 65280 =
          u16 (u16 (b.cpu.registers.PC + 1) + 1) &&& 65280
      · simp only [hc, ne_eq, not_true_eq_false, if_true, if_false]
        rfl
      · simp only [hc, ne_eq, not_false_eq_true, if_true, if_false]
        rfl

set_option maxRecDepth 1000000 in
theorem sign_extend_byte : ∀ r, r < 256 →
    (if r &&& 0x80 ≠ 0 then r ||| 0xFF00 else r) = if r < 128 then r else r + 0xFF00 := by
  decide

set_option maxRecDepth 1000000 in
theorem branch_table (m : Mnemonic) (op flag : Nat) (want : Bool)
    (hm : (m, op, flag, want) ∈
      [(Mnemonic.BPL, 0x10, NES_NEGATIVE, false), (Mnemonic.BMI, 0x30, NES_NEGATIVE, true),
       (Mnemonic.BVC, 0x50, NES_OVERFLOW, false), (Mnemonic.BVS, 0x70, NES_OVERFLOW, true),
       (Mnemonic.BCC, 0x90, NES_CARRY, false), (Mnemonic.BCS, 0xB0, NES_CARRY, true),
       (Mnemonic.BNE, 0xD0, NES_ZERO, false), (Mnemonic.BEQ, 0xF0, NES_ZERO, true)]) :
    instructionMap.get op =
      { opcode := m, addrmode := .rel, size := 2, cycles := 2, opByte := op,
        callback := some m, addrmodeCallback := some .rel, implied := false } ∧
    (∀ s, instrCallbacks m s = Cpu6502.branchIf s flag want) ∧
    ¬ (Index.unpack op).c > 2 ∧ (flag = 0 ∨ flag = 1 ∨ flag = 6 ∨ flag = 7) := by
  simp only [List.mem_cons, Prod.mk.injEq, List.mem_singleton, List.not_mem_nil, or_false] at hm
  rcases hm with ⟨rfl, rfl, rfl, rfl⟩ | ⟨rfl, rfl, rfl, rfl⟩ | ⟨rfl, rfl, rfl, rfl⟩ |
    ⟨rfl, rfl, rfl, rfl⟩ | ⟨rfl, rfl, rfl, rfl⟩ | ⟨rfl, rfl, rfl, rfl⟩ | ⟨rfl, rfl, rfl, rfl⟩ |
    ⟨rfl, rfl, rfl, rfl⟩ <;>
  exact ⟨by decide, fun s => rfl, by decide, by decide⟩

/-- C29: a conditional branch (BPL, BMI, BVC, BVS, BCC, BCS, BNE, BEQ: opcode
bytes `$10`, `$30`, ..., `$F0`, testing N, V, C, Z for 0 or 1) located at `a`
with offset byte `r`: when the condition is false the instruction costs 2
cycles and PC becomes `a + 2`; when it is true PC becomes `a + 2 + r` with `r`
read as a signed byte, and the cost is 3 when that target is in the page of
`a + 2` and 4 otherwise (addresses modulo 65536). -/
theorem branch_cost (b : NesBus) (m : Mnemonic) (op flag : Nat) (want : Bool) (a r : Nat)
    (hm : (m, op, flag, want) ∈
      [(Mnemonic.BPL, 0x10, NES_NEGATIVE, false), (Mnemonic.BMI, 0x30, NES_NEGATIVE, true),
       (Mnemonic.BVC, 0x50, NES_OVERFLOW, false), (Mnemonic.BVS, 0x70, NES_OVERFLOW, true),
       (Mnemonic.BCC, 0x90, NES_CARRY, false), (Mnemonic.BCS, 0xB0, NES_CARRY, true),
       (Mnemonic.BNE, 0xD0, NES_ZERO, false), (Mnemonic.BEQ, 0xF0, NES_ZERO, true)])
    (ha : a < 65536) (hpc : b.cpu.registers.PC = a)
    (hop : (b.readCpu a false).1 = op)
    (hr : ((b.readCpu a false).2.readCpu ((a + 1) % 65536) false).1 = r) (hr8 : r < 256) :
    (instructionMap.get op).opcode = m ∧
    (Cpu6502.getStatus b flag ≠ want →
      Cpu6502.cost b = 2 ∧ (Cpu6502.step b).cpu.registers.PC = (a + 2) % 65536) ∧
    (Cpu6502.getStatus b flag = want →
      ((Cpu6502.step b).cpu.registers.PC : Int) =
          (a + 2 + (if r < 128 then (r : Int) else (r : Int) - 256)) % 65536 ∧
        Cpu6502.cost b =
          if (Cpu6502.step b).cpu.registers.PC / 256 = (a + 2) % 65536 / 256 then 3 else 4) := by
  obtain ⟨htab, hcb, hidx, hflag⟩ := branch_table m op flag want hm
  subst hpc
  have hs := branch_step b m flag want op htab hcb hidx hflag hop
  have hu : u16 (b.cpu.registers.PC + 1) = (b.cpu.registers.PC + 1) % 65536 := rfl
  rw [hu, hr, sign_extend_byte r hr8] at hs
  have hq : u16 ((b.cpu.registers.PC + 1) % 65536 + 1) = (b.cpu.registers.PC + 2) % 65536 := by
    unfold u16; omega
  rw [hq] at hs
  refine ⟨by rw [htab], fun hne => ⟨(hs.1 hne).1, (hs.1 hne).2⟩, fun heq => ?_⟩
  obtain ⟨hp, hc⟩ := hs.2 heq
  have hlt : (Cpu6502.step b).cpu.registers.PC < 65536 := by
    rw [hp]; exact u16_lt _
  have hq2 : (b.cpu.registers.PC + 2) % 65536 < 65536 := Nat.mod_lt _ (by norm_num)
  constructor
  · rw [hp]
    unfold u16
    split_ifs <;> omega
  · unfold Cpu6502.cost
    rw [hc, ← hp, and_FF00 _ hlt, and_FF00 _ hq2]
    split_ifs <;> omega

set_option maxRecDepth 1000000 in
/-- C29 at the machine fetching `BNE -3` at `$8100` with Z clear: the branch
is taken to `$80FF`, in another page than `$8102`, and costs 4 cycles. -/
theorem branch_cost_witness :
    ((Mnemonic.BNE, 0xD0, NES_ZERO, false) ∈
      [(Mnemonic.BPL, 0x10, NES_NEGATIVE, false), (Mnemonic.BMI, 0x30, NES_NEGATIVE, true),
       (Mnemonic.BVC, 0x50, NES_OVERFLOW, false), (Mnemonic.BVS, 0x70, NES_OVERFLOW, true),
       (Mnemonic.BCC, 0x90, NES_CARRY, false), (Mnemonic.BCS, 0xB0, NES_CARRY, true),
       (Mnemonic.BNE, 0xD0, NES_ZERO, false), (Mnemonic.BEQ, 0xF0, NES_ZERO, true)] ∧
      0x8100 < 65536 ∧ bneBus.cpu.registers.PC = 0x8100 ∧
      (bneBus.readCpu 0x8100 false).1 = 0xD0 ∧
      ((bneBus.readCpu 0x8100 false).2.readCpu ((0x8100 + 1) % 65536) false).1 = 0xFD ∧
      0xFD < 256 ∧ Cpu6502.getStatus bneBus NES_ZERO = false) ∧
    ((Cpu6502.step bneBus).cpu.registers.PC : Int) =
        (0x8100 + 2 + (if 0xFD < 128 then ((0xFD : Nat) : Int) else ((0xFD : Nat) : Int) - 256))
          % 65536 ∧
    Cpu6502.cost bneBus =
      (if (Cpu6502.step bneBus).cpu.registers.PC / 256 = (0x8100 + 2) % 65536 / 256 then 3
        else 4) ∧
    (Cpu6502.step bneBus).cpu.registers.PC = 0x80FF ∧ Cpu6502.cost bneBus = 4 :=
  ⟨⟨by decide, by decide, by decide, by decide, by decide, by decide, by decide⟩,
    ((branch_cost bneBus .BNE 0xD0 NES_ZERO false 0x8100 0xFD (by decide) (by decide)
      (by decide) (by decide) (by decide) (by decide)).2.2 (by decide)).1,
    ((branch_cost bneBus .BNE 0xD0 NES_ZERO false 0x8100 0xFD (by decide) (by decide)
      (by decide) (by decide) (by decide) (by decide)).2.2 (by decide)).2,
    by decide, by decide⟩

/-! ## Instruction cost -/

theorem InstructionMap.find_mem (m : InstructionMap) (key : Nat) (i : Instruction)
    (h : InstructionMap.find m key = some i) : (key, i) ∈ m := by
  induction m with
  | nil => simp [InstructionMap.find] at h
  | cons kv rest ih =>
    unfold InstructionMap.find at h
    split_ifs at h with hk
    · simp only [Option.some.injEq] at h
      subst h; subst hk
      exact List.mem_cons_self _ _
    · exact List.mem_cons_of_mem _ (ih h)

set_option maxRecDepth 1000000 in
theorem instructionMap_all_costEntry : instructionMap.all costEntry = true := by decide

set_option maxRecDepth 1000000 in
theorem instructionMap_find_branch (op : Nat) (h : op ∈ branchOpcodes) :
    instructionMap.find op ≠ none := by
  simp only [branchOpcodes, List.mem_cons, List.mem_singleton, List.not_mem_nil, or_false] at h
  rcases h with rfl | rfl | rfl | rfl | rfl | rfl | rfl | rfl <;> decide

theorem instructionMap_costEntry (op : Nat) :
    (instructionMap.get op).cycles ≤ 7 ∧
    (∀ m, (instructionMap.get op).callback = some m → m.isBranch = decide (op ∈ branchOpcodes)) ∧
    ((instructionMap.get op).callback = none → op ∉ branchOpcodes) := by
  unfold InstructionMap.get
  cases hf : instructionMap.find op with
  | none =>
    refine ⟨by decide, fun m hm => by simp [Instruction.blank] at hm, fun _ hmem => ?_⟩
    exact instructionMap_find_branch op hmem hf
  | some i =>
    have hmem := InstructionMap.find_mem _ _ _ hf
    have hall := List.all_eq_true.mp instructionMap_all_costEntry _ hmem
    unfold costEntry at hall
    simp only [Option.getD_some]
    simp only [Bool.and_eq_true, decide_eq_true_eq] at hall
    refine ⟨hall.1, fun m hm => ?_, fun hn => ?_⟩
    · have h2 := hall.2
      rw [hm] at h2
      simpa using h2
    · have h2 := hall.2
      rw [hn] at h2
      simpa using h2

theorem branchIf_extra (b : NesBus) (flag : Nat) (want : Bool) :
    (Cpu6502.branchIf b flag want).1 = 0 := by
  unfold Cpu6502.branchIf
  split_ifs <;> rfl

theorem instrCallbacks_extra (op : Mnemonic) (b : NesBus) : (instrCallbacks op b).1 ≤ 1 := by
  cases op <;>
    first
    | exact Nat.le_refl 1
    | exact Nat.zero_le 1
    | (show (Cpu6502.branchIf b _ _).1 ≤ 1
       rw [branchIf_extra]
       exact Nat.zero_le 1)
    | (show (Cpu6502.NOP b).1 ≤ 1
       unfold Cpu6502.NOP
       split_ifs
       · exact Nat.le_refl 1
       · exact Nat.zero_le 1)

theorem instrCallbacks_branch_extra (op : Mnemonic) (b : NesBus) (h : op.isBranch = true) :
    (instrCallbacks op b).1 = 0 := by
  cases op <;>
    first
    | exact absurd h (by decide)
    | exact branchIf_extra b _ _

theorem absIndexed_extra (b : NesBus) (r : Nat) : (Cpu6502.absIndexed b r).1 ≤ 1 := by
  unfold Cpu6502.absIndexed
  simp only
  split_ifs
  · exact Nat.le_refl 1
  · exact Nat.zero_le 1

theorem ind_extra (b : NesBus) : (Cpu6502.ind b).1 ≤ 1 := by
  unfold Cpu6502.ind
  simp only
  split_ifs <;> exact Nat.zero_le 1

theorem indY_extra (b : NesBus) : (Cpu6502.indY b).1 ≤ 1 := by
  unfold Cpu6502.indY
  simp only
  split_ifs
  · exact Nat.le_refl 1
  · exact Nat.zero_le 1

theorem addrModeCallbacks_extra (mode : AddrMode) (b : NesBus) :
    (addrModeCallbacks mode b).1 ≤ 1 := by
  cases mode with
  | absX => exact absIndexed_extra b _
  | absY => exact absIndexed_extra b _
  | ind => exact ind_extra b
  | indY => exact indY_extra b
  | _ => exact Nat.zero_le 1

theorem branch_cycles (b : NesBus) :
    (Cpu6502.branch b).cpu.cycles = u16 (b.cpu.cycles + 1) ∨
      (Cpu6502.branch b).cpu.cycles = u16 (u16 (b.cpu.cycles + 1) + 1) := by
  unfold Cpu6502.branch
  simp only
  split_ifs
  · exact Or.inr rfl
  · exact Or.inl rfl

theorem instrCallbacks_branch_cycles (op : Mnemonic) (b : NesBus) (h : op.isBranch = true) :
    (instrCallbacks op b).2.cpu.cycles = b.cpu.cycles ∨
      (instrCallbacks op b).2.cpu.cycles = u16 (b.cpu.cycles + 1) ∨
      (instrCallbacks op b).2.cpu.cycles = u16 (u16 (b.cpu.cycles + 1) + 1) := by
  have hb : ∀ flag want, (Cpu6502.branchIf b flag want).2.cpu.cycles = b.cpu.cycles ∨
      (Cpu6502.branchIf b flag want).2.cpu.cycles = u16 (b.cpu.cycles + 1) ∨
      (Cpu6502.branchIf b flag want).2.cpu.cycles = u16 (u16 (b.cpu.cycles + 1) + 1) := by
    intro flag want
    unfold Cpu6502.branchIf
    split_ifs
    · exact Or.inr (branch_cycles b)
    · exact Or.inl rfl
  cases op <;>
    first
    | exact absurd h (by decide)
    | exact hb _ _

theorem execute_cycles (b : NesBus) :
    (Cpu6502.execute b).cpu.cycles =
      u16 ((callInstr (instructionMap.get b.cpu.opcode).callback
          (Cpu6502.fetchOperand b).2).2.cpu.cycles +
        (u8 (Cpu6502.fetchOperand b).1 &&&
          (callInstr (instructionMap.get b.cpu.opcode).callback (Cpu6502.fetchOperand b).2).1)) :=
  rfl

set_option maxRecDepth 100000 in
theorem fetchOperand_cycles (b : NesBus) :
    (Cpu6502.fetchOperand b).2.cpu.cycles = (instructionMap.get b.cpu.opcode).cycles := by
  exact callAddrMode_keeps_cycles (instructionMap.get b.cpu.opcode).addrmodeCallback
    (b.setCycles (instructionMap.get b.cpu.opcode).cycles)

theorem fetchOperand_extra (b : NesBus) : (Cpu6502.fetchOperand b).1 ≤ 1 := by
  unfold Cpu6502.fetchOperand callAddrMode
  simp only
  split
  · exact addrModeCallbacks_extra _ _
  · exact Nat.zero_le 1

theorem callInstr_extra (cb : Option Mnemonic) (b : NesBus) : (callInstr cb b).1 ≤ 1 := by
  cases cb with
  | none => exact Nat.zero_le 1
  | some op => exact instrCallbacks_extra op b

theorem and_le_one (x y : Nat) (hx : x ≤ 1) (hy : y ≤ 1) : u8 x &&& y = x &&& y ∧ x &&& y ≤ 1 := by
  have h1 : x = 0 ∨ x = 1 := by omega
  have h2 : y = 0 ∨ y = 1 := by omega
  rcases h1 with rfl | rfl <;> rcases h2 with rfl | rfl <;> decide

/-- C28, amended: for every instruction `clock()` executes (low two opcode bits
not both set), the two callbacks return 0 or 1 and the cycles debited are
`instr.cycles` plus the bitwise AND of the two returned values; for the eight
conditional branches the AND is 0 and the branch itself adds 0, 1 or 2. -/
theorem instruction_cost (b : NesBus)
    (hidx : ¬ (Index.unpack (Cpu6502.fetchOpcode b).cpu.opcode).c > 2) :
    Cpu6502.addrmodeExtra b ≤ 1 ∧ Cpu6502.opcodeExtra b ≤ 1 ∧
    ((Cpu6502.fetchOpcode b).cpu.opcode ∉ branchOpcodes →
      Cpu6502.cost b =
        Cpu6502.baseCycles b + (Cpu6502.addrmodeExtra b &&& Cpu6502.opcodeExtra b)) ∧
    ((Cpu6502.fetchOpcode b).cpu.opcode ∈ branchOpcodes →
      Cpu6502.addrmodeExtra b &&& Cpu6502.opcodeExtra b = 0 ∧
      (Cpu6502.cost b = Cpu6502.baseCycles b ∨ Cpu6502.cost b = Cpu6502.baseCycles b + 1 ∨
        Cpu6502.cost b = Cpu6502.baseCycles b + 2)) := by
  have hcost : Cpu6502.cost b = (Cpu6502.execute (Cpu6502.fetchOpcode b)).cpu.cycles := by
    unfold Cpu6502.cost Cpu6502.step
    simp only [hidx, if_false, setStatus_keeps_cycles]
  have ham := fetchOperand_extra (Cpu6502.fetchOpcode b)
  have hop := callInstr_extra (instructionMap.get (Cpu6502.fetchOpcode b).cpu.opcode).callback
    (Cpu6502.fetchOperand (Cpu6502.fetchOpcode b)).2
  obtain ⟨h7, hbr, hnone⟩ := instructionMap_costEntry (Cpu6502.fetchOpcode b).cpu.opcode
  obtain ⟨hu8, hand⟩ := and_le_one _ _ ham hop
  have hfc := fetchOperand_cycles (Cpu6502.fetchOpcode b)
  rw [execute_cycles, hu8] at hcost
  refine ⟨ham, hop, fun hnb => ?_, fun hbo => ?_⟩
  · have hk : (callInstr (instructionMap.get (Cpu6502.fetchOpcode b).cpu.opcode).callback
        (Cpu6502.fetchOperand (Cpu6502.fetchOpcode b)).2).2.cpu.cycles =
        (instructionMap.get (Cpu6502.fetchOpcode b).cpu.opcode).cycles := by
      rw [← hfc]
      cases hcb : (instructionMap.get (Cpu6502.fetchOpcode b).cpu.opcode).callback with
      | none => simp only [callInstr]
      | some m =>
        have := hbr m hcb
        rw [decide_eq_false hnb] at this
        exact instrCallbacks_keeps_cycles m _ this
    rw [hcost, hk]
    unfold Cpu6502.baseCycles Cpu6502.addrmodeExtra Cpu6502.opcodeExtra u16
    omega
  · cases hcb : (instructionMap.get (Cpu6502.fetchOpcode b).cpu.opcode).callback with
    | none => exact absurd hbo (hnone hcb)
    | some m =>
      have hm := hbr m hcb
      rw [decide_eq_true hbo] at hm
      have hz : Cpu6502.opcodeExtra b = 0 := by
        unfold Cpu6502.opcodeExtra
        rw [hcb]
        exact instrCallbacks_branch_extra m _ hm
      have hcy := instrCallbacks_branch_cycles m
        (Cpu6502.fetchOperand (Cpu6502.fetchOpcode b)).2 hm
      rw [hfc] at hcy
      rw [hcb] at hcost
      have hz2 : (callInstr (some m) (Cpu6502.fetchOperand (Cpu6502.fetchOpcode b)).2).1 = 0 :=
        instrCallbacks_branch_extra m _ hm
      rw [hz2, Nat.and_zero, Nat.add_zero] at hcost
      refine ⟨by rw [hz, Nat.and_zero], ?_⟩
      unfold Cpu6502.baseCycles
      have hci : (callInstr (some m) (Cpu6502.fetchOperand (Cpu6502.fetchOpcode b)).2) =
          instrCallbacks m (Cpu6502.fetchOperand (Cpu6502.fetchOpcode b)).2 := rfl
      rw [hci] at hcost
      unfold u16 at hcost hcy
      omega

set_option maxRecDepth 1000000 in
/-- C28, counterexample: `ADC` immediate (byte `$69`) has 2 base cycles, its
addressing-mode routine returns 0 and its operation routine returns 1, and
`clock()` debits 2 cycles, not 2 + 0 + 1. -/
theorem adc_immediate_costs_two :
    (Cpu6502.fetchOpcode adcImmBus).cpu.opcode = 0x69 ∧
    ¬ (Index.unpack (Cpu6502.fetchOpcode adcImmBus).cpu.opcode).c > 2 ∧
    Cpu6502.baseCycles adcImmBus = 2 ∧ Cpu6502.addrmodeExtra adcImmBus = 0 ∧
    Cpu6502.opcodeExtra adcImmBus = 1 ∧ Cpu6502.cost adcImmBus = 2 ∧
    Cpu6502.cost adcImmBus ≠
      Cpu6502.baseCycles adcImmBus + Cpu6502.addrmodeExtra adcImmBus +
        Cpu6502.opcodeExtra adcImmBus ∧
    (Cpu6502.clock adcImmBus).cpu.cycleCount = adcImmBus.cpu.cycleCount + 2 := by
  decide

set_option maxRecDepth 1000000 in
/-- C28, amended, at the machine fetching `LDA $80FF,X` with X = 1: both
routines return 1 and the instruction costs 4 + 1 cycles. -/
theorem instruction_cost_witness :
    ¬ (Index.unpack (Cpu6502.fetchOpcode ldaCrossBus).cpu.opcode).c > 2 ∧
    (Cpu6502.addrmodeExtra ldaCrossBus ≤ 1 ∧ Cpu6502.opcodeExtra ldaCrossBus ≤ 1 ∧
      ((Cpu6502.fetchOpcode ldaCrossBus).cpu.opcode ∉ branchOpcodes →
        Cpu6502.cost ldaCrossBus =
          Cpu6502.baseCycles ldaCrossBus +
            (Cpu6502.addrmodeExtra ldaCrossBus &&& Cpu6502.opcodeExtra ldaCrossBus)) ∧
      ((Cpu6502.fetchOpcode ldaCrossBus).cpu.opcode ∈ branchOpcodes →
        Cpu6502.addrmodeExtra ldaCrossBus &&& Cpu6502.opcodeExtra ldaCrossBus = 0 ∧
        (Cpu6502.cost ldaCrossBus = Cpu6502.baseCycles ldaCrossBus ∨
          Cpu6502.cost ldaCrossBus = Cpu6502.baseCycles ldaCrossBus + 1 ∨
          Cpu6502.cost ldaCrossBus = Cpu6502.baseCycles ldaCrossBus + 2))) ∧
    (Cpu6502.fetchOpcode ldaCrossBus).cpu.opcode = 0xBD ∧
    Cpu6502.baseCycles ldaCrossBus = 4 ∧ Cpu6502.addrmodeExtra ldaCrossBus = 1 ∧
    Cpu6502.opcodeExtra ldaCrossBus = 1 ∧ Cpu6502.cost ldaCrossBus = 5 :=
  ⟨by decide, instruction_cost ldaCrossBus (by decide), by decide, by decide, by decide,
    by decide, by decide⟩

/-! ## The MMC3 IRQ enable flag -/

/-- While the IRQ is disabled and not pending, scanline ticks leave it so. -/
theorem Mapper004.scanline_disabled (m : Mapper004) (k : Nat) (he : m.irq.enable = false)
    (ha : m.irq.active = false) :
    (Mapper004.scanline^[k] m).irq.enable = false ∧ (Mapper004.scanline^[k] m).irq.active = false := by
  induction k generalizing m with
  | zero => exact ⟨he, ha⟩
  | succ k ih =>
    rw [Function.iterate_succ_apply]
    apply ih
    · unfold Mapper004.scanline
      simp only []
      split_ifs <;> simp_all
    · unfold Mapper004.scanline
      simp only []
      split_ifs <;> simp_all

/-- C30, as the code behaves: a CPU write to an address in `$E000-$FFFF` on
mapper 4 sets `irq.enable = true` whether the address is even or odd; at an
even address it also clears `irq.active`, at an odd address `irq.active`
stays as it is.  So after the write to an even address that the claim calls
a disable, the next scanline tick with `irq.counter = 0` and `irq.reload = 0`
makes `irq.active` true.  (With `irq.enable` and `irq.active` both false,
as after `reset`, scanline ticks never make `irq.active` true.) -/
theorem mmc3_irq_enable (n : Nat) (m : Mapper004) (a x d : Nat) (h1 : 0xE000 ≤ a)
    (h2 : a ≤ 0xFFFF) :
    (Mapper004.cpuMapWrite n m a x d).2.2.irq.enable = true ∧
      (a % 2 = 0 → (Mapper004.cpuMapWrite n m a x d).2.2.irq.active = false) ∧
      (a % 2 = 1 → (Mapper004.cpuMapWrite n m a x d).2.2.irq.active = m.irq.active) ∧
      (a % 2 = 0 → m.irq.counter = 0 → m.irq.reload = 0 →
        (Mapper004.scanline (Mapper004.cpuMapWrite n m a x d).2.2).irq.active = true) ∧
      (m.irq.enable = false → m.irq.active = false →
        ∀ k, (Mapper004.scanline^[k] m).irq.active = false) := by
  have e1 : ¬ (a ≥ 0x6000 ∧ a ≤ 0x7FFF) := by omega
  have e2 : ¬ (a ≥ 0x8000 ∧ a ≤ 0x9FFF) := by omega
  have e3 : ¬ (a ≥ 0xA000 ∧ a ≤ 0xBFFF) := by omega
  have e4 : ¬ (a ≥ 0xC000 ∧ a ≤ 0xDFFF) := by omega
  have e5 : a ≥ 0xE000 ∧ a ≤ 0xFFFF := ⟨h1, h2⟩
  have hm : a &&& 1 = a % 2 := Nat.and_one_is_mod a
  simp only [Mapper004.cpuMapWrite, if_neg e1, if_neg e2, if_neg e3, if_neg e4, if_pos e5, hm]
  refine ⟨?_, ?_, ?_, ?_, ?_⟩
  · split_ifs <;> rfl
  · intro h; rw [if_pos h]
  · intro h; rw [if_neg (by omega)]
  · intro h hc hr
    rw [if_pos h]
    simp [Mapper004.scanline, hc, hr]
  · intro he ha k
    exact (Mapper004.scanline_disabled m k he ha).2

/-- C30 on the mapper after `reset`: the write of `$00` to `$E000` leaves
`irq.enable = true`, and the next scanline tick makes `irqState()` true. -/
theorem mmc3_irq_enable_witness :
    (Mapper004.cpuMapWrite 2 (Mapper004.reset 2 exampleMapper004) 0xE000 0 0).2.2.irq.enable = true ∧
      (Mapper004.scanline
        (Mapper004.cpuMapWrite 2 (Mapper004.reset 2 exampleMapper004) 0xE000 0 0).2.2).irq.active =
        true :=
  have h := mmc3_irq_enable 2 (Mapper004.reset 2 exampleMapper004) 0xE000 0 0 (by decide)
    (by decide)
  ⟨h.1, h.2.2.2.1 (by decide) (by decide) (by decide)⟩

/-! ## The MMC1 mirror mode -/

theorem and_three_lt (x : Nat) : x &&& 0x03 < 4 :=
  lt_of_le_of_lt Nat.and_le_right (by norm_num)

theorem or_0C_and_three (c : Nat) : u8 (c ||| 0x0C) &&& 0x03 = c &&& 0x03 := by
  apply Nat.eq_of_testBit_eq
  intro i
  have h3 : (0x03 : Nat).testBit i = decide (i < 2) := by
    have := Nat.testBit_two_pow_sub_one 2 i
    norm_num at this
    simpa using this
  have hu : u8 (c ||| 0x0C) = (c ||| 0x0C) % 2 ^ 8 := rfl
  rw [Nat.testBit_and, Nat.testBit_and, h3, hu, Nat.testBit_mod_two_pow, Nat.testBit_or]
  by_cases hi : i < 2
  · have h8 : i < 8 := by omega
    have h12 : (0x0C : Nat).testBit i = false := by
      interval_cases i <;> decide
    simp [hi, h8, h12]
  · simp [hi]

/-- The relation between `mirrorMode` and `control` that `cpuMapWrite` keeps:
the mode is the decoding of control bits 0-1, or it still is the value `orig`
that `reset` found while control bits 0-1 are 0. -/
theorem Mapper001.cpuMapWrite_mirror (n : Nat) (m : Mapper001) (a x d orig : Nat)
    (h : m.mirrorMode = [MIRROR_ONESCREEN_LO, MIRROR_ONESCREEN_HI, MIRROR_VERTICAL,
          MIRROR_HORIZONTAL].getD (m.control &&& 0x03) 0 ∨
        (m.mirrorMode = orig ∧ m.control &&& 0x03 = 0)) :
    ((Mapper001.cpuMapWrite n m a x d).2.2.mirrorMode =
        [MIRROR_ONESCREEN_LO, MIRROR_ONESCREEN_HI, MIRROR_VERTICAL,
          MIRROR_HORIZONTAL].getD ((Mapper001.cpuMapWrite n m a x d).2.2.control &&& 0x03) 0 ∨
      ((Mapper001.cpuMapWrite n m a x d).2.2.mirrorMode = orig ∧
        (Mapper001.cpuMapWrite n m a x d).2.2.control &&& 0x03 = 0)) ∧
    (m.mirrorMode = [MIRROR_ONESCREEN_LO, MIRROR_ONESCREEN_HI, MIRROR_VERTICAL,
          MIRROR_HORIZONTAL].getD (m.control &&& 0x03) 0 →
      (Mapper001.cpuMapWrite n m a x d).2.2.mirrorMode =
        [MIRROR_ONESCREEN_LO, MIRROR_ONESCREEN_HI, MIRROR_VERTICAL,
          MIRROR_HORIZONTAL].getD ((Mapper001.cpuMapWrite n m a x d).2.2.control &&& 0x03) 0) := by
  have dec : ∀ sel : Nat, sel < 4 →
      (if sel = 0 then MIRROR_ONESCREEN_LO else if sel = 1 then MIRROR_ONESCREEN_HI
        else if sel = 2 then MIRROR_VERTICAL else MIRROR_HORIZONTAL) =
      [MIRROR_ONESCREEN_LO, MIRROR_ONESCREEN_HI, MIRROR_VERTICAL, MIRROR_HORIZONTAL].getD sel 0 := by
    intro sel hsel
    interval_cases sel <;> rfl
  unfold Mapper001.cpuMapWrite
  simp only []
  split_ifs with c1 c2 c3 c4
  · exact ⟨h, id⟩
  · simp only [or_0C_and_three]
    exact ⟨h, id⟩
  · unfold Mapper001.commit
    simp only []
    by_cases ht : (a >>> 13) &&& 0x03 = 0
    · simp only [ht, if_true]
      rw [dec _ (and_three_lt _)]
      exact ⟨Or.inl rfl, fun _ => rfl⟩
    · simp only [ht, if_false]
      split_ifs <;> exact ⟨h, id⟩
  · exact ⟨h, id⟩
  · exact ⟨h, id⟩

/-- A CPU write on a mapper 1 cartridge changes the mapper part by
`Mapper001::cpuMapWrite`. -/
theorem NesRom.cpuWrite_m001 (r : NesRom) (s : Mapper001) (w d : Nat)
    (hk : r.mapper.kind = .m001 s) :
    (r.cpuWrite w d).2.mapper.kind =
        .m001 (Mapper001.cpuMapWrite r.mapper.prgBankCount s w r.uninit d).2.2 ∧
      (r.cpuWrite w d).2.mapper.prgBankCount = r.mapper.prgBankCount ∧
      (r.cpuWrite w d).2.uninit = r.uninit := by
  rcases r with ⟨hdr, ⟨pc, cc, k⟩, prg, pl, chr, cl, un⟩
  simp only at hk
  subst hk
  simp only [NesRom.cpuWrite, Mapper.cpuMapWrite]
  split_ifs <;> exact ⟨rfl, rfl, rfl⟩

/-- Mapper 1 after any CPU writes: the relation of `Mapper001.cpuMapWrite_mirror`
between the mirror mode and the control register is kept. -/
theorem NesRom.afterWrites_m001 (ws : List (Nat × Nat)) (r : NesRom) (s : Mapper001) (orig : Nat)
    (hk : r.mapper.kind = .m001 s)
    (h : s.mirrorMode = [MIRROR_ONESCREEN_LO, MIRROR_ONESCREEN_HI, MIRROR_VERTICAL,
          MIRROR_HORIZONTAL].getD (s.control &&& 0x03) 0 ∨
        (s.mirrorMode = orig ∧ s.control &&& 0x03 = 0)) :
    ∃ t, (r.afterWrites ws).mapper.kind = .m001 t ∧
      (t.mirrorMode = [MIRROR_ONESCREEN_LO, MIRROR_ONESCREEN_HI, MIRROR_VERTICAL,
          MIRROR_HORIZONTAL].getD (t.control &&& 0x03) 0 ∨
        (t.mirrorMode = orig ∧ t.control &&& 0x03 = 0)) ∧
      (s.mirrorMode = [MIRROR_ONESCREEN_LO, MIRROR_ONESCREEN_HI, MIRROR_VERTICAL,
          MIRROR_HORIZONTAL].getD (s.control &&& 0x03) 0 →
        t.mirrorMode = [MIRROR_ONESCREEN_LO, MIRROR_ONESCREEN_HI, MIRROR_VERTICAL,
          MIRROR_HORIZONTAL].getD (t.control &&& 0x03) 0) := by
  induction ws generalizing r s with
  | nil => exact ⟨s, hk, h, id⟩
  | cons w ws ih =>
    obtain ⟨a1, -, -⟩ := NesRom.cpuWrite_m001 r s w.1 w.2 hk
    obtain ⟨b1, b2⟩ := Mapper001.cpuMapWrite_mirror r.mapper.prgBankCount s w.1 r.uninit w.2 orig h
    obtain ⟨t, c1, c2, c3⟩ := ih (r.cpuWrite w.1 w.2).2 _ a1 b1
    exact ⟨t, c1, c2, fun hs => c3 (b2 hs)⟩

/-- C31, as the code behaves: `Mapper001::reset` stores `$1C` in the control
register, whose bits 0-1 are 0, and does not touch `mirrorMode`, so after
`reset` `getMirror()` still returns the mode the mapper had before (horizontal
for a mapper just constructed) and not one-screen-lo.  After `reset` and any
CPU writes, `getMirror()` is the decoding of control bits 0-1, or it still is
the mode from before the reset while control bits 0-1 are 0; and from a state
in which it is the decoding, every CPU write leads to such a state. -/
theorem mmc1_mirror_mode (r : NesRom) (s : Mapper001) (ws : List (Nat × Nat))
    (hk : r.mapper.kind = .m001 s) :
    (r.reset.mapper.getMirror = s.mirrorMode ∧
      ∃ t, r.reset.mapper.kind = .m001 t ∧ t.control = 0x1C) ∧
    (∃ t, (r.reset.afterWrites ws).mapper.kind = .m001 t ∧
      ((r.reset.afterWrites ws).mapper.getMirror =
          [MIRROR_ONESCREEN_LO, MIRROR_ONESCREEN_HI, MIRROR_VERTICAL,
            MIRROR_HORIZONTAL].getD (t.control &&& 0x03) 0 ∨
        ((r.reset.afterWrites ws).mapper.getMirror = s.mirrorMode ∧ t.control &&& 0x03 = 0))) ∧
    (s.mirrorMode = [MIRROR_ONESCREEN_LO, MIRROR_ONESCREEN_HI, MIRROR_VERTICAL,
          MIRROR_HORIZONTAL].getD (s.control &&& 0x03) 0 →
      ∃ t, (r.afterWrites ws).mapper.kind = .m001 t ∧
        (r.afterWrites ws).mapper.getMirror =
          [MIRROR_ONESCREEN_LO, MIRROR_ONESCREEN_HI, MIRROR_VERTICAL,
            MIRROR_HORIZONTAL].getD (t.control &&& 0x03) 0) := by
  have hreset : r.reset.mapper.kind = .m001 (Mapper001.reset r.mapper.prgBankCount s) := by
    simp only [NesRom.reset, Mapper.reset, hk]
  refine ⟨⟨?_, _, hreset, rfl⟩, ?_, fun hs => ?_⟩
  · simp only [Mapper.getMirror, hreset]
    rfl
  · obtain ⟨t, b1, b2, -⟩ := NesRom.afterWrites_m001 ws r.reset _ s.mirrorMode hreset
      (Or.inr ⟨rfl, show (0x1C : Nat) &&& 0x03 = 0 from rfl⟩)
    refine ⟨t, b1, ?_⟩
    simp only [Mapper.getMirror, b1]
    exact b2
  · obtain ⟨t, b1, -, b3⟩ := NesRom.afterWrites_m001 ws r s s.mirrorMode hk (Or.inl hs)
    refine ⟨t, b1, ?_⟩
    simp only [Mapper.getMirror, b1]
    exact b3 hs

/-- C31 fails on the mapper 1 cartridge `exampleRom 1 1 1` after `reset`:
`getMirror()` returns horizontal while control bits 0-1 are 0, which decode to
one-screen-lo. -/
theorem mmc1_mirror_mode_witness :
    (exampleRom 1 1 1 (filled 0) (filled 0)).reset.mapper.getMirror = MIRROR_HORIZONTAL ∧
      (∃ t, (exampleRom 1 1 1 (filled 0) (filled 0)).reset.mapper.kind = .m001 t ∧
        t.control = 0x1C) ∧
      [MIRROR_ONESCREEN_LO, MIRROR_ONESCREEN_HI, MIRROR_VERTICAL,
        MIRROR_HORIZONTAL].getD (0x1C &&& 0x03) 0 = MIRROR_ONESCREEN_LO ∧
      MIRROR_HORIZONTAL ≠ MIRROR_ONESCREEN_LO :=
  have h := (mmc1_mirror_mode (exampleRom 1 1 1 (filled 0) (filled 0))
    (Mapper001.reset 1 exampleMapper001) [] rfl).1
  ⟨h.1, h.2, by decide, by decide⟩

/-! ## The pulse envelope -/

theorem PulseEnvelope.clock_eq_reference (e : PulseEnvelope) (loop : Bool) :
    e.clock loop = e.reference loop := by
  rcases e with ⟨st, dis, dc, vol, out, dec⟩
  unfold PulseEnvelope.clock PulseEnvelope.reference
  cases st <;> cases dis <;> cases loop <;>
    by_cases h1 : dc = 0 <;> by_cases h2 : dec = 0 <;>
    simp [h1, h2, DECAY_BASE, Nat.pos_iff_ne_zero]

theorem PulseEnvelope.clock_decay (e : PulseEnvelope) (h : e.start = false) :
    (e.clock false).start = false ∧ (e.clock false).decayCount ≤ e.decayCount := by
  rw [PulseEnvelope.clock_eq_reference]
  unfold PulseEnvelope.reference
  simp only [h]
  refine ⟨trivial, ?_⟩
  simp only [Bool.false_eq_true, if_false]
  split_ifs <;> omega

theorem PulseEnvelope.iterate_decay (e : PulseEnvelope) (h : e.start = false) (n : Nat) :
    ((fun x : PulseEnvelope => x.clock false)^[n] e).start = false ∧
      ((fun x : PulseEnvelope => x.clock false)^[n + 1] e).decayCount ≤
        ((fun x : PulseEnvelope => x.clock false)^[n] e).decayCount := by
  induction n generalizing e with
  | zero => exact ⟨h, (PulseEnvelope.clock_decay e h).2⟩
  | succ n ih =>
    rw [Function.iterate_succ_apply, Function.iterate_succ_apply]
    exact ih (e.clock false) (PulseEnvelope.clock_decay e h).1

theorem PulseEnvelope.iterate_decay_le (e : PulseEnvelope) (h : e.start = false) (n : Nat) :
    ((fun x : PulseEnvelope => x.clock false)^[n] e).decayCount ≤ e.decayCount := by
  induction n generalizing e with
  | zero => exact Nat.le_refl _
  | succ n ih =>
    rw [Function.iterate_succ_apply]
    exact Nat.le_trans (ih (e.clock false) (PulseEnvelope.clock_decay e h).1)
      (PulseEnvelope.clock_decay e h).2

/-- C34: one `PulseEnvelope::clock(loop)` step equals the reference step; and
with `start` clear and `loop` false the decay value never increases from one
step to the next and, once it is 0, is 0 after every further number of
steps. -/
theorem envelope_clock (e : PulseEnvelope) (loop : Bool) :
    e.clock loop = e.reference loop ∧
      (e.start = false →
        ∀ n, ((fun x : PulseEnvelope => x.clock false)^[n + 1] e).decayCount ≤
              ((fun x : PulseEnvelope => x.clock false)^[n] e).decayCount ∧
            (e.decayCount = 0 →
              ((fun x : PulseEnvelope => x.clock false)^[n] e).decayCount = 0)) := by
  refine ⟨PulseEnvelope.clock_eq_reference e loop, fun h n => ⟨?_, fun h0 => ?_⟩⟩
  · exact (PulseEnvelope.iterate_decay e h n).2
  · have := PulseEnvelope.iterate_decay_le e h n
    omega

/-- C34 on `decayingEnvelope`: the decay value goes 3, 2, 2, 2, 1 and never up. -/
theorem envelope_clock_witness :
    decayingEnvelope.start = false ∧
      ((fun x : PulseEnvelope => x.clock false)^[3 + 1] decayingEnvelope).decayCount ≤
        ((fun x : PulseEnvelope => x.clock false)^[3] decayingEnvelope).decayCount ∧
      ((fun x : PulseEnvelope => x.clock false)^[1] decayingEnvelope).decayCount = 2 ∧
      ((fun x : PulseEnvelope => x.clock false)^[4] decayingEnvelope).decayCount = 1 :=
  ⟨rfl, ((envelope_clock decayingEnvelope false).2 rfl 3).1, by decide, by decide⟩

/-! ## iNES 2.0 sizes -/

theorem readBytes_length (st : List Nat) (n : Nat) (old : List Nat) (h : old.length = n) :
    (readBytes st n old).1.length = n := by
  unfold readBytes
  simp only [List.length_append, List.length_take, List.length_drop, h]
  omega

theorem u8_extension (x p : Nat) : u8 ((x <<< 8) ||| u8 p) = u8 p := by
  have hp : u8 p < 2 ^ 8 := u8_lt p
  have hor := Nat.mul_add_lt_is_or hp x
  rw [Nat.shiftLeft_eq, Nat.mul_comm, ← hor]
  unfold u8
  omega

/-- C37, as the code behaves: for a file with a valid signature detected as
iNES 2.0, the sizes extended with the `flags8` bits are stored back into the
one-byte header fields, so the extension bits are lost: the PRG store has
`16384 * prg_size` bytes and the CHR store `8192 * chr_size` bytes (8192 when
`chr_size` is 0), whatever `flags8` holds. -/
theorem ines2_sizes (old : Header) (indet : Nat → Nat) (file : List Nat)
    (hlen : 16 ≤ file.length)
    (hv : (Header.ofBytes (file.take 16)).isValid = true)
    (h2 : u8 (Header.ofBytes (file.take 16)).flags7 &&& 0x0C = 0x08) :
    (NesRom.construct old indet file).prg.length =
        16384 * u8 (Header.ofBytes (file.take 16)).prgSize ∧
      (NesRom.construct old indet file).chr.length =
        (if u8 (Header.ofBytes (file.take 16)).chrSize = 0 then 8192
          else 8192 * u8 (Header.ofBytes (file.take 16)).chrSize) ∧
      (NesRom.construct old indet file).header.prgSize =
        u8 (Header.ofBytes (file.take 16)).prgSize ∧
      (NesRom.construct old indet file).header.chrSize =
        u8 (Header.ofBytes (file.take 16)).chrSize := by
  have hh := readBytes_header_of_le file old hlen
  simp only [NesRom.construct, hh, hv, not_true_eq_false, if_false, h2, if_true,
    show ¬ ((2 : Nat) = 1) by decide, u8_extension, u8_u8]
  refine ⟨?_, ?_, trivial, trivial⟩
  · exact readBytes_length _ _ _ (List.length_replicate _ _)
  · by_cases hc : u8 (Header.ofBytes (file.take 16)).chrSize = 0
    · simp only [hc, gt_iff_lt, lt_self_iff_false, if_false, if_true]
      exact List.length_replicate _ _
    · have hc2 : 0 < u8 (Header.ofBytes (file.take 16)).chrSize := Nat.pos_of_ne_zero hc
      simp only [hc, gt_iff_lt, hc2, if_false, if_true]
      exact readBytes_length _ _ _ (List.length_replicate _ _)

set_option maxRecDepth 1000000 in
/-- C37 fails on `ines2File`: with `flags8 = $09` the PRG store has 16384
bytes, not `16384 * ((1 << 8) | 1)`, and the CHR store 8192 bytes. -/
theorem ines2_sizes_witness :
    (16 ≤ ines2File.length ∧ (Header.ofBytes (ines2File.take 16)).isValid = true ∧
      u8 (Header.ofBytes (ines2File.take 16)).flags7 &&& 0x0C = 0x08 ∧
      (Header.ofBytes (ines2File.take 16)).flags8 = 0x09 ∧
      (Header.ofBytes (ines2File.take 16)).prgSize = 1) ∧
    (NesRom.construct (exampleHeader 0 0 0 0) (filled 0) ines2File).prg.length = 16384 ∧
    (NesRom.construct (exampleHeader 0 0 0 0) (filled 0) ines2File).chr.length = 8192 ∧
    16384 * (((0x09 &&& 0x07) <<< 8) ||| 1) = 4210688 :=
  have h := ines2_sizes (exampleHeader 0 0 0 0) (filled 0) ines2File (by decide) (by decide)
    (by decide)
  ⟨⟨by decide, by decide, by decide, by decide, by decide⟩, h.1.trans (by decide),
    h.2.1.trans (by decide), by decide⟩

/-! ## The mapper IRQ -/

theorem Mapper.irqClear_irqState (m : Mapper) : m.irqClear.irqState = false := by
  unfold Mapper.irqClear Mapper.irqState
  cases hk : m.kind <;> simp [hk]

theorem Cpu6502.push_rom (b : NesBus) (d : Nat) (hS : b.cpu.registers.S < 256) :
    (Cpu6502.push b d).rom = b.rom ∧ (Cpu6502.push b d).cpu.registers.S < 256 := by
  rw [Cpu6502.push_eq b d hS]
  exact ⟨rfl, Nat.mod_lt _ (by norm_num)⟩

theorem Cpu6502.interrupt_rom (b : NesBus) (v : Nat) (hS : b.cpu.registers.S < 256) :
    (Cpu6502.interrupt b v).rom = b.rom := by
  unfold Cpu6502.interrupt
  simp only [NesBus.setPC, NesBus.setRegs, NesBus.setAbs, Cpu6502.read, NesBus.readCpu_rom]
  generalize (b.regs.PC >>> 8 &&& 255) = d1
  obtain ⟨r1, s1⟩ := Cpu6502.push_rom b d1 hS
  generalize Cpu6502.push b d1 = b1 at r1 s1 ⊢
  generalize (b1.regs.PC &&& 255) = d2
  obtain ⟨r2, s2⟩ := Cpu6502.push_rom b1 d2 s1
  generalize Cpu6502.push b1 d2 = b2 at r2 s2 ⊢
  have s3 : (Cpu6502.setStatus (Cpu6502.setStatus (Cpu6502.setStatus b2 NES_BFLAG false)
      NES_UNUSED true) NES_INTERRUPT true).cpu.registers.S < 256 := s2
  rw [(Cpu6502.push_rom _ _ s3).1]
  exact r2.trans r1

/-- The interrupt tests at the end of `NesBus::clock` leave no mapper IRQ
pending. -/
theorem NesBus.interrupts_irqState (b : NesBus) (hS : b.cpu.registers.S < 256) :
    b.interrupts.rom.mapper.irqState = false := by
  have key : ∀ x : NesBus, x.cpu.registers.S < 256 →
      (if x.rom.mapper.irqState then
        Cpu6502.interruptRequest { x with rom := { x.rom with mapper := x.rom.mapper.irqClear } }
      else x).rom.mapper.irqState = false := by
    intro x hx
    by_cases h : x.rom.mapper.irqState = true
    · rw [if_pos h]
      unfold Cpu6502.interruptRequest
      split_ifs
      · have hr := Cpu6502.interrupt_rom
          ({ x with rom := { x.rom with mapper := x.rom.mapper.irqClear } } : NesBus) 0xFFFE hx
        show (Cpu6502.interrupt _ 0xFFFE).rom.mapper.irqState = false
        rw [hr]
        exact Mapper.irqClear_irqState _
      · exact Mapper.irqClear_irqState _
    · rw [if_neg h]
      simpa using h
  have hdef : ∀ y : NesBus,
      y = (if b.ppu.nmi then
            Cpu6502.nonMaskableInterrupt { b with ppu := { b.ppu with nmi := false } }
          else b) →
      b.interrupts =
        (if y.rom.mapper.irqState then
          Cpu6502.interruptRequest { y with rom := { y.rom with mapper := y.rom.mapper.irqClear } }
        else y) := by
    intro y hy
    subst hy
    rfl
  rw [hdef _ rfl]
  apply key
  split_ifs with hn
  · have hf := Cpu6502.interrupt_frame ({ b with ppu := { b.ppu with nmi := false } } : NesBus)
      0xFFFA (by norm_num) (by norm_num) hS
    exact hf.2.2.2.1
  · exact hS

theorem NesBus.interrupts_masked (b : NesBus) (hn : b.ppu.nmi = false)
    (hq : b.rom.mapper.irqState = true) (hi : Cpu6502.getStatus b NES_INTERRUPT = true) :
    b.interrupts = { b with rom := { b.rom with mapper := b.rom.mapper.irqClear } } := by
  unfold NesBus.interrupts
  simp only [hn, Bool.false_eq_true, if_false, hq, if_true]
  unfold Cpu6502.interruptRequest
  rw [if_neg]
  rw [show Cpu6502.getStatus
    { b with rom := { b.rom with mapper := b.rom.mapper.irqClear } } NES_INTERRUPT =
      Cpu6502.getStatus b NES_INTERRUPT from rfl, hi]
  decide

/-- C36, as the code behaves: `NesBus::clock` clears the mapper IRQ in the
same call that finds it raised, whether or not the CPU takes it: after every
call `irqState()` is false.  When the call finds the IRQ raised while the I
flag is set (and no NMI is pending), the CPU is left as it was, nothing is
pushed, and the request is gone. -/
theorem irq_dropped (b : NesBus) (hS : b.beforeInterrupts.cpu.registers.S < 256) :
    b.clock.rom.mapper.irqState = false ∧
      (b.beforeInterrupts.rom.mapper.irqState = true → b.beforeInterrupts.ppu.nmi = false →
        Cpu6502.getStatus b.beforeInterrupts NES_INTERRUPT = true →
        b.clock.cpu = b.beforeInterrupts.cpu ∧ b.clock.memory = b.beforeInterrupts.memory) := by
  have hc : b.clock = { b.beforeInterrupts.interrupts with
      systemClockCount := u32 (b.beforeInterrupts.interrupts.systemClockCount + 1) } := rfl
  rw [hc]
  refine ⟨NesBus.interrupts_irqState _ hS, fun hq hn hi => ?_⟩
  rw [NesBus.interrupts_masked _ hn hq hi]
  exact ⟨rfl, rfl⟩

set_option maxRecDepth 1000000 in
/-- C36 fails on `irqMachine`: the PPU tick raises the mapper IRQ while the I
flag is set; after the call `irqState()` is false, the CPU has not moved, and
`irqState()` is still false after the next call: the request is lost. -/
theorem irq_dropped_witness :
    (irqMachine.beforeInterrupts.cpu.registers.S < 256 ∧
      irqMachine.rom.mapper.irqState = false ∧
      irqMachine.beforeInterrupts.rom.mapper.irqState = true ∧
      irqMachine.beforeInterrupts.ppu.nmi = false ∧
      Cpu6502.getStatus irqMachine.beforeInterrupts NES_INTERRUPT = true) ∧
    irqMachine.clock.rom.mapper.irqState = false ∧
    irqMachine.clock.cpu = irqMachine.beforeInterrupts.cpu ∧
    irqMachine.clock.cpu.registers.PC = 0x8000 ∧ irqMachine.clock.cpu.registers.S = 0xFD :=
  have h := irq_dropped irqMachine (by decide)
  ⟨⟨by decide, by decide, by decide, by decide, by decide⟩, h.1,
    (h.2 (by decide) (by decide) (by decide)).1, by decide, by decide⟩

/-! ## SBC -/

set_option maxRecDepth 1000000 in
theorem xor_FF (m : Nat) (hm : m < 256) : m ^^^ 0x00FF = 255 - m := by
  have h : ∀ m, m < 256 → m ^^^ 0x00FF = 255 - m := by decide
  exact h m hm

/-- The overflow formula of `SBC`: bit 7 of `(a ^ t) & (t ^ v)` is set exactly
when `a` and `v` have the same bit 7 and `t` has the other one. -/
theorem sbc_overflow (a v t : Nat) :
    ((a ^^^ t) &&& (t ^^^ v)) &&& 0x80 ≠ 0 ↔
      (a / 128 % 2 = v / 128 % 2 ∧ t / 128 % 2 ≠ a / 128 % 2) := by
  rw [and_80_ne_zero, Nat.testBit_and, Nat.testBit_xor, Nat.testBit_xor,
    testBit_seven a, testBit_seven v, testBit_seven t]
  by_cases h1 : a / 128 % 2 = 1 <;> by_cases h2 : v / 128 % 2 = 1 <;>
    by_cases h3 : t / 128 % 2 = 1 <;> simp [h1, h2, h3] <;> omega

/-- The callback `ADC` on byte operands, as explicit values. -/
theorem ADC_values (b : NesBus) (A M C : Nat) (hA : b.cpu.registers.A = A)
    (hM : (Cpu6502.fetch b).cpu.inputAlu = M) (hC : ofBool (Cpu6502.getStatus b NES_CARRY) = C)
    (hAlt : A < 256) (hMlt : M < 256) (hP : b.cpu.registers.P < 256) :
    (Cpu6502.ADC b).2.cpu.registers.A = (A + M + C) % 256 ∧
      Cpu6502.getStatus (Cpu6502.ADC b).2 NES_CARRY = decide (A + M + C > 255) ∧
      Cpu6502.getStatus (Cpu6502.ADC b).2 NES_OVERFLOW =
        decide ((A < 128 ∧ M < 128 ∧ (A + M + C) / 128 % 2 = 1) ∨
          (128 ≤ A ∧ 128 ≤ M ∧ (A + M + C) / 128 % 2 = 0)) ∧
      Cpu6502.getStatus (Cpu6502.ADC b).2 NES_ZERO = decide ((A + M + C) % 256 = 0) ∧
      Cpu6502.getStatus (Cpu6502.ADC b).2 NES_NEGATIVE = decide ((A + M + C) % 256 ≥ 128) := by
  have hC2 : C < 2 := by rw [← hC]; unfold ofBool; split_ifs <;> omega
  have hregs := fetch_registers b
  have hcarry : ofBool (Cpu6502.getStatus (Cpu6502.fetch b) NES_CARRY) = C := by
    rw [← hC]; unfold Cpu6502.getStatus NesBus.regs; rw [hregs]
  have hP' : (Cpu6502.fetch b).cpu.registers.P < 256 := by rw [hregs]; exact hP
  have hA' : (Cpu6502.fetch b).cpu.registers.A = A := by rw [hregs]; exact hA
  simp only [Cpu6502.ADC]
  generalize Cpu6502.fetch b = f at hM hcarry hP' hA' ⊢
  simp only [Cpu6502.getStatus, NesBus.regs] at hcarry
  have hs : u16 (A + M + C) = A + M + C := u16_of_lt (by omega)
  have hand : (A + M + C) &&& 0x00FF = (A + M + C) % 256 := by
    have := Nat.and_pow_two_sub_one_eq_mod (A + M + C) 8
    norm_num at this
    exact this
  obtain ⟨g1, g2, g3, g4⟩ := adc_flags f.cpu.registers.P hP' (decide (A + M + C > 255))
    (decide ((A + M + C) % 256 = 0))
    (toBool ((bnot (A ^^^ M) &&& (A ^^^ (A + M + C))) &&& 0x0080))
    (toBool ((A + M + C) &&& 0x80))
  simp only [NesBus.regs, NesBus.setTemp, NesBus.setA, NesBus.setRegs, Cpu6502.setStatus,
    Cpu6502.getStatus, hM, hA', hs, hand, hcarry, g1, g2, g3, g4]
  have ob : ∀ x : Bool, decide (ofBool x = 1) = x := by decide
  have tb : ∀ y : Nat, toBool y = decide (y ≠ 0) := by
    intro y; unfold toBool; cases h : decide (y ≠ 0) <;> simp_all
  have ov1 := adc_overflow A M (A + M + C) hAlt hMlt
  have hn : (A + M + C) &&& 0x80 ≠ 0 ↔ (A + M + C) % 256 ≥ 128 := by
    rw [and_80_ne_zero, testBit_seven, decide_eq_true_iff]; omega
  simp only [ob, tb]
  refine ⟨trivial, trivial, ?_, trivial, ?_⟩
  · rw [decide_eq_decide, ov1]
  · rw [decide_eq_decide, hn]

/-- The callback `SBC` on byte operands, as explicit values: those of `ADC`
with the operand `255 - M`. -/
theorem SBC_values (b : NesBus) (A M C : Nat) (hA : b.cpu.registers.A = A)
    (hM : (Cpu6502.fetch b).cpu.inputAlu = M) (hC : ofBool (Cpu6502.getStatus b NES_CARRY) = C)
    (hAlt : A < 256) (hMlt : M < 256) (hP : b.cpu.registers.P < 256) :
    (Cpu6502.SBC b).2.cpu.registers.A = (A + (255 - M) + C) % 256 ∧
      Cpu6502.getStatus (Cpu6502.SBC b).2 NES_CARRY = decide (A + (255 - M) + C > 255) ∧
      Cpu6502.getStatus (Cpu6502.SBC b).2 NES_OVERFLOW =
        decide ((A < 128 ∧ 255 - M < 128 ∧ (A + (255 - M) + C) / 128 % 2 = 1) ∨
          (128 ≤ A ∧ 128 ≤ 255 - M ∧ (A + (255 - M) + C) / 128 % 2 = 0)) ∧
      Cpu6502.getStatus (Cpu6502.SBC b).2 NES_ZERO = decide ((A + (255 - M) + C) % 256 = 0) ∧
      Cpu6502.getStatus (Cpu6502.SBC b).2 NES_NEGATIVE =
        decide ((A + (255 - M) + C) % 256 ≥ 128) := by
  have hC2 : C < 2 := by rw [← hC]; unfold ofBool; split_ifs <;> omega
  have hregs := fetch_registers b
  have hcarry : ofBool (Cpu6502.getStatus (Cpu6502.fetch b) NES_CARRY) = C := by
    rw [← hC]; unfold Cpu6502.getStatus NesBus.regs; rw [hregs]
  have hP' : (Cpu6502.fetch b).cpu.registers.P < 256 := by rw [hregs]; exact hP
  have hA' : (Cpu6502.fetch b).cpu.registers.A = A := by rw [hregs]; exact hA
  simp only [Cpu6502.SBC]
  generalize Cpu6502.fetch b = f at hM hcarry hP' hA' ⊢
  simp only [Cpu6502.getStatus, NesBus.regs] at hcarry
  have hx := xor_FF M hMlt
  have hs : u16 (A + (255 - M) + C) = A + (255 - M) + C := u16_of_lt (by omega)
  have hand : (A + (255 - M) + C) &&& 0x00FF = (A + (255 - M) + C) % 256 := by
    have := Nat.and_pow_two_sub_one_eq_mod (A + (255 - M) + C) 8
    norm_num at this
    exact this
  obtain ⟨g1, g2, g3, g4⟩ := adc_flags f.cpu.registers.P hP'
    (toBool ((A + (255 - M) + C) &&& 0xFF00))
    (decide ((A + (255 - M) + C) % 256 = 0))
    (toBool ((A ^^^ (A + (255 - M) + C)) &&& ((A + (255 - M) + C) ^^^ (255 - M)) &&& 0x0080))
    (toBool ((A + (255 - M) + C) &&& 0x80))
  simp only [NesBus.regs, NesBus.setTemp, NesBus.setA, NesBus.setRegs, Cpu6502.setStatus,
    Cpu6502.getStatus, hM, hA', hx, hs, hand, hcarry, g1, g2, g3, g4]
  have ob : ∀ x : Bool, decide (ofBool x = 1) = x := by decide
  have tb : ∀ y : Nat, toBool y = decide (y ≠ 0) := by
    intro y; unfold toBool; cases h : decide (y ≠ 0) <;> simp_all
  have ov1 := sbc_overflow A (255 - M) (A + (255 - M) + C)
  have hn : (A + (255 - M) + C) &&& 0x80 ≠ 0 ↔ (A + (255 - M) + C) % 256 ≥ 128 := by
    rw [and_80_ne_zero, testBit_seven, decide_eq_true_iff]; omega
  have hcy : (A + (255 - M) + C) &&& 0xFF00 ≠ 0 ↔ A + (255 - M) + C > 255 := by
    rw [and_FF00 _ (by omega)]; omega
  simp only [ob, tb]
  refine ⟨trivial, ?_, ?_, trivial, ?_⟩
  · rw [decide_eq_decide, hcy]
  · rw [decide_eq_decide, ov1]
    omega
  · rw [decide_eq_decide, hn]

/-- C39: for every accumulator byte `A`, operand byte `M` and carry `C`, the
callback `SBC` with operand `M` leaves the same accumulator and the same C, Z,
V and N flags as the callback `ADC` with operand `M xor $FF`; the accumulator
is `(A - M - (1 - C)) mod 256`, the carry flag is set exactly when
`A >= M + (1 - C)`, and the overflow flag exactly when
`signed(A) - signed(M) - (1 - C)` lies outside `-128 .. 127`. -/
theorem sbc_as_adc (b c : NesBus) (A M C : Nat)
    (hA : b.cpu.registers.A = A) (hA2 : c.cpu.registers.A = A)
    (hM : (Cpu6502.fetch b).cpu.inputAlu = M)
    (hM2 : (Cpu6502.fetch c).cpu.inputAlu = M ^^^ 0xFF)
    (hC : ofBool (Cpu6502.getStatus b NES_CARRY) = C)
    (hC2 : ofBool (Cpu6502.getStatus c NES_CARRY) = C)
    (hAlt : A < 256) (hMlt : M < 256) (hP : b.cpu.registers.P < 256)
    (hP2 : c.cpu.registers.P < 256) :
    (Cpu6502.SBC b).2.cpu.registers.A = (Cpu6502.ADC c).2.cpu.registers.A ∧
      Cpu6502.getStatus (Cpu6502.SBC b).2 NES_CARRY =
        Cpu6502.getStatus (Cpu6502.ADC c).2 NES_CARRY ∧
      Cpu6502.getStatus (Cpu6502.SBC b).2 NES_ZERO =
        Cpu6502.getStatus (Cpu6502.ADC c).2 NES_ZERO ∧
      Cpu6502.getStatus (Cpu6502.SBC b).2 NES_OVERFLOW =
        Cpu6502.getStatus (Cpu6502.ADC c).2 NES_OVERFLOW ∧
      Cpu6502.getStatus (Cpu6502.SBC b).2 NES_NEGATIVE =
        Cpu6502.getStatus (Cpu6502.ADC c).2 NES_NEGATIVE ∧
      (((Cpu6502.SBC b).2.cpu.registers.A : Nat) : Int) = ((A : Int) - M - (1 - C)) % 256 ∧
      (Cpu6502.getStatus (Cpu6502.SBC b).2 NES_CARRY = true ↔ A ≥ M + (1 - C)) ∧
      (Cpu6502.getStatus (Cpu6502.SBC b).2 NES_OVERFLOW = true ↔
        ((if A ≥ 128 then (A : Int) - 256 else A) - (if M ≥ 128 then (M : Int) - 256 else M) -
              (1 - C) < -128 ∨
          (if A ≥ 128 then (A : Int) - 256 else A) - (if M ≥ 128 then (M : Int) - 256 else M) -
              (1 - C) > 127)) := by
  have hC3 : C < 2 := by rw [← hC]; unfold ofBool; split_ifs <;> omega
  have hx := xor_FF M hMlt
  rw [show (0xFF : Nat) = 0x00FF from rfl, hx] at hM2
  obtain ⟨s1, s2, s3, s4, s5⟩ := SBC_values b A M C hA hM hC hAlt hMlt hP
  obtain ⟨a1, a2, a3, a4, a5⟩ := ADC_values c A (255 - M) C hA2 hM2 hC2 hAlt (by omega) hP2
  refine ⟨s1.trans a1.symm, s2.trans a2.symm, s4.trans a4.symm, s3.trans a3.symm,
    s5.trans a5.symm, ?_, ?_, ?_⟩
  · rw [s1]
    omega
  · rw [s2, decide_eq_true_iff]
    omega
  · rw [s3, decide_eq_true_iff]
    split_ifs <;> omega

set_option maxRecDepth 1000000 in
/-- C39 on `sbcMachine` and `adcMachine`: `SBC` of `$AF` and `ADC` of `$50`
with `A = $50` and carry set both leave `A = $A1` with V and N set. -/
theorem sbc_as_adc_witness :
    (sbcMachine.cpu.registers.A = 0x50 ∧ adcMachine.cpu.registers.A = 0x50 ∧
      (Cpu6502.fetch sbcMachine).cpu.inputAlu = 0xAF ∧
      (Cpu6502.fetch adcMachine).cpu.inputAlu = 0xAF ^^^ 0xFF ∧
      ofBool (Cpu6502.getStatus sbcMachine NES_CARRY) = 1 ∧
      ofBool (Cpu6502.getStatus adcMachine NES_CARRY) = 1) ∧
    (Cpu6502.SBC sbcMachine).2.cpu.registers.A = (Cpu6502.ADC adcMachine).2.cpu.registers.A ∧
    Cpu6502.getStatus (Cpu6502.SBC sbcMachine).2 NES_OVERFLOW =
      Cpu6502.getStatus (Cpu6502.ADC adcMachine).2 NES_OVERFLOW ∧
    (Cpu6502.SBC sbcMachine).2.cpu.registers.A = 0xA1 ∧
    Cpu6502.getStatus (Cpu6502.SBC sbcMachine).2 NES_OVERFLOW = true :=
  have h := sbc_as_adc sbcMachine adcMachine 0x50 0xAF 1 (by decide) (by decide) (by decide)
    (by decide) (by decide) (by decide) (by decide) (by decide) (by decide) (by decide)
  ⟨⟨by decide, by decide, by decide, by decide, by decide, by decide⟩, h.1, h.2.2.2.1,
    by decide, by decide⟩

/-! ## JSR and RTS -/

set_option maxRecDepth 1000000 in
theorem instructionMap_get_20 : instructionMap.get 0x20 =
    { opcode := .JSR, addrmode := .abs, size := 3, cycles := 6, opByte := 0x20,
      callback := some .JSR, addrmodeCallback := some .abs, implied := false } := by
  decide

set_option maxRecDepth 1000000 in
theorem instructionMap_get_60 : instructionMap.get 0x60 =
    { opcode := .RTS, addrmode := .impl, size := 1, cycles := 6, opByte := 0x60,
      callback := some .RTS, addrmodeCallback := some .impl, implied := true } := by
  decide

theorem stack_index (s : Nat) (h : s < 256) : (0x0100 + s) &&& 0x07FF = 0x0100 + s := by
  have h1 : (0x0100 + s) &&& 0x07FF = (0x0100 + s) % 0x0800 :=
    Nat.and_pow_two_sub_one_eq_mod (0x0100 + s) 11
  rw [h1]
  omega

theorem unused_twice (v x : Nat) :
    setBitfield (setBitfield v NES_UNUSED 1 x) NES_UNUSED 1 x = setBitfield v NES_UNUSED 1 x := by
  unfold setBitfield NES_UNUSED
  simp only [Nat.shiftRight_eq_div_pow, Nat.shiftLeft_eq]
  norm_num
  omega

theorem byte_hi (x : Nat) : u8 ((x >>> 8) &&& 0x00FF) = x / 256 % 256 := by
  have := Nat.and_pow_two_sub_one_eq_mod (x >>> 8) 8
  norm_num at this
  rw [this, Nat.shiftRight_eq_div_pow]
  show (x / 2 ^ 8 % 256) % 256 = _
  norm_num

theorem byte_lo (x : Nat) : u8 (x &&& 0x00FF) = x % 256 := by
  have := Nat.and_pow_two_sub_one_eq_mod x 8
  norm_num at this
  rw [this]
  show x % 256 % 256 = _
  omega

set_option maxRecDepth 100000 in
/-- The callback `JSR` on a CPU whose register `S` is a byte. -/
theorem Cpu6502.JSR_eq (b : NesBus) (hS : b.cpu.registers.S < 256) :
    Cpu6502.JSR b =
      (0, { b with
        memory :=
          store (store b.memory (0x0100 + b.cpu.registers.S)
              ((b.cpu.registers.PC + 65535) % 65536 / 256 % 256))
            (0x0100 + (b.cpu.registers.S + 255) % 256)
            ((b.cpu.registers.PC + 65535) % 65536 % 256)
        cpu := { b.cpu with
          registers := { b.cpu.registers with
            S := (b.cpu.registers.S + 254) % 256
            PC := b.cpu.absoluteAddress } } }) := by
  have hS1 : (b.cpu.registers.S + 255) % 256 < 256 := Nat.mod_lt _ (by norm_num)
  have hss : ((b.cpu.registers.S + 255) % 256 + 255) % 256 = (b.cpu.registers.S + 254) % 256 := by
    omega
  have hsh : ∀ x : Nat, x >>> 8 % 256 = x / 256 % 256 := by
    intro x
    rw [Nat.shiftRight_eq_div_pow]
  simp only [Cpu6502.JSR, NesBus.setPC, NesBus.setRegs, NesBus.regs, Cpu6502.push_eq, hS, hS1,
    byte_hi, byte_lo, hss, u16, hsh]

set_option maxRecDepth 100000 in
/-- The body of `clock()` on `JSR` (`$20`) with `S` a byte: the three bytes of
the instruction are read, `PC + 2` is pushed high byte first, and `PC` becomes
the operand. -/
theorem jsr_step (b s0 s1 s2 : NesBus) (lo hi : Nat) (hS : b.cpu.registers.S < 256)
    (h0 : b.readCpu b.cpu.registers.PC false = (0x20, s0))
    (h1 : s0.readCpu (u16 (b.cpu.registers.PC + 1)) false = (lo, s1))
    (h2 : s1.readCpu (u16 (u16 (b.cpu.registers.PC + 1) + 1)) false = (hi, s2)) :
    Cpu6502.step b =
      { s2 with
        memory :=
          store (store b.memory (0x0100 + b.cpu.registers.S)
              ((b.cpu.registers.PC + 2) % 65536 / 256 % 256))
            (0x0100 + (b.cpu.registers.S + 255) % 256) ((b.cpu.registers.PC + 2) % 65536 % 256)
        cpu := { b.cpu with
          opcode := 0x20
          cycles := 6
          cycleCount := u32 (b.cpu.cycleCount + 6)
          absoluteAddress := u16 ((hi <<< 8) ||| lo)
          registers := { b.cpu.registers with
            S := (b.cpu.registers.S + 254) % 256
            P := setBitfield b.cpu.registers.P NES_UNUSED 1 (ofBool true)
            PC := u16 ((hi <<< 8) ||| lo) } } } := by
  obtain ⟨-, -, f3, f4, -⟩ := NesBus.readCpu_frame b b.cpu.registers.PC false
  rw [h0] at f3 f4
  simp only at f3 f4
  obtain ⟨-, -, g3, g4, -⟩ := NesBus.readCpu_frame s0 (u16 (b.cpu.registers.PC + 1)) false
  rw [h1] at g3 g4
  simp only at g3 g4
  obtain ⟨-, -, k3, k4, -⟩ := NesBus.readCpu_frame s1 (u16 (u16 (b.cpu.registers.PC + 1) + 1)) false
  rw [h2] at k3 k4
  simp only at k3 k4
  have hf : Cpu6502.fetchOpcode b = { s0 with cpu := { b.cpu with
      opcode := 0x20
      registers := { b.cpu.registers with
        PC := u16 (b.cpu.registers.PC + 1)
        P := setBitfield b.cpu.registers.P NES_UNUSED 1 (ofBool true) } } } := by
    simp [Cpu6502.fetchOpcode, Cpu6502.readPC, Cpu6502.read, NesBus.setPC, NesBus.setRegs,
      NesBus.regs, NesBus.readCpu_withCpu, h0, Cpu6502.setStatus]
  have hidx : ¬ (Index.unpack 0x20).c > 2 := by decide
  have hpc : ((((b.cpu.registers.PC + 1) % 65536 + 1) % 65536 + 1) % 65536 + 65535) % 65536 =
      (b.cpu.registers.PC + 2) % 65536 := by
    omega
  have hcy : (6 + (u8 0 &&& 0)) % 65536 = 6 := by decide
  have hJ : ∀ x : NesBus, x.cpu.registers.S = b.cpu.registers.S →
      Cpu6502.JSR x =
      (0, { x with
        memory :=
          store (store x.memory (0x0100 + x.cpu.registers.S)
              ((x.cpu.registers.PC + 65535) % 65536 / 256 % 256))
            (0x0100 + (x.cpu.registers.S + 255) % 256)
            ((x.cpu.registers.PC + 65535) % 65536 % 256)
        cpu := { x.cpu with
          registers := { x.cpu.registers with
            S := (x.cpu.registers.S + 254) % 256
            PC := x.cpu.absoluteAddress } } }) :=
    fun x hx => Cpu6502.JSR_eq x (by rw [hx]; exact hS)
  simp only [Cpu6502.step, hf, hidx, if_false, Cpu6502.execute, Cpu6502.fetchOperand,
    instructionMap_get_20, callAddrMode, addrModeCallbacks, Cpu6502.readWord, Cpu6502.readPC,
    Cpu6502.read, NesBus.readCpu_withCpu, h1, h2, callInstr, instrCallbacks,
    NesBus.setCycles, NesBus.setAbs, NesBus.setPC, NesBus.regs, NesBus.setRegs,
    Cpu6502.setStatus]
  simp only [hJ, f3, g3, k3, u16, hpc, hcy, unused_twice]

set_option maxRecDepth 100000 in
/-- The body of `clock()` on `RTS` (`$60`) with `S` a byte: two bytes are
pulled, low byte first, and `PC` becomes the word they form plus one. -/
theorem rts_step (c s0 : NesBus)
    (h0 : c.readCpu c.cpu.registers.PC false = (0x60, s0)) :
    Cpu6502.step c =
      { s0 with
        cpu := { c.cpu with
          opcode := 0x60
          cycles := 6
          cycleCount := u32 (c.cpu.cycleCount + 6)
          inputAlu := c.cpu.registers.A
          registers := { c.cpu.registers with
            S := (c.cpu.registers.S + 2) % 256
            P := setBitfield c.cpu.registers.P NES_UNUSED 1 (ofBool true)
            PC := u16 ((u8 (c.memory (0x0100 + (c.cpu.registers.S + 1) % 256)) |||
              (u8 (c.memory (0x0100 + (c.cpu.registers.S + 2) % 256)) <<< 8)) + 1) } } } := by
  obtain ⟨-, -, f3, f4, -⟩ := NesBus.readCpu_frame c c.cpu.registers.PC false
  rw [h0] at f3 f4
  simp only at f3 f4
  have hf : Cpu6502.fetchOpcode c = { s0 with cpu := { c.cpu with
      opcode := 0x60
      registers := { c.cpu.registers with
        PC := u16 (c.cpu.registers.PC + 1)
        P := setBitfield c.cpu.registers.P NES_UNUSED 1 (ofBool true) } } } := by
    simp [Cpu6502.fetchOpcode, Cpu6502.readPC, Cpu6502.read, NesBus.setPC, NesBus.setRegs,
      NesBus.regs, NesBus.readCpu_withCpu, h0, Cpu6502.setStatus]
  have hidx : ¬ (Index.unpack 0x60).c > 2 := by decide
  have hcy : u16 (6 + (u8 0 &&& 0)) = 6 := by decide
  have hs1 : u8 (c.cpu.registers.S + 1) = (c.cpu.registers.S + 1) % 256 := rfl
  have hs2 : u8 ((c.cpu.registers.S + 1) % 256 + 1) = (c.cpu.registers.S + 2) % 256 := by
    unfold u8; omega
  have hr1 : s0.readCpu (0x0100 + (c.cpu.registers.S + 1) % 256) false =
      (u8 (c.memory (0x0100 + (c.cpu.registers.S + 1) % 256)), s0) := by
    rw [NesBus.readCpu_ram _ _ _ (by omega), stack_index _ (Nat.mod_lt _ (by norm_num)), f3]
  have hr2 : s0.readCpu (0x0100 + (c.cpu.registers.S + 2) % 256) false =
      (u8 (c.memory (0x0100 + (c.cpu.registers.S + 2) % 256)), s0) := by
    rw [NesBus.readCpu_ram _ _ _ (by omega), stack_index _ (Nat.mod_lt _ (by norm_num)), f3]
  simp only [Cpu6502.step, hf, hidx, if_false, Cpu6502.execute, Cpu6502.fetchOperand,
    instructionMap_get_60, callAddrMode, addrModeCallbacks, callInstr, instrCallbacks,
    Cpu6502.RTS, Cpu6502.pull, Cpu6502.read, NesBus.readCpu_withCpu, NesBus.setS,
    NesBus.setCycles, NesBus.setPC, NesBus.regs, NesBus.setRegs, Cpu6502.setStatus, hs1, hs2,
    hr1, hr2, hcy, unused_twice]

/-- C40: for a CPU whose stack pointer `S` is a byte, `JSR` (`$20`) located at
`a` with operand bytes `lo`, `hi` pushes `a + 2`, high byte to `$0100 + S` and
low byte to `$0100 + ((S - 1) mod 256)`, leaves `S - 2 (mod 256)` and jumps to
`hi * 256 + lo`; and on every machine whose stack pointer has that value and
whose two stack bytes hold what the `JSR` stored, `RTS` (`$60`) leaves
`PC = a + 3` and `S` as it was before the `JSR` (addresses modulo 65536). -/
theorem jsr_rts (b c s0 s1 s2 t0 : NesBus) (a lo hi : Nat) (ha : a < 65536)
    (hpc : b.cpu.registers.PC = a) (hS : b.cpu.registers.S < 256)
    (h0 : b.readCpu a false = (0x20, s0))
    (h1 : s0.readCpu ((a + 1) % 65536) false = (lo, s1))
    (h2 : s1.readCpu ((a + 2) % 65536) false = (hi, s2))
    (hcS : c.cpu.registers.S = (Cpu6502.step b).cpu.registers.S)
    (hm1 : c.memory (0x0100 + b.cpu.registers.S) =
      (Cpu6502.step b).memory (0x0100 + b.cpu.registers.S))
    (hm2 : c.memory (0x0100 + (b.cpu.registers.S + 255) % 256) =
      (Cpu6502.step b).memory (0x0100 + (b.cpu.registers.S + 255) % 256))
    (hc0 : c.readCpu c.cpu.registers.PC false = (0x60, t0)) :
    ((Cpu6502.step b).readCpu (0x0100 + b.cpu.registers.S) false).1 = (a + 2) % 65536 / 256 ∧
      ((Cpu6502.step b).readCpu (0x0100 + (b.cpu.registers.S + 255) % 256) false).1 =
        (a + 2) % 65536 % 256 ∧
      (Cpu6502.step b).cpu.registers.S = (b.cpu.registers.S + 254) % 256 ∧
      (Cpu6502.step b).cpu.registers.PC = hi * 256 + lo ∧
      (Cpu6502.step c).cpu.registers.PC = (a + 3) % 65536 ∧
      (Cpu6502.step c).cpu.registers.S = b.cpu.registers.S := by
  subst hpc
  have hu1 : u16 (b.cpu.registers.PC + 1) = (b.cpu.registers.PC + 1) % 65536 := rfl
  have hu2 : u16 (u16 (b.cpu.registers.PC + 1) + 1) = (b.cpu.registers.PC + 2) % 65536 := by
    unfold u16; omega
  have hj := jsr_step b s0 s1 s2 lo hi hS h0 (by rw [hu1]; exact h1) (by rw [hu2]; exact h2)
  have hlo : lo < 256 := by
    have := NesBus.readCpu_lt s0 ((b.cpu.registers.PC + 1) % 65536) false
    rw [h1] at this; exact this
  have hhi : hi < 256 := by
    have := NesBus.readCpu_lt s1 ((b.cpu.registers.PC + 2) % 65536) false
    rw [h2] at this; exact this
  have hor : ∀ x y : Nat, y < 256 → (x <<< 8) ||| y = x * 256 + y := by
    intro x y hy
    rw [Nat.shiftLeft_eq, Nat.mul_comm]
    exact (Nat.mul_add_lt_is_or (show y < 2 ^ 8 from hy) x).symm
  have hS1 : (b.cpu.registers.S + 255) % 256 < 256 := Nat.mod_lt _ (by norm_num)
  have hmem1 : (Cpu6502.step b).memory (0x0100 + b.cpu.registers.S) =
      (b.cpu.registers.PC + 2) % 65536 / 256 % 256 := by
    rw [hj]
    have : ¬ (0x0100 + b.cpu.registers.S = 0x0100 + (b.cpu.registers.S + 255) % 256) := by omega
    simp [store, this]
  have hmem2 : (Cpu6502.step b).memory (0x0100 + (b.cpu.registers.S + 255) % 256) =
      (b.cpu.registers.PC + 2) % 65536 % 256 := by
    rw [hj]
    simp [store]
  have hSb : (Cpu6502.step b).cpu.registers.S = (b.cpu.registers.S + 254) % 256 := by rw [hj]
  have hr := rts_step c t0 hc0
  have e1 : (c.cpu.registers.S + 1) % 256 = (b.cpu.registers.S + 255) % 256 := by
    rw [hcS, hSb]; omega
  have e2 : (c.cpu.registers.S + 2) % 256 = b.cpu.registers.S := by
    rw [hcS, hSb]; omega
  refine ⟨?_, ?_, hSb, ?_, ?_, ?_⟩
  · rw [NesBus.readCpu_ram _ _ _ (by omega), stack_index _ hS, hmem1]
    unfold u8; omega
  · rw [NesBus.readCpu_ram _ _ _ (by omega), stack_index _ hS1, hmem2]
    unfold u8; omega
  · rw [hj]
    show u16 ((hi <<< 8) ||| lo) = hi * 256 + lo
    rw [hor hi lo hlo]
    unfold u16; omega
  · rw [hr]
    show u16 ((u8 (c.memory (0x0100 + (c.cpu.registers.S + 1) % 256)) |||
      (u8 (c.memory (0x0100 + (c.cpu.registers.S + 2) % 256)) <<< 8)) + 1) = _
    rw [e1, e2, hm1, hm2, hmem1, hmem2, Nat.lor_comm, hor _ _ (u8_lt _)]
    unfold u8 u16; omega
  · rw [hr]
    exact e2

theorem cart_read (b : NesBus) (a v : Nat) (h1 : 0x8000 ≤ a) (h2 : a ≤ 0xFFFF)
    (hv : u8 (b.rom.cpuRead a 0).2 = v) : b.readCpu a false = (v, b) := by
  rw [NesBus.readCpu_cart b a false h1 h2, hv]

set_option maxRecDepth 1000000 in
/-- C40 on `jsrMachine` and `rtsMachine`: the `JSR` at `$80FE` with `S = $00`
stores `$81` at `$0100` and `$00` at `$01FF`, leaves `S = $FE` and jumps to
`$9000`; the `RTS` there returns to `$8101` with `S = $00`. -/
theorem jsr_rts_witness :
    (jsrMachine.cpu.registers.PC = 0x80FE ∧ jsrMachine.cpu.registers.S = 0x00 ∧
      rtsMachine.cpu.registers.PC = 0x9000) ∧
    ((Cpu6502.step jsrMachine).readCpu (0x0100 + jsrMachine.cpu.registers.S) false).1 =
      (0x80FE + 2) % 65536 / 256 ∧
    ((Cpu6502.step jsrMachine).readCpu
      (0x0100 + (jsrMachine.cpu.registers.S + 255) % 256) false).1 = (0x80FE + 2) % 65536 % 256 ∧
    (Cpu6502.step jsrMachine).cpu.registers.S = (jsrMachine.cpu.registers.S + 254) % 256 ∧
    (Cpu6502.step jsrMachine).cpu.registers.PC = 0x90 * 256 + 0x00 ∧
    (Cpu6502.step rtsMachine).cpu.registers.PC = (0x80FE + 3) % 65536 ∧
    (Cpu6502.step rtsMachine).cpu.registers.S = jsrMachine.cpu.registers.S :=
  ⟨⟨by decide, by decide, by decide⟩,
    jsr_rts jsrMachine rtsMachine jsrMachine jsrMachine jsrMachine rtsMachine 0x80FE 0x00 0x90
      (by decide) (by decide) (by decide)
      (cart_read _ _ _ (by decide) (by decide) (by decide))
      (cart_read _ _ _ (by decide) (by decide) (by decide))
      (cart_read _ _ _ (by decide) (by decide) (by decide))
      rfl rfl rfl
      (cart_read _ _ _ (by decide) (by decide) (by decide))⟩

/-! ## The PPU position -/

theorem samePosition_refl (p : Ppu2C02) : p.samePosition p := ⟨rfl, rfl, rfl, rfl⟩

theorem samePosition_trans {p q r : Ppu2C02} (h1 : p.samePosition q) (h2 : q.samePosition r) :
    p.samePosition r :=
  ⟨h2.1.trans h1.1, h2.2.1.trans h1.2.1, h2.2.2.1.trans h1.2.2.1, h2.2.2.2.trans h1.2.2.2⟩

theorem setV_samePosition (p : Ppu2C02) (v : Nat) : p.samePosition (p.setV v) :=
  ⟨rfl, rfl, rfl, rfl⟩

theorem setBg_samePosition (p : Ppu2C02) (g : BackgroundData) : p.samePosition (p.setBg g) :=
  ⟨rfl, rfl, rfl, rfl⟩

theorem scrollX_samePosition (p : Ppu2C02) : p.samePosition p.scrollX := by
  unfold Ppu2C02.scrollX
  simp only []
  split_ifs <;> exact samePosition_refl p

theorem scrollY_samePosition (p : Ppu2C02) : p.samePosition p.scrollY := by
  unfold Ppu2C02.scrollY
  simp only []
  split_ifs <;> exact samePosition_refl p

theorem txAddressX_samePosition (p : Ppu2C02) : p.samePosition p.txAddressX := by
  unfold Ppu2C02.txAddressX
  simp only []
  split_ifs <;> exact samePosition_refl p

theorem txAddressY_samePosition (p : Ppu2C02) : p.samePosition p.txAddressY := by
  unfold Ppu2C02.txAddressY
  simp only []
  split_ifs <;> exact samePosition_refl p

theorem loadBackgroundShifters_samePosition (p : Ppu2C02) :
    p.samePosition p.loadBackgroundShifters :=
  ⟨rfl, rfl, rfl, rfl⟩

theorem updateShifters_samePosition (p : Ppu2C02) : p.samePosition p.updateShifters := by
  unfold Ppu2C02.updateShifters
  simp only []
  split_ifs <;> exact ⟨rfl, rfl, rfl, rfl⟩

theorem fetchStep_samePosition (p : Ppu2C02) (rom : NesRom) :
    p.samePosition (p.fetchStep rom) := by
  unfold Ppu2C02.fetchStep
  simp only []
  split_ifs <;> first | exact samePosition_refl p | exact scrollX_samePosition p

theorem evaluateSprites_samePosition (p : Ppu2C02) : p.samePosition p.evaluateSprites :=
  ⟨rfl, rfl, rfl, rfl⟩

theorem fetchSprites_samePosition (p : Ppu2C02) (rom : NesRom) :
    p.samePosition (p.fetchSprites rom) :=
  ⟨rfl, rfl, rfl, rfl⟩

/-- The rendering part of `Ppu2C02::clock` after the odd-frame skip keeps the
position. -/
theorem renderStep_samePosition (p : Ppu2C02) (rom : NesRom) :
    p.skipDot.samePosition (p.renderStep rom) := by
  have step : ∀ (q : Ppu2C02) (c : Prop) [Decidable c] (x : Ppu2C02), p.skipDot.samePosition q →
      q.samePosition x → p.skipDot.samePosition (if c then x else q) := by
    intro q c _ x hq hx
    split_ifs
    · exact samePosition_trans hq hx
    · exact hq
  unfold Ppu2C02.renderStep
  simp only []
  apply step _ _ _ _ (fetchSprites_samePosition _ _)
  apply step _ _ _ _ (evaluateSprites_samePosition _)
  apply step _ _ _ _ (txAddressY_samePosition _)
  apply step _ _ _ _ (setBg_samePosition _ _)
  apply step _ _ _ _
    (samePosition_trans (loadBackgroundShifters_samePosition _) (txAddressX_samePosition _))
  apply step _ _ _ _ (scrollY_samePosition _)
  apply step _ _ _ _
    (samePosition_trans (updateShifters_samePosition _) (fetchStep_samePosition _ _))
  refine step _ _ _ (samePosition_refl _) ?_
  exact ⟨rfl, rfl, rfl, rfl⟩

theorem vblankStep_samePosition (p : Ppu2C02) : p.samePosition p.vblankStep := by
  unfold Ppu2C02.vblankStep
  simp only []
  split_ifs <;> exact ⟨rfl, rfl, rfl, rfl⟩

theorem composeStep_samePosition (p : Ppu2C02) : p.samePosition p.composeStep := by
  unfold Ppu2C02.composeStep
  simp only []
  split_ifs <;> exact ⟨rfl, rfl, rfl, rfl⟩

theorem advance_position (p : Ppu2C02) (rom : NesRom) :
    (p.cycle + 1 < 341 →
      (p.advance rom).1.cycle = p.cycle + 1 ∧ (p.advance rom).1.scanline = p.scanline ∧
        (p.advance rom).1.frameComplete = p.frameComplete) ∧
    (p.cycle + 1 ≥ 341 → p.scanline + 1 < 261 →
      (p.advance rom).1.cycle = 0 ∧ (p.advance rom).1.scanline = p.scanline + 1 ∧
        (p.advance rom).1.frameComplete = p.frameComplete) ∧
    (p.cycle + 1 ≥ 341 → p.scanline + 1 ≥ 261 →
      (p.advance rom).1.cycle = 0 ∧ (p.advance rom).1.scanline = -1 ∧
        (p.advance rom).1.frameComplete = true) := by
  unfold Ppu2C02.advance
  simp only []
  refine ⟨fun h => ?_, fun h h' => ?_, fun h h' => ?_⟩
  · rw [if_neg (by omega)]
    exact ⟨rfl, rfl, rfl⟩
  · rw [if_pos h, if_neg (by omega)]
    exact ⟨rfl, rfl, rfl⟩
  · rw [if_pos h, if_pos h']
    exact ⟨rfl, rfl, rfl⟩

/-- The position `clock()` advances from: that of `p` after the odd-frame skip. -/
theorem clock_position (p : Ppu2C02) (rom : NesRom) :
    ∃ q : Ppu2C02, (p.clock rom).1 = (q.advance rom).1 ∧
      q.scanline = p.scanline ∧ q.frameComplete = p.frameComplete ∧
      (q.cycle = p.cycle ∨ (p.scanline = 0 ∧ p.cycle = 0 ∧ q.cycle = 1)) := by
  refine ⟨(if p.scanline ≥ -1 ∧ p.scanline < 240 then p.renderStep rom
    else p).vblankStep.composeStep, rfl, ?_⟩
  obtain ⟨c1, c2, c3, -⟩ := composeStep_samePosition
    (if p.scanline ≥ -1 ∧ p.scanline < 240 then p.renderStep rom else p).vblankStep
  obtain ⟨v1, v2, v3, -⟩ := vblankStep_samePosition
    (if p.scanline ≥ -1 ∧ p.scanline < 240 then p.renderStep rom else p)
  rw [c1, c2, c3, v1, v2, v3]
  split_ifs with h
  · obtain ⟨r1, r2, r3, -⟩ := renderStep_samePosition p rom
    rw [r1, r2, r3]
    unfold Ppu2C02.skipDot
    split_ifs with hs
    · exact ⟨rfl, rfl, Or.inr ⟨hs.1, hs.2.1, rfl⟩⟩
    · exact ⟨rfl, rfl, Or.inl rfl⟩
  · exact ⟨rfl, rfl, Or.inl rfl⟩

/-- C35: for every PPU state with `-1 <= scanline <= 260` and
`0 <= cycle <= 340`, the state after `clock()` is in the same ranges;
`clock()` at scanline 260, cycle 340 moves to scanline -1, cycle 0 and sets
`frameComplete`, and `clock()` at every other position leaves `frameComplete`
as it was and the scanline as it was or one higher. -/
theorem ppu_position (p : Ppu2C02) (rom : NesRom) (h1 : -1 ≤ p.scanline) (h2 : p.scanline ≤ 260)
    (h3 : 0 ≤ p.cycle) (h4 : p.cycle ≤ 340) :
    (-1 ≤ (p.clock rom).1.scanline ∧ (p.clock rom).1.scanline ≤ 260 ∧
      0 ≤ (p.clock rom).1.cycle ∧ (p.clock rom).1.cycle ≤ 340) ∧
    (p.scanline = 260 ∧ p.cycle = 340 →
      (p.clock rom).1.scanline = -1 ∧ (p.clock rom).1.cycle = 0 ∧
        (p.clock rom).1.frameComplete = true) ∧
    (¬ (p.scanline = 260 ∧ p.cycle = 340) →
      (p.clock rom).1.frameComplete = p.frameComplete ∧
        ((p.clock rom).1.scanline = p.scanline ∨ (p.clock rom).1.scanline = p.scanline + 1)) := by
  obtain ⟨q, hq, q1, q2, q3⟩ := clock_position p rom
  obtain ⟨a1, a2, a3⟩ := advance_position q rom
  rw [hq]
  by_cases hc : q.cycle + 1 < 341
  · obtain ⟨b1, b2, b3⟩ := a1 hc
    rw [b1, b2, b3, q1, q2]
    refine ⟨⟨h1, h2, by omega, by omega⟩, fun h => ?_, fun _ => ⟨rfl, Or.inl rfl⟩⟩
    omega
  · by_cases hs : q.scanline + 1 < 261
    · obtain ⟨b1, b2, b3⟩ := a2 (by omega) hs
      rw [b1, b2, b3, q1, q2]
      refine ⟨⟨by omega, by omega, by omega, by omega⟩, fun h => ?_, fun _ => ⟨rfl, Or.inr rfl⟩⟩
      omega
    · obtain ⟨b1, b2, b3⟩ := a3 (by omega) (by omega)
      rw [b1, b2, b3]
      refine ⟨⟨by omega, by omega, by omega, by omega⟩, fun _ => ⟨rfl, rfl, rfl⟩, fun h => ?_⟩
      omega

set_option maxRecDepth 1000000 in
/-- C35 on `lastDotPpu`: the tick at scanline 260, cycle 340 moves to scanline
-1, cycle 0 and sets `frameComplete`. -/
theorem ppu_position_witness :
    (-1 ≤ lastDotPpu.scanline ∧ lastDotPpu.scanline ≤ 260 ∧ 0 ≤ lastDotPpu.cycle ∧
      lastDotPpu.cycle ≤ 340 ∧ lastDotPpu.frameComplete = false) ∧
    (lastDotPpu.clock (exampleRom 0 1 1 (filled 0) (filled 0))).1.scanline = -1 ∧
    (lastDotPpu.clock (exampleRom 0 1 1 (filled 0) (filled 0))).1.cycle = 0 ∧
    (lastDotPpu.clock (exampleRom 0 1 1 (filled 0) (filled 0))).1.frameComplete = true :=
  ⟨⟨by decide, by decide, by decide, by decide, by decide⟩,
    (ppu_position lastDotPpu (exampleRom 0 1 1 (filled 0) (filled 0)) (by decide) (by decide)
      (by decide) (by decide)).2.1 (by decide)⟩

/-! ## Sprite evaluation -/

theorem evaluateEntry_eq (p : Ppu2C02) :
    p.evaluateEntry = fun s entry_count =>
      if s.count < 9 then
        let sd_y : Int := p.scanline - (p.OAM.data (4 * entry_count) : Int)
        if sd_y ≥ 0 ∧ sd_y < (if p.registers.spriteSize ≠ 0 then 16 else 8) then
          if s.count < 8 then
            let s := if entry_count = 0 then { s with zeroHitPossible := true } else s
            let copied : Nat → Nat := fun j =>
              if 4 * s.count ≤ j ∧ j < 4 * s.count + 4 then
                p.OAM.data (4 * entry_count + (j - 4 * s.count))
              else s.scanlineSprites j
            { s with scanlineSprites := copied, count := u8 (s.count + 1) }
          else s
        else s
      else s := rfl

theorem evaluateSprites_sprites (p : Ppu2C02) :
    p.evaluateSprites.sprites = (List.range 64).foldl p.evaluateEntry p.clearedSprites := by
  rw [evaluateEntry_eq]
  unfold Ppu2C02.evaluateSprites Ppu2C02.clearedSprites
  simp only []

theorem evaluateSprites_status (p : Ppu2C02) :
    p.evaluateSprites.registers.STATUS =
      setBitfield p.registers.STATUS 5 1
        (ofBool (decide (((List.range 64).foldl p.evaluateEntry p.clearedSprites).count > 8))) := by
  rw [evaluateEntry_eq]
  unfold Ppu2C02.evaluateSprites Ppu2C02.clearedSprites
  simp only []

/-- One pass of the loop body on an entry that fails the test. -/
theorem evaluateEntry_miss (p : Ppu2C02) (s : SpriteInfo) (e : Nat) (h : p.onScanline e = false) :
    p.evaluateEntry s e = s := by
  unfold Ppu2C02.onScanline at h
  unfold Ppu2C02.evaluateEntry
  simp only []
  rw [decide_eq_false_iff_not] at h
  rw [if_neg h]
  split_ifs <;> rfl

/-- One pass of the loop body on an entry that passes the test. -/
theorem evaluateEntry_hit (p : Ppu2C02) (s : SpriteInfo) (e : Nat) (h : p.onScanline e = true)
    (hc : s.count ≤ 8) :
    (s.count < 8 →
      (p.evaluateEntry s e).count = s.count + 1 ∧
      (∀ j, j < 4 → (p.evaluateEntry s e).scanlineSprites (4 * s.count + j) =
        p.OAM.data (4 * e + j)) ∧
      (∀ k, k < 4 * s.count → (p.evaluateEntry s e).scanlineSprites k = s.scanlineSprites k) ∧
      (p.evaluateEntry s e).zeroHitPossible = (s.zeroHitPossible || decide (e = 0))) ∧
    (s.count = 8 → p.evaluateEntry s e = s) := by
  unfold Ppu2C02.onScanline at h
  rw [decide_eq_true_iff] at h
  unfold Ppu2C02.evaluateEntry
  simp only []
  rw [if_pos (by omega), if_pos h]
  refine ⟨fun h8 => ?_, fun h8 => ?_⟩
  · rw [if_pos h8]
    by_cases he : e = 0
    · simp only [he, if_true, decide_True, Bool.or_true]
      refine ⟨by unfold u8; omega, fun j hj => ?_, fun k hk => ?_, trivial⟩
      · rw [if_pos (by omega)]
        congr 1
        omega
      · rw [if_neg (by omega)]
    · simp only [he, if_false, decide_False, Bool.or_false]
      refine ⟨by unfold u8; omega, fun j hj => ?_, fun k hk => ?_, trivial⟩
      · rw [if_pos (by omega)]
        congr 1
        omega
      · rw [if_neg (by omega)]
  · rw [if_neg (by omega)]

/-- The loop of the sprite evaluation over any list of entries: the count is
the number of entries that pass the test, capped at 8, and the cache holds the
first of them in the order of the list. -/
theorem evaluate_fold (p : Ppu2C02) (l : List Nat) :
    (l.foldl p.evaluateEntry p.clearedSprites).count = min 8 (l.filter p.onScanline).length ∧
      ∀ i, i < (l.foldl p.evaluateEntry p.clearedSprites).count → ∀ j, j < 4 →
        (l.foldl p.evaluateEntry p.clearedSprites).scanlineSprites (4 * i + j) =
          p.OAM.data (4 * (l.filter p.onScanline).getD i 0 + j) := by
  induction l using List.reverseRecOn with
  | nil => exact ⟨rfl, fun i hi => absurd hi (Nat.not_lt_zero i)⟩
  | append_singleton l e ih =>
    obtain ⟨ih1, ih2⟩ := ih
    rw [List.foldl_append, List.filter_append]
    simp only [List.foldl_cons, List.foldl_nil]
    by_cases he : p.onScanline e = true
    · have hf : List.filter p.onScanline [e] = [e] := by simp [List.filter, he]
      rw [hf, List.length_append, List.length_singleton]
      obtain ⟨k1, k2⟩ := evaluateEntry_hit p _ e he (by rw [ih1]; omega)
      by_cases h8 : (l.foldl p.evaluateEntry p.clearedSprites).count < 8
      · obtain ⟨c1, c2, c3, -⟩ := k1 h8
        have hlen : (l.filter p.onScanline).length =
            (l.foldl p.evaluateEntry p.clearedSprites).count := by omega
        refine ⟨by rw [c1]; omega, fun i hi j hj => ?_⟩
        rw [c1] at hi
        by_cases hi2 : i < (l.foldl p.evaluateEntry p.clearedSprites).count
        · rw [c3 _ (by omega), ih2 i hi2 j hj, List.getD_append _ _ _ _ (by omega)]
        · have hi3 : i = (l.foldl p.evaluateEntry p.clearedSprites).count := by omega
          rw [hi3, c2 j hj, List.getD_append_right _ _ _ _ (by omega), hlen]
          simp
      · have h8' : (l.foldl p.evaluateEntry p.clearedSprites).count = 8 := by omega
        rw [k2 h8']
        refine ⟨by omega, fun i hi j hj => ?_⟩
        rw [ih2 i hi j hj, List.getD_append _ _ _ _ (by omega)]
    · have he' : p.onScanline e = false := by simpa using he
      have hf : List.filter p.onScanline [e] = [] := by simp [List.filter, he']
      rw [hf, List.append_nil, evaluateEntry_miss p _ e he']
      exact ⟨ih1, ih2⟩

theorem evaluateEntry_zeroHit (p : Ppu2C02) (s : SpriteInfo) (e : Nat) (he : e ≠ 0) :
    (p.evaluateEntry s e).zeroHitPossible = s.zeroHitPossible := by
  unfold Ppu2C02.evaluateEntry
  simp only [he, if_false]
  split_ifs <;> rfl

theorem evaluate_fold_zeroHit (p : Ppu2C02) (l : List Nat) (hl : ∀ e ∈ l, e ≠ 0)
    (s : SpriteInfo) :
    (l.foldl p.evaluateEntry s).zeroHitPossible = s.zeroHitPossible := by
  induction l generalizing s with
  | nil => rfl
  | cons e l ih =>
    rw [List.foldl_cons, ih (fun x hx => hl x (List.mem_cons_of_mem _ hx)),
      evaluateEntry_zeroHit p s e (hl e (List.mem_cons_self _ _))]

/-- The sprite evaluation as a function of OAM, the scanline and `CTRL`. -/
theorem evaluateSprites_spec (p : Ppu2C02) :
    p.evaluateSprites.sprites.count = min 8 p.spritesOnScanline.length ∧
      (∀ i, i < p.evaluateSprites.sprites.count → ∀ j, j < 4 →
        p.evaluateSprites.sprites.scanlineSprites (4 * i + j) =
          p.OAM.data (4 * p.spritesOnScanline.getD i 0 + j)) ∧
      p.evaluateSprites.sprites.zeroHitPossible = p.onScanline 0 ∧
      p.evaluateSprites.registers.spriteOverflow = 0 := by
  obtain ⟨h1, h2⟩ := evaluate_fold p (List.range 64)
  have hst := evaluateSprites_status p
  rw [evaluateSprites_sprites]
  refine ⟨h1, h2, ?_, ?_⟩
  · rw [show List.range 64 = 0 :: (List.range 63).map Nat.succ from List.range_succ_eq_map 63,
      List.foldl_cons, evaluate_fold_zeroHit]
    · by_cases h0 : p.onScanline 0 = true
      · rw [((evaluateEntry_hit p p.clearedSprites 0 h0 (Nat.zero_le 8)).1
          (by show (0 : Nat) < 8; norm_num)).2.2.2, h0]
        rfl
      · have h0' : p.onScanline 0 = false := by simpa using h0
        rw [evaluateEntry_miss p _ 0 h0', h0']
        rfl
    · intro e he
      obtain ⟨x, -, rfl⟩ := List.mem_map.mp he
      exact Nat.succ_ne_zero x
  · unfold PpuRegisters.spriteOverflow
    rw [hst]
    have hc : ¬ ((List.range 64).foldl p.evaluateEntry p.clearedSprites).count > 8 := by
      rw [h1]; omega
    rw [decide_eq_false hc]
    unfold bitfield setBitfield ofBool
    simp only [Nat.shiftRight_eq_div_pow, Nat.shiftLeft_eq]
    norm_num
    omega

theorem samePosition_cycle {p q : Ppu2C02} (h : p.samePosition q) : q.cycle = p.cycle := h.1

/-- The rendering part of `clock()` at cycle 257 of a line from 0 on ends with
the sprite evaluation. -/
theorem renderStep_at_257 (p : Ppu2C02) (rom : NesRom) (hc : p.cycle = 257)
    (h0 : 0 ≤ p.scanline) :
    p.renderStep rom =
      ((p.updateShifters.fetchStep rom).loadBackgroundShifters.txAddressX).evaluateSprites := by
  have e1 : (p.updateShifters.fetchStep rom).cycle = 257 :=
    ((samePosition_trans (updateShifters_samePosition p) (fetchStep_samePosition _ rom)).1).trans hc
  have e2 : (p.updateShifters.fetchStep rom).scanline = p.scanline :=
    (samePosition_trans (updateShifters_samePosition p) (fetchStep_samePosition _ rom)).2.1
  have e3 : ((p.updateShifters.fetchStep rom).loadBackgroundShifters.txAddressX).cycle = 257 :=
    ((samePosition_trans (loadBackgroundShifters_samePosition _) (txAddressX_samePosition _)).1).trans e1
  have e4 : ((p.updateShifters.fetchStep rom).loadBackgroundShifters.txAddressX).scanline =
      p.scanline :=
    ((samePosition_trans (loadBackgroundShifters_samePosition _) (txAddressX_samePosition _)).2.1).trans e2
  have e5 : ((p.updateShifters.fetchStep rom).loadBackgroundShifters.txAddressX).evaluateSprites.cycle
      = 257 := e3
  have hs : ¬ (p.scanline = -1) := by omega
  unfold Ppu2C02.renderStep
  have hA : ((257 : Int) ≥ 2 ∧ (257 : Int) < 258) ∨ ((257 : Int) ≥ 321 ∧ (257 : Int) < 338) := by
    decide
  have hB : ¬ ((257 : Int) = 338 ∨ (257 : Int) = 340) := by decide
  have h0' : p.scanline ≥ 0 := h0
  simp only [hc, hs, false_and, and_false, if_false, show ¬ ((257 : Int) = 0) by decide,
    show ¬ ((257 : Int) = 1) by decide, hA, if_true, e1, show ¬ ((257 : Int) = 256) by decide,
    e3, hB, e4, h0', and_self, show ¬ ((257 : Int) = 340) by decide,
    show ¬ ((257 : Int) = 338) by decide, or_self, e5]

theorem status_bit5 (s x : Nat) : bitfield (setBitfield s 6 1 x) 5 1 = bitfield s 5 1 := by
  unfold bitfield setBitfield
  simp only [Nat.shiftRight_eq_div_pow, Nat.shiftLeft_eq]
  norm_num
  omega

theorem composeStep_sprites (p : Ppu2C02) :
    p.composeStep.sprites.count = p.sprites.count ∧
      p.composeStep.sprites.scanlineSprites = p.sprites.scanlineSprites ∧
      p.composeStep.sprites.zeroHitPossible = p.sprites.zeroHitPossible ∧
      p.composeStep.registers.spriteOverflow = p.registers.spriteOverflow := by
  unfold Ppu2C02.composeStep PpuRegisters.spriteOverflow
  simp only []
  split_ifs <;> first | exact ⟨rfl, rfl, rfl, rfl⟩ | exact ⟨rfl, rfl, rfl, status_bit5 _ _⟩

theorem advance_sprites (p : Ppu2C02) (rom : NesRom) :
    (p.advance rom).1.sprites = p.sprites ∧ (p.advance rom).1.registers = p.registers := by
  unfold Ppu2C02.advance
  simp only []
  split_ifs <;> exact ⟨rfl, rfl⟩

theorem onScanline_congr (x p : Ppu2C02) (h1 : x.OAM = p.OAM) (h2 : x.scanline = p.scanline)
    (h3 : x.registers.CTRL = p.registers.CTRL) :
    x.onScanline = p.onScanline ∧ x.spritesOnScanline = p.spritesOnScanline := by
  have h : x.onScanline = p.onScanline := by
    funext e
    unfold Ppu2C02.onScanline PpuRegisters.spriteSize
    rw [h1, h2, h3]
  exact ⟨h, by unfold Ppu2C02.spritesOnScanline; rw [h]⟩

/-- The sprite cache and `STATUS.spriteOverflow` after `clock()` at cycle 257
of a visible scanline are those the sprite evaluation leaves. -/
theorem clock_at_257 (p : Ppu2C02) (rom : NesRom) (hc : p.cycle = 257) (h0 : 0 ≤ p.scanline)
    (h1 : p.scanline < 240) :
    (p.clock rom).1.sprites.count = min 8 p.spritesOnScanline.length ∧
      (∀ i, i < (p.clock rom).1.sprites.count → ∀ j, j < 4 →
        (p.clock rom).1.sprites.scanlineSprites (4 * i + j) =
          p.OAM.data (4 * p.spritesOnScanline.getD i 0 + j)) ∧
      (p.clock rom).1.sprites.zeroHitPossible = p.onScanline 0 ∧
      (p.clock rom).1.registers.spriteOverflow = 0 := by
  have hv : p.scanline ≥ -1 ∧ p.scanline < 240 := ⟨by omega, h1⟩
  have hx1 : ((p.updateShifters.fetchStep rom).loadBackgroundShifters.txAddressX).OAM = p.OAM := by
    rw [txAddressX_OAM, loadBackgroundShifters_OAM, fetchStep_OAM, updateShifters_OAM]
  obtain ⟨-, hx2, -, hx3⟩ := samePosition_trans
    (samePosition_trans (updateShifters_samePosition p) (fetchStep_samePosition _ rom))
    (samePosition_trans (loadBackgroundShifters_samePosition _) (txAddressX_samePosition _))
  obtain ⟨g1, g2⟩ := onScanline_congr _ p hx1 hx2 hx3
  obtain ⟨s1, s2, s3, s4⟩ :=
    evaluateSprites_spec ((p.updateShifters.fetchStep rom).loadBackgroundShifters.txAddressX)
  rw [g2] at s1 s2
  rw [hx1] at s2
  rw [g1] at s3
  have hclock : (p.clock rom).1 =
      ((((p.updateShifters.fetchStep rom).loadBackgroundShifters.txAddressX).evaluateSprites
        ).vblankStep.composeStep.advance rom).1 := by
    unfold Ppu2C02.clock
    simp only [hv, and_self, if_true, renderStep_at_257 p rom hc h0]
  have hvb : (((p.updateShifters.fetchStep rom).loadBackgroundShifters.txAddressX).evaluateSprites
      ).vblankStep =
      ((p.updateShifters.fetchStep rom).loadBackgroundShifters.txAddressX).evaluateSprites := by
    apply vblankStep_off
    intro h
    have : ((p.updateShifters.fetchStep rom).loadBackgroundShifters.txAddressX
      ).evaluateSprites.scanline = p.scanline := hx2
    omega
  rw [hclock, hvb, (advance_sprites _ rom).1, (advance_sprites _ rom).2]
  obtain ⟨c1, c2, c3, c4⟩ := composeStep_sprites
    ((p.updateShifters.fetchStep rom).loadBackgroundShifters.txAddressX).evaluateSprites
  rw [c1, c2, c3, c4]
  exact ⟨s1, s2, s3, s4⟩

theorem spritesOnScanline_mem (p : Ppu2C02) (e : Nat) :
    e ∈ p.spritesOnScanline ↔
      (e < 64 ∧ 0 ≤ p.scanline - (p.OAM.data (4 * e) : Int) ∧
        p.scanline - (p.OAM.data (4 * e) : Int) <
          (if p.registers.spriteSize ≠ 0 then 16 else 8)) := by
  unfold Ppu2C02.spritesOnScanline Ppu2C02.onScanline
  rw [List.mem_filter, List.mem_range, decide_eq_true_iff]

theorem spritesOnScanline_sorted (p : Ppu2C02) :
    p.spritesOnScanline.Pairwise (fun a b => a < b) :=
  List.Pairwise.filter _ (List.pairwise_lt_range 64)

/-- C38: after `clock()` at cycle 257 of a visible scanline, with
`spritesOnScanline` the OAM entries `e` (in increasing index order) that satisfy
`0 <= scanline - e.y < h` (`h = 16` if `CTRL.spriteSize` is set, else 8):
`sprites.count` is the minimum of 8 and their number, the cached sprites
`0 .. count - 1` are copies of the first `count` of them, and `zeroHitPossible`
holds exactly when OAM entry 0 is one of them. -/
theorem sprite_cache (p : Ppu2C02) (rom : NesRom) (hc : p.cycle = 257) (h0 : 0 ≤ p.scanline)
    (h1 : p.scanline < 240) :
    (∀ e, e ∈ p.spritesOnScanline ↔
      (e < 64 ∧ 0 ≤ p.scanline - (p.OAM.data (4 * e) : Int) ∧
        p.scanline - (p.OAM.data (4 * e) : Int) <
          (if p.registers.spriteSize ≠ 0 then 16 else 8))) ∧
    p.spritesOnScanline.Pairwise (fun a b => a < b) ∧
    (p.clock rom).1.sprites.count = min 8 p.spritesOnScanline.length ∧
    (∀ i, i < (p.clock rom).1.sprites.count → ∀ j, j < 4 →
      (p.clock rom).1.sprites.scanlineSprites (4 * i + j) =
        p.OAM.data (4 * p.spritesOnScanline.getD i 0 + j)) ∧
    ((p.clock rom).1.sprites.zeroHitPossible = true ↔ 0 ∈ p.spritesOnScanline) := by
  obtain ⟨k1, k2, k3, -⟩ := clock_at_257 p rom hc h0 h1
  refine ⟨spritesOnScanline_mem p, spritesOnScanline_sorted p, k1, k2, ?_⟩
  rw [k3]
  unfold Ppu2C02.spritesOnScanline
  rw [List.mem_filter, List.mem_range]
  exact ⟨fun h => ⟨by norm_num, h⟩, fun h => h.2⟩

set_option maxRecDepth 1000000 in
/-- C38 on `spritePpu`: entries 3 and 5 are cached, in this order. -/
theorem sprite_cache_witness :
    (spritePpu.cycle = 257 ∧ 0 ≤ spritePpu.scanline ∧ spritePpu.scanline < 240 ∧
      spritePpu.spritesOnScanline = [3, 5]) ∧
    (spritePpu.clock (exampleRom 0 1 1 (filled 0) (filled 0))).1.sprites.count =
      min 8 spritePpu.spritesOnScanline.length ∧
    (spritePpu.clock (exampleRom 0 1 1 (filled 0) (filled 0))).1.sprites.count = 2 ∧
    ((spritePpu.clock (exampleRom 0 1 1 (filled 0) (filled 0))).1.sprites.zeroHitPossible = true ↔
      0 ∈ spritePpu.spritesOnScanline) :=
  have h := sprite_cache spritePpu (exampleRom 0 1 1 (filled 0) (filled 0)) (by decide)
    (by decide) (by decide)
  ⟨⟨by decide, by decide, by decide, by decide⟩, h.2.2.1, h.2.2.1.trans (by decide), h.2.2.2.2⟩

/-- C32, as the code behaves: after `clock()` at cycle 257 of a visible
scanline `STATUS.spriteOverflow` is 0 and `sprites.count` is at most 8,
however many OAM entries intersect the scanline: the loop only increments
`sprites.count` while it is below 8, so `sprites.count > 8` never holds. -/
theorem sprite_overflow_clear (p : Ppu2C02) (rom : NesRom) (hc : p.cycle = 257)
    (h0 : 0 ≤ p.scanline) (h1 : p.scanline < 240) :
    (p.clock rom).1.registers.spriteOverflow = 0 ∧ (p.clock rom).1.sprites.count ≤ 8 ∧
      (p.clock rom).1.sprites.count = min 8 p.spritesOnScanline.length := by
  obtain ⟨k1, -, -, k4⟩ := clock_at_257 p rom hc h0 h1
  exact ⟨k4, by rw [k1]; omega, k1⟩

set_option maxRecDepth 1000000 in
/-- C32 fails on `crowdedPpu`: all 64 OAM entries intersect scanline 12, and
`STATUS.spriteOverflow` is 0 after the evaluation. -/
theorem sprite_overflow_clear_witness :
    (crowdedPpu.cycle = 257 ∧ 0 ≤ crowdedPpu.scanline ∧ crowdedPpu.scanline < 240 ∧
      crowdedPpu.spritesOnScanline.length = 64) ∧
    (crowdedPpu.clock (exampleRom 0 1 1 (filled 0) (filled 0))).1.registers.spriteOverflow = 0 ∧
    (crowdedPpu.clock (exampleRom 0 1 1 (filled 0) (filled 0))).1.sprites.count = 8 :=
  have h := sprite_overflow_clear crowdedPpu (exampleRom 0 1 1 (filled 0) (filled 0)) (by decide)
    (by decide) (by decide)
  ⟨⟨by decide, by decide, by decide, by decide⟩, h.1, h.2.2.trans (by decide)⟩

/-! ## Sprite zero hit -/

theorem bitfield_one_lt (v off : Nat) : bitfield v off 1 < 2 := by
  unfold bitfield
  exact Nat.mod_lt _ (by norm_num)

theorem status_bit6 (s : Nat) : bitfield (setBitfield s 6 1 1) 6 1 = 1 := by
  unfold bitfield setBitfield
  simp only [Nat.shiftRight_eq_div_pow, Nat.shiftLeft_eq]
  norm_num
  omega

/-- The pixel composition when both pixels are opaque, sprite zero is being
drawn and both layers are shown: the test on the two left-column flags is
always true, so the hit is set for cycles 9 to 257 only. -/
theorem composeStep_zeroHit (p : Ppu2C02) (hbg : p.bgPix > 0) (hfg : p.foreground.fg_pix > 0)
    (hz : p.sprites.zeroHitPossible = true) (hd : p.foreground.zeroDrawing = true)
    (hm1 : p.registers.showBg ≠ 0) (hm2 : p.registers.showSprites ≠ 0) :
    p.composeStep.registers.STATUS =
      if p.cycle ≥ 9 ∧ p.cycle < 258 then setBitfield p.registers.STATUS 6 1 1
      else p.registers.STATUS := by
  have h1 : p.registers.showBg < 2 := bitfield_one_lt _ _
  have h2 : p.registers.showSprites < 2 := bitfield_one_lt _ _
  have e1 : p.registers.showBg = 1 := by omega
  have e2 : p.registers.showSprites = 1 := by omega
  have hand : p.registers.showBg &&& p.registers.showSprites ≠ 0 := by
    rw [e1, e2]; decide
  have hnot : (-((p.registers.showBgLeft ||| p.registers.showSpritesLeft : Nat) : Int) - 1) ≠ 0 := by
    omega
  unfold Ppu2C02.composeStep
  simp only [hbg, hfg, and_self, if_true, hz, hd, hand, hnot, ne_eq, not_false_eq_true]
  split_ifs <;> rfl

theorem beforeCompose_cycle (p : Ppu2C02) (rom : NesRom) (hc : 1 ≤ p.cycle) :
    (p.beforeCompose rom).cycle = p.cycle := by
  unfold Ppu2C02.beforeCompose
  rw [(vblankStep_samePosition _).1]
  split_ifs
  · rw [(renderStep_samePosition p rom).1]
    unfold Ppu2C02.skipDot
    rw [if_neg (by omega)]
  · rfl

/-- C33, as the code behaves: in a `clock()` at a cycle from 1 to 257 whose
pixel composition finds both pixels opaque, `zeroHitPossible` and sprite zero
being drawn, with `MASK.showBg` and `MASK.showSprites` set,
`STATUS.spriteZeroHit` is set when the cycle is 9 or more and left as it was
when the cycle is 1 to 8, whatever `MASK.showBgLeft` and
`MASK.showSpritesLeft` are: the operand of `~` is 0 or 1, so the test
`~(showBgLeft | showSpritesLeft)` is never false. -/
theorem sprite_zero_hit (p : Ppu2C02) (rom : NesRom) (hc1 : 1 ≤ p.cycle) (hc2 : p.cycle ≤ 257)
    (hbg : (p.beforeCompose rom).bgPix > 0) (hfg : (p.beforeCompose rom).foreground.fg_pix > 0)
    (hz : (p.beforeCompose rom).sprites.zeroHitPossible = true)
    (hd : (p.beforeCompose rom).foreground.zeroDrawing = true)
    (hm1 : (p.beforeCompose rom).registers.showBg ≠ 0)
    (hm2 : (p.beforeCompose rom).registers.showSprites ≠ 0) :
    (p.clock rom).1.registers.spriteZeroHit =
      if 9 ≤ p.cycle then 1 else (p.beforeCompose rom).registers.spriteZeroHit := by
  have hclock : (p.clock rom).1 = ((p.beforeCompose rom).composeStep.advance rom).1 := rfl
  have hcy := beforeCompose_cycle p rom hc1
  rw [hclock, (advance_vblank _ rom).1]
  unfold PpuRegisters.spriteZeroHit
  rw [composeStep_zeroHit _ hbg hfg hz hd hm1 hm2, hcy]
  by_cases h9 : 9 ≤ p.cycle
  · rw [if_pos ⟨h9, by omega⟩, if_pos h9]
    exact status_bit6 _
  · rw [if_neg (fun h => h9 h.1), if_neg h9]

set_option maxRecDepth 1000000 in
/-- C33 fails on `zeroHitPpu`: both left-column flags are set, the cycle is 5
and all conditions of a sprite zero hit hold, but `STATUS.spriteZeroHit` is
still 0 after `clock()`. -/
theorem sprite_zero_hit_witness :
    (1 ≤ zeroHitPpu.cycle ∧ zeroHitPpu.cycle ≤ 257 ∧ zeroHitPpu.cycle = 5 ∧
      zeroHitPpu.registers.showBgLeft = 1 ∧ zeroHitPpu.registers.showSpritesLeft = 1 ∧
      (zeroHitPpu.beforeCompose (exampleRom 0 1 1 (filled 0) (filled 0))).bgPix > 0 ∧
      (zeroHitPpu.beforeCompose (exampleRom 0 1 1 (filled 0) (filled 0))).foreground.fg_pix > 0 ∧
      (zeroHitPpu.beforeCompose (exampleRom 0 1 1 (filled 0) (filled 0))).sprites.zeroHitPossible
        = true ∧
      (zeroHitPpu.beforeCompose (exampleRom 0 1 1 (filled 0) (filled 0))).foreground.zeroDrawing
        = true ∧
      (zeroHitPpu.beforeCompose (exampleRom 0 1 1 (filled 0) (filled 0))).registers.showBg ≠ 0 ∧
      (zeroHitPpu.beforeCompose (exampleRom 0 1 1 (filled 0) (filled 0))).registers.showSprites
        ≠ 0) ∧
    (zeroHitPpu.clock (exampleRom 0 1 1 (filled 0) (filled 0))).1.registers.spriteZeroHit = 0 :=
  ⟨⟨by decide, by decide, by decide, by decide, by decide, by decide, by decide, by decide,
      by decide, by decide, by decide⟩,
    (sprite_zero_hit zeroHitPpu (exampleRom 0 1 1 (filled 0) (filled 0)) (by decide) (by decide)
      (by decide) (by decide) (by decide) (by decide) (by decide) (by decide)).trans
      (by decide)⟩

end XNes
